import Mathlib

/-! ## dm-mirror_sync (linux-kernel-3.13/dms.c, dms.h): shallow embedding

Pointers into the leg array `ms->mirror[]` are array indices (`Nat`); a
`struct mirror *` that may be `NULL` is an `Option Nat`.  `atomic_t` and `int`
values are `Int` (wrapped to 32 bits where the code does arithmetic on them),
`unsigned long` bit words and `sector_t` are `Nat`.  Log output (`DMWARN`,
`DMERR`, `DMINFO`, the printing `assert`) has no effect on the state and is
left out; `assert_bug`, which writes through a null pointer, and a division by
zero end the run with `Fault.bug`.
-/

namespace DMS

/-! ## dms.h -/

/-- An abnormal end of a run of the driver code. -/
inductive Fault where
  /-- The kernel oopses: `assert_bug`, `BUG_ON`, null dereference, divide error. -/
  | bug
  /-- The loop bound given to the model of a `do ... while` loop was used up. -/
  | fuel
  deriving DecidableEq, Repr

/-- Result of running driver code that may oops. -/
abbrev Run (α : Type) : Type := Except Fault α

def MAX_MIRRORS : Nat := 8

def MAX_ERR_MESSAGES : Int := 20

/-- `typedef enum _dms_read_policy`. -/
inductive dms_read_policy where
  | DMS_ROUND_ROBIN
  | DMS_CUSTOM_WEIGHTED
  | DMS_LOGICAL_PARTITION
  deriving DecidableEq, Repr

/-- `enum dm_raid1_error`: the value of each enumerator is its bit number in
`mirror.error_type`. -/
inductive dm_raid1_error where
  | DM_RAID1_WRITE_ERROR
  | DM_RAID1_SYNC_ERROR
  | DM_RAID1_READ_ERROR
  deriving DecidableEq, Repr

def dm_raid1_error.toNat : dm_raid1_error → Nat
  | .DM_RAID1_WRITE_ERROR => 0
  | .DM_RAID1_SYNC_ERROR => 1
  | .DM_RAID1_READ_ERROR => 2

/-- `struct mirror` (the back pointer `ms` is implicit: a leg is addressed by
its index in the owning set; `dev` is the device name `dev->name`). -/
structure mirror where
  error_count : Int
  error_type : Nat
  dev : String
  offset : Nat
  deriving DecidableEq, Repr

/-- `struct dm_bio_details`: what `dm_bio_record` saves of a bio. -/
structure dm_bio_details where
  bi_sector : Nat
  bi_bdev : Option String
  bi_size : Nat
  deriving DecidableEq, Repr

/-- `struct dms_bio_map_info` (`bmi_ms` is implicit). -/
structure dms_bio_map_info where
  bmi_m : Option Nat
  bi_private : Nat
  nr_live : Nat
  bmi_wm : List (Option Nat)
  bmi_bd : dm_bio_details
  deriving DecidableEq, Repr

/-- `struct bio`, the fields the driver reads or writes.  `bi_rw` is kept as
the flag bits the driver tests; `bi_next_bmi` says whether `bi_next` points to
the per-bio `dms_bio_map_info` (`bio_set_m`) and `bi_private_bmi` whether
`bi_private` does (`bio_push_m_priv`). -/
structure bio where
  REQ_WRITE : Bool
  REQ_RAHEAD : Bool
  REQ_DISCARD : Bool
  REQ_FLUSH_FUA : Bool
  bi_sector : Nat
  bi_size : Nat
  bi_bdev : Option String
  bi_private : Nat
  bi_next_bmi : Bool
  bi_private_bmi : Bool
  per_bio_data : dms_bio_map_info
  deriving DecidableEq, Repr

/-- `struct mirror_sync_set`.  `nr_mirrors` is the length of the flexible array
`mirror[]`; `events` counts the calls `schedule_work(&ms->trigger_event)`;
`ti_begin` is `ms->ti->begin`. -/
structure mirror_sync_set where
  ti_begin : Nat
  read_failures : List bio
  suspend : Int
  default_mirror : Option Nat
  rdpolicy : dms_read_policy
  lp_io_chunk : Int
  rr_ios_set : Int
  rr_ios : Int
  read_mirror : Nat
  mirror_weights : List Int
  mirror_weight_max_live : Int
  supress_err_messages : Int
  read_ios_total : Int
  read_ios_pending : Int
  write_ios_total : Int
  write_ios_pending : Int
  events : Nat
  wakes : Nat
  name : String
  mirror : List mirror
  deriving DecidableEq, Repr

def mirror_sync_set.nr_mirrors (ms : mirror_sync_set) : Nat := ms.mirror.length

/-! ## machine arithmetic -/

/-- Value of a mathematical integer stored in a 32-bit `int`. -/
def wrap_int (x : Int) : Int := (x + 2147483648) % 4294967296 - 2147483648

/-- Value of a mathematical integer stored in a 64-bit unsigned word. -/
def wrap_u64 (x : Int) : Nat := (x % 18446744073709551616).toNat

/-- `test_bit(nr, &word)`. -/
def test_bit (nr : Nat) (word : Nat) : Bool := word.testBit nr

/-- `set_bit(nr, &word)`. -/
def set_bit (nr : Nat) (word : Nat) : Nat := word ||| (1 <<< nr)

/-- `assert_bug(x)`: a failed check writes to address 0. -/
def assert_bug (x : Bool) : Run Unit := if x then pure () else throw Fault.bug

/-! ## dms.c -/

/-- `mirror_is_alive(m)`. -/
def mirror_is_alive (m : mirror) : Bool :=
  if test_bit dm_raid1_error.DM_RAID1_WRITE_ERROR.toNat m.error_type ||
     test_bit dm_raid1_error.DM_RAID1_SYNC_ERROR.toNat m.error_type ||
     test_bit dm_raid1_error.DM_RAID1_READ_ERROR.toNat m.error_type ||
     m.error_count != 0 then
    false
  else
    true

/-- `mirror_is_alive(ms->mirror + i)`. -/
def alive_at (ms : mirror_sync_set) (i : Nat) : Bool :=
  match ms.mirror[i]? with
  | some m => mirror_is_alive m
  | none => false

/-- Loop of `get_mirror_weight_max_live`: `(maxi, max)` after the iterations
for the legs of `idx`, taken in order. -/
def weight_max_loop (ms : mirror_sync_set) : List Nat → Int × Int → Int × Int
  | [], acc => acc
  | i :: rest, (maxi, max) =>
    if ms.mirror_weights.getD i 0 > max && alive_at ms i then
      weight_max_loop ms rest ((i : Int), ms.mirror_weights.getD i 0)
    else
      weight_max_loop ms rest (maxi, max)

/-- `get_mirror_weight_max_live(ms)`: the returned leg and the set afterwards. -/
def get_mirror_weight_max_live (ms : mirror_sync_set) : Run (Option Nat × mirror_sync_set) := do
  assert_bug (decide (ms.nr_mirrors ≤ MAX_MIRRORS))
  let (maxi, _) := weight_max_loop ms (List.range ms.nr_mirrors) (-1, -1)
  if maxi < 0 then
    return (none, ms)
  else
    assert_bug (decide (maxi ≥ 0 ∧ maxi < MAX_MIRRORS ∧ maxi < ms.nr_mirrors))
    return (some maxi.toNat, { ms with mirror_weight_max_live := maxi })

/-- Pointer step `if (p-- == ms->mirror) p += ms->nr_mirrors;`. -/
def prev_mirror (ms : mirror_sync_set) (p : Nat) : Nat :=
  if p = 0 then p + ms.nr_mirrors - 1 else p - 1

/-- Loop `do { ... } while (ret != start_mirror)` of the DMS_LOGICAL_PARTITION
branch of `choose_read_mirror`, on `(curr_mirror, ret)`; the result is `ret`
when the loop is left. -/
def lp_loop (ms : mirror_sync_set) (start_mirror : Nat) : Nat → Nat × Nat → Run Nat
  | 0, _ => throw Fault.fuel
  | fuel + 1, (curr_mirror, ret) =>
    if alive_at ms ret then
      pure ret
    else
      let curr_mirror := prev_mirror ms curr_mirror
      let ret := curr_mirror
      if ret != start_mirror then lp_loop ms start_mirror fuel (curr_mirror, ret) else pure ret

/-- Loop `do { ... } while (ret != start_mirror)` of the DMS_ROUND_ROBIN branch
of `choose_read_mirror` together with the check that follows it; `ret` is the
leg under test. -/
def rr_loop (start_mirror : Nat) : Nat → mirror_sync_set → Nat → Run (Option Nat × mirror_sync_set)
  | 0, _, _ => throw Fault.fuel
  | fuel + 1, ms, ret =>
    -- mirror_is_alive(ret) && !atomic_dec_and_test(&ms->rr_ios)
    let ms1 := if alive_at ms ret then { ms with rr_ios := wrap_int (ms.rr_ios - 1) } else ms
    if alive_at ms ret && ms1.rr_ios != 0 then
      pure (some ret, ms1)
    else
      let ms2 := { ms1 with rr_ios := ms1.rr_ios_set }
      let ms3 := { ms2 with read_mirror := prev_mirror ms2 ms2.read_mirror }
      let ret := ms3.read_mirror
      if ret != start_mirror then
        rr_loop start_mirror fuel ms3 ret
      else if !alive_at ms3 ret then
        pure (none, ms3)
      else
        pure (some ret, ms3)

/-- `choose_read_mirror(ms, sector)`: the returned leg (`none` is `NULL`) and
the set afterwards. -/
def choose_read_mirror (ms : mirror_sync_set) (sector : Nat) :
    Run (Option Nat × mirror_sync_set) :=
  match ms.rdpolicy with
  | .DMS_LOGICAL_PARTITION =>
    let lic : Int := wrap_int (ms.lp_io_chunk * 2)
    -- sector / (long long) lic, computed on 64-bit unsigned operands
    let d : Nat := wrap_u64 lic
    if d = 0 ∨ ms.nr_mirrors = 0 then
      throw Fault.bug
    else
      let mm : Nat := (sector / d) % ms.nr_mirrors
      let ret := mm
      if !alive_at ms ret then do
        let ret ← lp_loop ms mm ms.nr_mirrors (mm, ret)
        if !alive_at ms ret then
          return (none, ms)
        else
          return (some ret, ms)
      else
        return (some ret, ms)
  | .DMS_ROUND_ROBIN =>
    rr_loop ms.read_mirror ms.nr_mirrors ms ms.read_mirror
  | .DMS_CUSTOM_WEIGHTED => do
    let maxi := ms.mirror_weight_max_live
    assert_bug (decide (ms.nr_mirrors < MAX_MIRRORS))
    assert_bug (decide (maxi ≥ 0 ∧ maxi < ms.nr_mirrors))
    let ret := maxi.toNat
    if !alive_at ms ret then
      let (curr_mirror, ms1) ← get_mirror_weight_max_live ms
      -- `if ( ! curr_mirror ) ret = NULL; break;`: the `break` is not under
      -- the `if`, it leaves the switch whenever this point is reached
      if curr_mirror.isNone then
        return (none, ms1)
      else
        return (some ret, ms1)
    else
      return (some ret, ms)

/-- `get_valid_mirror(ms)`. -/
def get_valid_mirror (ms : mirror_sync_set) : Option Nat :=
  (List.range ms.nr_mirrors).find? (alive_at ms)

def DMS_MAX_ERRORS : Int := 2

/-- `fail_mirror(m, error_type)` for the leg `ms->mirror + m`. -/
def fail_mirror (ms : mirror_sync_set) (m : Nat) (error_type : dm_raid1_error) :
    mirror_sync_set :=
  match ms.mirror[m]? with
  | none => ms
  | some mr =>
    -- test_and_set_bit(error_type, &m->error_type)
    if test_bit error_type.toNat mr.error_type then
      ms
    else
      let et := set_bit error_type.toNat mr.error_type
      let et := set_bit dm_raid1_error.DM_RAID1_WRITE_ERROR.toNat et
      let et := set_bit dm_raid1_error.DM_RAID1_SYNC_ERROR.toNat et
      let et := set_bit dm_raid1_error.DM_RAID1_READ_ERROR.toNat et
      let ec := if mr.error_count < DMS_MAX_ERRORS then mr.error_count + 1 else mr.error_count
      let ms1 := { ms with mirror := ms.mirror.set m { mr with error_type := et, error_count := ec } }
      let ms2 :=
        if some m = ms1.default_mirror then
          match get_valid_mirror ms1 with
          | some new => { ms1 with default_mirror := some new }
          | none => ms1
        else ms1
      -- schedule_work(&ms->trigger_event)
      { ms2 with events := ms2.events + 1 }

/-- `mirror_sync_available(ms)`. -/
def mirror_sync_available (ms : mirror_sync_set) : Int :=
  if (get_valid_mirror ms).isSome then 1 else 0

/-- `struct dm_io_region`. -/
structure dm_io_region where
  bdev : String
  sector : Nat
  count : Nat
  deriving DecidableEq, Repr

/-- The completion routine named in `io_req.notify.fn`. -/
inductive notify_fn where
  | write_callback
  | read_callback
  deriving DecidableEq, Repr

/-- One call `dm_io(&io_req, num_regions, where, NULL)`: the request flags, the
completion routine, its context bio and the `num_regions` regions. -/
structure dm_io_request where
  REQ_WRITE : Bool
  REQ_FLUSH_FUA : Bool
  REQ_DISCARD : Bool
  notify : notify_fn
  context : bio
  regions : List dm_io_region
  deriving DecidableEq, Repr

def EIO : Int := 5
def EWOULDBLOCK : Int := 11
def EFAULT : Int := 14
def EINVAL : Int := 22
def EOPNOTSUPP : Int := 95

/-- `atomic_inc` on an `atomic_t`. -/
def atomic_inc (x : Int) : Int := wrap_int (x + 1)

/-- `atomic_dec` on an `atomic_t`. -/
def atomic_dec (x : Int) : Int := wrap_int (x - 1)

/-- `bio_get_m(bio)`. -/
def bio_get_m (b : bio) : Option dms_bio_map_info :=
  if b.bi_next_bmi then some b.per_bio_data else none

/-- `bio_set_m(bio, bmi)` with `bmi` the per-bio data (`true`) or `NULL`. -/
def bio_set_m (b : bio) (bmi : Bool) : bio := { b with bi_next_bmi := bmi }

/-- `bio_push_m_priv(bio, bmi)`. -/
def bio_push_m_priv (b : bio) : bio :=
  { b with per_bio_data := { b.per_bio_data with bi_private := b.bi_private },
           bi_private_bmi := true }

/-- `bio_pop_m_priv(bio)`: `assert_bug(bmi)` fails when `bi_private` is not the
pushed scratch record. -/
def bio_pop_m_priv (b : bio) : Run bio := do
  assert_bug b.bi_private_bmi
  return { b with bi_private := b.per_bio_data.bi_private, bi_private_bmi := false }

/-- `map_sector(m, bio)`; `dm_target_offset(ti, s)` is `s - ti->begin` on
`sector_t`. -/
def map_sector (ms : mirror_sync_set) (m : mirror) (b : bio) : Nat :=
  if b.bi_size = 0 then 0
  else wrap_u64 ((m.offset : Int) + (wrap_u64 ((b.bi_sector : Int) - (ms.ti_begin : Int)) : Int))

/-- `map_bio(m, bio)`. -/
def map_bio (ms : mirror_sync_set) (m : mirror) (b : bio) : bio :=
  { b with bi_bdev := some m.dev, bi_sector := map_sector ms m b }

/-- `map_region(io, m, bio)`; `bio_sectors(bio)` is `bi_size >> 9`. -/
def map_region (ms : mirror_sync_set) (m : mirror) (b : bio) : dm_io_region :=
  { bdev := m.dev, sector := map_sector ms m b, count := b.bi_size >>> 9 }

/-- `queue_bio(ms, bio, rw)`; `bio_list_add` clears `bio->bi_next`. -/
def queue_bio (ms : mirror_sync_set) (b : bio) : mirror_sync_set :=
  let should_wake := ms.read_failures.isEmpty
  let ms1 := { ms with read_failures := ms.read_failures ++ [{ b with bi_next_bmi := false }] }
  if should_wake then { ms1 with wakes := ms1.wakes + 1 } else ms1

/-- The `for (i = 0; i < nr_live; i++)` loop of `write_callback` over the
positions in `idx`: the set and `nr_failed` afterwards. -/
def write_callback_loop (error : Nat) (bmi : dms_bio_map_info) :
    List Nat → mirror_sync_set × Nat → Run (mirror_sync_set × Nat)
  | [], acc => pure acc
  | i :: rest, (ms, nr_failed) =>
    if test_bit i error then
      match bmi.bmi_wm.getD i none with
      | none => throw Fault.bug
      | some m =>
        write_callback_loop error bmi rest
          (fail_mirror ms m dm_raid1_error.DM_RAID1_WRITE_ERROR, nr_failed + 1)
    else
      write_callback_loop error bmi rest (ms, nr_failed)

/-- `write_callback(error, context)`: the set and the bio afterwards and the
value given to `bio_endio`. -/
def write_callback (ms : mirror_sync_set) (error : Nat) (b : bio) :
    Run (mirror_sync_set × bio × Int) :=
  match bio_get_m b with
  | none => throw Fault.bug
  | some bmi =>
    if error != 0 then
      if b.REQ_DISCARD then
        pure (ms, bio_set_m b false, -EOPNOTSUPP)
      else do
        let nr_live := bmi.nr_live
        let (ms1, nr_failed) ← write_callback_loop error bmi (List.range nr_live) (ms, 0)
        let ret : Int := if nr_live - nr_failed != 0 then 0 else - EIO
        let ms2 :=
          if ret != 0 ∧ ms1.supress_err_messages < MAX_ERR_MESSAGES then
            { ms1 with supress_err_messages := atomic_inc ms1.supress_err_messages }
          else ms1
        pure (ms2, bio_set_m b false, ret)
    else
      pure (ms, bio_set_m b false, 0)

/-- The `for (i = 0, m = ms->mirror; i < ms->nr_mirrors; i++, m++)` loop of
`write_async_bios` over the legs in `idx`: the regions written through `dest`,
the array `bmi->bmi_wm` and `nr_live` afterwards. -/
def write_async_loop (ms : mirror_sync_set) (b : bio) :
    List Nat → List dm_io_region × List (Option Nat) × Nat →
    List dm_io_region × List (Option Nat) × Nat
  | [], acc => acc
  | i :: rest, (io, bmi_wm, nr_live) =>
    match ms.mirror[i]? with
    | some m =>
      if mirror_is_alive m then
        write_async_loop ms b rest (io ++ [map_region ms m b], bmi_wm.set nr_live (some i), nr_live + 1)
      else
        write_async_loop ms b rest (io, bmi_wm, nr_live)
    | none => write_async_loop ms b rest (io, bmi_wm, nr_live)

/-- `write_async_bios(bmi, bio)` with `bmi` the per-bio data of `bio`: the
return value, the bio afterwards and the request handed to `dm_io`, if any.
`dm_io` with a completion routine queues the request and returns 0, so the
`BUG_ON` around it does not fire. -/
def write_async_bios (ms : mirror_sync_set) (b : bio) : Int × bio × Option dm_io_request :=
  let (io, bmi_wm, nr_live) :=
    write_async_loop ms b (List.range ms.nr_mirrors) ([], b.per_bio_data.bmi_wm, 0)
  let b1 := { b with per_bio_data := { b.per_bio_data with bmi_wm := bmi_wm } }
  if nr_live = 0 then
    (0, b1, none)
  else
    let b2 := { b1 with per_bio_data := { b1.per_bio_data with nr_live := nr_live } }
    let b3 := bio_set_m b2 true
    (1, b3, some { REQ_WRITE := true, REQ_FLUSH_FUA := b.REQ_FLUSH_FUA,
                   REQ_DISCARD := b.REQ_DISCARD, notify := notify_fn.write_callback,
                   context := b3, regions := io.take nr_live })

/-- `dm_bio_restore(bd, bio)`. -/
def dm_bio_restore (bd : dm_bio_details) (b : bio) : bio :=
  { b with bi_sector := bd.bi_sector, bi_bdev := bd.bi_bdev, bi_size := bd.bi_size }

/-- `dm_bio_record(bd, bio)`. -/
def dm_bio_record (b : bio) : dm_bio_details :=
  { bi_sector := b.bi_sector, bi_bdev := b.bi_bdev, bi_size := b.bi_size }

/-- The value of `-errno` held in an `unsigned long`. -/
def neg_errno_ulong (e : Int) : Nat := wrap_u64 (-e)

/-- `read_callback(error, context)`: the set and the bio afterwards and the
value given to `bio_endio`, `none` when the bio was queued for retry. -/
def read_callback (ms : mirror_sync_set) (error : Nat) (b : bio) :
    Run (mirror_sync_set × bio × Option Int) :=
  match bio_get_m b with
  | none => throw Fault.bug
  | some bmi =>
    if error != 0 then
      if error = neg_errno_ulong EOPNOTSUPP ∨
          (error = neg_errno_ulong EWOULDBLOCK ∧ b.REQ_RAHEAD = true) then
        pure (ms, bio_set_m b false, some (wrap_int (error : Int)))
      else
        match bmi.bmi_m with
        | none => throw Fault.bug
        | some m =>
          let ms1 := fail_mirror ms m dm_raid1_error.DM_RAID1_READ_ERROR
          if mirror_sync_available ms1 != 0 then
            let b1 := dm_bio_restore bmi.bmi_bd b
            let b2 := bio_push_m_priv b1
            pure (queue_bio ms1 b2, { b2 with bi_next_bmi := false }, none)
          else
            let ms2 :=
              if ms1.supress_err_messages < MAX_ERR_MESSAGES then
                { ms1 with supress_err_messages := atomic_inc ms1.supress_err_messages }
              else ms1
            pure (ms2, bio_set_m b false, some (- EIO))
    else
      pure (ms, bio_set_m b false, some 0)

/-- `read_async_bio(bmi, bio)`: the bio afterwards and the request handed to
`dm_io`; a null `bmi->bmi_m` is dereferenced. -/
def read_async_bio (ms : mirror_sync_set) (b : bio) : Run (bio × dm_io_request) :=
  match b.per_bio_data.bmi_m with
  | none => throw Fault.bug
  | some mi =>
    match ms.mirror[mi]? with
    | none => throw Fault.bug
    | some m =>
      let io := map_region ms m b
      let b1 := bio_set_m b true
      pure (b1, { REQ_WRITE := false, REQ_FLUSH_FUA := false, REQ_DISCARD := false,
                  notify := notify_fn.read_callback, context := b1, regions := [io] })

/-- `mirror_sync_map(ti, bio)`: the return value, the set and the bio
afterwards and the request handed to `dm_io`, if any.  `bio_rw(bio)` is
`READA` when only the read-ahead bit of the two direction bits is set and
`WRITE` when only the write bit is. -/
def mirror_sync_map (ms : mirror_sync_set) (b : bio) :
    Run (Int × mirror_sync_set × bio × Option dm_io_request) :=
  if b.REQ_RAHEAD = true ∧ b.REQ_WRITE = false then
    pure (-EWOULDBLOCK, ms, b, none)
  else
    let bmi := { b.per_bio_data with bmi_bd := dm_bio_record b, bmi_m := ms.default_mirror }
    let b := { b with per_bio_data := bmi }
    let write_all_dead (ms : mirror_sync_set) (b : bio) :
        Run (Int × mirror_sync_set × bio × Option dm_io_request) :=
      if ms.supress_err_messages < MAX_ERR_MESSAGES then
        pure (- EIO, { ms with supress_err_messages := atomic_inc ms.supress_err_messages }, b, none)
      else
        pure (- EIO, ms, b, none)
    if b.REQ_WRITE = true ∧ b.REQ_RAHEAD = false then
      let ms := { ms with write_ios_total := atomic_inc ms.write_ios_total }
      let (r, b, req) := write_async_bios ms b
      if r = 0 then
        write_all_dead ms b
      else
        let ms := { ms with write_ios_pending := atomic_inc ms.write_ios_pending }
        pure (0, ms, b, req)
    else do
      let ms := { ms with read_ios_total := atomic_inc ms.read_ios_total }
      let ms := { ms with read_ios_pending := atomic_inc ms.read_ios_pending }
      let (m, ms) ← choose_read_mirror ms b.bi_sector
      match m with
      | some mi =>
        match ms.mirror[mi]? with
        | none => throw Fault.bug
        | some mr =>
          let b := { b with per_bio_data := { b.per_bio_data with bmi_m := some mi } }
          let b := map_bio ms mr b
          let (b, req) ← read_async_bio ms b
          return (0, ms, b, some req)
      | none =>
        let ms := { ms with read_ios_pending := atomic_dec ms.read_ios_pending }
        write_all_dead ms b

/-- `mirror_sync_end_io(ti, bio, error)`: the return value and the set
afterwards. -/
def mirror_sync_end_io (ms : mirror_sync_set) (b : bio) (error : Int) : Int × mirror_sync_set :=
  if b.REQ_WRITE = true ∧ b.REQ_RAHEAD = false then
    (error, { ms with write_ios_pending := atomic_dec ms.write_ios_pending })
  else
    (error, { ms with read_ios_pending := atomic_dec ms.read_ios_pending })

/-- `mirror_sync_presuspend(ti)` (the workqueue flush is a separate step of
the retry worker). -/
def mirror_sync_presuspend (ms : mirror_sync_set) : mirror_sync_set :=
  { ms with suspend := 1 }

/-- `mirror_sync_postsuspend(ti)`. -/
def mirror_sync_postsuspend (ms : mirror_sync_set) : mirror_sync_set := ms

/-- `mirror_sync_resume(ti)`. -/
def mirror_sync_resume (ms : mirror_sync_set) : mirror_sync_set :=
  { ms with suspend := 0 }

/-- `do_read_failures(ms, read_failures)`: the set afterwards, the requests
handed to `dm_io` and the bios ended with their error value, in order. -/
def do_read_failures : List bio → mirror_sync_set →
    Run (mirror_sync_set × List dm_io_request × List (bio × Int))
  | [], ms => pure (ms, [], [])
  | b :: rest, ms => do
    let b ← bio_pop_m_priv b
    -- assert_bug( rw == READ ) with rw = bio_rw(bio)
    assert_bug (decide (b.REQ_WRITE = false ∧ b.REQ_RAHEAD = false))
    let (m, ms) ← choose_read_mirror ms b.bi_sector
    match m with
    | some mi =>
      match ms.mirror[mi]? with
      | none => throw Fault.bug
      | some mr =>
        let b := { b with per_bio_data := { b.per_bio_data with bmi_m := some mi } }
        let b := map_bio ms mr b
        let (_, req) ← read_async_bio ms b
        let (ms, reqs, ended) ← do_read_failures rest ms
        return (ms, req :: reqs, ended)
    | none =>
      let ms :=
        if ms.supress_err_messages < MAX_ERR_MESSAGES then
          { ms with supress_err_messages := atomic_inc ms.supress_err_messages }
        else ms
      let (ms, reqs, ended) ← do_read_failures rest ms
      return (ms, reqs, (b, - EIO) :: ended)

/-- `main_mirror_syncd(work)`. -/
def main_mirror_syncd (ms : mirror_sync_set) :
    Run (mirror_sync_set × List dm_io_request × List (bio × Int)) :=
  let read_failures := ms.read_failures
  do_read_failures read_failures { ms with read_failures := [] }

/-! ### control messages -/

/-- `strncmp(a, b, n) == 0` on strings without embedded NUL. -/
def strncmp_eq (a b : String) (n : Nat) : Bool := a.data.take n == b.data.take n

/-- `strncmp(arg, name, strlen(arg)) == 0`, the test the message handler
applies to each keyword. -/
def keyword_eq (arg name : String) : Bool := strncmp_eq arg name arg.length

/-- White space as `skip_spaces` of the kernel sees it. -/
def is_space (c : Char) : Bool :=
  c.toNat = 32 || (9 ≤ c.toNat && c.toNat ≤ 13)

/-- Value of a run of decimal digits. -/
def digits_value (cs : List Char) : Nat :=
  cs.foldl (fun acc c => acc * 10 + (c.toNat - 48)) 0

/-- `sscanf(str, "%llu%c", &v, &dummy) == 1` of the kernel library: leading
white space is skipped, at least one decimal digit must follow and nothing may
follow the digits; the value wraps to 64 bits.  `none` when the call does not
return 1. -/
def sscanf_llu (str : String) : Option Nat :=
  let cs := str.data.dropWhile is_space
  if cs ≠ [] ∧ cs.all Char.isDigit = true then
    some (digits_value cs % 18446744073709551616)
  else
    none

/-- `sscanf(str, "%u%c", &v, &dummy) == 1`: as `sscanf_llu`, the value stored
in an `unsigned`. -/
def sscanf_u (str : String) : Option Nat :=
  (sscanf_llu str).map (fun v => v % 4294967296)

/-- Value of an `int` converted to `unsigned`. -/
def to_unsigned (x : Int) : Nat := (x % 4294967296).toNat

/-- The `for` loop of the `set_weight` command over the legs in `idx`, on
`(maxi, max)`. -/
def set_weight_loop (ms : mirror_sync_set) : List Nat → Int × Int → Int × Int
  | [], acc => acc
  | i :: rest, (maxi, max) =>
    let value : Nat := to_unsigned (ms.mirror_weights.getD i 0)
    -- `value > max` compares an unsigned with an int: both as unsigned
    if alive_at ms i && decide (value > to_unsigned max) then
      set_weight_loop ms rest ((i : Int), wrap_int (value : Int))
    else
      set_weight_loop ms rest (maxi, max)

/-- The `for` loop of `io_balance weighted dev_weight` over the legs in `idx`,
on the set and `maxi`. -/
def dev_weight_loop (value : Nat) : List Nat → mirror_sync_set × Int → mirror_sync_set × Int
  | [], acc => acc
  | i :: rest, (ms, maxi) =>
    let ms1 := { ms with mirror_weights := ms.mirror_weights.set i (wrap_int (value : Int)) }
    if alive_at ms1 i then
      dev_weight_loop value rest (ms1, (i : Int))
    else if maxi < 0 then
      dev_weight_loop value rest (ms1, (i : Int))
    else
      dev_weight_loop value rest (ms1, maxi)

/-- Validation of the block size argument of the two check commands. -/
def check_bsize_ok (arg : String) : Bool :=
  match sscanf_u arg with
  | none => false
  | some value => !(value < 4096 || value > 512 * 1024 || value % 4096 != 0)

/-- `mirror_sync_message`, the block of the `set_weight` command. -/
def message_set_weight (ms : mirror_sync_set) (a2 a3 : String) : Run (Int × mirror_sync_set) :=
  match sscanf_u a2 with
  | none => pure (-EINVAL, ms)
  | some devno =>
    if wrap_int (devno : Int) < 0 ∨ devno ≥ ms.nr_mirrors then
      pure (-EINVAL, ms)
    else
      match sscanf_u a3 with
      | none => pure (-EINVAL, ms)
      | some value =>
        if value < 1 ∨ value > 100 then
          pure (-EINVAL, ms)
        else do
          let ms1 := { ms with mirror_weights := ms.mirror_weights.set devno (value : Int) }
          let maxi : Int := ms1.mirror_weight_max_live
          assert_bug (decide (maxi ≥ 0 ∧ maxi < MAX_MIRRORS ∧ maxi < ms1.nr_mirrors))
          let max : Int := ms1.mirror_weights.getD maxi.toNat 0
          let (maxi, _) := set_weight_loop ms1 (List.range ms1.nr_mirrors) (maxi, max)
          assert_bug (decide (maxi ≥ 0 ∧ maxi < MAX_MIRRORS ∧ maxi < ms1.nr_mirrors))
          pure (0, { ms1 with mirror_weight_max_live := maxi })

/-- `mirror_sync_message`, the block of the `check_data_mirror_all` command;
`check` is the result of `check_all_mirror_data`, which reads the leg devices
and leaves the set untouched. -/
def message_check_data_mirror_all (ms : mirror_sync_set) (check : Bool) (a2 a3 : String) :
    Run (Int × mirror_sync_set) :=
  if !keyword_eq a2 "block" then
    pure (-EINVAL, ms)
  else if !check_bsize_ok a3 then
    pure (-EINVAL, ms)
  else if !check then
    pure (-EFAULT, ms)
  else
    pure (0, ms)

/-- `mirror_sync_message`, the block of the `check_data_mirror_block` command;
`check` is the result of `check_mirror_data_block`, which reads the leg
devices and leaves the set untouched. -/
def message_check_data_mirror_block (ms : mirror_sync_set) (ti_len : Nat) (check : Bool)
    (a2 a3 : String) : Run (Int × mirror_sync_set) :=
  match sscanf_llu a2 with
  | none => pure (-EINVAL, ms)
  | some llvalue =>
    if llvalue ≥ ti_len then
      pure (-EINVAL, ms)
    else if !check_bsize_ok a3 then
      pure (-EINVAL, ms)
    else if !check then
      pure (-EFAULT, ms)
    else
      pure (0, ms)

/-- `mirror_sync_message`, the block of `io_balance round_robin`. -/
def message_round_robin (ms : mirror_sync_set) (a2 a3 : String) : Run (Int × mirror_sync_set) :=
  if !keyword_eq a2 "ios" then
    pure (-EINVAL, ms)
  else
    match sscanf_u a3 with
    | none => pure (-EINVAL, ms)
    | some value =>
      if value < 2 ∨ value > 1024 * 1024 * 1024 then
        pure (-EINVAL, ms)
      else
        pure (0, { ms with rr_ios_set := wrap_int (value : Int),
                           rr_ios := wrap_int (value : Int),
                           rdpolicy := dms_read_policy.DMS_ROUND_ROBIN })

/-- `mirror_sync_message`, the block of `io_balance logical_part`. -/
def message_logical_part (ms : mirror_sync_set) (a2 a3 : String) : Run (Int × mirror_sync_set) :=
  if !keyword_eq a2 "io_chunk" then
    pure (-EINVAL, ms)
  else
    match sscanf_u a3 with
    | none => pure (-EINVAL, ms)
    | some value =>
      if value < 128 ∨ value % 8 ≠ 0 then
        pure (-EINVAL, ms)
      else
        pure (0, { ms with lp_io_chunk := wrap_int (value : Int),
                           rdpolicy := dms_read_policy.DMS_LOGICAL_PARTITION })

/-- `mirror_sync_message`, the block of `io_balance weighted`. -/
def message_weighted (ms : mirror_sync_set) (a2 a3 : String) : Run (Int × mirror_sync_set) := do
  assert_bug (decide (ms.nr_mirrors > 0))
  assert_bug (decide (ms.nr_mirrors ≤ MAX_MIRRORS))
  if !keyword_eq a2 "dev_weight" then
    pure (-EINVAL, ms)
  else
    match sscanf_u a3 with
    | none => pure (-EINVAL, ms)
    | some value =>
      if value < 1 ∨ value > 100 then
        pure (-EINVAL, ms)
      else do
        let (ms1, maxi) := dev_weight_loop value (List.range ms.nr_mirrors) (ms, -1)
        assert_bug (decide (maxi ≥ 0 ∧ maxi < MAX_MIRRORS ∧ maxi < ms1.nr_mirrors))
        pure (0, { ms1 with mirror_weight_max_live := maxi,
                            rdpolicy := dms_read_policy.DMS_CUSTOM_WEIGHTED })

/-- `mirror_sync_message(ti, argc, argv)` with `argc = argv.length`: the
return value and the set afterwards.  `ti_len` is `ti->len`; `check` is the
result the check commands get from reading the leg devices. -/
def mirror_sync_message (ms : mirror_sync_set) (ti_len : Nat) (check : Bool) :
    List String → Run (Int × mirror_sync_set)
  | [a0, a1, a2, a3] =>
    if !keyword_eq a0 "io_balance" && !keyword_eq a0 "io_cmd" then
      pure (-EINVAL, ms)
    else if ms.nr_mirrors ≤ 0 ∨ ms.nr_mirrors > MAX_MIRRORS then
      pure (-EINVAL, ms)
    else if keyword_eq a0 "io_cmd" then
      if keyword_eq a1 "set_weight" then
        message_set_weight ms a2 a3
      else if keyword_eq a1 "check_data_mirror_all" then
        message_check_data_mirror_all ms check a2 a3
      else if keyword_eq a1 "check_data_mirror_block" then
        message_check_data_mirror_block ms ti_len check a2 a3
      else
        pure (-EINVAL, ms)
    else if keyword_eq a0 "io_balance" then
      if keyword_eq a1 "round_robin" then
        message_round_robin ms a2 a3
      else if keyword_eq a1 "logical_part" then
        message_logical_part ms a2 a3
      else if keyword_eq a1 "weighted" then
        message_weighted ms a2 a3
      else
        pure (-EINVAL, ms)
    else
      pure (-EINVAL, ms)
  | _ => pure (-EINVAL, ms)

/-! ### construction -/

def DEFAULT_MIRROR : Nat := 0

def MIN_READS : Int := 8

/-- `alloc_mirror_sync_set(nr_mirrors, ti)` when the two allocations succeed:
the zeroed set with its initial values. -/
def alloc_mirror_sync_set (nr_mirrors : Nat) (ti_begin : Nat) : Run mirror_sync_set := do
  let ms : mirror_sync_set :=
    { ti_begin := ti_begin, read_failures := [], suspend := 0,
      default_mirror := some DEFAULT_MIRROR, rdpolicy := dms_read_policy.DMS_ROUND_ROBIN,
      lp_io_chunk := 1024, rr_ios_set := MIN_READS, rr_ios := MIN_READS,
      read_mirror := DEFAULT_MIRROR, mirror_weights := List.replicate MAX_MIRRORS 0,
      mirror_weight_max_live := 0, supress_err_messages := 0,
      read_ios_total := 0, read_ios_pending := 0, write_ios_total := 0, write_ios_pending := 0,
      events := 0, wakes := 0, name := "",
      mirror := List.replicate nr_mirrors (mirror.mk 0 0 "" 0) }
  assert_bug (decide (ms.nr_mirrors ≤ MAX_MIRRORS))
  let (_, ms) ← get_mirror_weight_max_live ms
  return ms

/-- `get_mirror(ms, ti, mirror, argv)` when the offset is read and the device
is found: `offset` is the value read from `argv[1]`, `dev` the name of the
device. -/
def get_mirror (ms : mirror_sync_set) (m : Nat) (dev : String) (offset : Nat) :
    mirror_sync_set :=
  { ms with mirror := ms.mirror.set m (mirror.mk 0 0 dev offset) }

/-- `read_policy_params_t`. -/
structure read_policy_params where
  oldparams : Int
  policy : dms_read_policy
  rparg0 : Nat
  rparg1 : Nat
  rparg2 : Nat
  deriving DecidableEq, Repr

/-- The parameter sets `process_input_args` lets through for a table of
`nr_mirrors` legs. -/
def rp_accepted (rp : read_policy_params) (nr_mirrors : Nat) : Bool :=
  if rp.oldparams = 1 then true
  else if rp.oldparams = 0 then
    match rp.policy with
    | .DMS_ROUND_ROBIN => decide (2 ≤ rp.rparg0 ∧ rp.rparg0 ≤ 1024 * 1024 * 1024)
    | .DMS_LOGICAL_PARTITION =>
      decide (128 ≤ rp.rparg0 ∧ rp.rparg0 % 8 = 0 ∧ rp.rparg0 < 4294967296)
    | .DMS_CUSTOM_WEIGHTED =>
      decide (1 ≤ rp.rparg0 ∧ rp.rparg0 ≤ 100 ∧ rp.rparg1 < nr_mirrors ∧
              1 ≤ rp.rparg2 ∧ rp.rparg2 ≤ 100)
  else false

/-- `preserve_ms_params_on_reconfig` on the new set, `oldms` being the set
found in another in-use slot with the same device name, if any. -/
def preserve_ms_params_on_reconfig (newms : mirror_sync_set) :
    Option mirror_sync_set → Run mirror_sync_set
  | none => pure newms
  | some oldms => do
    let newms := { newms with suspend := oldms.suspend, rr_ios_set := oldms.rr_ios_set }
    let (_, newms) ← get_mirror_weight_max_live newms
    return { newms with supress_err_messages := 0,
                        read_ios_total := oldms.read_ios_total,
                        read_ios_pending := oldms.read_ios_pending,
                        write_ios_total := oldms.write_ios_total,
                        write_ios_pending := oldms.write_ios_pending }

/-- First `for` loop of the DMS_CUSTOM_WEIGHTED case of `mirror_sync_ctr`. -/
def ctr_weight_loop1 (w : Nat) : List Nat → mirror_sync_set × Int × Int →
    mirror_sync_set × Int × Int
  | [], acc => acc
  | i :: rest, (ms, maxi, max) =>
    let ms1 := { ms with mirror_weights := ms.mirror_weights.set i (wrap_int (w : Int)) }
    if alive_at ms1 i then
      ctr_weight_loop1 w rest (ms1, (i : Int), ms1.mirror_weights.getD i 0)
    else
      ctr_weight_loop1 w rest (ms1, maxi, max)

/-- Second `for` loop of the DMS_CUSTOM_WEIGHTED case of `mirror_sync_ctr`. -/
def ctr_weight_loop2 (ms : mirror_sync_set) : List Nat → Int × Int → Int × Int
  | [], acc => acc
  | i :: rest, (maxi, max) =>
    if alive_at ms i && decide (max < ms.mirror_weights.getD i 0) then
      ctr_weight_loop2 ms rest ((i : Int), ms.mirror_weights.getD i 0)
    else
      ctr_weight_loop2 ms rest (maxi, max)

/-- The `if ( !rp.oldparams )` block that ends `mirror_sync_ctr`. -/
def ctr_read_policy (ms : mirror_sync_set) (rp : read_policy_params) : mirror_sync_set :=
  if rp.oldparams = 0 then
    match rp.policy with
    | .DMS_ROUND_ROBIN =>
      { ms with rr_ios_set := wrap_int (rp.rparg0 : Int), rr_ios := wrap_int (rp.rparg0 : Int),
                rdpolicy := dms_read_policy.DMS_ROUND_ROBIN }
    | .DMS_LOGICAL_PARTITION =>
      { ms with lp_io_chunk := wrap_int (rp.rparg0 : Int),
                rdpolicy := dms_read_policy.DMS_LOGICAL_PARTITION }
    | .DMS_CUSTOM_WEIGHTED =>
      let (ms1, maxi, max) := ctr_weight_loop1 rp.rparg0 (List.range ms.nr_mirrors) (ms, -1, -1)
      let ms2 :=
        if rp.rparg1 < ms1.nr_mirrors then
          { ms1 with mirror_weights := ms1.mirror_weights.set rp.rparg1 (wrap_int (rp.rparg2 : Int)) }
        else ms1
      let (maxi, _) := ctr_weight_loop2 ms2 (List.range ms2.nr_mirrors) (maxi, max)
      { ms2 with mirror_weight_max_live := maxi,
                 rdpolicy := dms_read_policy.DMS_CUSTOM_WEIGHTED }
  else ms

/-- The `get_mirror` loop of `mirror_sync_ctr` over the legs `(dev, offset)`,
the first of which goes to slot `m`. -/
def ctr_get_mirrors : List (String × Nat) → Nat → mirror_sync_set → mirror_sync_set
  | [], _, ms => ms
  | (dev, offset) :: rest, m, ms => ctr_get_mirrors rest (m + 1) (get_mirror ms m dev offset)

/-- `mirror_sync_ctr` from the point where the arguments are parsed to its
successful return: `rp` is what `process_input_args` produced, `legs` the
device name and offset of each leg, `mdname` the name of the mapped device,
`oldms` the set of the same name found in the reconfig table.  `none` when the
number of legs is refused. -/
def mirror_sync_ctr (rp : read_policy_params) (legs : List (String × Nat)) (ti_begin : Nat)
    (mdname : String) (oldms : Option mirror_sync_set) : Run (Option mirror_sync_set) :=
  if legs.length < 2 ∨ legs.length > MAX_MIRRORS then
    pure none
  else do
    let ms ← alloc_mirror_sync_set legs.length ti_begin
    let ms := ctr_get_mirrors legs 0 ms
    let ms := { ms with name := mdname }
    let ms ← preserve_ms_params_on_reconfig ms oldms
    return some (ctr_read_policy ms rp)

/-! ### the driver under the device-mapper core -/

/-- The mirror set together with the requests the driver handed to `dm_io`
that have not completed yet and the bios it has ended (`bio_endio`) with
their error value, oldest first. -/
structure dms_system where
  ms : mirror_sync_set
  in_flight : List dm_io_request
  ended : List (bio × Int)
  deriving DecidableEq, Repr

/-- The core calls `mirror_sync_end_io` for every bio the driver ends. -/
def end_io_all : List (bio × Int) → mirror_sync_set → mirror_sync_set
  | [], ms => ms
  | (b, error) :: rest, ms => end_io_all rest (mirror_sync_end_io ms b error).2

/-- One entry into the driver. -/
inductive Step : dms_system → dms_system → Prop where
  /-- The core maps a bio; the per-bio data area has the layout of
  `struct dms_bio_map_info`, whose array `bmi_wm` has `MAX_MIRRORS` slots. -/
  | map (s : dms_system) (b : bio) (r : Int) (ms1 : mirror_sync_set) (b1 : bio)
      (req : Option dm_io_request)
      (hb : b.per_bio_data.bmi_wm.length = MAX_MIRRORS)
      (h : mirror_sync_map s.ms b = Except.ok (r, ms1, b1, req)) :
      Step s { s with ms := ms1, in_flight := s.in_flight ++ req.toList }
  /-- A write request completes with the error bitmap `error`. -/
  | write_done (s : dms_system) (k : Nat) (req : dm_io_request) (error : Nat)
      (ms1 : mirror_sync_set) (b1 : bio) (ret : Int)
      (hk : s.in_flight[k]? = some req) (hn : req.notify = notify_fn.write_callback)
      (h : write_callback s.ms error req.context = Except.ok (ms1, b1, ret)) :
      Step s { ms := (mirror_sync_end_io ms1 b1 ret).2, in_flight := s.in_flight.eraseIdx k,
               ended := s.ended ++ [(b1, ret)] }
  /-- A read request completes with `error` and the bio is ended. -/
  | read_done (s : dms_system) (k : Nat) (req : dm_io_request) (error : Nat)
      (ms1 : mirror_sync_set) (b1 : bio) (ret : Int)
      (hk : s.in_flight[k]? = some req) (hn : req.notify = notify_fn.read_callback)
      (h : read_callback s.ms error req.context = Except.ok (ms1, b1, some ret)) :
      Step s { ms := (mirror_sync_end_io ms1 b1 ret).2, in_flight := s.in_flight.eraseIdx k,
               ended := s.ended ++ [(b1, ret)] }
  /-- A read request completes with `error` and the bio is queued for retry. -/
  | read_retry (s : dms_system) (k : Nat) (req : dm_io_request) (error : Nat)
      (ms1 : mirror_sync_set) (b1 : bio)
      (hk : s.in_flight[k]? = some req) (hn : req.notify = notify_fn.read_callback)
      (h : read_callback s.ms error req.context = Except.ok (ms1, b1, none)) :
      Step s { s with ms := ms1, in_flight := s.in_flight.eraseIdx k }
  /-- The retry worker runs. -/
  | worker (s : dms_system) (ms1 : mirror_sync_set) (reqs : List dm_io_request)
      (ended : List (bio × Int))
      (h : main_mirror_syncd s.ms = Except.ok (ms1, reqs, ended)) :
      Step s { ms := end_io_all ended ms1, in_flight := s.in_flight ++ reqs,
               ended := s.ended ++ ended }
  /-- A control message arrives. -/
  | message (s : dms_system) (ti_len : Nat) (check : Bool) (argv : List String) (r : Int)
      (ms1 : mirror_sync_set)
      (h : mirror_sync_message s.ms ti_len check argv = Except.ok (r, ms1)) :
      Step s { s with ms := ms1 }
  /-- The core asks for the status: `mirror_sync_status` only reads the set. -/
  | status (s : dms_system) : Step s s
  | presuspend (s : dms_system) : Step s { s with ms := mirror_sync_presuspend s.ms }
  | postsuspend (s : dms_system) : Step s { s with ms := mirror_sync_postsuspend s.ms }
  | resume (s : dms_system) : Step s { s with ms := mirror_sync_resume s.ms }

/-- The states the driver can be in: a set as `mirror_sync_ctr` returns it,
followed by any number of entries into the driver. -/
inductive Reachable : dms_system → Prop where
  | ctr (rp : read_policy_params) (legs : List (String × Nat)) (ti_begin : Nat)
      (mdname : String) (oldms : Option mirror_sync_set) (ms : mirror_sync_set)
      (hrp : rp_accepted rp legs.length = true)
      (h : mirror_sync_ctr rp legs ti_begin mdname oldms = Except.ok (some ms)) :
      Reachable { ms := ms, in_flight := [], ended := [] }
  | step (s t : dms_system) (hs : Reachable s) (h : Step s t) : Reachable t

end DMS

namespace DMS

/-! ## definitions used in the statements -/

/-- The leg record `fail_mirror` stores for a leg whose bit was clear. -/
def failed_mirror (mr : mirror) (k : dm_raid1_error) : mirror :=
  { mr with
    error_type :=
      set_bit dm_raid1_error.DM_RAID1_READ_ERROR.toNat
        (set_bit dm_raid1_error.DM_RAID1_SYNC_ERROR.toNat
          (set_bit dm_raid1_error.DM_RAID1_WRITE_ERROR.toNat (set_bit k.toNat mr.error_type))),
    error_count := if mr.error_count < DMS_MAX_ERRORS then mr.error_count + 1
                   else mr.error_count }

/-- The legs at the positions of `idx` whose bit is set in `error`. -/
def failed_legs (error : Nat) (bmi : dms_bio_map_info) (idx : List Nat) : List Nat :=
  (idx.filter (fun i => test_bit i error)).filterMap (fun i => bmi.bmi_wm.getD i none)

/-- The legs and the default leg of `ms1` are those of `ms`. -/
def same_legs (ms ms1 : mirror_sync_set) : Prop :=
  ms1.mirror = ms.mirror ∧ ms1.default_mirror = ms.default_mirror

/-- The legs and the default leg of the second set are those of the first
after some calls of `fail_mirror`. -/
inductive FailSeq : mirror_sync_set → mirror_sync_set → Prop where
  | same (ms ms1 : mirror_sync_set) (h : same_legs ms ms1) : FailSeq ms ms1
  | fail (ms ms1 ms2 : mirror_sync_set) (m : Nat) (k : dm_raid1_error) (h : FailSeq ms ms1)
      (h2 : same_legs (fail_mirror ms1 m k) ms2) : FailSeq ms ms2

/-- Every leg of the set is alive. -/
def all_alive (ms : mirror_sync_set) : Prop := ∀ mr, mr ∈ ms.mirror → mirror_is_alive mr = true

/-- The default leg pointer is not null and points into the leg array, to an
alive leg unless every leg is dead. -/
def default_ok (ms : mirror_sync_set) : Prop :=
  ∃ d, ms.default_mirror = some d ∧ d < ms.nr_mirrors ∧
    (alive_at ms d = true ∨ ∀ i, alive_at ms i = false)

/-- No leg of `ms` comes back to life in `ms1`, loses an error bit or has its
error counter lowered. -/
def legs_mono (ms ms1 : mirror_sync_set) : Prop :=
  ∀ i, (alive_at ms i = false → alive_at ms1 i = false) ∧
    ∀ mr, ms.mirror[i]? = some mr → ∃ mr1, ms1.mirror[i]? = some mr1 ∧
      (∀ bit, test_bit bit mr.error_type = true → test_bit bit mr1.error_type = true) ∧
      mr.error_count ≤ mr1.error_count


/-- A write request as `write_async_bios` issues it: the context bio points to
its scratch record, which names a leg in each of its first `nr_live >= 1`
slots. -/
def write_req_ok (req : dm_io_request) : Prop :=
  req.notify = notify_fn.write_callback →
    req.context.bi_next_bmi = true ∧ 1 ≤ req.context.per_bio_data.nr_live ∧
    ∀ i, i < req.context.per_bio_data.nr_live →
      ∃ m, req.context.per_bio_data.bmi_wm.getD i none = some m
end DMS

namespace DMS

/-! ### concrete sets and requests used by the examples -/

/-- A zeroed scratch record. -/
def bmi_zero : dms_bio_map_info :=
  { bmi_m := none, bi_private := 0, nr_live := 0, bmi_wm := List.replicate MAX_MIRRORS none,
    bmi_bd := { bi_sector := 0, bi_bdev := none, bi_size := 0 } }

/-- A write of `size` bytes at `sector` as the core hands it to `map`. -/
def write_bio (sector size : Nat) : bio :=
  { REQ_WRITE := true, REQ_RAHEAD := false, REQ_DISCARD := false, REQ_FLUSH_FUA := false,
    bi_sector := sector, bi_size := size, bi_bdev := none, bi_private := 0,
    bi_next_bmi := false, bi_private_bmi := false, per_bio_data := bmi_zero }

/-- The write `write_bio 100 4096` once `write_async_bios` has issued it to
legs 0 and 1. -/
def issued_bio : bio :=
  { write_bio 100 4096 with
    bi_next_bmi := true,
    per_bio_data :=
      { bmi_m := some 0, bi_private := 0, nr_live := 2,
        bmi_wm := [some 0, some 1, none, none, none, none, none, none],
        bmi_bd := { bi_sector := 100, bi_bdev := none, bi_size := 4096 } } }

/-- The request `write_async_bios` hands to `dm_io` for `issued_bio`. -/
def issued_req : dm_io_request :=
  { REQ_WRITE := true, REQ_FLUSH_FUA := false, REQ_DISCARD := false,
    notify := notify_fn.write_callback, context := issued_bio,
    regions := [{ bdev := "a", sector := 100, count := 8 },
                { bdev := "b", sector := 100, count := 8 }] }

/-- Parameters of a table line with the legacy `core` arguments. -/
def rp_core : read_policy_params :=
  { oldparams := 1, policy := dms_read_policy.DMS_ROUND_ROBIN,
    rparg0 := 0, rparg1 := 0, rparg2 := 0 }

/-- The set constructed from `core 2 64 nosync 2 a 0 b 0`. -/
def two_legs : mirror_sync_set :=
  { ti_begin := 0, read_failures := [], suspend := 0, default_mirror := some 0,
    rdpolicy := dms_read_policy.DMS_ROUND_ROBIN, lp_io_chunk := 1024, rr_ios_set := 8,
    rr_ios := 8, read_mirror := 0, mirror_weights := [0, 0, 0, 0, 0, 0, 0, 0],
    mirror_weight_max_live := 0, supress_err_messages := 0, read_ios_total := 0,
    read_ios_pending := 0, write_ios_total := 0, write_ios_pending := 0, events := 0,
    wakes := 0, name := "253:0",
    mirror := [mirror.mk 0 0 "a" 0, mirror.mk 0 0 "b" 0] }

/-- `two_legs` with one write in flight. -/
def two_legs_written : mirror_sync_set :=
  { two_legs with write_ios_total := 1, write_ios_pending := 1 }

/-- `two_legs_written` after the write completed with error bitmap `0b11`. -/
def two_legs_dead : mirror_sync_set :=
  { two_legs with
    default_mirror := some 1, supress_err_messages := 1, write_ios_total := 1,
    write_ios_pending := 0, events := 2,
    mirror := [mirror.mk 1 7 "a" 0, mirror.mk 1 7 "b" 0] }

/-- Parameters of a table line `weighted 3 50 0 60`. -/
def rp_weighted : read_policy_params :=
  { oldparams := 0, policy := dms_read_policy.DMS_CUSTOM_WEIGHTED,
    rparg0 := 50, rparg1 := 0, rparg2 := 60 }

/-- The set constructed from `weighted 3 50 0 60 2 a 0 b 0`. -/
def weighted_legs : mirror_sync_set :=
  { two_legs with
    rdpolicy := dms_read_policy.DMS_CUSTOM_WEIGHTED,
    mirror_weights := [60, 50, 0, 0, 0, 0, 0, 0], mirror_weight_max_live := 0 }

/-- `weighted_legs` with one write in flight. -/
def weighted_written : mirror_sync_set :=
  { weighted_legs with write_ios_total := 1, write_ios_pending := 1 }

/-- `weighted_written` after the write completed with error bitmap `0b01`:
leg 0 is dead, leg 1 alive, the cached index still names leg 0. -/
def weighted_leg0_dead : mirror_sync_set :=
  { weighted_legs with
    default_mirror := some 1, write_ios_total := 1, write_ios_pending := 0, events := 1,
    mirror := [mirror.mk 1 7 "a" 0, mirror.mk 0 0 "b" 0] }

/-- Parameters of a table line `logical_part 1 1073741824`. -/
def rp_chunk_big : read_policy_params :=
  { oldparams := 0, policy := dms_read_policy.DMS_LOGICAL_PARTITION,
    rparg0 := 1073741824, rparg1 := 0, rparg2 := 0 }

/-- The set constructed from `logical_part 1 1073741824 4 a 0 b 0 c 0 d 0`. -/
def chunk_big_legs : mirror_sync_set :=
  { two_legs with
    rdpolicy := dms_read_policy.DMS_LOGICAL_PARTITION, lp_io_chunk := 1073741824,
    mirror := [mirror.mk 0 0 "a" 0, mirror.mk 0 0 "b" 0, mirror.mk 0 0 "c" 0,
               mirror.mk 0 0 "d" 0] }

end DMS
namespace DMS

/-- `two_legs` after `fail_mirror` on leg 0. -/
def two_legs_leg0_dead : mirror_sync_set :=
  { two_legs with
    default_mirror := some 1, events := 1,
    mirror := [mirror.mk 1 7 "a" 0, mirror.mk 0 0 "b" 0] }

/-- The set constructed from `core 2 64 nosync 3 a 0 b 8 c 16`. -/
def three_legs : mirror_sync_set :=
  { two_legs with
    mirror := [mirror.mk 0 0 "a" 0, mirror.mk 0 0 "b" 8, mirror.mk 0 0 "c" 16] }

/-- `three_legs` with one write in flight. -/
def three_legs_written : mirror_sync_set :=
  { three_legs with write_ios_total := 1, write_ios_pending := 1 }

/-- The write `write_bio 100 4096` once `write_async_bios` has issued it on
`three_legs`: to legs 0, 1 and 2. -/
def issued_bio_012 : bio :=
  { write_bio 100 4096 with
    bi_next_bmi := true,
    per_bio_data :=
      { bmi_m := some 0, bi_private := 0, nr_live := 3,
        bmi_wm := [some 0, some 1, some 2, none, none, none, none, none],
        bmi_bd := { bi_sector := 100, bi_bdev := none, bi_size := 4096 } } }

/-- The request `write_async_bios` hands to `dm_io` for `issued_bio_012`. -/
def issued_req_012 : dm_io_request :=
  { REQ_WRITE := true, REQ_FLUSH_FUA := false, REQ_DISCARD := false,
    notify := notify_fn.write_callback, context := issued_bio_012,
    regions := [{ bdev := "a", sector := 100, count := 8 },
                { bdev := "b", sector := 108, count := 8 },
                { bdev := "c", sector := 116, count := 8 }] }

/-- The three-leg set after a first write completed with error bitmap `0b001`
(leg 0 has failed) and a second write was mapped and is in flight. -/
def three_legs_leg0_dead : mirror_sync_set :=
  { two_legs with
    default_mirror := some 1, events := 1, write_ios_total := 2, write_ios_pending := 1,
    mirror := [mirror.mk 1 7 "a" 0, mirror.mk 0 0 "b" 8, mirror.mk 0 0 "c" 16] }

/-- The write `write_bio 100 4096` once `write_async_bios` has issued it on
`three_legs_leg0_dead`: to legs 1 and 2. -/
def issued_bio_12 : bio :=
  { write_bio 100 4096 with
    bi_next_bmi := true,
    per_bio_data :=
      { bmi_m := some 1, bi_private := 0, nr_live := 2,
        bmi_wm := [some 1, some 2, none, none, none, none, none, none],
        bmi_bd := { bi_sector := 100, bi_bdev := none, bi_size := 4096 } } }

/-- The request `write_async_bios` hands to `dm_io` for `issued_bio_12`. -/
def issued_req_12 : dm_io_request :=
  { REQ_WRITE := true, REQ_FLUSH_FUA := false, REQ_DISCARD := false,
    notify := notify_fn.write_callback, context := issued_bio_12,
    regions := [{ bdev := "b", sector := 108, count := 8 },
                { bdev := "c", sector := 116, count := 8 }] }

/-- `three_legs_leg0_dead` after the write completed with error bitmap `0b01`. -/
def three_legs_leg1_failed : mirror_sync_set :=
  { three_legs_leg0_dead with
    default_mirror := some 2, events := 2,
    mirror := [mirror.mk 1 7 "a" 0, mirror.mk 1 7 "b" 8, mirror.mk 0 0 "c" 16] }

end DMS
namespace DMS

/-- The indices of the alive legs, in ascending order. -/
def live_legs (ms : mirror_sync_set) : List Nat :=
  (List.range ms.nr_mirrors).filter (alive_at ms)

end DMS

namespace DMS

/-! ### read selection: orders, runs of calls and example sets -/

/-- The legs in the order `m-1, m-2, ...`, wrapping from index 0 to index
`n-1` and ending with `m` itself. -/
def back_order (n m : Nat) : List Nat := (List.range n).map (fun j => (m + n - 1 - j) % n)

/-- One call of `choose_read_mirror` for each sector of the list, in order:
the legs returned and the set afterwards. -/
def choose_reads : List Nat → mirror_sync_set → Run (List (Option Nat) × mirror_sync_set)
  | [], ms => pure ([], ms)
  | sector :: rest, ms => do
    let (m, ms1) ← choose_read_mirror ms sector
    let (l, ms2) ← choose_reads rest ms1
    pure (m :: l, ms2)

/-- Leg `b` is leg `a` or the leg one slot backward from `a`, wrapping from
index 0 to the last leg. -/
def same_or_back (ms : mirror_sync_set) (a b : Option Nat) : Prop :=
  ∃ x, a = some x ∧ (b = some x ∨ b = some (prev_mirror ms x))

/-- Parameters of a table line `round_robin 1 2`. -/
def rp_rr2 : read_policy_params :=
  { oldparams := 0, policy := dms_read_policy.DMS_ROUND_ROBIN,
    rparg0 := 2, rparg1 := 0, rparg2 := 0 }

/-- The set constructed from `round_robin 1 2 3 a 0 b 8 c 16`: quantum 2, a
fresh countdown, the cursor on leg 0. -/
def rr2_three_legs : mirror_sync_set :=
  { three_legs with rr_ios_set := 2, rr_ios := 2 }

/-- `rr2_three_legs` with the cursor on leg `p` and the countdown at 1. -/
def rr2_at (p : Nat) : mirror_sync_set :=
  { rr2_three_legs with read_mirror := p, rr_ios := 1 }

/-- `two_legs` after the message `io_balance round_robin ios 3`. -/
def two_legs_q3 : mirror_sync_set :=
  { two_legs with rr_ios_set := 3, rr_ios := 3 }

/-- `rr2_three_legs` after a write completed with error bitmap `0b011`: only
leg 2 is alive, the cursor is still on leg 0. -/
def rr2_leg2_alive : mirror_sync_set :=
  { rr2_three_legs with
    default_mirror := some 2, events := 2, write_ios_total := 1,
    mirror := [mirror.mk 1 7 "a" 0, mirror.mk 1 7 "b" 8, mirror.mk 0 0 "c" 16] }

end DMS
namespace DMS

/-- The write `write_bio 100 4096` once `write_async_bios` has issued it on
`chunk_big_legs`: to legs 0, 1, 2 and 3. -/
def issued_bio_0123 : bio :=
  { write_bio 100 4096 with
    bi_next_bmi := true,
    per_bio_data :=
      { bmi_m := some 0, bi_private := 0, nr_live := 4,
        bmi_wm := [some 0, some 1, some 2, some 3, none, none, none, none],
        bmi_bd := { bi_sector := 100, bi_bdev := none, bi_size := 4096 } } }

/-- The request `write_async_bios` hands to `dm_io` for `issued_bio_0123`. -/
def issued_req_0123 : dm_io_request :=
  { REQ_WRITE := true, REQ_FLUSH_FUA := false, REQ_DISCARD := false,
    notify := notify_fn.write_callback, context := issued_bio_0123,
    regions := [{ bdev := "a", sector := 100, count := 8 },
                { bdev := "b", sector := 100, count := 8 },
                { bdev := "c", sector := 100, count := 8 },
                { bdev := "d", sector := 100, count := 8 }] }

/-- `chunk_big_legs` after a write completed with error bitmap `0b0100`: leg 2
is dead, the other three legs are alive. -/
def chunk_big_leg2_dead : mirror_sync_set :=
  { chunk_big_legs with
    events := 1, write_ios_total := 1,
    mirror := [mirror.mk 0 0 "a" 0, mirror.mk 0 0 "b" 0, mirror.mk 1 7 "c" 0,
               mirror.mk 0 0 "d" 0] }

/-- The set constructed from `weighted 3 50 0 60 3 a 0 b 8 c 16`: weights 60,
50 and 50, the cached index on leg 0. -/
def weighted3_legs : mirror_sync_set :=
  { three_legs with
    rdpolicy := dms_read_policy.DMS_CUSTOM_WEIGHTED,
    mirror_weights := [60, 50, 50, 0, 0, 0, 0, 0], mirror_weight_max_live := 0 }

/-- `weighted3_legs` after a write completed with error bitmap `0b001`: leg 0
is dead, legs 1 and 2 are alive, the cached index still names leg 0. -/
def weighted3_leg0_dead : mirror_sync_set :=
  { weighted3_legs with
    default_mirror := some 1, events := 1, write_ios_total := 1,
    mirror := [mirror.mk 1 7 "a" 0, mirror.mk 0 0 "b" 8, mirror.mk 0 0 "c" 16] }

end DMS
namespace DMS

/-! ### counting the requests -/

/-- `bio_rw(bio) == WRITE`. -/
def bio_is_write (b : bio) : Bool := b.REQ_WRITE && !b.REQ_RAHEAD

/-- `bio_rw(bio) == READA`. -/
def bio_is_reada (b : bio) : Bool := b.REQ_RAHEAD && !b.REQ_WRITE

/-- What has been given to `map` so far: the reads that are not read-ahead and
the writes it was called with, and those of them it accepted (returned 0). -/
structure io_tally where
  reads_submitted : Nat
  writes_submitted : Nat
  reads_accepted : Nat
  writes_accepted : Nat
  deriving DecidableEq, Repr

/-- The tally after `map` was called with `b` and returned `r`. -/
def tally_map (c : io_tally) (b : bio) (r : Int) : io_tally :=
  if bio_is_reada b then c
  else if bio_is_write b then
    { c with writes_submitted := c.writes_submitted + 1,
             writes_accepted := c.writes_accepted + (if r = 0 then 1 else 0) }
  else
    { c with reads_submitted := c.reads_submitted + 1,
             reads_accepted := c.reads_accepted + (if r = 0 then 1 else 0) }

/-- The terminal completion of a request, or the steps on the way to it: a
write or read completion that ends the bio (the core then calls
`mirror_sync_end_io`), a read completion that queues the bio for retry, and a
run of the retry worker. -/
inductive Completion : dms_system → dms_system → Prop where
  | write_done (s : dms_system) (k : Nat) (req : dm_io_request) (error : Nat)
      (ms1 : mirror_sync_set) (b1 : bio) (ret : Int)
      (hk : s.in_flight[k]? = some req) (hn : req.notify = notify_fn.write_callback)
      (h : write_callback s.ms error req.context = Except.ok (ms1, b1, ret)) :
      Completion s { ms := (mirror_sync_end_io ms1 b1 ret).2,
                     in_flight := s.in_flight.eraseIdx k, ended := s.ended ++ [(b1, ret)] }
  | read_done (s : dms_system) (k : Nat) (req : dm_io_request) (error : Nat)
      (ms1 : mirror_sync_set) (b1 : bio) (ret : Int)
      (hk : s.in_flight[k]? = some req) (hn : req.notify = notify_fn.read_callback)
      (h : read_callback s.ms error req.context = Except.ok (ms1, b1, some ret)) :
      Completion s { ms := (mirror_sync_end_io ms1 b1 ret).2,
                     in_flight := s.in_flight.eraseIdx k, ended := s.ended ++ [(b1, ret)] }
  | read_retry (s : dms_system) (k : Nat) (req : dm_io_request) (error : Nat)
      (ms1 : mirror_sync_set) (b1 : bio)
      (hk : s.in_flight[k]? = some req) (hn : req.notify = notify_fn.read_callback)
      (h : read_callback s.ms error req.context = Except.ok (ms1, b1, none)) :
      Completion s { s with ms := ms1, in_flight := s.in_flight.eraseIdx k }
  | worker (s : dms_system) (ms1 : mirror_sync_set) (reqs : List dm_io_request)
      (ended : List (bio × Int))
      (h : main_mirror_syncd s.ms = Except.ok (ms1, reqs, ended)) :
      Completion s { ms := end_io_all ended ms1, in_flight := s.in_flight ++ reqs,
                     ended := s.ended ++ ended }

/-- The states reached from a freshly constructed set (no set of the same name
to inherit from) by `map` calls and completions, with the tally of the `map`
calls. -/
inductive IoRun : dms_system → io_tally → Prop where
  | ctr (rp : read_policy_params) (legs : List (String × Nat)) (ti_begin : Nat)
      (mdname : String) (ms : mirror_sync_set)
      (hrp : rp_accepted rp legs.length = true)
      (h : mirror_sync_ctr rp legs ti_begin mdname none = Except.ok (some ms)) :
      IoRun { ms := ms, in_flight := [], ended := [] } ⟨0, 0, 0, 0⟩
  | map (s : dms_system) (c : io_tally) (b : bio) (r : Int) (ms1 : mirror_sync_set) (b1 : bio)
      (req : Option dm_io_request) (hs : IoRun s c)
      (hb : b.per_bio_data.bmi_wm.length = MAX_MIRRORS)
      (h : mirror_sync_map s.ms b = Except.ok (r, ms1, b1, req)) :
      IoRun { s with ms := ms1, in_flight := s.in_flight ++ req.toList } (tally_map c b r)
  | done (s t : dms_system) (c : io_tally) (hs : IoRun s c) (h : Completion s t) : IoRun t c

/-- The bios ended so far that are writes. -/
def ended_writes (s : dms_system) : Nat := (s.ended.filter (fun e => bio_is_write e.1)).length

/-- The bios ended so far that are not writes. -/
def ended_reads (s : dms_system) : Nat := (s.ended.filter (fun e => !bio_is_write e.1)).length

end DMS
namespace DMS

/-- The four I/O counters and the retry queue of the second set are those of
the first. -/
def same_io (ms ms1 : mirror_sync_set) : Prop :=
  ms1.read_ios_total = ms.read_ios_total ∧ ms1.read_ios_pending = ms.read_ios_pending ∧
  ms1.write_ios_total = ms.write_ios_total ∧ ms1.write_ios_pending = ms.write_ios_pending ∧
  ms1.read_failures = ms.read_failures

end DMS
namespace DMS

/-- The write requests at `dm_io` that have not completed. -/
def inflight_writes (s : dms_system) : Nat :=
  (s.in_flight.filter (fun q => decide (q.notify = notify_fn.write_callback))).length

/-- The read requests at `dm_io` that have not completed. -/
def inflight_reads (s : dms_system) : Nat :=
  (s.in_flight.filter (fun q => decide (q.notify = notify_fn.read_callback))).length

/-- The bookkeeping of the counters: every accepted request is ended, at
`dm_io` or (a read) in the retry queue; the pending counters hold, as 32-bit
values, the numbers of requests at `dm_io` or queued, the total counters the
numbers of requests `map` was called with. -/
def io_inv (s : dms_system) (c : io_tally) : Prop :=
  c.writes_accepted = ended_writes s + inflight_writes s ∧
  c.reads_accepted = ended_reads s + (inflight_reads s + s.ms.read_failures.length) ∧
  s.ms.write_ios_pending = wrap_int (inflight_writes s : Int) ∧
  s.ms.read_ios_pending = wrap_int ((inflight_reads s + s.ms.read_failures.length : Nat) : Int) ∧
  s.ms.read_ios_total = wrap_int (c.reads_submitted : Int) ∧
  s.ms.write_ios_total = wrap_int (c.writes_submitted : Int) ∧
  ∀ q, q ∈ s.in_flight →
    (q.notify = notify_fn.write_callback → bio_is_write q.context = true) ∧
    (q.notify = notify_fn.read_callback → bio_is_write q.context = false)

end DMS
namespace DMS

/-- The counter `x`, an `atomic_t`, holds the number `n` as a 32-bit signed
value; below 2^31 that is `n` itself. -/
def counter_holds (x : Int) (n : Nat) : Prop :=
  x = wrap_int (n : Int) ∧ (n < 2147483648 → x = (n : Int) ∧ 0 ≤ x)

end DMS
namespace DMS

/-- A read request as `read_async_bio` issues it: the context bio points to
its scratch record, whose `bmi_m` is the leg (one of the first `n`) the read
goes to. -/
def read_req_ok (n : Nat) (req : dm_io_request) : Prop :=
  req.notify = notify_fn.read_callback →
    req.context.bi_next_bmi = true ∧
    ∃ m, req.context.per_bio_data.bmi_m = some m ∧ m < n

/-- A read of `size` bytes at `sector` as the core hands it to `map`. -/
def read_bio (sector size : Nat) : bio :=
  { write_bio sector size with REQ_WRITE := false }

end DMS
namespace DMS

/-- The read `read_bio 0 4096` once `read_async_bio` has issued it to leg
`leg`, whose device is `dev` at offset 0. -/
def read_issued (leg : Nat) (dev : String) : bio :=
  { read_bio 0 4096 with
    bi_bdev := some dev, bi_next_bmi := true,
    per_bio_data :=
      { bmi_zero with
        bmi_m := some leg, bmi_bd := { bi_sector := 0, bi_bdev := none, bi_size := 4096 } } }

/-- The request `read_async_bio` hands to `dm_io` for `read_issued leg dev`. -/
def read_req (leg : Nat) (dev : String) : dm_io_request :=
  { REQ_WRITE := false, REQ_FLUSH_FUA := false, REQ_DISCARD := false,
    notify := notify_fn.read_callback, context := read_issued leg dev,
    regions := [{ bdev := dev, sector := 0, count := 8 }] }

/-- The read `read_bio 0 4096` in the retry queue after it failed on leg
`leg`. -/
def read_queued (leg : Nat) : bio :=
  { read_bio 0 4096 with
    bi_private_bmi := true,
    per_bio_data :=
      { bmi_zero with
        bmi_m := some leg, bmi_bd := { bi_sector := 0, bi_bdev := none, bi_size := 4096 } } }

/-- `weighted_legs` with one read in flight. -/
def weighted_read1 : mirror_sync_set :=
  { weighted_legs with read_ios_total := 1, read_ios_pending := 1 }

/-- `weighted_read1` after the read failed on leg 0: leg 0 is dead, the bio is
in the retry queue, the cached index still names leg 0. -/
def weighted_read2 : mirror_sync_set :=
  { weighted_read1 with
    default_mirror := some 1, events := 1, wakes := 1, read_failures := [read_queued 0],
    mirror := [mirror.mk 1 7 "a" 0, mirror.mk 0 0 "b" 0] }

/-- `weighted_read2` after the retry worker ran: the cached index is 1. -/
def weighted_read3 : mirror_sync_set :=
  { weighted_read2 with read_failures := [], mirror_weight_max_live := 1 }

/-- `weighted_read3` after the read failed again on leg 0. -/
def weighted_read4 : mirror_sync_set :=
  { weighted_read3 with read_failures := [read_queued 0], wakes := 2 }

/-- `weighted_read4` after the retry worker ran again. -/
def weighted_read5 : mirror_sync_set :=
  { weighted_read4 with read_failures := [] }

/-- `weighted_read5` after the read failed on leg 1 and was ended. -/
def weighted_read6 : mirror_sync_set :=
  { weighted_read5 with
    events := 2, supress_err_messages := 1, read_ios_pending := 0,
    mirror := [mirror.mk 1 7 "a" 0, mirror.mk 1 7 "b" 0] }

/-- The set constructed from `weighted 3 50 0 60 8 a 0 b 0 c 0 d 0 e 0 f 0 g 0
h 0`: eight legs, all alive. -/
def weighted8_legs : mirror_sync_set :=
  { two_legs with
    rdpolicy := dms_read_policy.DMS_CUSTOM_WEIGHTED,
    mirror_weights := [60, 50, 50, 50, 50, 50, 50, 50], mirror_weight_max_live := 0,
    mirror := [mirror.mk 0 0 "a" 0, mirror.mk 0 0 "b" 0, mirror.mk 0 0 "c" 0,
               mirror.mk 0 0 "d" 0, mirror.mk 0 0 "e" 0, mirror.mk 0 0 "f" 0,
               mirror.mk 0 0 "g" 0, mirror.mk 0 0 "h" 0] }

end DMS
namespace DMS

/-- The selector keeps its contract on `ms` for `sector`: it returns an alive
leg, or null when no leg is alive, and leaves legs, counters and the
suppression counter as they were. -/
def selects_live (ms : mirror_sync_set) (sector : Nat) : Prop :=
  ∃ r ms2, choose_read_mirror ms sector = Except.ok (r, ms2) ∧
    ms2.mirror = ms.mirror ∧ ms2.supress_err_messages = ms.supress_err_messages ∧
    same_io ms ms2 ∧
    (r = none → ∀ i, alive_at ms i = false) ∧
    (∀ mi, r = some mi → alive_at ms mi = true)

end DMS

namespace DMS

/-! ### weights and control messages -/

/-- All the weights at the positions of `idx` set to `x`. -/
def set_all (w : List Int) (idx : List Nat) (x : Int) : List Int :=
  idx.foldl (fun w i => w.set i x) w

/-- The weight of leg `i`, `atomic_read(&ms->mirror_weights[i])`. -/
def weight_at (ms : mirror_sync_set) (i : Nat) : Int := ms.mirror_weights.getD i 0

/-- The weights and the number of legs of `ms1` are those of `ms`, and the
cached index of the heaviest alive leg is that of `ms` or names a leg. -/
def weights_frame (ms ms1 : mirror_sync_set) : Prop :=
  ms1.mirror_weights = ms.mirror_weights ∧ ms1.nr_mirrors = ms.nr_mirrors ∧
  (ms1.mirror_weight_max_live = ms.mirror_weight_max_live ∨
    (0 ≤ ms1.mirror_weight_max_live ∧ ms1.mirror_weight_max_live < ms1.nr_mirrors))

/-- The weight array has its `MAX_MIRRORS` slots, every weight is 0 (not set)
or in `1 .. 100`, and the cached index names a leg of the set. -/
def weights_ok (ms : mirror_sync_set) : Prop :=
  ms.mirror_weights.length = MAX_MIRRORS ∧
  (∀ i, 0 ≤ weight_at ms i ∧ weight_at ms i ≤ 100) ∧
  0 ≤ ms.mirror_weight_max_live ∧ ms.mirror_weight_max_live < ms.nr_mirrors

/-- A token made of decimal digits only, at least one. -/
def is_decimal (a : String) : Prop := a.data ≠ [] ∧ a.data.all Char.isDigit = true

/-- Parameters of a table line `weighted 3 50 1 60`. -/
def rp_weighted_5060 : read_policy_params :=
  { oldparams := 0, policy := dms_read_policy.DMS_CUSTOM_WEIGHTED,
    rparg0 := 50, rparg1 := 1, rparg2 := 60 }

/-- The set constructed from `weighted 3 50 1 60 2 a 0 b 0`. -/
def weighted_5060 : mirror_sync_set :=
  { two_legs with
    rdpolicy := dms_read_policy.DMS_CUSTOM_WEIGHTED,
    mirror_weights := [50, 60, 0, 0, 0, 0, 0, 0], mirror_weight_max_live := 1 }

end DMS

namespace DMS

/-! ### the reconfiguration table (`reconf_ms[]`) -/

def MAX_DMS_INSTANCES : Nat := 2048

def DEVNAME_MAXLEN : Nat := 16

/-- `struct reconfig_ms_set`; `current_ms` is the address of a set, `none` is
`NULL`; `devname` is the string held in the zero-filled array. -/
structure reconfig_ms_set where
  in_use : Int
  current_ms : Option Nat
  devname : String
  deriving DecidableEq, Repr

/-- A constructed set in memory: the fields of `struct mirror_sync_set` with
the requests of the set, and its field `reconfig_idx`. -/
structure dms_target where
  reconfig_idx : Nat
  sys : dms_system
  deriving DecidableEq, Repr

/-- The state of the loaded module: the table `reconf_ms[]`, whose length is
`curr_ms_instances`, and the sets that are allocated, by address (`none` at an
address that was freed). -/
structure dms_module where
  reconf_ms : List reconfig_ms_set
  sets : List (Option dms_target)
  deriving DecidableEq, Repr

/-- The slot as `dm_mirror_sync_init` and `mirror_sync_dtr` leave it. -/
def free_slot : reconfig_ms_set := { in_use := 0, current_ms := none, devname := "" }

/-- `dm_mirror_sync_init()` when the allocation and the registration succeed. -/
def dm_mirror_sync_init : dms_module :=
  { reconf_ms := List.replicate MAX_DMS_INSTANCES free_slot, sets := [] }

/-- The set at address `p`. -/
def set_at (g : dms_module) (p : Nat) : Option dms_target := (g.sets.getD p none)

/-- The loop `for (i = 0; i < curr_ms_instances; i++)` of `mirror_sync_ctr`
that looks for an unused slot, on the slots from `i` on: the index found, if
any, counted from `i`, and the slots afterwards. -/
def ctr_find_slot : List reconfig_ms_set → Option Nat × List reconfig_ms_set
  | [] => (none, [])
  | r :: rest =>
    if r.in_use > 0 then
      let (i, rest1) := ctr_find_slot rest
      (i.map (fun k => k + 1), r :: rest1)
    else if atomic_inc r.in_use = 1 then
      (some 0, { r with in_use := atomic_inc r.in_use } :: rest)
    else
      -- someone beat us into this spot: atomic_dec
      let (i, rest1) := ctr_find_slot rest
      (i.map (fun k => k + 1), { r with in_use := atomic_dec (atomic_inc r.in_use) } :: rest1)

/-- The search loop of `preserve_ms_params_on_reconfig`: the first slot other
than `new_ms_idx` that is in use and for which
`strncmp(devname, reconf_ms[i].devname, strlen(devname)) == 0`. -/
def reconfig_oidx (tbl : List reconfig_ms_set) (new_ms_idx : Nat) (devname : String) :
    Option Nat :=
  (List.range tbl.length).find? (fun i =>
    match tbl[i]? with
    | some r =>
      decide (i ≠ new_ms_idx) && decide (r.in_use > 0) &&
        strncmp_eq devname r.devname devname.length
    | none => false)

/-- The set `preserve_ms_params_on_reconfig(new_ms_idx, devname)` copies from:
the one the first matching slot points to. -/
def reconfig_old_ms (g : dms_module) (new_ms_idx : Nat) (devname : String) :
    Option mirror_sync_set :=
  (reconfig_oidx g.reconf_ms new_ms_idx devname).bind (fun o =>
    (g.reconf_ms[o]?).bind (fun r =>
      r.current_ms.bind (fun p => (set_at g p).map (fun t => t.sys.ms))))

/-- The set at `p` with its fields replaced by `ms`. -/
def store_ms (g : dms_module) (p : Nat) (t : dms_target) (ms : mirror_sync_set) : dms_module :=
  { g with sets := g.sets.set p (some { t with sys := { t.sys with ms := ms } }) }

/-- `preserve_ms_params_on_reconfig(new_ms_idx, devname)` on the table: the
search for the old set, and the copy made by the block `if ( oidx >= 0 )`. -/
def preserve_ms_params_on_reconfig_idx (g : dms_module) (new_ms_idx : Nat) (devname : String) :
    Run dms_module := do
  assert_bug (decide (new_ms_idx < g.reconf_ms.length))
  match g.reconf_ms[new_ms_idx]? with
  | none => throw Fault.bug
  | some rnew =>
    assert_bug (strncmp_eq rnew.devname devname devname.length)
    match reconfig_oidx g.reconf_ms new_ms_idx devname with
    | none => pure g
    | some oidx =>
      -- assert_bug( oldms && newms ), then both are dereferenced
      match (g.reconf_ms[oidx]?).bind (fun r => r.current_ms), rnew.current_ms with
      | some pold, some pnew =>
        match set_at g pold, set_at g pnew with
        | some told, some tnew => do
          let newms ← preserve_ms_params_on_reconfig tnew.sys.ms (some told.sys.ms)
          pure (store_ms g pnew tnew newms)
        | _, _ => throw Fault.bug
      | _, _ => throw Fault.bug

/-- `mirror_sync_ctr(ti, argc, argv)` with the table, from the point where
`process_input_args` has produced `rp`; the allocations, the device lookups
and the creation of the workqueue succeed.  A set for which no slot is found
is left allocated by the code and never used again; it is not recorded. -/
def mirror_sync_ctr_reconf (g : dms_module) (rp : read_policy_params)
    (legs : List (String × Nat)) (ti_begin : Nat) (mdname : String) : Run (Int × dms_module) :=
  if legs.length < 2 ∨ legs.length > MAX_MIRRORS then
    pure (-EINVAL, g)
  else do
    let ms ← alloc_mirror_sync_set legs.length ti_begin
    let ms := ctr_get_mirrors legs 0 ms
    if mdname.length ≥ DEVNAME_MAXLEN then
      pure (-EINVAL, g)
    else
      let ms := { ms with name := mdname }
      let (slot, tbl) := ctr_find_slot g.reconf_ms
      match slot with
      | none => pure (-EINVAL, { g with reconf_ms := tbl })
      | some idx =>
        match tbl[idx]? with
        | none => throw Fault.bug
        | some r =>
          let p := g.sets.length
          let tbl := tbl.set idx { r with current_ms := some p, devname := mdname }
          let g1 : dms_module :=
            { reconf_ms := tbl,
              sets := g.sets ++ [some { reconfig_idx := idx,
                                        sys := { ms := ms, in_flight := [], ended := [] } }] }
          let g2 ← preserve_ms_params_on_reconfig_idx g1 idx mdname
          match set_at g2 p with
          | none => throw Fault.bug
          | some t => pure (0, store_ms g2 p t (ctr_read_policy t.sys.ms rp))

/-- `mirror_sync_dtr(ti)` for the set at address `p`. -/
def mirror_sync_dtr (g : dms_module) (p : Nat) : Run dms_module :=
  match set_at g p with
  | none => throw Fault.bug
  | some t => do
    assert_bug (decide (t.reconfig_idx < g.reconf_ms.length))
    pure { reconf_ms := g.reconf_ms.set t.reconfig_idx free_slot, sets := g.sets.set p none }

/-- One call into the module from the device-mapper core. -/
inductive RegStep : dms_module → dms_module → Prop where
  /-- A table line is loaded. -/
  | ctr (g : dms_module) (rp : read_policy_params) (legs : List (String × Nat)) (ti_begin : Nat)
      (mdname : String) (r : Int) (g1 : dms_module)
      (hrp : rp_accepted rp legs.length = true)
      (h : mirror_sync_ctr_reconf g rp legs ti_begin mdname = Except.ok (r, g1)) : RegStep g g1
  /-- A table is destroyed. -/
  | dtr (g : dms_module) (p : Nat) (g1 : dms_module)
      (h : mirror_sync_dtr g p = Except.ok g1) : RegStep g g1
  /-- An entry into the driver for the set at `p`. -/
  | entry (g : dms_module) (p : Nat) (t : dms_target) (s1 : dms_system)
      (hp : set_at g p = some t) (hs : Step t.sys s1) :
      RegStep g { g with sets := g.sets.set p (some { t with sys := s1 }) }

/-- The states of the loaded module. -/
inductive RegReachable : dms_module → Prop where
  | init : RegReachable dm_mirror_sync_init
  | step (g g1 : dms_module) (hg : RegReachable g) (h : RegStep g g1) : RegReachable g1

/-- The table and the allocated sets agree: a slot is free, or its flag is 1
and it points to an allocated set whose `reconfig_idx` is the slot; every
allocated set is pointed to by the slot it names; and every allocated set is
in a state the driver can reach. -/
def reg_inv (g : dms_module) : Prop :=
  (∀ (i : Nat) (r : reconfig_ms_set), g.reconf_ms[i]? = some r →
    r = free_slot ∨
      (r.in_use = 1 ∧ ∃ p t, r.current_ms = some p ∧ set_at g p = some t ∧ t.reconfig_idx = i)) ∧
  (∀ (p : Nat) (t : dms_target), set_at g p = some t →
    ∃ r, g.reconf_ms[t.reconfig_idx]? = some r ∧ r.in_use = 1 ∧ r.current_ms = some p) ∧
  (∀ (p : Nat) (t : dms_target), set_at g p = some t → Reachable t.sys)

/-- Slot `i` is in use: `atomic_read( &reconf_ms[i].in_use ) > 0`. -/
def slot_in_use (g : dms_module) (i : Nat) : Prop :=
  ∃ r, g.reconf_ms[i]? = some r ∧ r.in_use > 0

end DMS

namespace DMS

/-! ### sets and module states used by the examples on the table -/

/-- `two_legs_dead` with the read and write totals `r` and `w` and the
counter of suppressed messages `e`. -/
def dead_gen (r w e : Int) : mirror_sync_set :=
  { two_legs_dead with read_ios_total := r, write_ios_total := w, supress_err_messages := e }

/-- The value of `supress_err_messages` once `w` writes were mapped on
`two_legs`, all but the first of them refused: a refused request counts up to
`MAX_ERR_MESSAGES`. -/
def supress_after (w : Int) : Int := if w < MAX_ERR_MESSAGES then w else MAX_ERR_MESSAGES

/-- The bio `b` as `mirror_sync_map` leaves it when it refuses it on
`two_legs_dead`. -/
def refused_bio (b : bio) : bio :=
  { b with per_bio_data :=
      { bmi_zero with bmi_m := some 1,
                      bmi_bd := { bi_sector := b.bi_sector, bi_bdev := none, bi_size := b.bi_size } } }

/-- The slot of the set at address `p` with the device name `devname`. -/
def used_slot (p : Nat) (devname : String) : reconfig_ms_set :=
  { in_use := 1, current_ms := some p, devname := devname }

/-- The set constructed from `core 2 64 nosync 2 x 0 y 0` for the mapped
device `mdname`, no set being found in the table. -/
def two_legs_named (mdname x y : String) : mirror_sync_set :=
  { two_legs with name := mdname, mirror := [mirror.mk 0 0 x 0, mirror.mk 0 0 y 0] }

/-- A freshly constructed set in slot `i`. -/
def new_target (i : Nat) (ms : mirror_sync_set) : dms_target :=
  { reconfig_idx := i, sys := { ms := ms, in_flight := [], ended := [] } }

/-- The module with one set, held in slot 0 under the name `devname`. -/
def reg_one (devname : String) (s : dms_system) : dms_module :=
  { reconf_ms := dm_mirror_sync_init.reconf_ms.set 0 (used_slot 0 devname),
    sets := [some { reconfig_idx := 0, sys := s }] }

/-- The state of `two_legs_dead` with given totals, as the steps of the
driver leave it. -/
def dead_sys (r w : Int) : dms_system :=
  { ms := dead_gen r w (supress_after w), in_flight := [],
    ended := [(bio_set_m issued_bio false, - EIO)] }

end DMS

namespace DMS

/-- The set of `dead_sys 42 99` after `mirror_sync_presuspend`: totals 42 and
99, nothing pending, suspended. -/
def old_set_42_99 : mirror_sync_set := { dead_gen 42 99 (supress_after 99) with suspend := 1 }

/-- The state of `old_set_42_99`. -/
def old_sys_42_99 : dms_system :=
  { ms := old_set_42_99, in_flight := [], ended := [(bio_set_m issued_bio false, - EIO)] }

/-- The set `two_legs_named mdname "a" "b"` after a write was mapped and
`mirror_sync_presuspend` was called. -/
def busy_set (mdname : String) : mirror_sync_set :=
  { two_legs_named mdname "a" "b" with write_ios_total := 1, write_ios_pending := 1, suspend := 1 }

/-- The state of `busy_set mdname`: the write is in flight. -/
def busy_sys (mdname : String) : dms_system :=
  { ms := busy_set mdname, in_flight := [issued_req], ended := [] }

/-- The set constructed on the legs `c` and `d` for the mapped device `mdname`
with the suspend flag and the write counters of `busy_set`. -/
def heir_of_busy (mdname : String) : mirror_sync_set :=
  { two_legs_named mdname "c" "d" with write_ios_total := 1, write_ios_pending := 1, suspend := 1 }

/-- The set constructed on the legs `c` and `d` for the mapped device `253:0`
with the suspend flag and the totals of `old_set_42_99`. -/
def heir_of_42_99 : mirror_sync_set :=
  { two_legs_named "253:0" "c" "d" with read_ios_total := 42, write_ios_total := 99, suspend := 1 }

/-- The module with `busy_set "253:10"` in slot 0 and a fresh set named
`253:1` in slot 1. -/
def reg_two : dms_module :=
  { reconf_ms := (dm_mirror_sync_init.reconf_ms.set 0 (used_slot 0 "253:10")).set 1
      (used_slot 1 "253:1"),
    sets := [some { reconfig_idx := 0, sys := busy_sys "253:10" },
             some (new_target 1 (two_legs_named "253:1" "e" "f"))] }

end DMS
namespace DMS

/-- The module `reg_one "253:10" (busy_sys "253:10")` after the construction
of a set named `253:1` on the legs `c` and `d`. -/
def reg_busy_heir : dms_module :=
  { reconf_ms := (dm_mirror_sync_init.reconf_ms.set 0 (used_slot 0 "253:10")).set 1
      (used_slot 1 "253:1"),
    sets := [some { reconfig_idx := 0, sys := busy_sys "253:10" },
             some (new_target 1 (heir_of_busy "253:1"))] }

/-- The module `reg_two` after the construction of a second set named `253:1`,
on the legs `c` and `d`. -/
def reg_two_heir : dms_module :=
  { reconf_ms := reg_two.reconf_ms.set 2 (used_slot 2 "253:1"),
    sets := [some { reconfig_idx := 0, sys := busy_sys "253:10" },
             some (new_target 1 (two_legs_named "253:1" "e" "f")),
             some (new_target 2 (heir_of_busy "253:1"))] }

end DMS
namespace DMS

/-- The module after the only set, held in slot 0, was torn down: every slot
is free again and the memory of the set is released. -/
def reg_torn_down : dms_module :=
  { reconf_ms := dm_mirror_sync_init.reconf_ms, sets := [none] }

/-- The module `reg_torn_down` after the construction of a set named `253:0`
on the legs `c` and `d`. -/
def reg_torn_down_heir : dms_module :=
  { reconf_ms := dm_mirror_sync_init.reconf_ms.set 0 (used_slot 1 "253:0"),
    sets := [none, some (new_target 0 (two_legs_named "253:0" "c" "d"))] }

end DMS

namespace DMS

/-! ### the arguments of the constructor -/

/-- A run of the code that goes through `argv`: `Except.error i` when the
code reads `argv[i]` with `i >= argc`, a token that is not there. -/
abbrev ArgRun (α : Type) : Type := Except Nat α

/-- The read of `argv[i]`; `argc` is the length of `argv`. -/
def argv_get (argv : List String) (i : Nat) : ArgRun String :=
  match argv[i]? with
  | some a => pure a
  | none => throw i

/-- `DM_KCOPYD_MAX_REGIONS` of `linux/dm-kcopyd.h`. -/
def DM_KCOPYD_MAX_REGIONS : Nat := 8

/-- The end of `process_input_args`: `if (argc < *args_used) return 0;
return 1;`.  `none` is the return value 0. -/
def process_input_args_end (argc args_used : Nat) (rp : read_policy_params) :
    Option (Nat × read_policy_params) :=
  if argc < args_used then none else some (args_used, rp)

/-- The branch `round_robin` of `process_input_args`. -/
def process_input_args_round_robin (argv : List String) (param_count args_used : Nat) :
    ArgRun (Option (Nat × read_policy_params)) :=
  if param_count ≠ 1 then
    pure none
  else do
    -- DMINFO("... %s read I/Os", argv[2]), then sscanf(argv[2], ...)
    let a2 ← argv_get argv 2
    match sscanf_u a2 with
    | none => pure none
    | some value =>
      if value < 2 ∨ value > 1024 * 1024 * 1024 then
        pure none
      else
        pure (process_input_args_end argv.length args_used
          { oldparams := 0, policy := dms_read_policy.DMS_ROUND_ROBIN,
            rparg0 := value, rparg1 := 0, rparg2 := 0 })

/-- The branch `logical_part` of `process_input_args`. -/
def process_input_args_logical_part (argv : List String) (param_count args_used : Nat) :
    ArgRun (Option (Nat × read_policy_params)) :=
  if param_count ≠ 1 then
    pure none
  else do
    let a2 ← argv_get argv 2
    match sscanf_u a2 with
    | none => pure none
    | some value =>
      if value < 128 ∨ value % 8 ≠ 0 then
        pure none
      else
        pure (process_input_args_end argv.length args_used
          { oldparams := 0, policy := dms_read_policy.DMS_LOGICAL_PARTITION,
            rparg0 := value, rparg1 := 0, rparg2 := 0 })

/-- The value of `sscanf(a, "%u%c", &v, &dummy) != 1 || v < 1 || v > 100`
being false: the weight read from `a`. -/
def weight_arg (a : String) : Option Nat :=
  match sscanf_u a with
  | none => none
  | some v => if v < 1 ∨ v > 100 then none else some v

/-- The branch `weighted` of `process_input_args`; the arguments of `DMINFO`
are taken in the order in which they are written. -/
def process_input_args_weighted (argv : List String) (param_count args_used : Nat) :
    ArgRun (Option (Nat × read_policy_params)) :=
  if param_count ≠ 3 then
    pure none
  else do
    let a2 ← argv_get argv 2
    let a3 ← argv_get argv 3
    let a4 ← argv_get argv 4
    match weight_arg a2, weight_arg a4 with
    | some allweights, some weightx => do
      let a5 ← argv_get argv 5
      match sscanf_u a5 with
      | none => pure none
      | some value =>
        if value > 16 then
          pure none
        else
          match sscanf_u a3 with
          | none => pure none
          | some devx =>
            if devx ≥ value then
              pure none
            else
              pure (process_input_args_end argv.length args_used
                { oldparams := 0, policy := dms_read_policy.DMS_CUSTOM_WEIGHTED,
                  rparg0 := allweights, rparg1 := devx, rparg2 := weightx })
    | _, _ => pure none

/-- `process_input_args(ti, argc, argv, &args_used, rp)`: `none` is the return
value 0, `some (args_used, rp)` the return value 1.  `memset` makes
`rp->policy` the enumerator of value 0 and the three `rparg` 0. -/
def process_input_args (argv : List String) : ArgRun (Option (Nat × read_policy_params)) :=
  if argv.length < 2 then
    pure none
  else do
    let a1 ← argv_get argv 1
    match sscanf_u a1 with
    | none => pure none
    | some param_count => do
      -- *args_used = 2 + param_count, on `unsigned int`
      let args_used := (2 + param_count) % 4294967296
      let a0 ← argv_get argv 0
      if a0.length = 4 ∧ strncmp_eq a0 "core" 4 = true then
        if param_count ≠ 2 then
          pure none
        else
          pure (process_input_args_end argv.length args_used
            { oldparams := 1, policy := dms_read_policy.DMS_ROUND_ROBIN,
              rparg0 := 0, rparg1 := 0, rparg2 := 0 })
      else if a0.length = "round_robin".length ∧
          strncmp_eq a0 "round_robin" a0.length = true then
        process_input_args_round_robin argv param_count args_used
      else if a0.length = "logical_part".length ∧
          strncmp_eq a0 "logical_part" a0.length = true then
        process_input_args_logical_part argv param_count args_used
      else if a0.length = "weighted".length ∧ strncmp_eq a0 "weighted" a0.length = true then
        process_input_args_weighted argv param_count args_used
      else
        pure none

/-- The loop `for (m = 0; m < nr_mirrors; m++) { get_mirror(ms, ti, m, argv);
argv += 2; }` of `mirror_sync_ctr` for the `k` legs whose tokens start at
`argv[pos]`: the device and the offset of each leg, `none` when `get_mirror`
refuses an offset.  The device named by `argv[0]` is found. -/
def ctr_get_mirror_args (argv : List String) : Nat → Nat → ArgRun (Option (List (String × Nat)))
  | 0, _ => pure (some [])
  | k + 1, pos => do
    let a1 ← argv_get argv (pos + 1)
    match sscanf_llu a1 with
    | none => pure none
    | some offset => do
      let a0 ← argv_get argv pos
      let rest ← ctr_get_mirror_args argv k (pos + 2)
      pure (rest.map (fun l => (a0, offset) :: l))

/-- The part of `mirror_sync_ctr` that reads the number of legs and the legs
from `argv`, which is what is left after `argv += args_used`: the legs, or
`none` when the code returns `-EINVAL`. -/
def ctr_mirror_args (argv : List String) : ArgRun (Option (List (String × Nat))) :=
  if argv.length = 0 then
    pure none
  else do
    let a0 ← argv_get argv 0
    match sscanf_u a0 with
    | none => pure none
    | some nr_mirrors =>
      if nr_mirrors < 2 ∨ nr_mirrors > DM_KCOPYD_MAX_REGIONS + 1 ∨ nr_mirrors > MAX_MIRRORS then
        pure none
      else if argv.length - 1 ≠ (nr_mirrors * 2) % 4294967296 then
        pure none
      else
        ctr_get_mirror_args (argv.drop 1) nr_mirrors 0

/-- What `mirror_sync_ctr(ti, argc, argv)` makes of its arguments: the
parameters of the policy and the legs, or `none` when it returns `-EINVAL`. -/
def mirror_sync_ctr_args (argv : List String) :
    ArgRun (Option (read_policy_params × List (String × Nat))) := do
  match (← process_input_args argv) with
  | none => pure none
  | some (args_used, rp) =>
    let legs ← ctr_mirror_args (argv.drop args_used)
    pure (legs.map (fun l => (rp, l)))

/-- `mirror_sync_ctr(ti, argc, argv)` on the tokens of a table line: the
return value and the set constructed. -/
def mirror_sync_ctr_argv (argv : List String) (ti_begin : Nat) (mdname : String)
    (oldms : Option mirror_sync_set) : ArgRun (Run (Int × Option mirror_sync_set)) := do
  match (← mirror_sync_ctr_args argv) with
  | none => pure (pure (-EINVAL, none))
  | some (rp, legs) =>
    pure ((mirror_sync_ctr rp legs ti_begin mdname oldms) >>= fun ms => pure (0, ms))

end DMS

namespace DMS

/-! ### status -/

/-- `device_status_char(m)`. -/
def device_status_char (m : mirror) : Char :=
  if mirror_is_alive m then 'A'
  else if test_bit dm_raid1_error.DM_RAID1_WRITE_ERROR.toNat m.error_type then 'D'
  else 'U'

/-- What `%llu` prints for an `unsigned long long`: its decimal digits. -/
def fmt_llu (v : Nat) : String := toString (v % 18446744073709551616)

/-- What `%d` prints for the value `v` of an `unsigned int`: the decimal
digits of `v` taken as an `int`, after a minus sign when it is negative. -/
def fmt_d (v : Nat) : String :=
  if v % 4294967296 < 2147483648 then toString (v % 4294967296)
  else "-" ++ toString (4294967296 - v % 4294967296)

/-- `DMEMIT(x...)` of `linux/device-mapper.h`, which is
`sz += ((sz >= maxlen) ? 0 : scnprintf(result + sz, maxlen - sz, x))`:
`result` holds the `sz` characters emitted so far and `piece` is the text the
format produces; `scnprintf` keeps one byte for the final NUL. -/
def DMEMIT (maxlen : Nat) (result piece : String) : String :=
  if result.length ≥ maxlen then result
  else String.mk (result.data ++ piece.data.take (maxlen - result.length - 1))

/-- `mirror_sync_status(ti, STATUSTYPE_TABLE, status_flags, result, maxlen)`:
the string left in `result`. -/
def mirror_sync_status_table (ms : mirror_sync_set) (maxlen : Nat) : String :=
  ms.mirror.foldl
    (fun result m => DMEMIT maxlen result (" " ++ m.dev ++ " " ++ fmt_llu m.offset))
    (DMEMIT maxlen "" (fmt_d ms.nr_mirrors))

/-- The tokens of a string cut at every space. -/
def split_on_spaces (s : String) : List String := (s.data.splitOn ' ').map String.mk

/-- The device and the offset of every leg, in the order of the leg array. -/
def leg_devices (ms : mirror_sync_set) : List (String × Nat) :=
  ms.mirror.map (fun m => (m.dev, m.offset))

/-! ### the check commands -/

def PAGE_SIZE : Nat := 4096

/-- The bytes of a page. -/
abbrev page : Type := List Nat

/-- `mirror_check_t`; `m` and `pagebufs` are pointers, `none` is `NULL`. -/
structure mirror_check_t where
  live : Nat
  nr_pages : Nat
  m : Option Nat
  pagebufs : Option (List page)
  deriving DecidableEq, Repr

/-- `alloc_check_io_buffers(ms, mc, bsize)` when every allocation succeeds:
the table `mc` (the return value is 1).  `data j i` is page `i` of the buffer
of leg `j`; `memset` leaves the entry of a dead leg all zero. -/
def alloc_check_io_buffers (ms : mirror_sync_set) (bsize : Nat) (data : Nat → Nat → page) :
    List mirror_check_t :=
  (List.range ms.nr_mirrors).map (fun j =>
    if alive_at ms j then
      { live := 1, nr_pages := bsize / PAGE_SIZE, m := some j,
        pagebufs := some ((List.range (bsize / PAGE_SIZE)).map (data j)) }
    else
      { live := 0, nr_pages := 0, m := none, pagebufs := none })

/-- The loop `Get only live mirrors` of `compare_check_all_io_buffers` over
the entries `idx` of `mc`: the array `livemc` afterwards.  The test starts
with `mirror_is_alive(mc[j].m)`, which reads the fields of `*mc[j].m`. -/
def compare_live_loop (ms : mirror_sync_set) (mc : List mirror_check_t) :
    List Nat → List mirror_check_t → Run (List mirror_check_t)
  | [], livemc => pure livemc
  | j :: rest, livemc =>
    match mc[j]? with
    | none => throw Fault.bug
    | some e =>
      match e.m with
      | none => throw Fault.bug
      | some k =>
        match ms.mirror[k]? with
        | none => throw Fault.bug
        | some mr =>
          if mirror_is_alive mr && e.live != 0 && e.pagebufs.isSome then
            compare_live_loop ms mc rest (livemc ++ [e])
          else
            compare_live_loop ms mc rest livemc

/-- The loop over the pages `idx` of two buffers: `false` at the first page
for which `memcmp(pg1, pg2, PAGE_SIZE)` is not 0. -/
def compare_pages (b1 b2 : List page) : List Nat → Run Bool
  | [] => pure true
  | i :: rest =>
    match b1[i]?, b2[i]? with
    | some pg1, some pg2 =>
      if pg1.take PAGE_SIZE != pg2.take PAGE_SIZE then pure false
      else compare_pages b1 b2 rest
    | _, _ => throw Fault.bug

/-- The loop `for (j = 0; j < nr_live-1; j++)` of
`compare_check_all_io_buffers` over the positions `idx`: the return value. -/
def compare_adjacent_loop (livemc : List mirror_check_t) : List Nat → Run Int
  | [] => pure 1
  | j :: rest =>
    match livemc[j]?, livemc[j + 1]? with
    | some e1, some e2 =>
      if e1.nr_pages ≠ e2.nr_pages then
        throw Fault.bug
      else
        match e1.pagebufs, e2.pagebufs with
        | some b1, some b2 => do
          let same ← compare_pages b1 b2 (List.range e1.nr_pages)
          if same then compare_adjacent_loop livemc rest else pure 0
        | _, _ => throw Fault.bug
    | _, _ => throw Fault.bug

/-- `compare_check_all_io_buffers(ms, mc)`. -/
def compare_check_all_io_buffers (ms : mirror_sync_set) (mc : List mirror_check_t) : Run Int := do
  let livemc ← compare_live_loop ms mc (List.range ms.nr_mirrors) []
  if livemc.length < 2 then
    pure 0
  else
    compare_adjacent_loop livemc (List.range (livemc.length - 1))

/-! ### the sector count of the logical partition policy -/

/-- `int lic = atomic_read( &ms->lp_io_chunk ) * 2` of `choose_read_mirror`. -/
def lp_lic (ms : mirror_sync_set) : Int := wrap_int (ms.lp_io_chunk * 2)

/-- The condition of `assert( lic > 0 && !(lic % 8) )`. -/
def lp_lic_assert (lic : Int) : Bool := decide (lic > 0) && (Int.tmod lic 8 == 0)

/-- The two conditions of `assert_bug` at the head of the weighted branch of
`choose_read_mirror`. -/
def weighted_asserts (ms : mirror_sync_set) : Bool :=
  decide (ms.nr_mirrors < MAX_MIRRORS) &&
    decide (ms.mirror_weight_max_live ≥ 0 ∧ ms.mirror_weight_max_live < ms.nr_mirrors)

/-- The error state of a leg is the one `get_mirror` gives it, no error
recorded, or the one `fail_mirror` gives such a leg, all three error bits and
an error count of 1. -/
def leg_state_ok (mr : mirror) : Prop :=
  (mr.error_type = 0 ∧ mr.error_count = 0) ∨ (mr.error_type = 7 ∧ mr.error_count = 1)

end DMS

namespace DMS

/-- The tokens of the table status: the number of legs, then the device and
the offset of each leg. -/
def status_tokens (ms : mirror_sync_set) : List String :=
  fmt_d ms.nr_mirrors :: ms.mirror.flatMap (fun m => [m.dev, fmt_llu m.offset])

end DMS

namespace DMS

/-- The set constructed from `logical_part 1 2147483648 2 a 0 b 0`: the
chunk, stored in an `atomic_t`, reads -2147483648. -/
def chunk_wrap_legs : mirror_sync_set :=
  { two_legs with
    rdpolicy := dms_read_policy.DMS_LOGICAL_PARTITION, lp_io_chunk := -2147483648 }

end DMS

namespace DMS

/-- The set constructed from `core 2 64 nosync 2 a 8 b 8`: both legs start at
sector 8 of their device. -/
def two_legs_off8 : mirror_sync_set :=
  { two_legs with mirror := [mirror.mk 0 0 "a" 8, mirror.mk 0 0 "b" 8] }

end DMS

namespace DMS

/-! ## lemmas -/

theorem test_bit_set_bit (i j w : Nat) :
    test_bit i (set_bit j w) = (decide (i = j) || test_bit i w) := by
  unfold test_bit set_bit
  rw [Nat.testBit_or, Nat.one_shiftLeft, Nat.testBit_two_pow]
  by_cases h : i = j
  · subst h; simp
  · have : ¬ j = i := fun e => h e.symm
    simp [h, this]

theorem set_bits_lt_8 (k w : Nat) (hk : k < 3) (hw : w < 8) :
    set_bit 2 (set_bit 1 (set_bit 0 (set_bit k w))) = 7 := by
  unfold set_bit
  interval_cases k <;> interval_cases w <;> rfl

theorem kind_lt_3 (k : dm_raid1_error) : k.toNat < 3 := by
  cases k <;> decide

/-- The leg entry `fail_mirror` writes when the bit was clear. -/

theorem fail_mirror_mirror (ms : mirror_sync_set) (m : Nat) (k : dm_raid1_error) (mr : mirror)
    (hm : ms.mirror[m]? = some mr) (hbit : test_bit k.toNat mr.error_type = false) :
    (fail_mirror ms m k).mirror = ms.mirror.set m (failed_mirror mr k) ∧
    (fail_mirror ms m k).events = ms.events + 1 := by
  unfold fail_mirror
  simp only [hm, hbit]
  constructor
  · simp only [Bool.false_eq_true, if_false]
    split <;> [split; skip] <;> rfl
  · simp only [Bool.false_eq_true, if_false]
    split <;> [split; skip] <;> rfl

theorem fail_mirror_noop (ms : mirror_sync_set) (m : Nat) (k : dm_raid1_error)
    (h : ∀ mr, ms.mirror[m]? = some mr → test_bit k.toNat mr.error_type = true) :
    fail_mirror ms m k = ms := by
  unfold fail_mirror
  cases hm : ms.mirror[m]? with
  | none => rfl
  | some mr => simp [h mr hm]

theorem find_range_none (p : Nat → Bool) (n : Nat) :
    (List.range n).find? p = none ↔ ∀ i, i < n → p i = false := by
  rw [List.find?_eq_none]
  constructor
  · intro h i hi
    have := h i (List.mem_range.mpr hi)
    simpa using this
  · intro h x hx
    simp [h x (List.mem_range.mp hx)]

theorem find_range_some_aux (p : Nat → Bool) (n x : Nat)
    (h : (List.range n).find? p = some x) : x < n ∧ p x = true :=
  ⟨List.mem_range.mp (List.mem_of_find?_eq_some h), List.find?_some h⟩

theorem find_range_some (p : Nat → Bool) (n j : Nat) :
    (List.range n).find? p = some j ↔ j < n ∧ p j = true ∧ ∀ i, i < j → p i = false := by
  induction n with
  | zero => simp
  | succ n ih =>
    rw [List.range_succ, List.find?_append]
    cases hf : (List.range n).find? p with
    | some x =>
      rw [hf] at ih
      simp only [Option.or]
      constructor
      · intro h
        have := ih.mp h
        exact ⟨by omega, this.2⟩
      · rintro ⟨hj, hp, hlt⟩
        apply ih.mpr
        refine ⟨?_, hp, hlt⟩
        by_contra hge
        have hjn : j = n := by omega
        subst hjn
        have hx := find_range_some_aux p j x hf
        have := hlt x hx.1
        rw [hx.2] at this
        exact absurd this (by simp)
    | none =>
      rw [hf] at ih
      have hnone := (find_range_none p n).mp hf
      simp only [Option.or]
      by_cases hpn : p n = true
      · simp only [List.find?_cons, hpn, Option.some.injEq]
        constructor
        · intro h; subst h; exact ⟨by omega, hpn, hnone⟩
        · rintro ⟨hj, hp, hlt⟩
          by_contra hne
          have : j < n := by omega
          rw [hnone j this] at hp
          exact absurd hp (by simp)
      · have hpn' : p n = false := by simpa using hpn
        simp only [List.find?_cons, hpn', List.find?_nil]
        constructor
        · intro h; exact absurd h (by simp)
        · rintro ⟨hj, hp, _⟩
          by_cases hjn : j = n
          · subst hjn; rw [hpn'] at hp; exact absurd hp (by simp)
          · rw [hnone j (by omega)] at hp; exact absurd hp (by simp)

theorem alive_bits (mr : mirror) (h : mirror_is_alive mr = true) :
    test_bit 0 mr.error_type = false ∧ test_bit 1 mr.error_type = false ∧
    test_bit 2 mr.error_type = false ∧ mr.error_count = 0 := by
  unfold mirror_is_alive at h
  simp only [dm_raid1_error.toNat] at h
  split at h
  · exact absurd h (by simp)
  · rename_i hc
    simp only [Bool.or_eq_true, bne_iff_ne, ne_eq, not_or, Bool.not_eq_true, not_not] at hc
    exact ⟨hc.1.1.1, hc.1.1.2, hc.1.2, hc.2⟩

theorem alive_kind_bit (mr : mirror) (h : mirror_is_alive mr = true) (k : dm_raid1_error) :
    test_bit k.toNat mr.error_type = false := by
  have hb := alive_bits mr h
  cases k
  · exact hb.1
  · exact hb.2.1
  · exact hb.2.2.1

theorem failed_not_alive (mr : mirror) (k : dm_raid1_error) :
    mirror_is_alive (failed_mirror mr k) = false := by
  unfold mirror_is_alive failed_mirror
  simp [dm_raid1_error.toNat, test_bit_set_bit]

theorem fail_mirror_other_leg (ms : mirror_sync_set) (m : Nat) (k : dm_raid1_error) (j : Nat)
    (hj : j ≠ m) : (fail_mirror ms m k).mirror[j]? = ms.mirror[j]? := by
  cases hm : ms.mirror[m]? with
  | none => rw [fail_mirror_noop ms m k (by intro mr h; rw [hm] at h; exact absurd h (by simp))]
  | some mr =>
    cases hb : test_bit k.toNat mr.error_type with
    | true =>
      rw [fail_mirror_noop ms m k (by intro mr1 h; rw [hm] at h; cases h; exact hb)]
    | false =>
      rw [(fail_mirror_mirror ms m k mr hm hb).1]
      exact List.getElem?_set_ne (fun e => hj e.symm)

theorem fail_mirror_bit_set (ms : mirror_sync_set) (m : Nat) (k : dm_raid1_error) (mr1 : mirror)
    (h1 : (fail_mirror ms m k).mirror[m]? = some mr1) :
    test_bit k.toNat mr1.error_type = true := by
  cases hm : ms.mirror[m]? with
  | none =>
    rw [fail_mirror_noop ms m k (by intro mr h; rw [hm] at h; exact absurd h (by simp)), hm] at h1
    exact absurd h1 (by simp)
  | some mr =>
    cases hb : test_bit k.toNat mr.error_type with
    | true =>
      rw [fail_mirror_noop ms m k (by intro mr2 h; rw [hm] at h; cases h; exact hb), hm] at h1
      cases h1; exact hb
    | false =>
      rw [(fail_mirror_mirror ms m k mr hm hb).1] at h1
      have hlt : m < ms.mirror.length := by
        rcases List.getElem?_eq_some.mp hm with ⟨h, _⟩
        exact h
      rw [List.getElem?_set_self hlt] at h1
      cases h1
      simp [failed_mirror, test_bit_set_bit]

theorem alive_at_congr (ms ms1 : mirror_sync_set) (h : ms1.mirror = ms.mirror) :
    alive_at ms1 = alive_at ms := by
  funext i
  unfold alive_at
  rw [h]

theorem get_valid_mirror_congr (ms ms1 : mirror_sync_set) (h : ms1.mirror = ms.mirror) :
    get_valid_mirror ms1 = get_valid_mirror ms := by
  unfold get_valid_mirror mirror_sync_set.nr_mirrors
  rw [alive_at_congr ms ms1 h, h]

theorem fail_mirror_default (ms : mirror_sync_set) (m : Nat) (k : dm_raid1_error) (mr : mirror)
    (hm : ms.mirror[m]? = some mr) (hbit : test_bit k.toNat mr.error_type = false) :
    (fail_mirror ms m k).default_mirror =
      if some m = ms.default_mirror then
        match get_valid_mirror (fail_mirror ms m k) with
        | some new => some new
        | none => ms.default_mirror
      else ms.default_mirror := by
  have hv : get_valid_mirror (fail_mirror ms m k) =
      get_valid_mirror { ms with mirror := (ms.mirror.set m (failed_mirror mr k)) } :=
    get_valid_mirror_congr _ _ (fail_mirror_mirror ms m k mr hm hbit).1
  rw [hv]
  unfold fail_mirror
  simp only [hm, hbit, Bool.false_eq_true, if_false]
  by_cases hd : some m = ms.default_mirror
  · simp only [hd, if_true]
    cases hg : get_valid_mirror { ms with mirror := (ms.mirror.set m (failed_mirror mr k)) } with
    | none =>
      simp only [failed_mirror] at hg
      simp only [hg]
    | some new =>
      simp only [failed_mirror] at hg
      simp only [hg]
  · simp only [hd, if_false]

theorem alive_at_lt (ms : mirror_sync_set) (i : Nat) (h : alive_at ms i = true) :
    i < ms.nr_mirrors := by
  unfold alive_at at h
  cases hm : ms.mirror[i]? with
  | none => rw [hm] at h; exact absurd h (by simp)
  | some mr => exact (List.getElem?_eq_some.mp hm).1

theorem alive_at_some (ms : mirror_sync_set) (i : Nat) (h : alive_at ms i = true) :
    ∃ mr, ms.mirror[i]? = some mr ∧ mirror_is_alive mr = true := by
  unfold alive_at at h
  cases hm : ms.mirror[i]? with
  | none => rw [hm] at h; exact absurd h (by simp)
  | some mr => rw [hm] at h; exact ⟨mr, rfl, h⟩

theorem get_valid_mirror_none (ms : mirror_sync_set) :
    get_valid_mirror ms = none ↔ ∀ i, alive_at ms i = false := by
  unfold get_valid_mirror
  rw [find_range_none]
  constructor
  · intro h i
    by_cases hi : i < ms.nr_mirrors
    · exact h i hi
    · cases ha : alive_at ms i with
      | false => rfl
      | true => exact absurd (alive_at_lt ms i ha) hi
  · intro h i _; exact h i

theorem get_valid_mirror_some (ms : mirror_sync_set) (j : Nat) :
    get_valid_mirror ms = some j ↔
      alive_at ms j = true ∧ ∀ i, i < j → alive_at ms i = false := by
  unfold get_valid_mirror
  rw [find_range_some]
  constructor
  · rintro ⟨_, h2, h3⟩; exact ⟨h2, h3⟩
  · rintro ⟨h2, h3⟩; exact ⟨alive_at_lt ms j h2, h2, h3⟩

theorem take_set_succ (l : List (Option Nat)) (k : Nat) (x : Option Nat) (h : k < l.length) :
    (l.set k x).take (k + 1) = l.take k ++ [x] := by
  induction l generalizing k with
  | nil => simp at h
  | cons a l ih =>
    cases k with
    | zero => simp
    | succ k =>
      simp only [List.set_cons_succ, List.take_succ_cons, List.cons_append, List.cons.injEq,
        true_and]
      exact ih k (by simpa using h)

theorem write_async_loop_spec (ms : mirror_sync_set) (b : bio) (idx : List Nat) :
    ∀ (io : List dm_io_region) (wm : List (Option Nat)) (k : Nat),
      k + (idx.filter (alive_at ms)).length ≤ wm.length →
      (write_async_loop ms b idx (io, wm, k)).1 =
        io ++ (idx.filter (alive_at ms)).filterMap
          (fun i => (ms.mirror[i]?).map (fun m => map_region ms m b)) ∧
      (write_async_loop ms b idx (io, wm, k)).2.2 = k + (idx.filter (alive_at ms)).length ∧
      (write_async_loop ms b idx (io, wm, k)).2.1.take (k + (idx.filter (alive_at ms)).length) =
        wm.take k ++ (idx.filter (alive_at ms)).map some ∧
      (write_async_loop ms b idx (io, wm, k)).2.1.length = wm.length := by
  induction idx with
  | nil => intro io wm k _; simp [write_async_loop]
  | cons i rest ih =>
    intro io wm k hk
    cases hm : ms.mirror[i]? with
    | none =>
      have ha : alive_at ms i = false := by simp [alive_at, hm]
      simp only [write_async_loop, hm, List.filter_cons, ha, Bool.false_eq_true, if_false] at hk ⊢
      exact ih io wm k hk
    | some m =>
      cases hal : mirror_is_alive m with
      | false =>
        have ha : alive_at ms i = false := by simp [alive_at, hm, hal]
        simp only [write_async_loop, hm, hal, List.filter_cons, ha, Bool.false_eq_true,
          if_false] at hk ⊢
        exact ih io wm k hk
      | true =>
        have ha : alive_at ms i = true := by simp [alive_at, hm, hal]
        simp only [write_async_loop, hm, hal, List.filter_cons, ha, if_true,
          List.length_cons] at hk ⊢
        have hk1 : k + 1 + (rest.filter (alive_at ms)).length ≤ (wm.set k (some i)).length := by
          simp only [List.length_set]; omega
        obtain ⟨h1, h2, h3, h4⟩ := ih (io ++ [map_region ms m b]) (wm.set k (some i)) (k + 1) hk1
        refine ⟨?_, ?_, ?_, ?_⟩
        · rw [h1]; simp [hm]
        · rw [h2]; omega
        · have e : k + ((rest.filter (alive_at ms)).length + 1) =
              k + 1 + (rest.filter (alive_at ms)).length := by omega
          rw [e, h3, take_set_succ wm k (some i) (by omega)]
          simp
        · rw [h4]; simp

theorem live_regions_length (ms : mirror_sync_set) (b : bio) (idx : List Nat) :
    ((idx.filter (alive_at ms)).filterMap
      (fun i => (ms.mirror[i]?).map (fun m => map_region ms m b))).length =
    (idx.filter (alive_at ms)).length := by
  induction idx with
  | nil => simp
  | cons i rest ih =>
    cases ha : alive_at ms i with
    | false => simpa [List.filter_cons, ha] using ih
    | true =>
      obtain ⟨mr, hm, _⟩ := alive_at_some ms i ha
      simp only [List.filter_cons, ha, if_true, List.filterMap_cons, hm, Option.map_some',
        List.length_cons, ih]

theorem write_async_bios_dead (ms : mirror_sync_set) (b : bio)
    (hlive : (List.range ms.nr_mirrors).filter (alive_at ms) = []) :
    ∃ b1, write_async_bios ms b = (0, b1, none) := by
  obtain ⟨_, h2, _, _⟩ := write_async_loop_spec ms b (List.range ms.nr_mirrors) []
    b.per_bio_data.bmi_wm 0 (by simp [hlive])
  unfold write_async_bios
  rcases hr : write_async_loop ms b (List.range ms.nr_mirrors) ([], b.per_bio_data.bmi_wm, 0)
    with ⟨io, wm, k⟩
  rw [hr] at h2
  simp only [hlive, List.length_nil, Nat.add_zero] at h2
  subst h2
  exact ⟨_, rfl⟩

theorem mirror_sync_map_write_dead (ms : mirror_sync_set) (b : bio)
    (hlive : (List.range ms.nr_mirrors).filter (alive_at ms) = [])
    (hw : b.REQ_WRITE = true) (hra : b.REQ_RAHEAD = false) :
    ∃ ms1 b1, mirror_sync_map ms b = Except.ok (- EIO, ms1, b1, none) := by
  obtain ⟨w, ra, dis, ff, sec, sz, bdev, priv, nx, pv, pbd⟩ := b
  simp only at hw hra
  subst hw hra
  obtain ⟨b1, hb1⟩ := write_async_bios_dead
    { ms with write_ios_total := atomic_inc ms.write_ios_total }
    { REQ_WRITE := true, REQ_RAHEAD := false, REQ_DISCARD := dis, REQ_FLUSH_FUA := ff,
      bi_sector := sec, bi_size := sz, bi_bdev := bdev, bi_private := priv, bi_next_bmi := nx,
      bi_private_bmi := pv,
      per_bio_data :=
        { pbd with bmi_bd := dm_bio_record ⟨true, false, dis, ff, sec, sz, bdev, priv, nx, pv, pbd⟩,
                   bmi_m := ms.default_mirror } }
    hlive
  unfold mirror_sync_map
  simp only [hb1, Bool.true_eq_false, Bool.false_eq_true, and_false, and_self, if_false, if_true]
  by_cases hs : ms.supress_err_messages < MAX_ERR_MESSAGES
  · simp only [hs, if_true]; exact ⟨_, _, rfl⟩
  · simp only [hs, if_false]; exact ⟨_, _, rfl⟩

theorem write_callback_loop_spec (error : Nat) (bmi : dms_bio_map_info) (idx : List Nat) :
    ∀ (ms : mirror_sync_set) (f : Nat),
      (∀ i, i ∈ idx → ∃ m, bmi.bmi_wm.getD i none = some m) →
      write_callback_loop error bmi idx (ms, f) =
        Except.ok ((failed_legs error bmi idx).foldl
            (fun s m => fail_mirror s m dm_raid1_error.DM_RAID1_WRITE_ERROR) ms,
          f + (idx.filter (fun i => test_bit i error)).length) := by
  induction idx with
  | nil => intro ms f _; rfl
  | cons i rest ih =>
    intro ms f hv
    have hrest : ∀ j, j ∈ rest → ∃ m, bmi.bmi_wm.getD j none = some m :=
      fun j hj => hv j (List.mem_cons_of_mem _ hj)
    obtain ⟨m, hm⟩ := hv i (List.mem_cons_self _ _)
    cases hbit : test_bit i error with
    | false =>
      simp only [write_callback_loop, hbit, Bool.false_eq_true, if_false, failed_legs,
        List.filter_cons]
      exact ih ms f hrest
    | true =>
      simp only [write_callback_loop, hbit, if_true, hm, failed_legs, List.filter_cons,
        List.filterMap_cons, List.foldl_cons, List.length_cons]
      rw [ih _ _ hrest]
      simp only [failed_legs]
      congr 2
      omega

theorem write_callback_eq (ms : mirror_sync_set) (error : Nat) (b : bio)
    (hb : b.bi_next_bmi = true) (hd : b.REQ_DISCARD = false)
    (hwm : ∀ i, i < b.per_bio_data.nr_live → ∃ m, b.per_bio_data.bmi_wm.getD i none = some m) :
    ∃ ms1 ret, write_callback ms error b = Except.ok (ms1, bio_set_m b false, ret) ∧
      ms1.mirror = ((failed_legs error b.per_bio_data (List.range b.per_bio_data.nr_live)).foldl
        (fun s m => fail_mirror s m dm_raid1_error.DM_RAID1_WRITE_ERROR) ms).mirror ∧
      ms1.default_mirror =
        ((failed_legs error b.per_bio_data (List.range b.per_bio_data.nr_live)).foldl
          (fun s m => fail_mirror s m dm_raid1_error.DM_RAID1_WRITE_ERROR) ms).default_mirror ∧
      ms1.events =
        ((failed_legs error b.per_bio_data (List.range b.per_bio_data.nr_live)).foldl
          (fun s m => fail_mirror s m dm_raid1_error.DM_RAID1_WRITE_ERROR) ms).events ∧
      ret = (if ((List.range b.per_bio_data.nr_live).filter (fun i => test_bit i error)).length
                < b.per_bio_data.nr_live ∨ error = 0 then 0 else - EIO) := by
  have hloop := write_callback_loop_spec error b.per_bio_data (List.range b.per_bio_data.nr_live)
    ms 0 (fun i hi => hwm i (List.mem_range.mp hi))
  unfold write_callback bio_get_m
  simp only [hb, if_true]
  by_cases he : error = 0
  · subst he
    refine ⟨ms, 0, by simp; rfl, ?_, ?_, ?_, by simp⟩ <;>
    · have : failed_legs 0 b.per_bio_data (List.range b.per_bio_data.nr_live) = [] := by
        simp [failed_legs, test_bit]
      rw [this]; rfl
  · have hne : (error != 0) = true := by simpa using he
    simp only [hne, if_true, hd, Bool.false_eq_true, if_false, hloop, Nat.zero_add]
    have hle := List.length_filter_le (fun i => test_bit i error)
      (List.range b.per_bio_data.nr_live)
    simp only [List.length_range] at hle
    simp only [bind, Except.bind, pure, Except.pure]
    refine ⟨_, _, rfl, ?_, ?_, ?_, ?_⟩
    · split_ifs <;> rfl
    · split_ifs <;> rfl
    · split_ifs <;> rfl
    · simp only [he, or_false, bne_iff_ne, ne_eq]
      by_cases hlt : ((List.range b.per_bio_data.nr_live).filter
          (fun i => test_bit i error)).length < b.per_bio_data.nr_live
      · rw [if_pos hlt, if_pos (by omega)]
      · rw [if_neg hlt, if_neg (by omega)]

theorem foldl_fail_mirror_other_leg (k : dm_raid1_error) (legs : List Nat) :
    ∀ (ms : mirror_sync_set) (j : Nat), j ∉ legs →
      (legs.foldl (fun s m => fail_mirror s m k) ms).mirror[j]? = ms.mirror[j]? := by
  induction legs with
  | nil => intro ms j _; rfl
  | cons m rest ih =>
    intro ms j hj
    simp only [List.mem_cons, not_or] at hj
    simp only [List.foldl_cons]
    rw [ih _ j hj.2, fail_mirror_other_leg ms m k j hj.1]

theorem same_legs_refl (ms : mirror_sync_set) : same_legs ms ms := ⟨rfl, rfl⟩

theorem same_legs_trans {a b c : mirror_sync_set} (h1 : same_legs a b) (h2 : same_legs b c) :
    same_legs a c := ⟨h2.1.trans h1.1, h2.2.trans h1.2⟩

theorem assert_bug_bind {α : Type} (c : Bool) (f : Unit → Run α) :
    (assert_bug c >>= f) = if c = true then f () else Except.error Fault.bug := by
  cases c <;> rfl

theorem run_ok_bind {α β : Type} (a : α) (f : α → Run β) :
    ((Except.ok a : Run α) >>= f) = f a := rfl

theorem run_pure_bind {α β : Type} (a : α) (f : α → Run β) :
    ((pure a : Run α) >>= f) = f a := rfl

theorem run_error_bind {α β : Type} (e : Fault) (f : α → Run β) :
    ((Except.error e : Run α) >>= f) = Except.error e := rfl

theorem run_throw {α : Type} (e : Fault) : (throw e : Run α) = Except.error e := rfl

theorem run_pure {α : Type} (a : α) : (pure a : Run α) = Except.ok a := rfl

theorem get_mirror_weight_max_live_same (ms ms1 : mirror_sync_set) (r : Option Nat)
    (h : get_mirror_weight_max_live ms = Except.ok (r, ms1)) : same_legs ms ms1 := by
  unfold get_mirror_weight_max_live at h
  simp only [assert_bug_bind, run_pure_bind, run_throw, run_pure] at h
  split_ifs at h
  all_goals (cases h; exact ⟨rfl, rfl⟩)

theorem rr_loop_same (start : Nat) (fuel : Nat) :
    ∀ (ms : mirror_sync_set) (ret : Nat) (r : Option Nat) (ms1 : mirror_sync_set),
      rr_loop start fuel ms ret = Except.ok (r, ms1) → same_legs ms ms1 := by
  induction fuel with
  | zero => intro ms ret r ms1 h; cases h
  | succ n ih =>
    intro ms ret r ms1 h
    unfold rr_loop at h
    simp only [run_pure] at h
    split_ifs at h
    all_goals first
      | (cases h; exact ⟨rfl, rfl⟩)
      | (have hi := ih _ _ _ _ h; exact ⟨hi.1, hi.2⟩)

theorem run_bind_ok {α β : Type} {x : Run α} {f : α → Run β} {b : β}
    (h : (x >>= f) = Except.ok b) : ∃ a, x = Except.ok a ∧ f a = Except.ok b := by
  cases x with
  | error e => cases h
  | ok a => exact ⟨a, rfl, h⟩

theorem choose_read_mirror_same (ms ms1 : mirror_sync_set) (sector : Nat) (r : Option Nat)
    (h : choose_read_mirror ms sector = Except.ok (r, ms1)) : same_legs ms ms1 := by
  unfold choose_read_mirror at h
  split at h
  · simp only [run_throw, run_pure] at h
    split_ifs at h
    all_goals first
      | (cases h; exact ⟨rfl, rfl⟩)
      | (obtain ⟨v, _, hv⟩ := run_bind_ok h
         split_ifs at hv <;> cases hv <;> exact ⟨rfl, rfl⟩)
  · exact rr_loop_same _ _ _ _ _ _ h
  · simp only [assert_bug_bind, run_pure] at h
    split_ifs at h
    all_goals first
      | (cases h; exact ⟨rfl, rfl⟩)
      | (obtain ⟨v, hg, hv⟩ := run_bind_ok h
         obtain ⟨c, ms2⟩ := v
         have hs := get_mirror_weight_max_live_same ms ms2 c hg
         split_ifs at hv <;> cases hv <;> exact hs)

theorem mirror_sync_map_same (ms ms1 : mirror_sync_set) (b b1 : bio) (r : Int)
    (req : Option dm_io_request)
    (h : mirror_sync_map ms b = Except.ok (r, ms1, b1, req)) : same_legs ms ms1 := by
  unfold mirror_sync_map at h
  simp only [run_pure, run_throw] at h
  split_ifs at h
  all_goals first
    | (cases h; exact ⟨rfl, rfl⟩)
    | (obtain ⟨v, hc, hv⟩ := run_bind_ok h
       obtain ⟨m, ms2⟩ := v
       have hs := choose_read_mirror_same _ _ _ _ hc
       cases m with
       | none =>
         simp only at hv
         split_ifs at hv <;> cases hv <;> exact ⟨hs.1, hs.2⟩
       | some mi =>
         simp only at hv
         split at hv
         · cases hv
         · obtain ⟨w, _, hw⟩ := run_bind_ok hv
           cases hw
           exact ⟨hs.1, hs.2⟩)

theorem FailSeq.same_right {a b c : mirror_sync_set} (h : FailSeq a b) (h2 : same_legs b c) :
    FailSeq a c := by
  cases h with
  | same _ h1 => exact FailSeq.same _ _ (same_legs_trans h1 h2)
  | fail ms1 _ m k h1 h3 => exact FailSeq.fail _ ms1 _ m k h1 (same_legs_trans h3 h2)

theorem FailSeq.trans {a b c : mirror_sync_set} (h1 : FailSeq a b) (h2 : FailSeq b c) :
    FailSeq a c := by
  induction h2 with
  | same _ h => exact h1.same_right h
  | fail ms1 _ m k _ h3 ih => exact FailSeq.fail _ ms1 _ m k ih h3

theorem write_callback_loop_fail_seq (error : Nat) (bmi : dms_bio_map_info) (idx : List Nat) :
    ∀ (ms ms1 : mirror_sync_set) (f f1 : Nat),
      write_callback_loop error bmi idx (ms, f) = Except.ok (ms1, f1) → FailSeq ms ms1 := by
  induction idx with
  | nil =>
    intro ms ms1 f f1 h
    cases h
    exact FailSeq.same _ _ (same_legs_refl _)
  | cons i rest ih =>
    intro ms ms1 f f1 h
    unfold write_callback_loop at h
    split_ifs at h
    · split at h
      · cases h
      · exact FailSeq.trans
          (FailSeq.fail _ ms _ _ _ (FailSeq.same _ _ (same_legs_refl _)) (same_legs_refl _))
          (ih _ _ _ _ h)
    · exact ih _ _ _ _ h

theorem write_callback_fail_seq (ms ms1 : mirror_sync_set) (error : Nat) (b b1 : bio) (ret : Int)
    (h : write_callback ms error b = Except.ok (ms1, b1, ret)) : FailSeq ms ms1 := by
  unfold write_callback at h
  split at h
  · cases h
  · simp only [run_pure] at h
    split_ifs at h
    all_goals first
      | (cases h; exact FailSeq.same _ _ (same_legs_refl _))
      | (obtain ⟨v, hc, hv⟩ := run_bind_ok h
         obtain ⟨ms2, nf⟩ := v
         have hs := write_callback_loop_fail_seq _ _ _ _ _ _ _ hc
         simp only at hv
         cases hv
         split_ifs <;> exact hs.same_right ⟨rfl, rfl⟩)

theorem queue_bio_same (ms : mirror_sync_set) (b : bio) : same_legs ms (queue_bio ms b) := by
  unfold queue_bio
  simp only
  split_ifs <;> exact ⟨rfl, rfl⟩

theorem read_callback_fail_seq (ms ms1 : mirror_sync_set) (error : Nat) (b b1 : bio)
    (ret : Option Int)
    (h : read_callback ms error b = Except.ok (ms1, b1, ret)) : FailSeq ms ms1 := by
  unfold read_callback at h
  split at h
  · cases h
  · simp only [run_pure, run_throw] at h
    split_ifs at h
    all_goals first
      | (cases h; exact FailSeq.same _ _ (same_legs_refl _))
      | (split at h
         · cases h
         · split_ifs at h
           all_goals
             cases h
             first
               | exact FailSeq.fail _ ms _ _ _ (FailSeq.same _ _ (same_legs_refl _))
                   (queue_bio_same _ _)
               | exact FailSeq.fail _ ms _ _ _ (FailSeq.same _ _ (same_legs_refl _))
                   ⟨rfl, rfl⟩)

theorem do_read_failures_same (bios : List bio) :
    ∀ (ms ms1 : mirror_sync_set) (reqs : List dm_io_request) (ended : List (bio × Int)),
      do_read_failures bios ms = Except.ok (ms1, reqs, ended) → same_legs ms ms1 := by
  induction bios with
  | nil => intro ms ms1 reqs ended h; cases h; exact same_legs_refl _
  | cons b rest ih =>
    intro ms ms1 reqs ended h
    unfold do_read_failures at h
    obtain ⟨b2, _, h⟩ := run_bind_ok h
    obtain ⟨_, _, h⟩ := run_bind_ok h
    obtain ⟨v, hc, h⟩ := run_bind_ok h
    obtain ⟨m, ms2⟩ := v
    have hs := choose_read_mirror_same _ _ _ _ hc
    cases m with
    | none =>
      simp only at h
      obtain ⟨w, hr, h⟩ := run_bind_ok h
      obtain ⟨ms3, reqs3, ended3⟩ := w
      have hi := ih _ _ _ _ hr
      cases h
      refine same_legs_trans hs (same_legs_trans ?_ hi)
      split_ifs <;> exact ⟨rfl, rfl⟩
    | some mi =>
      simp only at h
      split at h
      · cases h
      · obtain ⟨w, _, h⟩ := run_bind_ok h
        obtain ⟨w2, hr, h⟩ := run_bind_ok h
        obtain ⟨ms3, reqs3, ended3⟩ := w2
        have hi := ih _ _ _ _ hr
        cases h
        exact same_legs_trans hs hi

theorem main_mirror_syncd_same (ms ms1 : mirror_sync_set) (reqs : List dm_io_request)
    (ended : List (bio × Int))
    (h : main_mirror_syncd ms = Except.ok (ms1, reqs, ended)) : same_legs ms ms1 := by
  unfold main_mirror_syncd at h
  have := do_read_failures_same _ _ _ _ _ h
  exact ⟨this.1, this.2⟩

theorem end_io_all_same (ended : List (bio × Int)) :
    ∀ ms : mirror_sync_set, same_legs ms (end_io_all ended ms) := by
  induction ended with
  | nil => intro ms; exact same_legs_refl _
  | cons p rest ih =>
    intro ms
    obtain ⟨b, e⟩ := p
    unfold end_io_all
    refine same_legs_trans ?_ (ih _)
    unfold mirror_sync_end_io
    split_ifs <;> exact ⟨rfl, rfl⟩

theorem dev_weight_loop_same (value : Nat) (idx : List Nat) :
    ∀ (ms : mirror_sync_set) (maxi : Int), same_legs ms (dev_weight_loop value idx (ms, maxi)).1 := by
  induction idx with
  | nil => intro ms maxi; exact same_legs_refl _
  | cons i rest ih =>
    intro ms maxi
    have hi := ih { ms with mirror_weights := ms.mirror_weights.set i (wrap_int (value : Int)) }
    unfold dev_weight_loop
    simp only
    by_cases h1 : alive_at
        { ms with mirror_weights := ms.mirror_weights.set i (wrap_int (value : Int)) } i = true
    · rw [if_pos h1]; exact ⟨(hi _).1, (hi _).2⟩
    · rw [if_neg h1]
      by_cases h2 : maxi < 0
      · rw [if_pos h2]; exact ⟨(hi _).1, (hi _).2⟩
      · rw [if_neg h2]; exact ⟨(hi _).1, (hi _).2⟩

theorem message_set_weight_same (ms ms1 : mirror_sync_set) (a2 a3 : String) (r : Int)
    (h : message_set_weight ms a2 a3 = Except.ok (r, ms1)) : same_legs ms ms1 := by
  unfold message_set_weight at h
  split at h
  · cases h; exact ⟨rfl, rfl⟩
  · split_ifs at h
    · cases h; exact ⟨rfl, rfl⟩
    · split at h
      · cases h; exact ⟨rfl, rfl⟩
      · simp only [run_pure, assert_bug_bind] at h
        split_ifs at h
        all_goals (cases h; exact ⟨rfl, rfl⟩)

theorem message_check_data_mirror_all_same (ms ms1 : mirror_sync_set) (check : Bool)
    (a2 a3 : String) (r : Int)
    (h : message_check_data_mirror_all ms check a2 a3 = Except.ok (r, ms1)) :
    same_legs ms ms1 := by
  unfold message_check_data_mirror_all at h
  split_ifs at h
  all_goals (cases h; exact ⟨rfl, rfl⟩)

theorem message_check_data_mirror_block_same (ms ms1 : mirror_sync_set) (ti_len : Nat)
    (check : Bool) (a2 a3 : String) (r : Int)
    (h : message_check_data_mirror_block ms ti_len check a2 a3 = Except.ok (r, ms1)) :
    same_legs ms ms1 := by
  unfold message_check_data_mirror_block at h
  split at h
  · cases h; exact ⟨rfl, rfl⟩
  · split_ifs at h
    all_goals (cases h; exact ⟨rfl, rfl⟩)

theorem message_round_robin_same (ms ms1 : mirror_sync_set) (a2 a3 : String) (r : Int)
    (h : message_round_robin ms a2 a3 = Except.ok (r, ms1)) : same_legs ms ms1 := by
  unfold message_round_robin at h
  split_ifs at h
  · cases h; exact ⟨rfl, rfl⟩
  · split at h
    · cases h; exact ⟨rfl, rfl⟩
    · split_ifs at h
      all_goals (cases h; exact ⟨rfl, rfl⟩)

theorem message_logical_part_same (ms ms1 : mirror_sync_set) (a2 a3 : String) (r : Int)
    (h : message_logical_part ms a2 a3 = Except.ok (r, ms1)) : same_legs ms ms1 := by
  unfold message_logical_part at h
  split_ifs at h
  · cases h; exact ⟨rfl, rfl⟩
  · split at h
    · cases h; exact ⟨rfl, rfl⟩
    · split_ifs at h
      all_goals (cases h; exact ⟨rfl, rfl⟩)

theorem message_weighted_same (ms ms1 : mirror_sync_set) (a2 a3 : String) (r : Int)
    (h : message_weighted ms a2 a3 = Except.ok (r, ms1)) : same_legs ms ms1 := by
  unfold message_weighted at h
  simp only [run_pure, assert_bug_bind] at h
  split_ifs at h
  · cases h; exact ⟨rfl, rfl⟩
  · split at h
    · cases h; exact ⟨rfl, rfl⟩
    · split_ifs at h
      · cases h; exact ⟨rfl, rfl⟩
      · cases h
        have := dev_weight_loop_same ‹Nat› (List.range ms.nr_mirrors) ms (-1)
        exact ⟨this.1, this.2⟩

theorem mirror_sync_message_same (ms ms1 : mirror_sync_set) (ti_len : Nat) (check : Bool)
    (argv : List String) (r : Int)
    (h : mirror_sync_message ms ti_len check argv = Except.ok (r, ms1)) : same_legs ms ms1 := by
  unfold mirror_sync_message at h
  split at h
  · split_ifs at h
    all_goals first
      | (cases h; exact ⟨rfl, rfl⟩)
      | exact message_set_weight_same _ _ _ _ _ h
      | exact message_check_data_mirror_all_same _ _ _ _ _ _ h
      | exact message_check_data_mirror_block_same _ _ _ _ _ _ _ h
      | exact message_round_robin_same _ _ _ _ _ h
      | exact message_logical_part_same _ _ _ _ _ h
      | exact message_weighted_same _ _ _ _ _ h
  · cases h; exact ⟨rfl, rfl⟩

theorem alloc_mirror_sync_set_legs (n b : Nat) (ms : mirror_sync_set)
    (h : alloc_mirror_sync_set n b = Except.ok ms) :
    ms.mirror = List.replicate n (mirror.mk 0 0 "" 0) ∧ ms.default_mirror = some 0 := by
  unfold alloc_mirror_sync_set at h
  simp only [assert_bug_bind, run_pure] at h
  split_ifs at h
  obtain ⟨v, hg, hv⟩ := run_bind_ok h
  obtain ⟨c, ms2⟩ := v
  have hs := get_mirror_weight_max_live_same _ _ _ hg
  cases hv
  exact ⟨hs.1, hs.2⟩

theorem ctr_get_mirrors_legs (legs : List (String × Nat)) :
    ∀ (m : Nat) (ms : mirror_sync_set), all_alive ms →
      all_alive (ctr_get_mirrors legs m ms) ∧
      (ctr_get_mirrors legs m ms).mirror.length = ms.mirror.length ∧
      (ctr_get_mirrors legs m ms).default_mirror = ms.default_mirror := by
  induction legs with
  | nil => intro m ms h; exact ⟨h, rfl, rfl⟩
  | cons p rest ih =>
    intro m ms h
    obtain ⟨dev, off⟩ := p
    unfold ctr_get_mirrors
    have h1 : all_alive (get_mirror ms m dev off) := by
      intro mr hmr
      unfold get_mirror at hmr
      rcases List.mem_or_eq_of_mem_set hmr with h2 | h2
      · exact h mr h2
      · subst h2; simp [mirror_is_alive, test_bit, dm_raid1_error.toNat]
    obtain ⟨i1, i2, i3⟩ := ih (m + 1) (get_mirror ms m dev off) h1
    refine ⟨i1, ?_, ?_⟩
    · rw [i2]; simp [get_mirror]
    · rw [i3]; rfl

theorem preserve_ms_params_on_reconfig_same (newms ms1 : mirror_sync_set)
    (oldms : Option mirror_sync_set)
    (h : preserve_ms_params_on_reconfig newms oldms = Except.ok ms1) : same_legs newms ms1 := by
  unfold preserve_ms_params_on_reconfig at h
  split at h
  · cases h; exact ⟨rfl, rfl⟩
  · obtain ⟨v, hg, hv⟩ := run_bind_ok h
    obtain ⟨c, ms2⟩ := v
    have hs := get_mirror_weight_max_live_same _ _ _ hg
    cases hv
    exact ⟨hs.1, hs.2⟩

theorem ctr_weight_loop1_same (w : Nat) (idx : List Nat) :
    ∀ (ms : mirror_sync_set) (maxi max : Int),
      same_legs ms (ctr_weight_loop1 w idx (ms, maxi, max)).1 := by
  induction idx with
  | nil => intro ms maxi max; exact same_legs_refl _
  | cons i rest ih =>
    intro ms maxi max
    have hi := ih { ms with mirror_weights := ms.mirror_weights.set i (wrap_int (w : Int)) }
    unfold ctr_weight_loop1
    simp only
    by_cases h1 : alive_at
        { ms with mirror_weights := ms.mirror_weights.set i (wrap_int (w : Int)) } i = true
    · rw [if_pos h1]; exact ⟨(hi _ _).1, (hi _ _).2⟩
    · rw [if_neg h1]; exact ⟨(hi _ _).1, (hi _ _).2⟩

theorem ctr_read_policy_same (ms : mirror_sync_set) (rp : read_policy_params) :
    same_legs ms (ctr_read_policy ms rp) := by
  unfold ctr_read_policy
  split_ifs
  · split
    all_goals first
      | exact ⟨rfl, rfl⟩
      | (have h1 := ctr_weight_loop1_same rp.rparg0 (List.range ms.nr_mirrors) ms (-1) (-1)
         rcases hl : ctr_weight_loop1 rp.rparg0 (List.range ms.nr_mirrors) (ms, -1, -1)
           with ⟨ms1, maxi, max⟩
         rw [hl] at h1
         simp only
         split_ifs <;> exact ⟨h1.1, h1.2⟩)
  · exact same_legs_refl _

theorem all_alive_replicate (n : Nat) (ms : mirror_sync_set)
    (h : ms.mirror = List.replicate n (mirror.mk 0 0 "" 0)) : all_alive ms := by
  intro mr hmr
  rw [h] at hmr
  rw [(List.mem_replicate.mp hmr).2]
  simp [mirror_is_alive, test_bit, dm_raid1_error.toNat]

theorem all_alive_congr (ms ms1 : mirror_sync_set) (h : ms1.mirror = ms.mirror)
    (ha : all_alive ms) : all_alive ms1 := by
  intro mr hmr; rw [h] at hmr; exact ha mr hmr

theorem mirror_sync_ctr_legs (rp : read_policy_params) (legs : List (String × Nat))
    (ti_begin : Nat) (mdname : String) (oldms : Option mirror_sync_set) (ms : mirror_sync_set)
    (h : mirror_sync_ctr rp legs ti_begin mdname oldms = Except.ok (some ms)) :
    all_alive ms ∧ ms.default_mirror = some 0 ∧ 2 ≤ ms.nr_mirrors ∧
      ms.nr_mirrors ≤ MAX_MIRRORS := by
  unfold mirror_sync_ctr at h
  simp only [run_pure] at h
  by_cases hn : legs.length < 2 ∨ legs.length > MAX_MIRRORS
  · rw [if_pos hn] at h
    cases h
  · rw [if_neg hn] at h
    obtain ⟨ms_a, ha, h⟩ := run_bind_ok h
    obtain ⟨ms_p, hp, h⟩ := run_bind_ok h
    cases h
    obtain ⟨ha1, ha2⟩ := alloc_mirror_sync_set_legs _ _ _ ha
    obtain ⟨g1, g2, g3⟩ := ctr_get_mirrors_legs legs 0 ms_a (all_alive_replicate _ _ ha1)
    have hp1 := preserve_ms_params_on_reconfig_same _ _ _ hp
    have hr := ctr_read_policy_same ms_p rp
    have hmir : (ctr_read_policy ms_p rp).mirror = (ctr_get_mirrors legs 0 ms_a).mirror := by
      rw [hr.1, hp1.1]
    have hlen : (ctr_read_policy ms_p rp).nr_mirrors = legs.length := by
      unfold mirror_sync_set.nr_mirrors
      rw [hmir, g2, ha1, List.length_replicate]
    refine ⟨all_alive_congr _ _ hmir g1, ?_, ?_, ?_⟩
    · rw [hr.2, hp1.2]
      exact g3.trans ha2
    · rw [hlen]; omega
    · rw [hlen]; omega

theorem all_alive_at (ms : mirror_sync_set) (h : all_alive ms) (i : Nat)
    (hi : i < ms.nr_mirrors) : alive_at ms i = true := by
  unfold alive_at
  have hi1 : i < ms.mirror.length := hi
  have hget : ms.mirror[i]? = some ms.mirror[i] := List.getElem?_eq_getElem hi1
  rw [hget]
  exact h _ (List.getElem_mem hi1)

theorem default_ok_congr (ms ms1 : mirror_sync_set) (h : same_legs ms ms1)
    (hd : default_ok ms) : default_ok ms1 := by
  obtain ⟨d, h1, h2, h3⟩ := hd
  refine ⟨d, h.2.trans h1, ?_, ?_⟩
  · unfold mirror_sync_set.nr_mirrors; rw [h.1]; exact h2
  · rw [alive_at_congr ms ms1 h.1]; exact h3

theorem fail_mirror_nr_mirrors (ms : mirror_sync_set) (m : Nat) (k : dm_raid1_error) :
    (fail_mirror ms m k).nr_mirrors = ms.nr_mirrors := by
  cases hm : ms.mirror[m]? with
  | none => rw [fail_mirror_noop ms m k (by intro mr h; rw [hm] at h; exact absurd h (by simp))]
  | some mr =>
    cases hb : test_bit k.toNat mr.error_type with
    | true => rw [fail_mirror_noop ms m k (by intro mr1 h; rw [hm] at h; cases h; exact hb)]
    | false =>
      unfold mirror_sync_set.nr_mirrors
      rw [(fail_mirror_mirror ms m k mr hm hb).1, List.length_set]

theorem fail_mirror_alive_other (ms : mirror_sync_set) (m : Nat) (k : dm_raid1_error) (j : Nat)
    (hj : j ≠ m) : alive_at (fail_mirror ms m k) j = alive_at ms j := by
  unfold alive_at
  rw [fail_mirror_other_leg ms m k j hj]

theorem fail_mirror_dead_stays (ms : mirror_sync_set) (m : Nat) (k : dm_raid1_error) (j : Nat)
    (h : alive_at ms j = false) : alive_at (fail_mirror ms m k) j = false := by
  by_cases hj : j = m
  · subst hj
    cases hm : ms.mirror[j]? with
    | none => rw [fail_mirror_noop ms j k (by intro mr h; rw [hm] at h; exact absurd h (by simp))]; exact h
    | some mr =>
      cases hb : test_bit k.toNat mr.error_type with
      | true =>
        rw [fail_mirror_noop ms j k (by intro mr1 h; rw [hm] at h; cases h; exact hb)]; exact h
      | false =>
        unfold alive_at
        rw [(fail_mirror_mirror ms j k mr hm hb).1,
          List.getElem?_set_self (List.getElem?_eq_some.mp hm).1]
        exact failed_not_alive mr k
  · rw [fail_mirror_alive_other ms m k j hj]; exact h

theorem fail_mirror_default_ok (ms : mirror_sync_set) (m : Nat) (k : dm_raid1_error)
    (h : default_ok ms) : default_ok (fail_mirror ms m k) := by
  obtain ⟨d, hd, hlt, hal⟩ := h
  cases hm : ms.mirror[m]? with
  | none =>
    rw [fail_mirror_noop ms m k (by intro mr h; rw [hm] at h; exact absurd h (by simp))]
    exact ⟨d, hd, hlt, hal⟩
  | some mr =>
    cases hb : test_bit k.toNat mr.error_type with
    | true =>
      rw [fail_mirror_noop ms m k (by intro mr1 h; rw [hm] at h; cases h; exact hb)]
      exact ⟨d, hd, hlt, hal⟩
    | false =>
      have hdef := fail_mirror_default ms m k mr hm hb
      rw [hd] at hdef
      by_cases hmd : m = d
      · subst hmd
        simp only [if_true] at hdef
        cases hg : get_valid_mirror (fail_mirror ms m k) with
        | none =>
          rw [hg] at hdef
          exact ⟨m, hdef, by rw [fail_mirror_nr_mirrors]; exact hlt,
            Or.inr ((get_valid_mirror_none _).mp hg)⟩
        | some new =>
          rw [hg] at hdef
          have hn := (get_valid_mirror_some _ new).mp hg
          exact ⟨new, hdef, alive_at_lt _ _ hn.1, Or.inl hn.1⟩
      · have hne : ¬ (some m = some d) := by simpa using hmd
        simp only [hne, if_false] at hdef
        refine ⟨d, hdef, by rw [fail_mirror_nr_mirrors]; exact hlt, ?_⟩
        rcases hal with hal | hal
        · left
          rw [fail_mirror_alive_other ms m k d (fun e => hmd e.symm)]
          exact hal
        · right
          intro i
          exact fail_mirror_dead_stays ms m k i (hal i)

theorem FailSeq.keeps_default_ok {ms ms1 : mirror_sync_set} (h : FailSeq ms ms1)
    (hd : DMS.default_ok ms) : DMS.default_ok ms1 := by
  induction h with
  | same _ h => exact default_ok_congr _ _ h hd
  | fail ms2 _ m k _ h2 ih => exact default_ok_congr _ _ h2 (fail_mirror_default_ok ms2 m k ih)

theorem Step.fail_seq {s t : dms_system} (h : Step s t) : FailSeq s.ms t.ms := by
  cases h with
  | map b r ms1 b1 req hb h => exact FailSeq.same _ _ (mirror_sync_map_same _ _ _ _ _ _ h)
  | write_done k req error ms1 b1 ret hk hn h =>
    refine (write_callback_fail_seq _ _ _ _ _ _ h).same_right ?_
    unfold mirror_sync_end_io
    split_ifs <;> exact ⟨rfl, rfl⟩
  | read_done k req error ms1 b1 ret hk hn h =>
    refine (read_callback_fail_seq _ _ _ _ _ _ h).same_right ?_
    unfold mirror_sync_end_io
    split_ifs <;> exact ⟨rfl, rfl⟩
  | read_retry k req error ms1 b1 hk hn h => exact read_callback_fail_seq _ _ _ _ _ _ h
  | worker ms1 reqs ended h =>
    exact FailSeq.same _ _
      (same_legs_trans (main_mirror_syncd_same _ _ _ _ h) (end_io_all_same _ _))
  | message ti_len check argv r ms1 h =>
    exact FailSeq.same _ _ (mirror_sync_message_same _ _ _ _ _ _ h)
  | status => exact FailSeq.same _ _ ⟨rfl, rfl⟩
  | presuspend => exact FailSeq.same _ _ ⟨rfl, rfl⟩
  | postsuspend => exact FailSeq.same _ _ ⟨rfl, rfl⟩
  | resume => exact FailSeq.same _ _ ⟨rfl, rfl⟩

theorem Reachable.has_default_ok {s : dms_system} (h : Reachable s) : DMS.default_ok s.ms := by
  induction h with
  | ctr rp legs ti_begin mdname oldms ms hrp h =>
    obtain ⟨h1, h2, h3, _⟩ := mirror_sync_ctr_legs _ _ _ _ _ _ h
    have h0 : 0 < ms.nr_mirrors := by omega
    exact ⟨0, h2, h0, Or.inl (all_alive_at ms h1 0 h0)⟩
  | step s t _ hst ih => exact hst.fail_seq.keeps_default_ok ih

theorem legs_mono_of_same (ms ms1 : mirror_sync_set) (h : same_legs ms ms1) :
    legs_mono ms ms1 := by
  intro i
  refine ⟨?_, ?_⟩
  · rw [alive_at_congr ms ms1 h.1]; exact id
  · intro mr hmr
    exact ⟨mr, by rw [h.1]; exact hmr, fun _ hb => hb, le_refl _⟩

theorem legs_mono_trans {a b c : mirror_sync_set} (h1 : legs_mono a b) (h2 : legs_mono b c) :
    legs_mono a c := by
  intro i
  refine ⟨fun h => (h2 i).1 ((h1 i).1 h), ?_⟩
  intro mr hmr
  obtain ⟨mr1, e1, b1, c1⟩ := (h1 i).2 mr hmr
  obtain ⟨mr2, e2, b2, c2⟩ := (h2 i).2 mr1 e1
  exact ⟨mr2, e2, fun bit hb => b2 bit (b1 bit hb), le_trans c1 c2⟩

theorem fail_mirror_legs_mono (ms : mirror_sync_set) (m : Nat) (k : dm_raid1_error) :
    legs_mono ms (fail_mirror ms m k) := by
  intro i
  refine ⟨fail_mirror_dead_stays ms m k i, ?_⟩
  intro mr hmr
  by_cases hi : i = m
  · subst hi
    cases hb : test_bit k.toNat mr.error_type with
    | true =>
      rw [fail_mirror_noop ms i k (by intro mr1 h; rw [hmr] at h; cases h; exact hb)]
      exact ⟨mr, hmr, fun _ h => h, le_refl _⟩
    | false =>
      refine ⟨failed_mirror mr k, ?_, ?_, ?_⟩
      · rw [(fail_mirror_mirror ms i k mr hmr hb).1,
          List.getElem?_set_self (List.getElem?_eq_some.mp hmr).1]
      · intro bit hbit
        simp [failed_mirror, test_bit_set_bit, hbit]
      · simp only [failed_mirror]
        split_ifs <;> omega
  · rw [fail_mirror_other_leg ms m k i hi]
    exact ⟨mr, hmr, fun _ h => h, le_refl _⟩

theorem FailSeq.keeps_legs_mono {ms ms1 : mirror_sync_set} (h : FailSeq ms ms1) :
    DMS.legs_mono ms ms1 := by
  induction h with
  | same _ h => exact legs_mono_of_same _ _ h
  | fail ms2 _ m k _ h2 ih =>
    exact legs_mono_trans ih (legs_mono_trans (fail_mirror_legs_mono ms2 m k)
      (legs_mono_of_same _ _ h2))


theorem write_async_bios_issued (ms : mirror_sync_set) (b b1 : bio) (r : Int)
    (req : dm_io_request)
    (hn : ms.nr_mirrors ≤ MAX_MIRRORS) (hwm : b.per_bio_data.bmi_wm.length = MAX_MIRRORS)
    (h : write_async_bios ms b = (r, b1, some req)) : write_req_ok req := by
  have hlen : 0 + ((List.range ms.nr_mirrors).filter (alive_at ms)).length ≤
      b.per_bio_data.bmi_wm.length := by
    have := List.length_filter_le (alive_at ms) (List.range ms.nr_mirrors)
    simp only [List.length_range] at this
    omega
  obtain ⟨_, h2, h3, _⟩ := write_async_loop_spec ms b (List.range ms.nr_mirrors) []
    b.per_bio_data.bmi_wm 0 hlen
  unfold write_async_bios at h
  rcases hr : write_async_loop ms b (List.range ms.nr_mirrors) ([], b.per_bio_data.bmi_wm, 0)
    with ⟨io, wm, k⟩
  rw [hr] at h h2 h3
  simp only [Nat.zero_add, List.take_zero, List.nil_append] at h2 h3
  simp only at h
  by_cases hk : k = 0
  · rw [if_pos hk] at h
    cases h
  · rw [if_neg hk] at h
    simp only [Prod.mk.injEq, Option.some.injEq] at h
    obtain ⟨_, _, hreq⟩ := h
    subst hreq
    intro _
    refine ⟨rfl, ?_, ?_⟩
    · show 1 ≤ k
      omega
    · intro i hi
      have hi2 : i < k := hi
      have hget : (wm.take k)[i]? = wm[i]? := List.getElem?_take_of_lt hi2
      rw [h2, h3, List.getElem?_map] at hget
      have hil : i < ((List.range ms.nr_mirrors).filter (alive_at ms)).length := by
        rw [← h2]; exact hi2
      rw [List.getElem?_eq_getElem hil] at hget
      refine ⟨((List.range ms.nr_mirrors).filter (alive_at ms))[i], ?_⟩
      show wm.getD i none = _
      rw [List.getD_eq_getElem?_getD, ← hget]
      rfl

theorem read_async_bio_notify (ms : mirror_sync_set) (b b1 : bio) (req : dm_io_request)
    (h : read_async_bio ms b = Except.ok (b1, req)) : req.notify = notify_fn.read_callback := by
  unfold read_async_bio at h
  split at h
  · cases h
  · split at h
    · cases h
    · cases h; rfl

theorem write_req_ok_of_read (req : dm_io_request)
    (h : req.notify = notify_fn.read_callback) : write_req_ok req := by
  intro hw
  rw [h] at hw
  cases hw

theorem mirror_sync_map_issued (ms ms1 : mirror_sync_set) (b b1 : bio) (r : Int)
    (req : dm_io_request)
    (hn : ms.nr_mirrors ≤ MAX_MIRRORS) (hwm : b.per_bio_data.bmi_wm.length = MAX_MIRRORS)
    (h : mirror_sync_map ms b = Except.ok (r, ms1, b1, some req)) : write_req_ok req := by
  unfold mirror_sync_map at h
  simp only [run_pure, run_throw] at h
  split_ifs at h
  all_goals first
    | (cases h)
    | (simp only [Except.ok.injEq, Prod.mk.injEq] at h
       obtain ⟨_, _, _, hreq⟩ := h
       exact write_async_bios_issued
         { ms with write_ios_total := atomic_inc ms.write_ios_total }
         { b with per_bio_data :=
             { b.per_bio_data with bmi_bd := dm_bio_record b, bmi_m := ms.default_mirror } }
         _ _ _ hn hwm (by rw [← hreq]))
    | (obtain ⟨v, hc, hv⟩ := run_bind_ok h
       obtain ⟨m, ms2⟩ := v
       cases m with
       | none =>
         simp only at hv
         split_ifs at hv <;> cases hv
       | some mi =>
         simp only at hv
         split at hv
         · cases hv
         · obtain ⟨w, hra, hw⟩ := run_bind_ok hv
           cases hw
           exact write_req_ok_of_read _ (read_async_bio_notify _ _ _ _ hra))

theorem do_read_failures_reqs (bios : List bio) :
    ∀ (ms ms1 : mirror_sync_set) (reqs : List dm_io_request) (ended : List (bio × Int)),
      do_read_failures bios ms = Except.ok (ms1, reqs, ended) →
      ∀ req, req ∈ reqs → req.notify = notify_fn.read_callback := by
  induction bios with
  | nil => intro ms ms1 reqs ended h; cases h; intro req hreq; cases hreq
  | cons b rest ih =>
    intro ms ms1 reqs ended h
    unfold do_read_failures at h
    obtain ⟨b2, _, h⟩ := run_bind_ok h
    obtain ⟨_, _, h⟩ := run_bind_ok h
    obtain ⟨v, hc, h⟩ := run_bind_ok h
    obtain ⟨m, ms2⟩ := v
    cases m with
    | none =>
      simp only at h
      obtain ⟨w, hr, h⟩ := run_bind_ok h
      obtain ⟨ms3, reqs3, ended3⟩ := w
      cases h
      exact ih _ _ _ _ hr
    | some mi =>
      simp only at h
      split at h
      · cases h
      · obtain ⟨w, hra, h⟩ := run_bind_ok h
        obtain ⟨w2, hr, h⟩ := run_bind_ok h
        obtain ⟨ms3, reqs3, ended3⟩ := w2
        cases h
        intro req hreq
        rcases List.mem_cons.mp hreq with e | e
        · rw [e]; exact read_async_bio_notify _ _ _ _ hra
        · exact ih _ _ _ _ hr req e

theorem FailSeq.nr_mirrors_eq {ms ms1 : mirror_sync_set} (h : FailSeq ms ms1) :
    ms1.nr_mirrors = ms.nr_mirrors := by
  induction h with
  | same _ h => unfold mirror_sync_set.nr_mirrors; rw [h.1]
  | fail ms2 ms3 m k _ h2 ih =>
    rw [← ih, ← fail_mirror_nr_mirrors ms2 m k]
    unfold mirror_sync_set.nr_mirrors; rw [h2.1]

theorem Reachable.in_flight_ok {s : dms_system} (h : Reachable s) :
    s.ms.nr_mirrors ≤ MAX_MIRRORS ∧ ∀ req, req ∈ s.in_flight → write_req_ok req := by
  induction h with
  | ctr rp legs ti_begin mdname oldms ms hrp h =>
    obtain ⟨_, _, _, h4⟩ := mirror_sync_ctr_legs _ _ _ _ _ _ h
    exact ⟨h4, fun req hreq => by cases hreq⟩
  | step s t _ hst ih =>
    obtain ⟨ihn, ihf⟩ := ih
    refine ⟨by rw [hst.fail_seq.nr_mirrors_eq]; exact ihn, ?_⟩
    cases hst with
    | map b r ms1 b1 req hb h =>
      intro rq hrq
      rcases List.mem_append.mp hrq with e | e
      · exact ihf rq e
      · cases req with
        | none => cases e
        | some q =>
          have : rq = q := by simpa using e
          rw [this]
          exact mirror_sync_map_issued _ _ _ _ _ _ ihn hb h
    | write_done k req error ms1 b1 ret hk hn h =>
      exact fun rq hrq => ihf rq (List.mem_of_mem_eraseIdx hrq)
    | read_done k req error ms1 b1 ret hk hn h =>
      exact fun rq hrq => ihf rq (List.mem_of_mem_eraseIdx hrq)
    | read_retry k req error ms1 b1 hk hn h =>
      exact fun rq hrq => ihf rq (List.mem_of_mem_eraseIdx hrq)
    | worker ms1 reqs ended h =>
      intro rq hrq
      rcases List.mem_append.mp hrq with e | e
      · exact ihf rq e
      · exact write_req_ok_of_read _ (do_read_failures_reqs _ _ _ _ _ h rq e)
    | message ti_len check argv r ms1 h => exact ihf
    | status => exact ihf
    | presuspend => exact ihf
    | postsuspend => exact ihf
    | resume => exact ihf
end DMS

namespace DMS

/-! ## reachable example states -/

theorem two_legs_reachable : Reachable { ms := two_legs, in_flight := [], ended := [] } :=
  Reachable.ctr rp_core [("a", 0), ("b", 0)] 0 "253:0" none two_legs rfl rfl

theorem two_legs_written_reachable :
    Reachable { ms := two_legs_written, in_flight := [issued_req], ended := [] } :=
  Reachable.step _ _ two_legs_reachable
    (Step.map { ms := two_legs, in_flight := [], ended := [] } (write_bio 100 4096) 0
      two_legs_written issued_bio (some issued_req) rfl rfl)

theorem two_legs_dead_reachable :
    Reachable { ms := two_legs_dead, in_flight := [],
                ended := [(bio_set_m issued_bio false, - EIO)] } :=
  Reachable.step _ _ two_legs_written_reachable
    (Step.write_done { ms := two_legs_written, in_flight := [issued_req], ended := [] } 0
      issued_req 3 { two_legs_dead with write_ios_pending := 1 } (bio_set_m issued_bio false)
      (- EIO) rfl rfl rfl)

theorem weighted_leg0_dead_reachable :
    Reachable { ms := weighted_leg0_dead, in_flight := [],
                ended := [(bio_set_m issued_bio false, 0)] } :=
  Reachable.step _ _
    (Reachable.step _ _
      (Reachable.ctr rp_weighted [("a", 0), ("b", 0)] 0 "253:0" none weighted_legs rfl rfl)
      (Step.map { ms := weighted_legs, in_flight := [], ended := [] } (write_bio 100 4096) 0
        weighted_written issued_bio (some issued_req) rfl rfl))
    (Step.write_done { ms := weighted_written, in_flight := [issued_req], ended := [] } 0
      issued_req 1 { weighted_leg0_dead with write_ios_pending := 1 }
      (bio_set_m issued_bio false) 0 rfl rfl rfl)

theorem three_legs_leg0_dead_reachable :
    Reachable { ms := three_legs_leg0_dead, in_flight := [issued_req_12],
                ended := [(bio_set_m issued_bio_012 false, 0)] } :=
  Reachable.step _ _
    (Reachable.step _ _
      (Reachable.step _ _
        (Reachable.ctr rp_core [("a", 0), ("b", 8), ("c", 16)] 0 "253:0" none three_legs rfl rfl)
        (Step.map { ms := three_legs, in_flight := [], ended := [] } (write_bio 100 4096) 0
          three_legs_written issued_bio_012 (some issued_req_012) rfl rfl))
      (Step.write_done { ms := three_legs_written, in_flight := [issued_req_012], ended := [] } 0
        issued_req_012 1
        { three_legs_leg0_dead with write_ios_total := 1, write_ios_pending := 1 }
        (bio_set_m issued_bio_012 false) 0 rfl rfl rfl))
    (Step.map
      { ms := { three_legs_leg0_dead with write_ios_total := 1, write_ios_pending := 0 },
        in_flight := [], ended := [(bio_set_m issued_bio_012 false, 0)] }
      (write_bio 100 4096) 0 three_legs_leg0_dead issued_bio_12 (some issued_req_12) rfl rfl)

theorem chunk_big_legs_reachable :
    Reachable { ms := chunk_big_legs, in_flight := [], ended := [] } :=
  Reachable.ctr rp_chunk_big [("a", 0), ("b", 0), ("c", 0), ("d", 0)] 0 "253:0" none
    chunk_big_legs rfl rfl

/-! ## the claims -/

/-- C1 (code defect).  `choose_read_mirror` can return a dead leg: in the
reachable two-leg state `weighted_leg0_dead` (weighted policy, leg 0 dead, leg
1 alive, cached index on leg 0) it returns leg 0, which is dead when it
returns; the only effect of the recomputation is the new cached index. -/
theorem choose_read_mirror_weighted_returns_dead_leg :
    Reachable { ms := weighted_leg0_dead, in_flight := [],
                ended := [(bio_set_m issued_bio false, 0)] } ∧
    weighted_leg0_dead.rdpolicy = dms_read_policy.DMS_CUSTOM_WEIGHTED ∧
    choose_read_mirror weighted_leg0_dead 0 =
      Except.ok (some 0, { weighted_leg0_dead with mirror_weight_max_live := 1 }) ∧
    alive_at { weighted_leg0_dead with mirror_weight_max_live := 1 } 0 = false ∧
    alive_at { weighted_leg0_dead with mirror_weight_max_live := 1 } 1 = true :=
  ⟨weighted_leg0_dead_reachable, rfl, rfl, rfl, rfl⟩

/-- C2.  `write_async_bios` records in `bmi_wm[0..nr_live)` exactly the legs
alive at issue time, in ascending index order, sets `nr_live` to their number
and hands `dm_io` one region per such leg, each mapped by `map_region`; with
no alive leg it returns 0 and submits nothing, and `mirror_sync_map` returns
`- EIO` for the write. -/
theorem write_async_bios_live_legs (ms : mirror_sync_set) (b : bio)
    (hn : ms.nr_mirrors ≤ MAX_MIRRORS) (hwm : b.per_bio_data.bmi_wm.length = MAX_MIRRORS) :
    (live_legs ms ≠ [] →
      ∃ b1 req, write_async_bios ms b = (1, b1, some req) ∧
        b1.per_bio_data.nr_live = (live_legs ms).length ∧
        b1.per_bio_data.bmi_wm.take (live_legs ms).length =
          (live_legs ms).map some ∧
        req.regions = (live_legs ms).filterMap
          (fun i => (ms.mirror[i]?).map (fun m => map_region ms m b)) ∧
        req.regions.length = (live_legs ms).length ∧
        req.notify = notify_fn.write_callback ∧ req.context = b1) ∧
    (live_legs ms = [] →
      (∃ b1, write_async_bios ms b = (0, b1, none)) ∧
      (b.REQ_WRITE = true → b.REQ_RAHEAD = false →
        ∃ ms1 b1, mirror_sync_map ms b = Except.ok (- EIO, ms1, b1, none))) := by
  unfold live_legs
  constructor
  · intro hlive
    have hlen : 0 + ((List.range ms.nr_mirrors).filter (alive_at ms)).length ≤
        b.per_bio_data.bmi_wm.length := by
      have := List.length_filter_le (alive_at ms) (List.range ms.nr_mirrors)
      simp only [List.length_range] at this
      omega
    obtain ⟨h1, h2, h3, _⟩ := write_async_loop_spec ms b (List.range ms.nr_mirrors) []
      b.per_bio_data.bmi_wm 0 hlen
    have hpos : ((List.range ms.nr_mirrors).filter (alive_at ms)).length ≠ 0 := by
      intro h0; exact hlive (List.length_eq_zero.mp h0)
    unfold write_async_bios
    rcases hr : write_async_loop ms b (List.range ms.nr_mirrors) ([], b.per_bio_data.bmi_wm, 0)
      with ⟨io, wm, k⟩
    rw [hr] at h1 h2 h3
    simp only [Nat.zero_add, List.nil_append, List.take_zero] at h1 h2 h3
    subst h2
    simp only [hpos, if_false]
    refine ⟨_, _, rfl, rfl, h3, ?_, ?_, rfl, rfl⟩
    · simp only [h1]
      rw [← live_regions_length ms b, List.take_length]
    · simp only [h1]
      rw [← live_regions_length ms b, List.take_length]
  · intro hlive
    refine ⟨write_async_bios_dead ms b hlive, ?_⟩
    intro hw hra
    exact mirror_sync_map_write_dead ms b hlive hw hra

theorem write_async_bios_live_legs_witness :
    (three_legs_leg0_dead.nr_mirrors ≤ MAX_MIRRORS ∧
      (write_bio 100 4096).per_bio_data.bmi_wm.length = MAX_MIRRORS ∧
      live_legs three_legs_leg0_dead = [1, 2]) ∧
    ∃ b1 req, write_async_bios three_legs_leg0_dead (write_bio 100 4096) = (1, b1, some req) ∧
      b1.per_bio_data.nr_live = (live_legs three_legs_leg0_dead).length ∧
      b1.per_bio_data.bmi_wm.take (live_legs three_legs_leg0_dead).length =
        (live_legs three_legs_leg0_dead).map some ∧
      req.regions = (live_legs three_legs_leg0_dead).filterMap
        (fun i => (three_legs_leg0_dead.mirror[i]?).map
          (fun m => map_region three_legs_leg0_dead m (write_bio 100 4096))) ∧
      req.regions.length = (live_legs three_legs_leg0_dead).length ∧
      req.notify = notify_fn.write_callback ∧ req.context = b1 :=
  ⟨⟨by decide, rfl, rfl⟩,
    (write_async_bios_live_legs three_legs_leg0_dead (write_bio 100 4096) (by decide) rfl).1
      (by decide)⟩

/-- C3.  For every write request in flight in a reachable state that is not
a discard, the count `nr_live` recorded at issue time is at least 1, and for
every error bitmap `write_callback` completes and ends the bio with 0 when some
bit position below `nr_live` is clear in the bitmap and with `- EIO` when all
of them are set. -/
theorem write_callback_success_iff (s : dms_system) (hs : Reachable s) (req : dm_io_request)
    (hin : req ∈ s.in_flight) (hn : req.notify = notify_fn.write_callback)
    (hd : req.context.REQ_DISCARD = false) (error : Nat) :
    1 ≤ req.context.per_bio_data.nr_live ∧
    ∃ ms1 b1 ret, write_callback s.ms error req.context = Except.ok (ms1, b1, ret) ∧
      ((∃ i, i < req.context.per_bio_data.nr_live ∧ test_bit i error = false) → ret = 0) ∧
      ((∀ i, i < req.context.per_bio_data.nr_live → test_bit i error = true) →
        ret = - EIO) := by
  obtain ⟨hb, hl, hwm⟩ := hs.in_flight_ok.2 req hin hn
  obtain ⟨ms1, ret, h, _, _, _, hret⟩ := write_callback_eq s.ms error req.context hb hd hwm
  refine ⟨hl, ms1, _, ret, h, ?_, ?_⟩
  · rintro ⟨i, hi, hbit⟩
    rw [hret, if_pos]
    left
    have := (List.length_filter_lt_length_iff_exists
      (p := fun i => test_bit i error)
      (l := List.range req.context.per_bio_data.nr_live)).mpr
      ⟨i, List.mem_range.mpr hi, by simp [hbit]⟩
    simpa using this
  · intro hall
    rw [hret, if_neg]
    rintro (hlt | he)
    · have hlt2 : ((List.range req.context.per_bio_data.nr_live).filter
          (fun i => test_bit i error)).length
          < (List.range req.context.per_bio_data.nr_live).length := by simpa using hlt
      obtain ⟨i, hi, hbit⟩ := List.length_filter_lt_length_iff_exists.mp hlt2
      exact hbit (hall i (List.mem_range.mp hi))
    · have := hall 0 (by omega)
      rw [he] at this
      simp [test_bit] at this

theorem write_callback_success_iff_witness :
    (Reachable { ms := three_legs_leg0_dead, in_flight := [issued_req_12],
                 ended := [(bio_set_m issued_bio_012 false, 0)] } ∧
      issued_req_12.notify = notify_fn.write_callback ∧
      issued_req_12.context.REQ_DISCARD = false ∧
      write_callback three_legs_leg0_dead 1 issued_req_12.context =
        Except.ok (three_legs_leg1_failed, bio_set_m issued_bio_12 false, 0) ∧
      write_callback three_legs_leg0_dead 3 issued_req_12.context =
        Except.ok ({ three_legs_leg1_failed with
                     default_mirror := some 2, supress_err_messages := 1, events := 3,
                     mirror := [mirror.mk 1 7 "a" 0, mirror.mk 1 7 "b" 8, mirror.mk 1 7 "c" 16] },
                   bio_set_m issued_bio_12 false, - EIO)) ∧
    (1 ≤ issued_req_12.context.per_bio_data.nr_live ∧
      ∃ ms1 b1 ret,
        write_callback three_legs_leg0_dead 1 issued_req_12.context = Except.ok (ms1, b1, ret) ∧
        ((∃ i, i < issued_req_12.context.per_bio_data.nr_live ∧ test_bit i 1 = false) →
          ret = 0) ∧
        ((∀ i, i < issued_req_12.context.per_bio_data.nr_live → test_bit i 1 = true) →
          ret = - EIO)) :=
  ⟨⟨three_legs_leg0_dead_reachable, rfl, rfl, rfl, rfl⟩,
    write_callback_success_iff
      { ms := three_legs_leg0_dead, in_flight := [issued_req_12],
        ended := [(bio_set_m issued_bio_012 false, 0)] }
      three_legs_leg0_dead_reachable issued_req_12 (List.mem_singleton.mpr rfl) rfl rfl 1⟩

/-- C4.  For every write request in flight in a reachable state that is not
a discard, and every error bitmap, the legs `write_callback` gives to
`fail_mirror` are the entries `bmi_wm[i]` at the positions `i < nr_live` whose
bit is set in the bitmap, in that order (`failed_legs`): legs, default leg and
scheduled events are those of the set after these calls, and every leg outside
that list keeps its record. -/
theorem write_callback_failed_legs (s : dms_system) (hs : Reachable s) (req : dm_io_request)
    (hin : req ∈ s.in_flight) (hn : req.notify = notify_fn.write_callback)
    (hd : req.context.REQ_DISCARD = false) (error : Nat) :
    ∃ ms1 b1 ret, write_callback s.ms error req.context = Except.ok (ms1, b1, ret) ∧
      ms1.mirror = ((failed_legs error req.context.per_bio_data
          (List.range req.context.per_bio_data.nr_live)).foldl
        (fun t m => fail_mirror t m dm_raid1_error.DM_RAID1_WRITE_ERROR) s.ms).mirror ∧
      ms1.default_mirror = ((failed_legs error req.context.per_bio_data
          (List.range req.context.per_bio_data.nr_live)).foldl
        (fun t m => fail_mirror t m dm_raid1_error.DM_RAID1_WRITE_ERROR) s.ms).default_mirror ∧
      ms1.events = ((failed_legs error req.context.per_bio_data
          (List.range req.context.per_bio_data.nr_live)).foldl
        (fun t m => fail_mirror t m dm_raid1_error.DM_RAID1_WRITE_ERROR) s.ms).events ∧
      ∀ j, j ∉ failed_legs error req.context.per_bio_data
          (List.range req.context.per_bio_data.nr_live) →
        ms1.mirror[j]? = s.ms.mirror[j]? := by
  obtain ⟨hb, _, hwm⟩ := hs.in_flight_ok.2 req hin hn
  obtain ⟨ms1, ret, h, hm, hdm, hev, _⟩ := write_callback_eq s.ms error req.context hb hd hwm
  refine ⟨ms1, _, ret, h, hm, hdm, hev, ?_⟩
  intro j hj
  rw [hm]
  exact foldl_fail_mirror_other_leg _ _ s.ms j hj

theorem write_callback_failed_legs_witness :
    (Reachable { ms := three_legs_leg0_dead, in_flight := [issued_req_12],
                 ended := [(bio_set_m issued_bio_012 false, 0)] } ∧
      issued_req_12.notify = notify_fn.write_callback ∧
      issued_req_12.context.REQ_DISCARD = false ∧
      failed_legs 1 issued_req_12.context.per_bio_data
        (List.range issued_req_12.context.per_bio_data.nr_live) = [1] ∧
      write_callback three_legs_leg0_dead 1 issued_req_12.context =
        Except.ok (three_legs_leg1_failed, bio_set_m issued_bio_12 false, 0)) ∧
    ∃ ms1 b1 ret,
      write_callback three_legs_leg0_dead 1 issued_req_12.context = Except.ok (ms1, b1, ret) ∧
      ms1.mirror = ((failed_legs 1 issued_req_12.context.per_bio_data
          (List.range issued_req_12.context.per_bio_data.nr_live)).foldl
        (fun t m => fail_mirror t m dm_raid1_error.DM_RAID1_WRITE_ERROR)
          three_legs_leg0_dead).mirror ∧
      ms1.default_mirror = ((failed_legs 1 issued_req_12.context.per_bio_data
          (List.range issued_req_12.context.per_bio_data.nr_live)).foldl
        (fun t m => fail_mirror t m dm_raid1_error.DM_RAID1_WRITE_ERROR)
          three_legs_leg0_dead).default_mirror ∧
      ms1.events = ((failed_legs 1 issued_req_12.context.per_bio_data
          (List.range issued_req_12.context.per_bio_data.nr_live)).foldl
        (fun t m => fail_mirror t m dm_raid1_error.DM_RAID1_WRITE_ERROR)
          three_legs_leg0_dead).events ∧
      ∀ j, j ∉ failed_legs 1 issued_req_12.context.per_bio_data
          (List.range issued_req_12.context.per_bio_data.nr_live) →
        ms1.mirror[j]? = three_legs_leg0_dead.mirror[j]? :=
  ⟨⟨three_legs_leg0_dead_reachable, rfl, rfl, rfl, rfl⟩,
    write_callback_failed_legs
      { ms := three_legs_leg0_dead, in_flight := [issued_req_12],
        ended := [(bio_set_m issued_bio_012 false, 0)] }
      three_legs_leg0_dead_reachable issued_req_12 (List.mem_singleton.mpr rfl) rfl rfl 1⟩

/-- C5.  `fail_mirror` on an alive leg `m`, for each of the three error kinds,
sets the three error-type bits of `m` (the word is `0b111` when it holds
nothing but these flags), adds one to its `error_count`, schedules one event,
and leaves the record of every other leg as it was. -/
theorem fail_mirror_alive_leg (ms : mirror_sync_set) (m : Nat) (k : dm_raid1_error) (mr : mirror)
    (hm : ms.mirror[m]? = some mr) (halive : mirror_is_alive mr = true) :
    (∃ mr1, (fail_mirror ms m k).mirror[m]? = some mr1 ∧
      test_bit 0 mr1.error_type = true ∧ test_bit 1 mr1.error_type = true ∧
      test_bit 2 mr1.error_type = true ∧
      (mr.error_type < 8 → mr1.error_type = 7) ∧
      mr1.error_count = mr.error_count + 1) ∧
    (fail_mirror ms m k).events = ms.events + 1 ∧
    ∀ j, j ≠ m → (fail_mirror ms m k).mirror[j]? = ms.mirror[j]? := by
  have hb := alive_kind_bit mr halive k
  have hc := (alive_bits mr halive).2.2.2
  obtain ⟨h1, h2⟩ := fail_mirror_mirror ms m k mr hm hb
  refine ⟨⟨failed_mirror mr k, ?_, ?_, ?_, ?_, ?_, ?_⟩, h2,
    fun j hj => fail_mirror_other_leg ms m k j hj⟩
  · rw [h1, List.getElem?_set_self (List.getElem?_eq_some.mp hm).1]
  · simp [failed_mirror, dm_raid1_error.toNat, test_bit_set_bit]
  · simp [failed_mirror, dm_raid1_error.toNat, test_bit_set_bit]
  · simp [failed_mirror, dm_raid1_error.toNat, test_bit_set_bit]
  · intro hty
    have h8 := set_bits_lt_8 k.toNat mr.error_type (kind_lt_3 k) hty
    simp only [failed_mirror, dm_raid1_error.toNat] at h8 ⊢
    exact h8
  · simp [failed_mirror, hc, DMS_MAX_ERRORS]

theorem fail_mirror_alive_leg_witness :
    (two_legs.mirror[0]? = some (mirror.mk 0 0 "a" 0) ∧
      mirror_is_alive (mirror.mk 0 0 "a" 0) = true) ∧
    (∃ mr1, (fail_mirror two_legs 0 dm_raid1_error.DM_RAID1_READ_ERROR).mirror[0]? = some mr1 ∧
      test_bit 0 mr1.error_type = true ∧ test_bit 1 mr1.error_type = true ∧
      test_bit 2 mr1.error_type = true ∧
      ((mirror.mk 0 0 "a" 0).error_type < 8 → mr1.error_type = 7) ∧
      mr1.error_count = (mirror.mk 0 0 "a" 0).error_count + 1) ∧
    (fail_mirror two_legs 0 dm_raid1_error.DM_RAID1_READ_ERROR).events = two_legs.events + 1 ∧
    ∀ j, j ≠ 0 →
      (fail_mirror two_legs 0 dm_raid1_error.DM_RAID1_READ_ERROR).mirror[j]? =
        two_legs.mirror[j]? :=
  ⟨⟨rfl, rfl⟩,
    fail_mirror_alive_leg two_legs 0 dm_raid1_error.DM_RAID1_READ_ERROR (mirror.mk 0 0 "a" 0)
      rfl rfl⟩

/-- C6.  `fail_mirror` is idempotent: a second call for the same leg and
error kind right after the first returns the set unchanged, scheduled events
included. -/
theorem fail_mirror_idempotent (ms : mirror_sync_set) (m : Nat) (k : dm_raid1_error) :
    fail_mirror (fail_mirror ms m k) m k = fail_mirror ms m k :=
  fail_mirror_noop _ m k (fun mr1 h => fail_mirror_bit_set ms m k mr1 h)

/-- C7.  In a state whose default leg `d` is alive: `fail_mirror` on `d`
makes the alive leg of lowest index the default leg whenever a leg is still
alive afterwards, and `fail_mirror` on any other leg leaves the default leg
as it was. -/
theorem fail_mirror_default_leg (ms : mirror_sync_set) (m : Nat) (k : dm_raid1_error) (d : Nat)
    (hd : ms.default_mirror = some d) (hda : alive_at ms d = true) :
    (m = d → (∃ j, alive_at (fail_mirror ms m k) j = true) →
      ∃ new, (fail_mirror ms m k).default_mirror = some new ∧
        alive_at (fail_mirror ms m k) new = true ∧
        ∀ i, i < new → alive_at (fail_mirror ms m k) i = false) ∧
    (m ≠ d → (fail_mirror ms m k).default_mirror = ms.default_mirror) := by
  constructor
  · intro hmd hex
    subst hmd
    obtain ⟨mr, hm, hal⟩ := alive_at_some ms m hda
    have hbit := alive_kind_bit mr hal k
    rw [fail_mirror_default ms m k mr hm hbit, hd]
    simp only [if_true]
    cases hg : get_valid_mirror (fail_mirror ms m k) with
    | none =>
      obtain ⟨j, hj⟩ := hex
      rw [(get_valid_mirror_none _).mp hg j] at hj
      exact absurd hj (by simp)
    | some new =>
      exact ⟨new, rfl, (get_valid_mirror_some _ new).mp hg⟩
  · intro hmd
    cases hm : ms.mirror[m]? with
    | none => rw [fail_mirror_noop ms m k (by intro mr h; rw [hm] at h; exact absurd h (by simp))]
    | some mr =>
      cases hb : test_bit k.toNat mr.error_type with
      | true => rw [fail_mirror_noop ms m k (by intro mr1 h; rw [hm] at h; cases h; exact hb)]
      | false =>
        rw [fail_mirror_default ms m k mr hm hb, hd]
        have : ¬ (some m = some d) := by simpa using hmd
        simp only [this, if_false]

theorem fail_mirror_default_leg_witness :
    (two_legs.default_mirror = some 0 ∧ alive_at two_legs 0 = true) ∧
    ((0 = 0 → (∃ j, alive_at (fail_mirror two_legs 0 dm_raid1_error.DM_RAID1_WRITE_ERROR) j
          = true) →
      ∃ new, (fail_mirror two_legs 0 dm_raid1_error.DM_RAID1_WRITE_ERROR).default_mirror
          = some new ∧
        alive_at (fail_mirror two_legs 0 dm_raid1_error.DM_RAID1_WRITE_ERROR) new = true ∧
        ∀ i, i < new →
          alive_at (fail_mirror two_legs 0 dm_raid1_error.DM_RAID1_WRITE_ERROR) i = false) ∧
    (0 ≠ 0 → (fail_mirror two_legs 0 dm_raid1_error.DM_RAID1_WRITE_ERROR).default_mirror =
      two_legs.default_mirror)) :=
  ⟨⟨rfl, rfl⟩,
    fail_mirror_default_leg two_legs 0 dm_raid1_error.DM_RAID1_WRITE_ERROR 0 rfl rfl⟩

/-- C8 as stated fails.  After both legs of the two-leg set have failed
(`two_legs_dead`, reachable) the default pointer is leg 1, which is dead: it
is neither null nor on an alive leg; and the call of `fail_mirror` that kills
the last alive leg leaves the pointer on that leg. -/
theorem default_mirror_dead_not_null :
    Reachable { ms := two_legs_dead, in_flight := [],
                ended := [(bio_set_m issued_bio false, - EIO)] } ∧
    two_legs_dead.default_mirror = some 1 ∧ alive_at two_legs_dead 1 = false ∧
    alive_at two_legs_leg0_dead 1 = true ∧
    (fail_mirror two_legs_leg0_dead 1 dm_raid1_error.DM_RAID1_WRITE_ERROR).default_mirror
      = some 1 ∧
    (∀ i, alive_at
      (fail_mirror two_legs_leg0_dead 1 dm_raid1_error.DM_RAID1_WRITE_ERROR) i = false) ∧
    ¬ (∀ s : dms_system, Reachable s →
        s.ms.default_mirror = none ∨
        ∃ d, s.ms.default_mirror = some d ∧ alive_at s.ms d = true) := by
  refine ⟨two_legs_dead_reachable, rfl, rfl, rfl, rfl, ?_, ?_⟩
  · intro i
    rcases i with _ | _ | i
    · rfl
    · rfl
    · rfl
  · intro h
    rcases h _ two_legs_dead_reachable with h1 | ⟨d, h1, h2⟩
    · exact absurd h1 (by decide)
    · have hd : d = 1 := by
        have : some 1 = some d := h1
        injection this with e
        exact e.symm
      subst hd
      exact absurd h2 (by decide)

/-- C8 amended.  In every reachable state the default pointer is not null
and points into the leg array; the leg it points to is alive unless every leg
is dead; and a call of `fail_mirror` after which no leg is alive leaves the
pointer where it was. -/
theorem default_mirror_reachable (s : dms_system) (h : Reachable s) :
    (∃ d, s.ms.default_mirror = some d ∧ d < s.ms.nr_mirrors ∧
      (alive_at s.ms d = true ∨ ∀ i, alive_at s.ms i = false)) ∧
    ∀ m k, (∀ i, alive_at (fail_mirror s.ms m k) i = false) →
      (fail_mirror s.ms m k).default_mirror = s.ms.default_mirror := by
  refine ⟨h.has_default_ok, ?_⟩
  intro m k hdead
  cases hm : s.ms.mirror[m]? with
  | none => rw [fail_mirror_noop s.ms m k (by intro mr h; rw [hm] at h; exact absurd h (by simp))]
  | some mr =>
    cases hb : test_bit k.toNat mr.error_type with
    | true => rw [fail_mirror_noop s.ms m k (by intro mr1 h; rw [hm] at h; cases h; exact hb)]
    | false =>
      rw [fail_mirror_default s.ms m k mr hm hb, (get_valid_mirror_none _).mpr hdead]
      split_ifs <;> rfl

theorem default_mirror_reachable_witness :
    Reachable { ms := two_legs_dead, in_flight := [],
                ended := [(bio_set_m issued_bio false, - EIO)] } ∧
    (∃ d, two_legs_dead.default_mirror = some d ∧ d < two_legs_dead.nr_mirrors ∧
      (alive_at two_legs_dead d = true ∨ ∀ i, alive_at two_legs_dead i = false)) ∧
    ∀ m k, (∀ i, alive_at (fail_mirror two_legs_dead m k) i = false) →
      (fail_mirror two_legs_dead m k).default_mirror = two_legs_dead.default_mirror :=
  ⟨two_legs_dead_reachable,
    default_mirror_reachable
      { ms := two_legs_dead, in_flight := [], ended := [(bio_set_m issued_bio false, - EIO)] }
      two_legs_dead_reachable⟩

/-- C9.  Leg death is one-way: across every entry into the driver (map, a
write or read completion, the retry worker, a control message, status,
presuspend, postsuspend, resume) a dead leg stays dead, no bit of a leg's
`error_type` is cleared and no leg's `error_count` is lowered. -/
theorem step_leg_death_one_way (s t : dms_system) (h : Step s t) (i : Nat) :
    (alive_at s.ms i = false → alive_at t.ms i = false) ∧
    ∀ mr, s.ms.mirror[i]? = some mr → ∃ mr1, t.ms.mirror[i]? = some mr1 ∧
      (∀ bit, test_bit bit mr.error_type = true → test_bit bit mr1.error_type = true) ∧
      mr.error_count ≤ mr1.error_count :=
  h.fail_seq.keeps_legs_mono i

theorem step_leg_death_one_way_witness :
    (Step { ms := three_legs_leg0_dead, in_flight := [issued_req_12],
            ended := [(bio_set_m issued_bio_012 false, 0)] }
        { ms := { three_legs_leg1_failed with write_ios_pending := 0 }, in_flight := [],
          ended := [(bio_set_m issued_bio_012 false, 0), (bio_set_m issued_bio_12 false, 0)] } ∧
      alive_at three_legs_leg0_dead 0 = false ∧ alive_at three_legs_leg0_dead 1 = true ∧
      alive_at { three_legs_leg1_failed with write_ios_pending := 0 } 1 = false) ∧
    ((alive_at three_legs_leg0_dead 0 = false →
        alive_at { three_legs_leg1_failed with write_ios_pending := 0 } 0 = false) ∧
      ∀ mr, three_legs_leg0_dead.mirror[0]? = some mr →
        ∃ mr1, ({ three_legs_leg1_failed with write_ios_pending := 0 } :
            mirror_sync_set).mirror[0]? = some mr1 ∧
          (∀ bit, test_bit bit mr.error_type = true → test_bit bit mr1.error_type = true) ∧
          mr.error_count ≤ mr1.error_count) :=
  ⟨⟨Step.write_done
      { ms := three_legs_leg0_dead, in_flight := [issued_req_12],
        ended := [(bio_set_m issued_bio_012 false, 0)] }
      0 issued_req_12 1 three_legs_leg1_failed (bio_set_m issued_bio_12 false) 0 rfl rfl rfl,
    rfl, rfl, rfl⟩,
    step_leg_death_one_way
      { ms := three_legs_leg0_dead, in_flight := [issued_req_12],
        ended := [(bio_set_m issued_bio_012 false, 0)] }
      { ms := { three_legs_leg1_failed with write_ios_pending := 0 }, in_flight := [],
        ended := [(bio_set_m issued_bio_012 false, 0), (bio_set_m issued_bio_12 false, 0)] }
      (Step.write_done
        { ms := three_legs_leg0_dead, in_flight := [issued_req_12],
          ended := [(bio_set_m issued_bio_012 false, 0)] }
        0 issued_req_12 1 three_legs_leg1_failed (bio_set_m issued_bio_12 false) 0 rfl rfl rfl)
      0⟩

/-- The logical-partition selection for a chunk below 2^30 KiB: when leg
`(sector / (2 * k)) mod n` is alive `choose_read_mirror` returns it and leaves
the set as it was. -/
theorem choose_read_mirror_logical_partition (ms : mirror_sync_set) (k sector : Nat)
    (hp : ms.rdpolicy = dms_read_policy.DMS_LOGICAL_PARTITION)
    (hk : ms.lp_io_chunk = (k : Int)) (hk0 : 0 < k) (hk1 : k < 1073741824)
    (hn : 0 < ms.nr_mirrors)
    (halive : alive_at ms ((sector / (2 * k)) % ms.nr_mirrors) = true) :
    choose_read_mirror ms sector = Except.ok (some ((sector / (2 * k)) % ms.nr_mirrors), ms) := by
  have hd : wrap_u64 (wrap_int (ms.lp_io_chunk * 2)) = 2 * k := by
    rw [hk]
    unfold wrap_u64 wrap_int
    omega
  unfold choose_read_mirror
  simp only [hp, hd]
  have h1 : ¬ (2 * k = 0 ∨ ms.nr_mirrors = 0) := by omega
  rw [if_neg h1]
  simp [halive]
  rfl

/-- C10 (code defect).  The chunk 1073741824 KiB passes the validators of
the constructor and of the message handler, and `lic = chunk * 2` wraps to
-2147483648 in a 32-bit `int`: in the reachable four-leg state
`chunk_big_legs`, for sector 2147483648, the leg `(s / (2k)) mod n` is leg 1,
which is alive, and `choose_read_mirror` returns leg 0. -/
theorem choose_read_mirror_chunk_overflow :
    Reachable { ms := chunk_big_legs, in_flight := [], ended := [] } ∧
    chunk_big_legs.rdpolicy = dms_read_policy.DMS_LOGICAL_PARTITION ∧
    chunk_big_legs.lp_io_chunk = 1073741824 ∧
    (2147483648 / (2 * 1073741824)) % chunk_big_legs.nr_mirrors = 1 ∧
    alive_at chunk_big_legs 1 = true ∧
    wrap_int (chunk_big_legs.lp_io_chunk * 2) = -2147483648 ∧
    choose_read_mirror chunk_big_legs 2147483648 = Except.ok (some 0, chunk_big_legs) :=
  ⟨chunk_big_legs_reachable, rfl, rfl, rfl, rfl, rfl, rfl⟩

end DMS

namespace DMS

/-! ## more reachable example states -/

theorem chunk_big_leg2_dead_reachable :
    Reachable { ms := chunk_big_leg2_dead, in_flight := [],
                ended := [(bio_set_m issued_bio_0123 false, 0)] } :=
  Reachable.step _ _
    (Reachable.step _ _ chunk_big_legs_reachable
      (Step.map { ms := chunk_big_legs, in_flight := [], ended := [] } (write_bio 100 4096) 0
        { chunk_big_legs with write_ios_total := 1, write_ios_pending := 1 }
        issued_bio_0123 (some issued_req_0123) rfl rfl))
    (Step.write_done
      { ms := { chunk_big_legs with write_ios_total := 1, write_ios_pending := 1 },
        in_flight := [issued_req_0123], ended := [] } 0
      issued_req_0123 4 { chunk_big_leg2_dead with write_ios_pending := 1 }
      (bio_set_m issued_bio_0123 false) 0 rfl rfl rfl)

theorem weighted3_leg0_dead_reachable :
    Reachable { ms := weighted3_leg0_dead, in_flight := [],
                ended := [(bio_set_m issued_bio_012 false, 0)] } :=
  Reachable.step _ _
    (Reachable.step _ _
      (Reachable.ctr rp_weighted [("a", 0), ("b", 8), ("c", 16)] 0 "253:0" none weighted3_legs
        rfl rfl)
      (Step.map { ms := weighted3_legs, in_flight := [], ended := [] } (write_bio 100 4096) 0
        { weighted3_legs with write_ios_total := 1, write_ios_pending := 1 }
        issued_bio_012 (some issued_req_012) rfl rfl))
    (Step.write_done
      { ms := { weighted3_legs with write_ios_total := 1, write_ios_pending := 1 },
        in_flight := [issued_req_012], ended := [] } 0
      issued_req_012 1 { weighted3_leg0_dead with write_ios_pending := 1 }
      (bio_set_m issued_bio_012 false) 0 rfl rfl rfl)

theorem rr2_three_legs_reachable :
    Reachable { ms := rr2_three_legs, in_flight := [], ended := [] } :=
  Reachable.ctr rp_rr2 [("a", 0), ("b", 8), ("c", 16)] 0 "253:0" none rr2_three_legs rfl rfl

theorem rr2_leg2_alive_reachable :
    Reachable { ms := rr2_leg2_alive, in_flight := [],
                ended := [(bio_set_m issued_bio_012 false, 0)] } :=
  Reachable.step _ _
    (Reachable.step _ _ rr2_three_legs_reachable
      (Step.map { ms := rr2_three_legs, in_flight := [], ended := [] } (write_bio 100 4096) 0
        { rr2_three_legs with write_ios_total := 1, write_ios_pending := 1 }
        issued_bio_012 (some issued_req_012) rfl rfl))
    (Step.write_done
      { ms := { rr2_three_legs with write_ios_total := 1, write_ios_pending := 1 },
        in_flight := [issued_req_012], ended := [] } 0
      issued_req_012 3 { rr2_leg2_alive with write_ios_pending := 1 }
      (bio_set_m issued_bio_012 false) 0 rfl rfl rfl)

theorem two_legs_q3_reachable :
    Reachable { ms := two_legs_q3, in_flight := [], ended := [] } :=
  Reachable.step _ _ two_legs_reachable
    (Step.message { ms := two_legs, in_flight := [], ended := [] } 0 false
      ["io_balance", "round_robin", "ios", "3"] 0 two_legs_q3 rfl)

theorem weighted8_legs_reachable :
    Reachable { ms := weighted8_legs, in_flight := [], ended := [] } :=
  Reachable.ctr rp_weighted
    [("a", 0), ("b", 0), ("c", 0), ("d", 0), ("e", 0), ("f", 0), ("g", 0), ("h", 0)]
    0 "253:0" none weighted8_legs rfl rfl

theorem two_legs_dead_run :
    IoRun { ms := two_legs_dead, in_flight := [],
            ended := [(bio_set_m issued_bio false, - EIO)] } ⟨0, 1, 0, 1⟩ :=
  IoRun.done _ _ _
    (IoRun.map { ms := two_legs, in_flight := [], ended := [] } ⟨0, 0, 0, 0⟩ (write_bio 100 4096)
      0 two_legs_written issued_bio (some issued_req)
      (IoRun.ctr rp_core [("a", 0), ("b", 0)] 0 "253:0" two_legs rfl rfl) rfl rfl)
    (Completion.write_done { ms := two_legs_written, in_flight := [issued_req], ended := [] } 0
      issued_req 3 { two_legs_dead with write_ios_pending := 1 } (bio_set_m issued_bio false)
      (- EIO) rfl rfl rfl)

theorem three_legs_leg0_dead_run :
    IoRun { ms := three_legs_leg0_dead, in_flight := [issued_req_12],
            ended := [(bio_set_m issued_bio_012 false, 0)] } ⟨0, 2, 0, 2⟩ :=
  IoRun.map
    { ms := { three_legs_leg0_dead with write_ios_total := 1, write_ios_pending := 0 },
      in_flight := [], ended := [(bio_set_m issued_bio_012 false, 0)] } ⟨0, 1, 0, 1⟩
    (write_bio 100 4096) 0 three_legs_leg0_dead issued_bio_12 (some issued_req_12)
    (IoRun.done _ _ _
      (IoRun.map { ms := three_legs, in_flight := [], ended := [] } ⟨0, 0, 0, 0⟩
        (write_bio 100 4096) 0 three_legs_written issued_bio_012 (some issued_req_012)
        (IoRun.ctr rp_core [("a", 0), ("b", 8), ("c", 16)] 0 "253:0" three_legs rfl rfl) rfl rfl)
      (Completion.write_done
        { ms := three_legs_written, in_flight := [issued_req_012], ended := [] } 0
        issued_req_012 1
        { three_legs_leg0_dead with write_ios_total := 1, write_ios_pending := 1 }
        (bio_set_m issued_bio_012 false) 0 rfl rfl rfl))
    rfl rfl

theorem weighted_read1_reachable :
    Reachable { ms := weighted_read1, in_flight := [read_req 0 "a"], ended := [] } :=
  Reachable.step _ _
    (Reachable.ctr rp_weighted [("a", 0), ("b", 0)] 0 "253:0" none weighted_legs rfl rfl)
    (Step.map { ms := weighted_legs, in_flight := [], ended := [] } (read_bio 0 4096) 0
      weighted_read1 (read_issued 0 "a") (some (read_req 0 "a")) rfl rfl)

theorem weighted_read3_reachable :
    Reachable { ms := weighted_read3, in_flight := [read_req 0 "a"], ended := [] } :=
  Reachable.step _ _
    (Reachable.step _ _
      (Reachable.step _ _
        (Reachable.ctr rp_weighted [("a", 0), ("b", 0)] 0 "253:0" none weighted_legs rfl rfl)
        (Step.map { ms := weighted_legs, in_flight := [], ended := [] } (read_bio 0 4096) 0
          weighted_read1 (read_issued 0 "a") (some (read_req 0 "a")) rfl rfl))
      (Step.read_retry { ms := weighted_read1, in_flight := [read_req 0 "a"], ended := [] } 0
        (read_req 0 "a") 1 weighted_read2 (read_queued 0) rfl rfl rfl))
    (Step.worker { ms := weighted_read2, in_flight := [], ended := [] } weighted_read3
      [read_req 0 "a"] [] rfl)

theorem weighted_read6_reachable :
    Reachable { ms := weighted_read6, in_flight := [],
                ended := [(bio_set_m (read_issued 1 "b") false, - EIO)] } :=
  Reachable.step _ _
    (Reachable.step _ _
      (Reachable.step _ _ weighted_read3_reachable
        (Step.read_retry { ms := weighted_read3, in_flight := [read_req 0 "a"], ended := [] } 0
          (read_req 0 "a") 1 weighted_read4 (read_queued 0) rfl rfl rfl))
      (Step.worker { ms := weighted_read4, in_flight := [], ended := [] } weighted_read5
        [read_req 1 "b"] [] rfl))
    (Step.read_done { ms := weighted_read5, in_flight := [read_req 1 "b"], ended := [] } 0
      (read_req 1 "b") 1 { weighted_read6 with read_ios_pending := 1 }
      (bio_set_m (read_issued 1 "b") false) (- EIO) rfl rfl rfl)

end DMS

namespace DMS

/-! ## lemmas on read selection, counters and completions -/

theorem back_val (n m i : Nat) (hm : m < n) (hi : i ≤ n) :
    (m + n - i) % n = if i ≤ m then m - i else m + n - i := by
  split_ifs with h
  · have : m + n - i = (m - i) + n := by omega
    rw [this, Nat.add_mod_right, Nat.mod_eq_of_lt (by omega)]
  · exact Nat.mod_eq_of_lt (by omega)

theorem prev_mirror_back (ms : mirror_sync_set) (m i : Nat) (hm : m < ms.nr_mirrors)
    (hi : i < ms.nr_mirrors) :
    prev_mirror ms ((m + ms.nr_mirrors - i) % ms.nr_mirrors) =
      (m + ms.nr_mirrors - (i + 1)) % ms.nr_mirrors := by
  rw [back_val _ _ _ hm (by omega), back_val _ _ _ hm (by omega)]
  unfold prev_mirror
  split_ifs <;> omega

theorem back_ne_start (n m i : Nat) (hm : m < n) (h0 : 0 < i) (hi : i < n) :
    (m + n - i) % n ≠ m := by
  rw [back_val _ _ _ hm (by omega)]
  split_ifs <;> omega

theorem back_eq_start (n m : Nat) (hm : m < n) : (m + n - n) % n = m := by
  rw [Nat.add_sub_cancel, Nat.mod_eq_of_lt hm]

theorem lp_loop_spec (ms : mirror_sync_set) (m : Nat) (hm : m < ms.nr_mirrors) :
    ∀ k j, j + k = ms.nr_mirrors → 0 < k →
      lp_loop ms m k ((m + ms.nr_mirrors - j) % ms.nr_mirrors,
          (m + ms.nr_mirrors - j) % ms.nr_mirrors) =
        pure ((((List.range' j k).map (fun i => (m + ms.nr_mirrors - i) % ms.nr_mirrors)).find?
          (alive_at ms)).getD m) := by
  intro k
  induction k with
  | zero => intro j _ h; omega
  | succ k ih =>
    intro j hj _
    unfold lp_loop
    rw [List.range'_succ, List.map_cons, List.find?_cons]
    cases ha : alive_at ms ((m + ms.nr_mirrors - j) % ms.nr_mirrors) with
    | true => simp
    | false =>
      simp only [Bool.false_eq_true, if_false]
      rw [prev_mirror_back ms m j hm (by omega)]
      by_cases hk : k = 0
      · subst hk
        have hj1 : j + 1 = ms.nr_mirrors := by omega
        rw [hj1, back_eq_start _ _ hm]
        simp
      · have hne := back_ne_start ms.nr_mirrors m (j + 1) hm (by omega) (by omega)
        simp only [bne_iff_ne, ne_eq, hne, not_false_eq_true, if_true]
        exact ih (j + 1) (by omega) (by omega)

theorem back_order_eq (n m : Nat) :
    back_order n m = (List.range' 1 n).map (fun i => (m + n - i) % n) := by
  unfold back_order
  rw [List.range_eq_range', List.range'_eq_map_range, List.range'_eq_map_range (s := 1)]
  simp only [List.map_map]
  apply List.map_congr_left
  intro j _
  simp only [Function.comp, Nat.zero_add]
  congr 1
  omega

theorem mem_back_order (n m i : Nat) (hm : m < n) (hi : i < n) : i ∈ back_order n m := by
  unfold back_order
  rw [List.mem_map]
  by_cases h : i < m
  · refine ⟨m - 1 - i, List.mem_range.mpr (by omega), ?_⟩
    have : m + n - 1 - (m - 1 - i) = i + n := by omega
    rw [this, Nat.add_mod_right, Nat.mod_eq_of_lt hi]
  · refine ⟨m + n - 1 - i, List.mem_range.mpr (by omega), ?_⟩
    have : m + n - 1 - (m + n - 1 - i) = i := by omega
    rw [this, Nat.mod_eq_of_lt hi]

theorem back_order_lt (n m i : Nat) (hn : 0 < n) (h : i ∈ back_order n m) : i < n := by
  unfold back_order at h
  rw [List.mem_map] at h
  obtain ⟨j, _, rfl⟩ := h
  exact Nat.mod_lt _ hn

/-- No leg of the backward order is alive exactly when no leg is alive. -/
theorem back_order_find_none (ms : mirror_sync_set) (m : Nat) (hm : m < ms.nr_mirrors) :
    (back_order ms.nr_mirrors m).find? (alive_at ms) = none ↔ ∀ i, alive_at ms i = false := by
  rw [List.find?_eq_none]
  constructor
  · intro h i
    cases ha : alive_at ms i with
    | false => rfl
    | true =>
      have := h i (mem_back_order _ _ _ hm (alive_at_lt ms i ha))
      rw [ha] at this
      exact absurd rfl this
  · intro h i _
    rw [h i]
    simp

/-- The fallback of the logical-partition selection, on the leg `mm` the
selector computes from the sector: when that leg is dead the selector returns
the first alive leg in the order `mm-1, mm-2, ...` (wrapping), null when there
is none, and leaves the set as it was. -/
theorem choose_read_mirror_lp_walk (ms : mirror_sync_set) (sector : Nat)
    (hp : ms.rdpolicy = dms_read_policy.DMS_LOGICAL_PARTITION)
    (hd : wrap_u64 (wrap_int (ms.lp_io_chunk * 2)) ≠ 0) (hn : 0 < ms.nr_mirrors)
    (hdead : alive_at ms ((sector / wrap_u64 (wrap_int (ms.lp_io_chunk * 2))) % ms.nr_mirrors)
      = false) :
    choose_read_mirror ms sector =
      Except.ok ((back_order ms.nr_mirrors
        ((sector / wrap_u64 (wrap_int (ms.lp_io_chunk * 2))) % ms.nr_mirrors)).find?
          (alive_at ms), ms) := by
  generalize hmm : (sector / wrap_u64 (wrap_int (ms.lp_io_chunk * 2))) % ms.nr_mirrors = mm
    at hdead
  have hm : mm < ms.nr_mirrors := by rw [← hmm]; exact Nat.mod_lt _ hn
  have hloop := lp_loop_spec ms mm hm ms.nr_mirrors 0 (by omega) hn
  rw [Nat.sub_zero, Nat.add_mod_right, Nat.mod_eq_of_lt hm] at hloop
  -- the candidates of the loop are `mm` followed by the backward order without its end
  have hlist : ((List.range' 0 ms.nr_mirrors).map
      (fun i => (mm + ms.nr_mirrors - i) % ms.nr_mirrors)).find? (alive_at ms) =
      (back_order ms.nr_mirrors mm).find? (alive_at ms) := by
    rw [back_order_eq]
    obtain ⟨k, hk⟩ : ∃ k, ms.nr_mirrors = k + 1 := ⟨ms.nr_mirrors - 1, by omega⟩
    rw [hk, List.range'_succ, List.map_cons, List.find?_cons]
    have h0 : (mm + (k + 1) - 0) % (k + 1) = mm := by
      rw [Nat.sub_zero, Nat.add_mod_right, Nat.mod_eq_of_lt (by omega)]
    rw [h0, hdead]
    simp only [Nat.zero_add]
    rw [List.range'_concat 1 k, List.map_append, List.find?_append]
    simp only [List.map_cons, List.map_nil, List.find?_cons, List.find?_nil, Nat.one_mul]
    have h1 : (mm + (k + 1) - (1 + k)) % (k + 1) = mm := by
      have : mm + (k + 1) - (1 + k) = mm := by omega
      rw [this, Nat.mod_eq_of_lt (by omega)]
    rw [h1, hdead]
    simp
  unfold choose_read_mirror
  simp only [hp, hmm]
  have h1 : ¬ (wrap_u64 (wrap_int (ms.lp_io_chunk * 2)) = 0 ∨ ms.nr_mirrors = 0) := by omega
  rw [if_neg h1]
  simp only [hdead, Bool.not_false, if_true]
  rw [hloop, hlist]
  cases hf : (back_order ms.nr_mirrors mm).find? (alive_at ms) with
  | none => simp [hdead]; rfl
  | some r =>
    have hr := List.find?_some hf
    simp [hr]; rfl

theorem rr_walk (ms : mirror_sync_set) (c : Nat) (hc : c < ms.nr_mirrors)
    (hq : wrap_int (ms.rr_ios_set - 1) ≠ 0) :
    ∀ k j, j + k = ms.nr_mirrors → 0 < k → 0 < j →
      rr_loop c k
          { ms with read_mirror := (c + ms.nr_mirrors - j) % ms.nr_mirrors,
                    rr_ios := ms.rr_ios_set }
          ((c + ms.nr_mirrors - j) % ms.nr_mirrors) =
        match ((List.range' j k).map
            (fun i => (c + ms.nr_mirrors - i) % ms.nr_mirrors)).find? (alive_at ms) with
        | some r =>
          Except.ok (some r, { ms with read_mirror := r, rr_ios := wrap_int (ms.rr_ios_set - 1) })
        | none =>
          if alive_at ms c then
            Except.ok (some c, { ms with read_mirror := c, rr_ios := ms.rr_ios_set })
          else
            Except.ok (none, { ms with read_mirror := c, rr_ios := ms.rr_ios_set }) := by
  intro k
  induction k with
  | zero => intro j _ h; omega
  | succ k ih =>
    intro j hj _ hj0
    unfold rr_loop
    rw [List.range'_succ, List.map_cons, List.find?_cons]
    have hal : ∀ (x : mirror_sync_set) (i : Nat), x.mirror = ms.mirror →
        alive_at x i = alive_at ms i := fun x i hx => by unfold alive_at; rw [hx]
    generalize hp : (c + ms.nr_mirrors - j) % ms.nr_mirrors = p
    have hprev : prev_mirror ms p = (c + ms.nr_mirrors - (j + 1)) % ms.nr_mirrors := by
      rw [← hp]; exact prev_mirror_back ms c j hc (by omega)
    cases ha : alive_at ms p with
    | true =>
      have ha1 : alive_at { ms with read_mirror := p, rr_ios := ms.rr_ios_set } p = true := by
        exact (hal _ _ rfl).trans ha
      simp only [ha1, if_true, Bool.true_and]
      have : (wrap_int (ms.rr_ios_set - 1) != 0) = true := by simpa using hq
      simp only [this, if_true]
      rfl
    | false =>
      have ha1 : alive_at { ms with read_mirror := p, rr_ios := ms.rr_ios_set } p = false := by
        exact (hal _ _ rfl).trans ha
      simp only [ha1, Bool.false_and, Bool.false_eq_true, if_false]
      have hprev1 : prev_mirror { ms with read_mirror := p, rr_ios := ms.rr_ios_set } p =
          (c + ms.nr_mirrors - (j + 1)) % ms.nr_mirrors := hprev
      simp only [hprev1]
      by_cases hk : k = 0
      · subst hk
        have hj1 : j + 1 = ms.nr_mirrors := by omega
        rw [hj1, back_eq_start _ _ hc]
        simp only [bne_self_eq_false, Bool.false_eq_true, if_false, List.range'_zero,
          List.map_nil, List.find?_nil]
        have hac : alive_at { ms with read_mirror := c, rr_ios := ms.rr_ios_set } c =
            alive_at ms c := hal _ _ rfl
        cases h1 : alive_at ms c with
        | true => rw [h1] at hac; simp only [hac]; rfl
        | false => rw [h1] at hac; simp only [hac]; rfl
      · have hne := back_ne_start ms.nr_mirrors c (j + 1) hc (by omega) (by omega)
        simp only [bne_iff_ne, ne_eq, hne, not_false_eq_true, if_true]
        exact ih (j + 1) (by omega) (by omega) (by omega)

theorem back_order_split (n c : Nat) (hc : c < n) :
    back_order n c =
      (List.range' 1 (n - 1)).map (fun i => (c + n - i) % n) ++ [c] := by
  rw [back_order_eq]
  obtain ⟨k, hk⟩ : ∃ k, n = k + 1 := ⟨n - 1, by omega⟩
  subst hk
  rw [List.range'_concat 1 k, List.map_append]
  simp only [List.map_cons, List.map_nil, Nat.one_mul, Nat.add_sub_cancel]
  have : c + (k + 1) - (1 + k) = c := by omega
  rw [this, Nat.mod_eq_of_lt hc]

theorem choose_read_mirror_rr (ms : mirror_sync_set) (sector : Nat)
    (hp : ms.rdpolicy = dms_read_policy.DMS_ROUND_ROBIN) :
    choose_read_mirror ms sector = rr_loop ms.read_mirror ms.nr_mirrors ms ms.read_mirror := by
  unfold choose_read_mirror
  simp only [hp]

/-- The round-robin selection, for a quantum `q` with `q - 1` not zero: the
cursor leg while it is alive and the countdown has not run out, otherwise the
first alive leg in backward order from the cursor (the cursor itself last),
with the cursor moved to it. -/
theorem choose_read_mirror_rr_eq (ms : mirror_sync_set) (sector : Nat)
    (hp : ms.rdpolicy = dms_read_policy.DMS_ROUND_ROBIN)
    (hc : ms.read_mirror < ms.nr_mirrors) (hq : wrap_int (ms.rr_ios_set - 1) ≠ 0) :
    choose_read_mirror ms sector =
      if alive_at ms ms.read_mirror = true ∧ wrap_int (ms.rr_ios - 1) ≠ 0 then
        Except.ok (some ms.read_mirror, { ms with rr_ios := wrap_int (ms.rr_ios - 1) })
      else
        match (back_order ms.nr_mirrors ms.read_mirror).find? (alive_at ms) with
        | none => Except.ok (none, { ms with rr_ios := ms.rr_ios_set })
        | some r =>
          Except.ok (some r,
            { ms with read_mirror := r,
                      rr_ios := if r = ms.read_mirror then ms.rr_ios_set
                                else wrap_int (ms.rr_ios_set - 1) }) := by
  have hal : ∀ (x : mirror_sync_set) (i : Nat), x.mirror = ms.mirror →
      alive_at x i = alive_at ms i := fun x i hx => by unfold alive_at; rw [hx]
  rw [choose_read_mirror_rr ms sector hp]
  obtain ⟨k, hk⟩ : ∃ k, ms.nr_mirrors = k + 1 := ⟨ms.nr_mirrors - 1, by omega⟩
  -- what the loop does once the cursor leg is passed over
  have hrest : (if (prev_mirror ms ms.read_mirror != ms.read_mirror) = true then
        rr_loop ms.read_mirror k
          { ms with rr_ios := ms.rr_ios_set, read_mirror := prev_mirror ms ms.read_mirror }
          (prev_mirror ms ms.read_mirror)
      else if (!alive_at ms (prev_mirror ms ms.read_mirror)) = true then
        pure (none, { ms with rr_ios := ms.rr_ios_set,
                              read_mirror := prev_mirror ms ms.read_mirror })
      else
        pure (some (prev_mirror ms ms.read_mirror),
          { ms with rr_ios := ms.rr_ios_set, read_mirror := prev_mirror ms ms.read_mirror })) =
      match (back_order ms.nr_mirrors ms.read_mirror).find? (alive_at ms) with
      | none => Except.ok (none, { ms with rr_ios := ms.rr_ios_set })
      | some r =>
        Except.ok (some r,
          { ms with read_mirror := r,
                    rr_ios := if r = ms.read_mirror then ms.rr_ios_set
                              else wrap_int (ms.rr_ios_set - 1) }) := by
    have hprev : prev_mirror ms ms.read_mirror =
        (ms.read_mirror + ms.nr_mirrors - 1) % ms.nr_mirrors := by
      have := prev_mirror_back ms ms.read_mirror 0 hc (by omega)
      rw [Nat.sub_zero, Nat.add_mod_right, Nat.mod_eq_of_lt hc] at this
      exact this
    rw [back_order_split _ _ hc, List.find?_append]
    by_cases hk0 : k = 0
    · -- a single leg: the cursor comes back to itself
      have hn1 : ms.nr_mirrors = 1 := by omega
      have hc0 : ms.read_mirror = 0 := by omega
      have hp0 : prev_mirror ms ms.read_mirror = ms.read_mirror := by
        rw [hprev, hn1, hc0]
      rw [hp0, hn1]
      simp only [bne_self_eq_false, Bool.false_eq_true, if_false, Nat.sub_self,
        List.range'_zero, List.map_nil, List.find?_nil, Option.none_or, List.find?_cons]
      cases alive_at ms ms.read_mirror
      · rfl
      · simp only [Bool.not_true, Bool.false_eq_true, if_false, if_true]
        rfl
    · have hne : prev_mirror ms ms.read_mirror ≠ ms.read_mirror := by
        rw [hprev]
        exact back_ne_start _ _ 1 hc (by omega) (by omega)
      simp only [bne_iff_ne, ne_eq, hne, not_false_eq_true, if_true]
      have hw := rr_walk ms ms.read_mirror hc hq k 1 (by omega) (by omega) (by omega)
      rw [← hprev] at hw
      have hk1 : ms.nr_mirrors - 1 = k := by omega
      rw [hk1]
      have hst : ({ ms with rr_ios := ms.rr_ios_set,
                            read_mirror := prev_mirror ms ms.read_mirror } : mirror_sync_set) =
          { ms with read_mirror := prev_mirror ms ms.read_mirror, rr_ios := ms.rr_ios_set } := rfl
      rw [hst, hw]
      cases hf : ((List.range' 1 k).map
          (fun i => (ms.read_mirror + ms.nr_mirrors - i) % ms.nr_mirrors)).find? (alive_at ms) with
      | some r =>
        have hrne : r ≠ ms.read_mirror := by
          have hmem := List.mem_of_find?_eq_some hf
          rw [List.mem_map] at hmem
          obtain ⟨i, hi, rfl⟩ := hmem
          rw [List.mem_range'_1] at hi
          exact back_ne_start _ _ i hc (by omega) (by omega)
        simp only [Option.or, if_neg hrne]
      | none =>
        simp only [Option.none_or, List.find?_cons, List.find?_nil]
        cases alive_at ms ms.read_mirror
        · rfl
        · simp only [if_true]
  rw [hk]
  unfold rr_loop
  rw [← hk]
  by_cases h1 : alive_at ms ms.read_mirror = true ∧ wrap_int (ms.rr_ios - 1) ≠ 0
  · rw [if_pos h1]
    obtain ⟨ha, hr⟩ := h1
    simp only [ha, if_true, Bool.true_and, bne_iff_ne, ne_eq, hr, not_false_eq_true]
    rfl
  · rw [if_neg h1, ← hrest]
    cases ha : alive_at ms ms.read_mirror with
    | false =>
      simp only [Bool.false_eq_true, if_false, Bool.false_and]
      rfl
    | true =>
      have hr : wrap_int (ms.rr_ios - 1) = 0 := by
        by_contra hne
        exact h1 ⟨ha, hne⟩
      simp only [if_true, Bool.true_and, hr, bne_self_eq_false, Bool.false_eq_true, if_false]
      rfl

theorem wrap_int_pred_ne_zero (q : Int) (h1 : 2 ≤ q) (h2 : q ≤ 2147483647) :
    wrap_int (q - 1) ≠ 0 := by
  unfold wrap_int
  omega

/-- The round-robin selection when every leg is alive: the cursor leg while the
countdown has not run out, otherwise the leg one slot backward, to which the
cursor moves. -/
theorem choose_read_mirror_rr_all_alive (ms : mirror_sync_set) (sector : Nat)
    (hp : ms.rdpolicy = dms_read_policy.DMS_ROUND_ROBIN)
    (hc : ms.read_mirror < ms.nr_mirrors) (hq : wrap_int (ms.rr_ios_set - 1) ≠ 0)
    (hall : ∀ i, i < ms.nr_mirrors → alive_at ms i = true) :
    choose_read_mirror ms sector =
      if wrap_int (ms.rr_ios - 1) ≠ 0 then
        Except.ok (some ms.read_mirror, { ms with rr_ios := wrap_int (ms.rr_ios - 1) })
      else
        Except.ok (some (prev_mirror ms ms.read_mirror),
          { ms with read_mirror := prev_mirror ms ms.read_mirror,
                    rr_ios := if prev_mirror ms ms.read_mirror = ms.read_mirror then ms.rr_ios_set
                              else wrap_int (ms.rr_ios_set - 1) }) := by
  rw [choose_read_mirror_rr_eq ms sector hp hc hq]
  have hprev : prev_mirror ms ms.read_mirror =
      (ms.read_mirror + ms.nr_mirrors - 1) % ms.nr_mirrors := by
    have := prev_mirror_back ms ms.read_mirror 0 hc (by omega)
    rw [Nat.sub_zero, Nat.add_mod_right, Nat.mod_eq_of_lt hc] at this
    exact this
  have hfind : (back_order ms.nr_mirrors ms.read_mirror).find? (alive_at ms) =
      some (prev_mirror ms ms.read_mirror) := by
    obtain ⟨k, hk⟩ : ∃ k, ms.nr_mirrors = k + 1 := ⟨ms.nr_mirrors - 1, by omega⟩
    have hlt : prev_mirror ms ms.read_mirror < ms.nr_mirrors := by
      rw [hprev]; exact Nat.mod_lt _ (by omega)
    have hal := hall _ hlt
    have hr : List.range ms.nr_mirrors = 0 :: (List.range k).map Nat.succ := by
      rw [hk, List.range_succ_eq_map]
    unfold back_order
    rw [hr, List.map_cons, List.find?_cons]
    simp only [Nat.sub_zero]
    rw [← hprev, hal]
  by_cases h1 : wrap_int (ms.rr_ios - 1) ≠ 0
  · rw [if_pos h1, if_pos ⟨hall _ hc, h1⟩]
  · rw [if_neg h1, if_neg (fun h => h1 h.2), hfind]

theorem prev_mirror_lt (ms : mirror_sync_set) (p : Nat) (hp : p < ms.nr_mirrors) :
    prev_mirror ms p < ms.nr_mirrors := by
  unfold prev_mirror
  split_ifs <;> omega

/-- One round-robin call on a set whose legs are all alive, with what the next
call needs. -/
theorem rr_all_alive_step (ms : mirror_sync_set) (sector : Nat)
    (hp : ms.rdpolicy = dms_read_policy.DMS_ROUND_ROBIN)
    (hq : 2 ≤ ms.rr_ios_set) (hq2 : ms.rr_ios_set ≤ 2147483647)
    (hc : ms.read_mirror < ms.nr_mirrors)
    (hall : ∀ i, i < ms.nr_mirrors → alive_at ms i = true) :
    ∃ r ms1, choose_read_mirror ms sector = Except.ok (some r, ms1) ∧
      (r = ms.read_mirror ∨ r = prev_mirror ms ms.read_mirror) ∧
      ms1.read_mirror = r ∧ ms1.mirror = ms.mirror ∧ ms1.rdpolicy = ms.rdpolicy ∧
      ms1.rr_ios_set = ms.rr_ios_set := by
  rw [choose_read_mirror_rr_all_alive ms sector hp hc
    (wrap_int_pred_ne_zero _ hq hq2) hall]
  by_cases h1 : wrap_int (ms.rr_ios - 1) ≠ 0
  · rw [if_pos h1]
    exact ⟨_, _, rfl, Or.inl rfl, rfl, rfl, rfl, rfl⟩
  · rw [if_neg h1]
    exact ⟨_, _, rfl, Or.inr rfl, rfl, rfl, rfl, rfl⟩

theorem same_or_back_congr (ms ms1 : mirror_sync_set) (h : ms1.mirror = ms.mirror)
    (a b : Option Nat) (hab : same_or_back ms1 a b) : same_or_back ms a b := by
  obtain ⟨x, hx, hb⟩ := hab
  refine ⟨x, hx, ?_⟩
  have : prev_mirror ms1 x = prev_mirror ms x := by
    unfold prev_mirror mirror_sync_set.nr_mirrors
    rw [h]
  rw [this] at hb
  exact hb

theorem rr_all_alive_run (sectors : List Nat) :
    ∀ (ms : mirror_sync_set), ms.rdpolicy = dms_read_policy.DMS_ROUND_ROBIN →
      2 ≤ ms.rr_ios_set → ms.rr_ios_set ≤ 2147483647 → ms.read_mirror < ms.nr_mirrors →
      (∀ i, i < ms.nr_mirrors → alive_at ms i = true) →
      ∃ l ms1, choose_reads sectors ms = Except.ok (l, ms1) ∧ l.length = sectors.length ∧
        List.Chain (same_or_back ms) (some ms.read_mirror) l := by
  induction sectors with
  | nil =>
    intro ms _ _ _ _ _
    exact ⟨[], ms, rfl, rfl, List.Chain.nil⟩
  | cons s rest ih =>
    intro ms hp hq hq2 hc hall
    obtain ⟨r, ms1, h1, hr, hcur, hmir, hpol, hset⟩ := rr_all_alive_step ms s hp hq hq2 hc hall
    have hn : ms1.nr_mirrors = ms.nr_mirrors := by
      unfold mirror_sync_set.nr_mirrors; rw [hmir]
    have hc1 : ms1.read_mirror < ms1.nr_mirrors := by
      rw [hcur, hn]
      rcases hr with rfl | rfl
      · exact hc
      · exact prev_mirror_lt ms _ hc
    have hall1 : ∀ i, i < ms1.nr_mirrors → alive_at ms1 i = true := by
      intro i hi
      rw [hn] at hi
      have := hall i hi
      unfold alive_at at this ⊢
      rw [hmir]; exact this
    obtain ⟨l, ms2, h2, hlen, hchain⟩ :=
      ih ms1 (hpol.trans hp) (hset ▸ hq) (hset ▸ hq2) hc1 hall1
    refine ⟨some r :: l, ms2, ?_, ?_, ?_⟩
    · unfold choose_reads
      rw [h1]
      simp only [run_ok_bind]
      rw [h2]
      rfl
    · simp [hlen]
    · refine List.Chain.cons ⟨ms.read_mirror, rfl, ?_⟩ ?_
      · rcases hr with rfl | rfl
        · exact Or.inl rfl
        · exact Or.inr rfl
      · rw [hcur] at hchain
        exact hchain.imp (fun a b hab => same_or_back_congr ms ms1 hmir a b hab)

theorem rr2_at_step (p : Nat) (hp : p < 3) (sector : Nat) :
    choose_read_mirror (rr2_at p) sector =
      Except.ok (some ((p + 2) % 3), rr2_at ((p + 2) % 3)) := by
  interval_cases p <;> rfl

theorem rr2_at_run (sectors : List Nat) :
    ∀ p, p < 3 →
      choose_reads sectors (rr2_at p) =
        Except.ok ((List.range sectors.length).map (fun i => some ((p + 2 * (i + 1)) % 3)),
          rr2_at ((p + 2 * sectors.length) % 3)) := by
  induction sectors with
  | nil =>
    intro p hp
    simp only [List.length_nil, List.range_zero, List.map_nil, Nat.mul_zero, Nat.add_zero,
      Nat.mod_eq_of_lt hp]
    rfl
  | cons s rest ih =>
    intro p hp
    unfold choose_reads
    rw [rr2_at_step p hp s]
    simp only [run_ok_bind]
    rw [ih ((p + 2) % 3) (Nat.mod_lt _ (by decide))]
    simp only [run_ok_bind, List.length_cons, List.range_succ_eq_map, List.map_cons,
      List.map_map]
    have h1 : (p + 2) % 3 + 2 * rest.length ≡ p + 2 * (rest.length + 1) [MOD 3] := by
      have : p + 2 * (rest.length + 1) = (p + 2) + 2 * rest.length := by ring
      rw [this]
      exact Nat.ModEq.add_right _ (Nat.mod_modEq _ _)
    have h2 : ∀ i, ((p + 2) % 3 + 2 * (i + 1)) % 3 = (p + 2 * (i + 1 + 1)) % 3 := by
      intro i
      have : p + 2 * (i + 1 + 1) = (p + 2) + 2 * (i + 1) := by ring
      rw [this]
      exact Nat.ModEq.add_right _ (Nat.mod_modEq _ _)
    unfold Nat.ModEq at h1
    rw [h1]
    congr 2
    congr 1
    apply List.map_congr_left
    intro i _
    simp only [Function.comp, Nat.succ_eq_add_one, h2]

/-- The reads a leg gets under round robin: with every leg alive, at least two
legs and the countdown at `r` (between 1 and the quantum `q`), the next `r - 1`
calls return the cursor leg and call number `r` returns the leg one slot
backward, leaving the cursor there and the countdown at `q - 1`.  So after the
quantum is set (`r = q`) the cursor leg gets `q - 1` reads, and every leg
after it gets `q - 1` reads as well, the advancing call included. -/
theorem round_robin_countdown_run (r : Nat) :
    ∀ (ms : mirror_sync_set) (sectors : List Nat),
      ms.rdpolicy = dms_read_policy.DMS_ROUND_ROBIN →
      2 ≤ ms.rr_ios_set → ms.rr_ios_set ≤ 2147483647 → ms.read_mirror < ms.nr_mirrors →
      2 ≤ ms.nr_mirrors → (∀ i, i < ms.nr_mirrors → alive_at ms i = true) →
      ms.rr_ios = ((r + 1 : Nat) : Int) → ((r + 1 : Nat) : Int) ≤ ms.rr_ios_set →
      sectors.length = r + 1 →
      choose_reads sectors ms =
        Except.ok (List.replicate r (some ms.read_mirror) ++
            [some (prev_mirror ms ms.read_mirror)],
          { ms with read_mirror := prev_mirror ms ms.read_mirror,
                    rr_ios := ms.rr_ios_set - 1 }) := by
  induction r with
  | zero =>
    intro ms sectors hp hq hq2 hc hn hall hr _ hlen
    obtain ⟨s, rfl⟩ : ∃ s, sectors = [s] := by
      match sectors, hlen with
      | [s], _ => exact ⟨s, rfl⟩
    unfold choose_reads
    rw [choose_read_mirror_rr_all_alive ms s hp hc (wrap_int_pred_ne_zero _ hq hq2) hall]
    have h0 : ¬ wrap_int (ms.rr_ios - 1) ≠ 0 := by
      rw [hr]; unfold wrap_int; simp
    have hne : prev_mirror ms ms.read_mirror ≠ ms.read_mirror := by
      unfold prev_mirror; split_ifs <;> omega
    have hw : wrap_int (ms.rr_ios_set - 1) = ms.rr_ios_set - 1 := by
      unfold wrap_int; omega
    rw [if_neg h0, if_neg hne, hw]
    rfl
  | succ r ih =>
    intro ms sectors hp hq hq2 hc hn hall hr hle hlen
    obtain ⟨s, rest, rfl⟩ : ∃ s rest, sectors = s :: rest := by
      match sectors, hlen with
      | s :: rest, _ => exact ⟨s, rest, rfl⟩
    unfold choose_reads
    rw [choose_read_mirror_rr_all_alive ms s hp hc (wrap_int_pred_ne_zero _ hq hq2) hall]
    have hw : wrap_int (ms.rr_ios - 1) = ((r + 1 : Nat) : Int) := by
      rw [hr]; unfold wrap_int; push_cast at hle ⊢; omega
    have h0 : wrap_int (ms.rr_ios - 1) ≠ 0 := by
      rw [hw]; push_cast; omega
    rw [if_pos h0, hw]
    simp only [run_ok_bind]
    have := ih { ms with rr_ios := ((r + 1 : Nat) : Int) } rest hp hq hq2 hc hn hall rfl
      (by push_cast at hle ⊢; omega) (by simpa using hlen)
    rw [this]
    rfl

theorem rr2_three_legs_run (sectors : List Nat) :
    ∃ ms1, choose_reads sectors rr2_three_legs =
      Except.ok ((List.range sectors.length).map (fun i => some ((2 * i) % 3)), ms1) := by
  cases sectors with
  | nil => exact ⟨_, rfl⟩
  | cons s rest =>
    refine ⟨rr2_at ((0 + 2 * rest.length) % 3), ?_⟩
    unfold choose_reads
    have h0 : choose_read_mirror rr2_three_legs s = Except.ok (some 0, rr2_at 0) := rfl
    rw [h0]
    simp only [run_ok_bind]
    rw [rr2_at_run rest 0 (by decide)]
    simp only [run_ok_bind, List.length_cons, List.range_succ_eq_map, List.map_cons,
      List.map_map, Nat.zero_add]
    rfl

theorem same_io_refl (ms : mirror_sync_set) : same_io ms ms := ⟨rfl, rfl, rfl, rfl, rfl⟩

theorem same_io_trans {a b c : mirror_sync_set} (h1 : same_io a b) (h2 : same_io b c) :
    same_io a c :=
  ⟨h2.1.trans h1.1, h2.2.1.trans h1.2.1, h2.2.2.1.trans h1.2.2.1,
    h2.2.2.2.1.trans h1.2.2.2.1, h2.2.2.2.2.trans h1.2.2.2.2⟩

theorem fail_mirror_same_io (ms : mirror_sync_set) (m : Nat) (k : dm_raid1_error) :
    same_io ms (fail_mirror ms m k) := by
  unfold fail_mirror same_io
  cases hm : ms.mirror[m]? with
  | none => exact ⟨rfl, rfl, rfl, rfl, rfl⟩
  | some mr =>
    simp only
    cases hbit : test_bit k.toNat mr.error_type with
    | true => exact ⟨rfl, rfl, rfl, rfl, rfl⟩
    | false =>
      simp only [Bool.false_eq_true, if_false]
      refine ⟨?_, ?_, ?_, ?_, ?_⟩ <;> (split <;> [split; skip] <;> rfl)

theorem write_callback_loop_same_io (error : Nat) (bmi : dms_bio_map_info) (idx : List Nat) :
    ∀ (ms ms1 : mirror_sync_set) (f f1 : Nat),
      write_callback_loop error bmi idx (ms, f) = Except.ok (ms1, f1) → same_io ms ms1 := by
  induction idx with
  | nil =>
    intro ms ms1 f f1 h
    cases h
    exact same_io_refl _
  | cons i rest ih =>
    intro ms ms1 f f1 h
    unfold write_callback_loop at h
    split_ifs at h
    · split at h
      · cases h
      · exact same_io_trans (fail_mirror_same_io _ _ _) (ih _ _ _ _ h)
    · exact ih _ _ _ _ h

/-- `write_callback` leaves the counters and the retry queue alone and does
not touch the direction bits of the bio. -/
theorem write_callback_same_io (ms ms1 : mirror_sync_set) (error : Nat) (b b1 : bio) (ret : Int)
    (h : write_callback ms error b = Except.ok (ms1, b1, ret)) :
    same_io ms ms1 ∧ bio_is_write b1 = bio_is_write b := by
  unfold write_callback at h
  split at h
  · cases h
  · simp only [run_pure] at h
    split_ifs at h
    all_goals first
      | (cases h; exact ⟨same_io_refl _, rfl⟩)
      | (obtain ⟨v, hc, hv⟩ := run_bind_ok h
         obtain ⟨ms2, nf⟩ := v
         have hs := write_callback_loop_same_io _ _ _ _ _ _ _ hc
         simp only at hv
         cases hv
         refine ⟨?_, rfl⟩
         split_ifs <;> exact same_io_trans hs ⟨rfl, rfl, rfl, rfl, rfl⟩)

theorem get_mirror_weight_max_live_same_io (ms ms1 : mirror_sync_set) (r : Option Nat)
    (h : get_mirror_weight_max_live ms = Except.ok (r, ms1)) : same_io ms ms1 := by
  unfold get_mirror_weight_max_live at h
  simp only [assert_bug_bind, run_pure_bind, run_throw, run_pure] at h
  split_ifs at h
  all_goals (cases h; exact ⟨rfl, rfl, rfl, rfl, rfl⟩)

theorem rr_loop_same_io (start : Nat) (fuel : Nat) :
    ∀ (ms : mirror_sync_set) (ret : Nat) (r : Option Nat) (ms1 : mirror_sync_set),
      rr_loop start fuel ms ret = Except.ok (r, ms1) → same_io ms ms1 := by
  induction fuel with
  | zero => intro ms ret r ms1 h; cases h
  | succ n ih =>
    intro ms ret r ms1 h
    unfold rr_loop at h
    simp only [run_pure] at h
    split_ifs at h
    all_goals first
      | (cases h; exact ⟨rfl, rfl, rfl, rfl, rfl⟩)
      | (have hi := ih _ _ _ _ h; exact ⟨hi.1, hi.2.1, hi.2.2.1, hi.2.2.2.1, hi.2.2.2.2⟩)

theorem choose_read_mirror_same_io (ms ms1 : mirror_sync_set) (sector : Nat) (r : Option Nat)
    (h : choose_read_mirror ms sector = Except.ok (r, ms1)) : same_io ms ms1 := by
  unfold choose_read_mirror at h
  split at h
  · simp only [run_throw, run_pure] at h
    split_ifs at h
    all_goals first
      | (cases h; exact same_io_refl _)
      | (obtain ⟨v, _, hv⟩ := run_bind_ok h
         split_ifs at hv <;> cases hv <;> exact same_io_refl _)
  · exact rr_loop_same_io _ _ _ _ _ _ h
  · simp only [assert_bug_bind, run_pure] at h
    split_ifs at h
    all_goals first
      | (cases h; exact same_io_refl _)
      | (obtain ⟨v, hg, hv⟩ := run_bind_ok h
         obtain ⟨c, ms2⟩ := v
         have hs := get_mirror_weight_max_live_same_io ms ms2 c hg
         split_ifs at hv <;> cases hv <;> exact hs)

/-- `read_callback`: when it ends the bio the counters and the retry queue
are as before; when it does not, the bio goes to the end of the retry queue. -/
theorem read_callback_io (ms ms1 : mirror_sync_set) (error : Nat) (b b1 : bio)
    (ret : Option Int)
    (h : read_callback ms error b = Except.ok (ms1, b1, ret)) :
    ms1.read_ios_total = ms.read_ios_total ∧ ms1.read_ios_pending = ms.read_ios_pending ∧
    ms1.write_ios_total = ms.write_ios_total ∧ ms1.write_ios_pending = ms.write_ios_pending ∧
    bio_is_write b1 = bio_is_write b ∧
    (ret ≠ none → ms1.read_failures = ms.read_failures) ∧
    (ret = none → ∃ q, ms1.read_failures = ms.read_failures ++ [q]) := by
  unfold read_callback at h
  split at h
  · cases h
  · simp only [run_pure, run_throw] at h
    split_ifs at h
    all_goals first
      | (cases h
         exact ⟨rfl, rfl, rfl, rfl, rfl, fun _ => rfl, fun hn => by cases hn⟩)
      | (split at h
         · cases h
         · have hf := fail_mirror_same_io ms ‹Nat› dm_raid1_error.DM_RAID1_READ_ERROR
           split_ifs at h
           all_goals
             cases h
             first
               | (refine ⟨?_, ?_, ?_, ?_, rfl, fun hn => absurd rfl hn, fun _ => ?_⟩
                  · unfold queue_bio; simp only; split_ifs <;> exact hf.1
                  · unfold queue_bio; simp only; split_ifs <;> exact hf.2.1
                  · unfold queue_bio; simp only; split_ifs <;> exact hf.2.2.1
                  · unfold queue_bio; simp only; split_ifs <;> exact hf.2.2.2.1
                  · unfold queue_bio; simp only
                    split_ifs <;> exact ⟨_, by rw [hf.2.2.2.2]⟩)
               | exact ⟨hf.1, hf.2.1, hf.2.2.1, hf.2.2.2.1, rfl, fun _ => hf.2.2.2.2,
                   fun hn => by cases hn⟩)

theorem bio_is_write_iff (b : bio) :
    bio_is_write b = true ↔ (b.REQ_WRITE = true ∧ b.REQ_RAHEAD = false) := by
  unfold bio_is_write
  cases b.REQ_WRITE <;> cases b.REQ_RAHEAD <;> simp

theorem bio_is_reada_iff (b : bio) :
    bio_is_reada b = true ↔ (b.REQ_RAHEAD = true ∧ b.REQ_WRITE = false) := by
  unfold bio_is_reada
  cases b.REQ_WRITE <;> cases b.REQ_RAHEAD <;> simp

theorem assert_bug_ok (c : Bool) (u : Unit) (h : assert_bug c = Except.ok u) : c = true := by
  cases c
  · cases h
  · rfl

theorem read_async_bio_req (ms : mirror_sync_set) (b b1 : bio) (req : dm_io_request)
    (h : read_async_bio ms b = Except.ok (b1, req)) :
    req.notify = notify_fn.read_callback ∧ bio_is_write req.context = bio_is_write b := by
  unfold read_async_bio at h
  split at h
  · cases h
  · split at h
    · cases h
    · cases h; exact ⟨rfl, rfl⟩

theorem write_async_bios_req (ms : mirror_sync_set) (b b1 : bio) (r : Int)
    (req : Option dm_io_request) (h : write_async_bios ms b = (r, b1, req)) :
    (r = 0 ∧ req = none) ∨
    (r ≠ 0 ∧ ∃ q, req = some q ∧ q.notify = notify_fn.write_callback ∧
      bio_is_write q.context = bio_is_write b) := by
  unfold write_async_bios at h
  rcases hr : write_async_loop ms b (List.range ms.nr_mirrors) ([], b.per_bio_data.bmi_wm, 0)
    with ⟨io, wm, k⟩
  rw [hr] at h
  simp only at h
  split_ifs at h
  · cases h; exact Or.inl ⟨rfl, rfl⟩
  · cases h; exact Or.inr ⟨by decide, _, rfl, rfl, rfl⟩

/-- What `do_read_failures` does with the bios of the queue: each is issued
again as a read or ended, and the counters are not touched. -/
theorem do_read_failures_io (bios : List bio) :
    ∀ (ms ms1 : mirror_sync_set) (reqs : List dm_io_request) (ended : List (bio × Int)),
      do_read_failures bios ms = Except.ok (ms1, reqs, ended) →
      same_io ms ms1 ∧ reqs.length + ended.length = bios.length ∧
      (∀ q, q ∈ reqs → q.notify = notify_fn.read_callback ∧ bio_is_write q.context = false) ∧
      (∀ e, e ∈ ended → bio_is_write e.1 = false) := by
  induction bios with
  | nil =>
    intro ms ms1 reqs ended h
    cases h
    exact ⟨same_io_refl _, rfl, fun q hq => (by cases hq), fun e he => (by cases he)⟩
  | cons b rest ih =>
    intro ms ms1 reqs ended h
    unfold do_read_failures at h
    obtain ⟨b2, hpop, h⟩ := run_bind_ok h
    obtain ⟨u, hrw, h⟩ := run_bind_ok h
    have hrd : bio_is_write b2 = false := by
      have := assert_bug_ok _ _ hrw
      simp only [decide_eq_true_eq] at this
      unfold bio_is_write
      rw [this.1]; rfl
    obtain ⟨v, hc, h⟩ := run_bind_ok h
    obtain ⟨m, ms2⟩ := v
    have hs := choose_read_mirror_same_io _ _ _ _ hc
    cases m with
    | none =>
      simp only at h
      obtain ⟨w, hr, h⟩ := run_bind_ok h
      obtain ⟨ms3, reqs3, ended3⟩ := w
      obtain ⟨hi1, hi2, hi3, hi4⟩ := ih _ _ _ _ hr
      cases h
      refine ⟨same_io_trans hs (same_io_trans ?_ hi1), ?_, hi3, ?_⟩
      · split_ifs <;> exact ⟨rfl, rfl, rfl, rfl, rfl⟩
      · simp only [List.length_cons]; omega
      · intro e he
        rcases List.mem_cons.mp he with rfl | he
        · exact hrd
        · exact hi4 e he
    | some mi =>
      simp only at h
      split at h
      · cases h
      · obtain ⟨w, hra, h⟩ := run_bind_ok h
        obtain ⟨w2, hr, h⟩ := run_bind_ok h
        obtain ⟨ms3, reqs3, ended3⟩ := w2
        obtain ⟨hi1, hi2, hi3, hi4⟩ := ih _ _ _ _ hr
        obtain ⟨hq1, hq2⟩ := read_async_bio_req _ _ _ _ hra
        cases h
        refine ⟨same_io_trans hs hi1, ?_, ?_, hi4⟩
        · simp only [List.length_cons]; omega
        · intro q hq
          rcases List.mem_cons.mp hq with rfl | hq
          · exact ⟨hq1, hq2.trans hrd⟩
          · exact hi3 q hq

theorem wrap_int_dec_succ (n : Nat) : atomic_dec (wrap_int ((n + 1 : Nat) : Int)) = wrap_int (n : Int) := by
  unfold atomic_dec wrap_int
  push_cast
  omega

theorem wrap_int_inc (n : Nat) : atomic_inc (wrap_int (n : Int)) = wrap_int ((n + 1 : Nat) : Int) := by
  unfold atomic_inc wrap_int
  push_cast
  omega

/-- The core's `end_io` calls for ended bios that are not writes: each takes
one from `read_ios_pending`. -/
theorem end_io_all_reads (ended : List (bio × Int)) :
    ∀ (ms : mirror_sync_set) (n : Nat),
      (∀ e, e ∈ ended → bio_is_write e.1 = false) →
      ms.read_ios_pending = wrap_int ((n + ended.length : Nat) : Int) →
      (end_io_all ended ms).read_ios_pending = wrap_int (n : Int) ∧
      (end_io_all ended ms).read_ios_total = ms.read_ios_total ∧
      (end_io_all ended ms).write_ios_total = ms.write_ios_total ∧
      (end_io_all ended ms).write_ios_pending = ms.write_ios_pending ∧
      (end_io_all ended ms).read_failures = ms.read_failures := by
  induction ended with
  | nil =>
    intro ms n _ hp
    exact ⟨by simpa using hp, rfl, rfl, rfl, rfl⟩
  | cons e rest ih =>
    intro ms n he hp
    obtain ⟨b, err⟩ := e
    have hb : bio_is_write b = false := he (b, err) (List.mem_cons_self _ _)
    have hnw : ¬ (b.REQ_WRITE = true ∧ b.REQ_RAHEAD = false) := by
      intro hc
      rw [(bio_is_write_iff b).mpr hc] at hb
      cases hb
    have hstep : (mirror_sync_end_io ms b err).2 =
        { ms with read_ios_pending := atomic_dec ms.read_ios_pending } := by
      unfold mirror_sync_end_io
      rw [if_neg hnw]
    have hcons : end_io_all ((b, err) :: rest) ms =
        end_io_all rest (mirror_sync_end_io ms b err).2 := rfl
    rw [hcons, hstep]
    have hp1 : ({ ms with read_ios_pending := atomic_dec ms.read_ios_pending } :
        mirror_sync_set).read_ios_pending = wrap_int ((n + rest.length : Nat) : Int) := by
      show atomic_dec ms.read_ios_pending = _
      rw [hp]
      simp only [List.length_cons]
      exact wrap_int_dec_succ (n + rest.length)
    exact ih _ n (fun e he1 => he e (List.mem_cons_of_mem _ he1)) hp1

theorem bool_true_false {x : Bool} {P : Prop} (h1 : x = true) (h2 : x = false) : P := by
  rw [h1] at h2
  cases h2

/-- What `mirror_sync_map` does to the counters, by the direction of the bio. -/
theorem mirror_sync_map_io (ms ms1 : mirror_sync_set) (b b1 : bio) (r : Int)
    (req : Option dm_io_request)
    (h : mirror_sync_map ms b = Except.ok (r, ms1, b1, req)) :
    ms1.read_failures = ms.read_failures ∧
    (bio_is_reada b = true → ms1 = ms ∧ req = none ∧ r ≠ 0) ∧
    (bio_is_reada b = false → bio_is_write b = true →
      ms1.read_ios_total = ms.read_ios_total ∧ ms1.read_ios_pending = ms.read_ios_pending ∧
      ms1.write_ios_total = atomic_inc ms.write_ios_total ∧
      ((r = 0 ∧ ms1.write_ios_pending = atomic_inc ms.write_ios_pending ∧
          ∃ q, req = some q ∧ q.notify = notify_fn.write_callback ∧
            bio_is_write q.context = true) ∨
        (r ≠ 0 ∧ ms1.write_ios_pending = ms.write_ios_pending ∧ req = none))) ∧
    (bio_is_reada b = false → bio_is_write b = false →
      ms1.write_ios_total = ms.write_ios_total ∧ ms1.write_ios_pending = ms.write_ios_pending ∧
      ms1.read_ios_total = atomic_inc ms.read_ios_total ∧
      ((r = 0 ∧ ms1.read_ios_pending = atomic_inc ms.read_ios_pending ∧
          ∃ q, req = some q ∧ q.notify = notify_fn.read_callback ∧
            bio_is_write q.context = false) ∨
        (r ≠ 0 ∧ ms1.read_ios_pending = atomic_dec (atomic_inc ms.read_ios_pending) ∧
          req = none))) := by
  have heio_ne : (- EIO : Int) ≠ 0 := by decide
  have hEW : (-EWOULDBLOCK : Int) ≠ 0 := by decide
  unfold mirror_sync_map at h
  by_cases hra : b.REQ_RAHEAD = true ∧ b.REQ_WRITE = false
  · rw [if_pos hra] at h
    cases h
    have h1 := (bio_is_reada_iff b).mpr hra
    exact ⟨rfl, fun _ => ⟨rfl, rfl, hEW⟩, fun h2 => bool_true_false h1 h2,
      fun h2 => bool_true_false h1 h2⟩
  · rw [if_neg hra] at h
    have h1 : bio_is_reada b = false := by
      cases hx : bio_is_reada b with
      | false => rfl
      | true => exact absurd ((bio_is_reada_iff b).mp hx) hra
    simp only at h
    by_cases hw : b.REQ_WRITE = true ∧ b.REQ_RAHEAD = false
    · rw [if_pos hw] at h
      have h2 := (bio_is_write_iff b).mpr hw
      rcases hwa : write_async_bios { ms with write_ios_total := atomic_inc ms.write_ios_total }
        { b with per_bio_data :=
            { b.per_bio_data with bmi_bd := dm_bio_record b, bmi_m := ms.default_mirror } }
        with ⟨r0, b0, req0⟩
      rw [hwa] at h
      simp only at h
      have hreq := write_async_bios_req _ _ _ _ _ hwa
      refine ⟨?_, fun h3 => bool_true_false h3 h1, fun _ _ => ?_,
        fun _ h3 => bool_true_false h2 h3⟩
      · split_ifs at h <;> cases h <;> rfl
      · rcases hreq with ⟨hr0, hq0⟩ | ⟨hr0, q, hq, hn, hcw⟩
        · rw [if_pos hr0] at h
          split_ifs at h <;> cases h <;>
            exact ⟨rfl, rfl, rfl, Or.inr ⟨heio_ne, rfl, rfl⟩⟩
        · rw [if_neg hr0] at h
          cases h
          exact ⟨rfl, rfl, rfl, Or.inl ⟨rfl, rfl, q, hq, hn, hcw.trans h2⟩⟩
    · rw [if_neg hw] at h
      have h2 : bio_is_write b = false := by
        cases hx : bio_is_write b with
        | false => rfl
        | true => exact absurd ((bio_is_write_iff b).mp hx) hw
      obtain ⟨v, hc, hv⟩ := run_bind_ok h
      obtain ⟨m, ms2⟩ := v
      obtain ⟨s1, s2, s3, s4, s5⟩ := choose_read_mirror_same_io _ _ _ _ hc
      refine ⟨?_, fun h3 => bool_true_false h3 h1,
        fun _ h3 => bool_true_false h3 h2, fun _ _ => ?_⟩
      · cases m with
        | none =>
          simp only at hv
          split_ifs at hv <;> cases hv <;> exact s5
        | some mi =>
          simp only at hv
          split at hv
          · cases hv
          · obtain ⟨w, _, hw2⟩ := run_bind_ok hv
            cases hw2
            exact s5
      · cases m with
        | none =>
          simp only at hv
          split_ifs at hv <;> cases hv <;>
            exact ⟨s3, s4, s1, Or.inr ⟨heio_ne, congrArg atomic_dec s2, rfl⟩⟩
        | some mi =>
          simp only at hv
          split at hv
          · cases hv
          · obtain ⟨w, hra2, hw2⟩ := run_bind_ok hv
            obtain ⟨hq1, hq2⟩ := read_async_bio_req _ _ _ _ hra2
            cases hw2
            exact ⟨s3, s4, s1, Or.inl ⟨rfl, s2, _, rfl, hq1, hq2.trans h2⟩⟩

theorem filter_eraseIdx_pos {α : Type} (p : α → Bool) (l : List α) :
    ∀ (k : Nat) (x : α), l[k]? = some x → p x = true →
      ((l.eraseIdx k).filter p).length + 1 = (l.filter p).length := by
  induction l with
  | nil => intro k x h; rw [List.getElem?_nil] at h; cases h
  | cons a rest ih =>
    intro k x h hp
    cases k with
    | zero =>
      simp only [List.getElem?_cons_zero, Option.some.injEq] at h
      subst h
      simp [List.eraseIdx, hp]
    | succ k =>
      simp only [List.getElem?_cons_succ] at h
      have := ih k x h hp
      simp only [List.eraseIdx, List.filter_cons]
      split_ifs <;> (try simp only [List.length_cons]) <;> omega

theorem filter_eraseIdx_neg {α : Type} (p : α → Bool) (l : List α) :
    ∀ (k : Nat) (x : α), l[k]? = some x → p x = false →
      ((l.eraseIdx k).filter p).length = (l.filter p).length := by
  induction l with
  | nil => intro k x h; rw [List.getElem?_nil] at h; cases h
  | cons a rest ih =>
    intro k x h hp
    cases k with
    | zero =>
      simp only [List.getElem?_cons_zero, Option.some.injEq] at h
      subst h
      simp [List.eraseIdx, hp]
    | succ k =>
      simp only [List.getElem?_cons_succ] at h
      have := ih k x h hp
      simp only [List.eraseIdx, List.filter_cons]
      split_ifs <;> (try simp only [List.length_cons]) <;> omega

theorem ctr_get_mirrors_io (legs : List (String × Nat)) :
    ∀ (m : Nat) (ms : mirror_sync_set), same_io ms (ctr_get_mirrors legs m ms) := by
  induction legs with
  | nil => intro m ms; exact same_io_refl _
  | cons p rest ih =>
    intro m ms
    obtain ⟨dev, off⟩ := p
    unfold ctr_get_mirrors
    exact same_io_trans ⟨rfl, rfl, rfl, rfl, rfl⟩ (ih (m + 1) (get_mirror ms m dev off))

theorem ctr_weight_loop1_io (w : Nat) (idx : List Nat) :
    ∀ (ms : mirror_sync_set) (maxi max : Int),
      same_io ms (ctr_weight_loop1 w idx (ms, maxi, max)).1 := by
  induction idx with
  | nil => intro ms maxi max; exact same_io_refl _
  | cons i rest ih =>
    intro ms maxi max
    have hi := ih { ms with mirror_weights := ms.mirror_weights.set i (wrap_int (w : Int)) }
    unfold ctr_weight_loop1
    simp only
    by_cases h1 : alive_at
        { ms with mirror_weights := ms.mirror_weights.set i (wrap_int (w : Int)) } i = true
    · rw [if_pos h1]; exact hi _ _
    · rw [if_neg h1]; exact hi _ _

theorem ctr_read_policy_io (ms : mirror_sync_set) (rp : read_policy_params) :
    same_io ms (ctr_read_policy ms rp) := by
  unfold ctr_read_policy
  split_ifs
  · split
    all_goals first
      | exact ⟨rfl, rfl, rfl, rfl, rfl⟩
      | (have h1 := ctr_weight_loop1_io rp.rparg0 (List.range ms.nr_mirrors) ms (-1) (-1)
         rcases hl : ctr_weight_loop1 rp.rparg0 (List.range ms.nr_mirrors) (ms, -1, -1)
           with ⟨ms1, maxi, max⟩
         rw [hl] at h1
         simp only
         split_ifs <;> exact ⟨h1.1, h1.2.1, h1.2.2.1, h1.2.2.2.1, h1.2.2.2.2⟩)
  · exact same_io_refl _

/-- A set constructed without a set to inherit from starts with the four
counters at 0 and an empty retry queue. -/
theorem mirror_sync_ctr_io (rp : read_policy_params) (legs : List (String × Nat))
    (ti_begin : Nat) (mdname : String) (ms : mirror_sync_set)
    (h : mirror_sync_ctr rp legs ti_begin mdname none = Except.ok (some ms)) :
    ms.read_ios_total = 0 ∧ ms.read_ios_pending = 0 ∧ ms.write_ios_total = 0 ∧
    ms.write_ios_pending = 0 ∧ ms.read_failures = [] := by
  unfold mirror_sync_ctr at h
  simp only [run_pure] at h
  by_cases hn : legs.length < 2 ∨ legs.length > MAX_MIRRORS
  · rw [if_pos hn] at h
    cases h
  · rw [if_neg hn] at h
    obtain ⟨ms_a, ha, h⟩ := run_bind_ok h
    obtain ⟨ms_p, hp, h⟩ := run_bind_ok h
    cases h
    have h0 : ms_a.read_ios_total = 0 ∧ ms_a.read_ios_pending = 0 ∧ ms_a.write_ios_total = 0 ∧
        ms_a.write_ios_pending = 0 ∧ ms_a.read_failures = [] := by
      unfold alloc_mirror_sync_set at ha
      simp only [assert_bug_bind, run_pure] at ha
      split_ifs at ha
      obtain ⟨v, hg, hv⟩ := run_bind_ok ha
      obtain ⟨c, ms2⟩ := v
      have hs := get_mirror_weight_max_live_same_io _ _ _ hg
      cases hv
      exact ⟨hs.1, hs.2.1, hs.2.2.1, hs.2.2.2.1, hs.2.2.2.2⟩
    have h1 := ctr_get_mirrors_io legs 0 ms_a
    have hp1 : ms_p = { ctr_get_mirrors legs 0 ms_a with name := mdname } := by
      unfold preserve_ms_params_on_reconfig at hp
      cases hp
      rfl
    have h2 := ctr_read_policy_io ms_p rp
    rw [hp1] at h2
    obtain ⟨a1, a2, a3, a4, a5⟩ := h0
    rw [hp1]
    exact ⟨(h2.1.trans h1.1).trans a1, (h2.2.1.trans h1.2.1).trans a2,
      (h2.2.2.1.trans h1.2.2.1).trans a3, (h2.2.2.2.1.trans h1.2.2.2.1).trans a4,
      (h2.2.2.2.2.trans h1.2.2.2.2).trans a5⟩

theorem wrap_int_dec_inc (n : Nat) :
    atomic_dec (atomic_inc (wrap_int (n : Int))) = wrap_int (n : Int) := by
  unfold atomic_dec atomic_inc wrap_int
  omega

theorem notify_write_not_read (q : dm_io_request) (h : q.notify = notify_fn.write_callback) :
    decide (q.notify = notify_fn.read_callback) = false := by
  rw [h]; rfl

theorem notify_read_not_write (q : dm_io_request) (h : q.notify = notify_fn.read_callback) :
    decide (q.notify = notify_fn.write_callback) = false := by
  rw [h]; rfl

theorem filter_length_all {α : Type} (p : α → Bool) (l : List α) (h : ∀ x, x ∈ l → p x = true) :
    (l.filter p).length = l.length := by
  rw [List.filter_eq_self.mpr h]

theorem filter_length_none {α : Type} (p : α → Bool) (l : List α)
    (h : ∀ x, x ∈ l → p x = false) : (l.filter p).length = 0 := by
  have : l.filter p = [] := by
    rw [List.filter_eq_nil_iff]
    intro x hx
    rw [h x hx]
    simp
  rw [this]; rfl

theorem io_inv_map (s : dms_system) (c : io_tally) (b : bio) (r : Int) (ms1 : mirror_sync_set)
    (b1 : bio) (req : Option dm_io_request) (hi : io_inv s c)
    (h : mirror_sync_map s.ms b = Except.ok (r, ms1, b1, req)) :
    io_inv { s with ms := ms1, in_flight := s.in_flight ++ req.toList } (tally_map c b r) := by
  obtain ⟨i1, i2, i3, i4, i5, i6, i7⟩ := hi
  obtain ⟨m0, m1, m2, m3⟩ := mirror_sync_map_io _ _ _ _ _ _ h
  unfold io_inv ended_writes ended_reads inflight_writes inflight_reads at *
  unfold tally_map
  cases hra : bio_is_reada b with
  | true =>
    obtain ⟨e1, e2, _⟩ := m1 hra
    subst e1 e2
    simp only [if_true, Option.toList, List.append_nil]
    exact ⟨i1, i2, i3, i4, i5, i6, i7⟩
  | false =>
    simp only [Bool.false_eq_true, if_false]
    cases hw : bio_is_write b with
    | true =>
      obtain ⟨w1, w2, w3, w4⟩ := m2 hra hw
      simp only [if_true]
      rcases w4 with ⟨hr, w5, q, hq, hn, hc⟩ | ⟨hr, w5, hq⟩
      · subst hq
        have hnr := notify_write_not_read q hn
        simp only [Option.toList, List.filter_append, List.filter_cons, List.filter_nil, hn,
          decide_True, if_true, hnr, Bool.false_eq_true, if_false, List.length_append,
          List.length_cons, List.length_nil, List.append_nil, hr, m0, w1, w2, w3, w5]
        refine ⟨by omega, i2, ?_, i4, i5, ?_, ?_⟩
        · rw [i3]; exact wrap_int_inc _
        · rw [i6]; exact wrap_int_inc _
        · intro x hx
          rcases List.mem_append.mp hx with hx | hx
          · exact i7 x hx
          · rw [List.mem_singleton] at hx
            subst hx
            exact ⟨fun _ => hc, fun h2 => (by rw [hn] at h2; cases h2)⟩
      · subst hq
        simp only [Option.toList, List.append_nil, if_neg hr, Nat.add_zero, m0, w1, w2, w3, w5]
        refine ⟨i1, i2, i3, i4, i5, ?_, i7⟩
        rw [i6]; exact wrap_int_inc _
    | false =>
      obtain ⟨w1, w2, w3, w4⟩ := m3 hra hw
      simp only [Bool.false_eq_true, if_false]
      rcases w4 with ⟨hr, w5, q, hq, hn, hc⟩ | ⟨hr, w5, hq⟩
      · subst hq
        have hnw := notify_read_not_write q hn
        simp only [Option.toList, List.filter_append, List.filter_cons, List.filter_nil, hn,
          decide_True, if_true, hnw, Bool.false_eq_true, if_false, List.length_append,
          List.length_cons, List.length_nil, List.append_nil, hr, m0, w1, w2, w3, w5]
        refine ⟨i1, by omega, i3, ?_, ?_, i6, ?_⟩
        · rw [i4, wrap_int_inc, Nat.add_right_comm]
        · rw [i5]; exact wrap_int_inc _
        · intro x hx
          rcases List.mem_append.mp hx with hx | hx
          · exact i7 x hx
          · rw [List.mem_singleton] at hx
            subst hx
            exact ⟨fun h2 => (by rw [hn] at h2; cases h2), fun _ => hc⟩
      · subst hq
        simp only [Option.toList, List.append_nil, if_neg hr, Nat.add_zero, m0, w1, w2, w3, w5]
        refine ⟨i1, i2, i3, ?_, ?_, i6, i7⟩
        · rw [i4]; exact wrap_int_dec_inc _
        · rw [i5]; exact wrap_int_inc _

theorem mirror_sync_end_io_write (ms : mirror_sync_set) (b : bio) (err : Int)
    (h : bio_is_write b = true) :
    (mirror_sync_end_io ms b err).2 =
      { ms with write_ios_pending := atomic_dec ms.write_ios_pending } := by
  unfold mirror_sync_end_io
  rw [if_pos ((bio_is_write_iff b).mp h)]

theorem mirror_sync_end_io_read (ms : mirror_sync_set) (b : bio) (err : Int)
    (h : bio_is_write b = false) :
    (mirror_sync_end_io ms b err).2 =
      { ms with read_ios_pending := atomic_dec ms.read_ios_pending } := by
  unfold mirror_sync_end_io
  rw [if_neg]
  intro hc
  exact bool_true_false ((bio_is_write_iff b).mpr hc) h

theorem io_inv_done (s t : dms_system) (c : io_tally) (hi : io_inv s c)
    (h : Completion s t) : io_inv t c := by
  obtain ⟨i1, i2, i3, i4, i5, i6, i7⟩ := hi
  unfold io_inv ended_writes ended_reads inflight_writes inflight_reads at *
  cases h with
  | write_done k req error ms1 b1 ret hk hn h =>
    have hmem : req ∈ s.in_flight := List.getElem?_mem hk
    obtain ⟨⟨s1, s2, s3, s4, s5⟩, hb⟩ := write_callback_same_io _ _ _ _ _ _ h
    have hw : bio_is_write b1 = true := hb.trans ((i7 req hmem).1 hn)
    have e1 := filter_eraseIdx_pos (fun q => decide (q.notify = notify_fn.write_callback))
      s.in_flight k req hk (by simp [hn])
    have e2 := filter_eraseIdx_neg (fun q => decide (q.notify = notify_fn.read_callback))
      s.in_flight k req hk (notify_write_not_read req hn)
    rw [mirror_sync_end_io_write _ _ _ hw]
    simp only [List.filter_append, List.filter_cons, List.filter_nil, hw, if_true,
      Bool.not_true, Bool.false_eq_true, if_false, List.length_append, List.length_cons,
      List.length_nil, List.append_nil, Nat.add_zero, s1, s2, s3, s4, s5, e2]
    refine ⟨by omega, i2, ?_, i4, i5, i6, fun q hq => i7 q (List.mem_of_mem_eraseIdx hq)⟩
    rw [i3, ← e1]
    exact wrap_int_dec_succ _
  | read_done k req error ms1 b1 ret hk hn h =>
    have hmem : req ∈ s.in_flight := List.getElem?_mem hk
    obtain ⟨s1, s2, s3, s4, hb, s5, _⟩ := read_callback_io _ _ _ _ _ _ h
    have s5 := s5 (by simp)
    have hw : bio_is_write b1 = false := hb.trans ((i7 req hmem).2 hn)
    have e1 := filter_eraseIdx_pos (fun q => decide (q.notify = notify_fn.read_callback))
      s.in_flight k req hk (by simp [hn])
    have e2 := filter_eraseIdx_neg (fun q => decide (q.notify = notify_fn.write_callback))
      s.in_flight k req hk (notify_read_not_write req hn)
    rw [mirror_sync_end_io_read _ _ _ hw]
    simp only [List.filter_append, List.filter_cons, List.filter_nil, hw, if_true,
      Bool.not_false, Bool.false_eq_true, if_false, List.length_append, List.length_cons,
      List.length_nil, List.append_nil, Nat.add_zero, s1, s2, s3, s4, s5, e2]
    refine ⟨i1, by omega, i3, ?_, i5, i6, fun q hq => i7 q (List.mem_of_mem_eraseIdx hq)⟩
    rw [i4, ← e1, Nat.add_right_comm]
    exact wrap_int_dec_succ _
  | read_retry k req error ms1 b1 hk hn h =>
    obtain ⟨s1, s2, s3, s4, hb, _, s5⟩ := read_callback_io _ _ _ _ _ _ h
    obtain ⟨q, s5⟩ := s5 rfl
    have e1 := filter_eraseIdx_pos (fun q => decide (q.notify = notify_fn.read_callback))
      s.in_flight k req hk (by simp [hn])
    have e2 := filter_eraseIdx_neg (fun q => decide (q.notify = notify_fn.write_callback))
      s.in_flight k req hk (notify_read_not_write req hn)
    simp only [s1, s2, s3, s4, s5, e2, List.length_append, List.length_cons, List.length_nil]
    refine ⟨i1, by omega, i3, ?_, i5, i6, fun q hq => i7 q (List.mem_of_mem_eraseIdx hq)⟩
    rw [i4, ← e1]
    congr 2
    omega
  | worker ms1 reqs ended h =>
    unfold main_mirror_syncd at h
    obtain ⟨⟨s1, s2, s3, s4, s5⟩, hlen, hreqs, hend⟩ := do_read_failures_io _ _ _ _ _ h
    simp only at s1 s2 s3 s4 s5
    have hr1 := filter_length_all (fun q => decide (q.notify = notify_fn.read_callback)) reqs
      (fun q hq => by simp [(hreqs q hq).1])
    have hr2 := filter_length_none (fun q => decide (q.notify = notify_fn.write_callback)) reqs
      (fun q hq => notify_read_not_write q (hreqs q hq).1)
    have he1 := filter_length_all (fun e : bio × Int => !bio_is_write e.1) ended
      (fun e he => by simp [hend e he])
    have he2 := filter_length_none (fun e : bio × Int => bio_is_write e.1) ended
      (fun e he => hend e he)
    have hp : ms1.read_ios_pending =
        wrap_int ((((s.in_flight.filter
          (fun q => decide (q.notify = notify_fn.read_callback))).length + reqs.length) +
            ended.length : Nat) : Int) := by
      rw [s2, i4]
      congr 2
      omega
    obtain ⟨f1, f2, f3, f4, f5⟩ := end_io_all_reads ended ms1 _ hend hp
    simp only [List.filter_append, List.length_append, hr1, hr2, he1, he2, f1, f2, f3, f4, f5,
      s1, s3, s4, s5, List.length_nil, Nat.add_zero]
    refine ⟨i1, by omega, i3, trivial, i5, i6, ?_⟩
    intro q hq
    rcases List.mem_append.mp hq with hq | hq
    · exact i7 q hq
    · exact ⟨fun h2 => (by rw [(hreqs q hq).1] at h2; cases h2), fun _ => (hreqs q hq).2⟩

/-- The bookkeeping of the counters holds in every state reached by `map`
calls and completions from a freshly constructed set. -/
theorem IoRun.inv {s : dms_system} {c : io_tally} (h : IoRun s c) : io_inv s c := by
  induction h with
  | ctr rp legs ti_begin mdname ms hrp h =>
    obtain ⟨a1, a2, a3, a4, a5⟩ := mirror_sync_ctr_io _ _ _ _ _ h
    unfold io_inv ended_writes ended_reads inflight_writes inflight_reads
    simp only [a1, a2, a3, a4, a5, List.filter_nil, List.length_nil, Nat.add_zero]
    exact ⟨trivial, trivial, rfl, rfl, rfl, rfl, fun q hq => by cases hq⟩
  | map s c b r ms1 b1 req _ hb h ih => exact io_inv_map s c b r ms1 b1 req ih h
  | done s t c _ h ih => exact io_inv_done s t c ih h

theorem read_async_bio_ok (ms : mirror_sync_set) (b b1 : bio) (req : dm_io_request)
    (h : read_async_bio ms b = Except.ok (b1, req)) : read_req_ok ms.nr_mirrors req := by
  unfold read_async_bio at h
  split at h
  · cases h
  · rename_i mi hmi
    split at h
    · cases h
    · rename_i mr hmr
      cases h
      intro _
      exact ⟨rfl, mi, hmi, (List.getElem?_eq_some.mp hmr).1⟩

theorem read_req_ok_of_write (n : Nat) (req : dm_io_request)
    (h : req.notify = notify_fn.write_callback) : read_req_ok n req := by
  intro hr
  rw [h] at hr
  cases hr

theorem same_legs_nr {ms ms1 : mirror_sync_set} (h : same_legs ms ms1) :
    ms1.nr_mirrors = ms.nr_mirrors := by
  unfold mirror_sync_set.nr_mirrors; rw [h.1]

theorem mirror_sync_map_read_ok (ms ms1 : mirror_sync_set) (b b1 : bio) (r : Int)
    (req : dm_io_request)
    (h : mirror_sync_map ms b = Except.ok (r, ms1, b1, some req)) :
    read_req_ok ms.nr_mirrors req := by
  obtain ⟨_, m1, m2, m3⟩ := mirror_sync_map_io _ _ _ _ _ _ h
  cases hra : bio_is_reada b with
  | true => exact absurd (m1 hra).2.1 (by simp)
  | false =>
    cases hw : bio_is_write b with
    | true =>
      rcases (m2 hra hw).2.2.2 with ⟨_, _, q, hq, hn, _⟩ | ⟨_, _, hq⟩
      · cases hq; exact read_req_ok_of_write _ _ hn
      · cases hq
    | false =>
      unfold mirror_sync_map at h
      have hnra : ¬ (b.REQ_RAHEAD = true ∧ b.REQ_WRITE = false) :=
        fun hc => bool_true_false ((bio_is_reada_iff b).mpr hc) hra
      have hnw : ¬ (b.REQ_WRITE = true ∧ b.REQ_RAHEAD = false) :=
        fun hc => bool_true_false ((bio_is_write_iff b).mpr hc) hw
      rw [if_neg hnra] at h
      simp only at h
      rw [if_neg hnw] at h
      obtain ⟨v, hc, hv⟩ := run_bind_ok h
      obtain ⟨m, ms2⟩ := v
      have hs := same_legs_nr (choose_read_mirror_same _ _ _ _ hc)
      cases m with
      | none =>
        simp only at hv
        split_ifs at hv <;> cases hv
      | some mi =>
        simp only at hv
        split at hv
        · cases hv
        · obtain ⟨w, hra2, hw2⟩ := run_bind_ok hv
          cases hw2
          have := read_async_bio_ok _ _ _ _ hra2
          rw [hs] at this
          exact this

theorem do_read_failures_read_ok (bios : List bio) :
    ∀ (ms ms1 : mirror_sync_set) (reqs : List dm_io_request) (ended : List (bio × Int)),
      do_read_failures bios ms = Except.ok (ms1, reqs, ended) →
      ∀ req, req ∈ reqs → read_req_ok ms.nr_mirrors req := by
  induction bios with
  | nil => intro ms ms1 reqs ended h; cases h; intro req hreq; cases hreq
  | cons b rest ih =>
    intro ms ms1 reqs ended h
    unfold do_read_failures at h
    obtain ⟨b2, _, h⟩ := run_bind_ok h
    obtain ⟨_, _, h⟩ := run_bind_ok h
    obtain ⟨v, hc, h⟩ := run_bind_ok h
    obtain ⟨m, ms2⟩ := v
    have hs := same_legs_nr (choose_read_mirror_same _ _ _ _ hc)
    cases m with
    | none =>
      simp only at h
      obtain ⟨w, hr, h⟩ := run_bind_ok h
      obtain ⟨ms3, reqs3, ended3⟩ := w
      cases h
      intro req hreq
      have := ih _ _ _ _ hr req hreq
      have hx : ∀ (c : Prop) [Decidable c] (y : Int),
          (if c then { ms2 with supress_err_messages := y } else ms2).nr_mirrors =
            ms2.nr_mirrors := by
        intro c _ y; split_ifs <;> rfl
      rw [hx, hs] at this
      exact this
    | some mi =>
      simp only at h
      split at h
      · cases h
      · obtain ⟨w, hra, h⟩ := run_bind_ok h
        obtain ⟨w2, hr, h⟩ := run_bind_ok h
        obtain ⟨ms3, reqs3, ended3⟩ := w2
        cases h
        intro req hreq
        rcases List.mem_cons.mp hreq with e | e
        · rw [e]
          have := read_async_bio_ok _ _ _ _ hra
          rw [hs] at this
          exact this
        · have := ih _ _ _ _ hr req e
          rw [hs] at this
          exact this

/-- Every read request in flight in a reachable state is as `read_async_bio`
issued it. -/
theorem Reachable.in_flight_reads_ok {s : dms_system} (h : Reachable s) :
    ∀ req, req ∈ s.in_flight → read_req_ok s.ms.nr_mirrors req := by
  induction h with
  | ctr rp legs ti_begin mdname oldms ms hrp h => intro req hreq; cases hreq
  | step s t _ hst ih =>
    have hn := hst.fail_seq.nr_mirrors_eq
    rw [hn]
    cases hst with
    | map b r ms1 b1 req hb h =>
      intro rq hrq
      rcases List.mem_append.mp hrq with e | e
      · exact ih rq e
      · cases req with
        | none => cases e
        | some q =>
          have : rq = q := by simpa using e
          rw [this]
          exact mirror_sync_map_read_ok _ _ _ _ _ _ h
    | write_done k req error ms1 b1 ret hk hn h =>
      exact fun rq hrq => ih rq (List.mem_of_mem_eraseIdx hrq)
    | read_done k req error ms1 b1 ret hk hn h =>
      exact fun rq hrq => ih rq (List.mem_of_mem_eraseIdx hrq)
    | read_retry k req error ms1 b1 hk hn h =>
      exact fun rq hrq => ih rq (List.mem_of_mem_eraseIdx hrq)
    | worker ms1 reqs ended h =>
      intro rq hrq
      rcases List.mem_append.mp hrq with e | e
      · exact ih rq e
      · exact do_read_failures_read_ok _ _ _ _ _ h rq e
    | message ti_len check argv r ms1 h => exact ih
    | status => exact ih
    | presuspend => exact ih
    | postsuspend => exact ih
    | resume => exact ih

theorem no_live_legs (ms : mirror_sync_set) (h : ∀ i, alive_at ms i = false) :
    (List.range ms.nr_mirrors).filter (alive_at ms) = [] := by
  rw [List.filter_eq_nil_iff]
  intro i _
  rw [h i]
  simp

theorem some_live_leg (ms : mirror_sync_set) (i : Nat) (h : alive_at ms i = true) :
    live_legs ms ≠ [] := by
  intro hc
  unfold live_legs at hc
  rw [List.filter_eq_nil_iff] at hc
  exact hc i (List.mem_range.mpr (alive_at_lt ms i h)) h

/-- `mirror_sync_map` on a read-ahead: -EWOULDBLOCK, nothing is touched. -/
theorem mirror_sync_map_reada (ms : mirror_sync_set) (b : bio) (h : bio_is_reada b = true) :
    mirror_sync_map ms b = Except.ok (-EWOULDBLOCK, ms, b, none) := by
  unfold mirror_sync_map
  rw [if_pos ((bio_is_reada_iff b).mp h)]
  rfl

/-- The request `write_async_bios` hands to `dm_io` when a leg is alive: one
region per alive leg, in the order of the leg array. -/
theorem write_async_bios_regions (ms : mirror_sync_set) (b : bio)
    (hn : ms.nr_mirrors ≤ MAX_MIRRORS) (hwm : b.per_bio_data.bmi_wm.length = MAX_MIRRORS)
    (hlive : live_legs ms ≠ []) :
    ∃ b1 req, write_async_bios ms b = (1, b1, some req) ∧
      req.regions = (live_legs ms).filterMap
        (fun i => (ms.mirror[i]?).map (fun m => map_region ms m b)) := by
  unfold live_legs at hlive ⊢
  have hlen : 0 + ((List.range ms.nr_mirrors).filter (alive_at ms)).length ≤
      b.per_bio_data.bmi_wm.length := by
    have := List.length_filter_le (alive_at ms) (List.range ms.nr_mirrors)
    simp only [List.length_range] at this
    omega
  obtain ⟨h1, h2, _, _⟩ := write_async_loop_spec ms b (List.range ms.nr_mirrors) []
    b.per_bio_data.bmi_wm 0 hlen
  have hpos : ((List.range ms.nr_mirrors).filter (alive_at ms)).length ≠ 0 := by
    intro h0; exact hlive (List.length_eq_zero.mp h0)
  unfold write_async_bios
  rcases hr : write_async_loop ms b (List.range ms.nr_mirrors) ([], b.per_bio_data.bmi_wm, 0)
    with ⟨io, wm, k⟩
  rw [hr] at h1 h2
  simp only [Nat.zero_add, List.nil_append] at h1 h2
  subst h2
  simp only [hpos, if_false]
  refine ⟨_, _, rfl, ?_⟩
  simp only [h1]
  rw [← live_regions_length ms b, List.take_length]

/-- `mirror_sync_map` on a write: 0 and a request when a leg is alive, `- EIO`
and nothing issued when none is. -/
theorem mirror_sync_map_write (ms : mirror_sync_set) (b : bio)
    (hn : ms.nr_mirrors ≤ MAX_MIRRORS) (hwm : b.per_bio_data.bmi_wm.length = MAX_MIRRORS)
    (hw : bio_is_write b = true) :
    ((∃ i, alive_at ms i = true) →
      ∃ ms1 b1 rq, mirror_sync_map ms b = Except.ok (0, ms1, b1, some rq)) ∧
    ((∀ i, alive_at ms i = false) →
      ∃ ms1 b1, mirror_sync_map ms b = Except.ok (- EIO, ms1, b1, none) ∧
        ms1.write_ios_pending = ms.write_ios_pending ∧
        ms1.read_ios_pending = ms.read_ios_pending ∧
        ms1.supress_err_messages =
          if ms.supress_err_messages < MAX_ERR_MESSAGES then
            atomic_inc ms.supress_err_messages
          else ms.supress_err_messages) := by
  obtain ⟨hw1, hw2⟩ := (bio_is_write_iff b).mp hw
  have hnra : ¬ (b.REQ_RAHEAD = true ∧ b.REQ_WRITE = false) := by
    rw [hw1]; simp
  constructor
  · rintro ⟨i, hi⟩
    have hlive : live_legs { ms with write_ios_total := atomic_inc ms.write_ios_total } ≠ [] :=
      some_live_leg _ i hi
    obtain ⟨b1, rq, hwa, _⟩ := write_async_bios_regions
      { ms with write_ios_total := atomic_inc ms.write_ios_total }
      { b with per_bio_data :=
          { b.per_bio_data with bmi_bd := dm_bio_record b, bmi_m := ms.default_mirror } }
      hn hwm hlive
    unfold mirror_sync_map
    rw [if_neg hnra]
    simp only
    rw [if_pos ⟨hw1, hw2⟩, hwa]
    exact ⟨_, _, _, rfl⟩
  · intro hdead
    obtain ⟨b1, hwa⟩ := write_async_bios_dead
      { ms with write_ios_total := atomic_inc ms.write_ios_total }
      { b with per_bio_data :=
          { b.per_bio_data with bmi_bd := dm_bio_record b, bmi_m := ms.default_mirror } }
      (no_live_legs _ hdead)
    unfold mirror_sync_map
    rw [if_neg hnra]
    simp only
    rw [if_pos ⟨hw1, hw2⟩, hwa]
    simp only [if_true]
    by_cases hs : ms.supress_err_messages < MAX_ERR_MESSAGES
    · rw [if_pos hs, if_pos hs]; exact ⟨_, _, rfl, rfl, rfl, rfl⟩
    · rw [if_neg hs, if_neg hs]; exact ⟨_, _, rfl, rfl, rfl, rfl⟩

/-- Round robin with a quantum of at least 2 keeps the selector's contract. -/
theorem selects_live_rr (ms : mirror_sync_set) (sector : Nat)
    (hp : ms.rdpolicy = dms_read_policy.DMS_ROUND_ROBIN)
    (hq : 2 ≤ ms.rr_ios_set) (hq2 : ms.rr_ios_set ≤ 2147483647)
    (hc : ms.read_mirror < ms.nr_mirrors) : selects_live ms sector := by
  unfold selects_live
  rw [choose_read_mirror_rr_eq ms sector hp hc (wrap_int_pred_ne_zero _ hq hq2)]
  by_cases h1 : alive_at ms ms.read_mirror = true ∧ wrap_int (ms.rr_ios - 1) ≠ 0
  · rw [if_pos h1]
    refine ⟨_, _, rfl, rfl, rfl, ⟨rfl, rfl, rfl, rfl, rfl⟩, fun h => (by cases h), ?_⟩
    intro mi hmi
    cases hmi
    exact h1.1
  · rw [if_neg h1]
    cases hf : (back_order ms.nr_mirrors ms.read_mirror).find? (alive_at ms) with
    | none =>
      exact ⟨_, _, rfl, rfl, rfl, ⟨rfl, rfl, rfl, rfl, rfl⟩,
        fun _ => (back_order_find_none ms _ hc).mp hf, fun mi hmi => (by cases hmi)⟩
    | some r =>
      refine ⟨_, _, rfl, rfl, rfl, ⟨rfl, rfl, rfl, rfl, rfl⟩, fun h => (by cases h), ?_⟩
      intro mi hmi
      cases hmi
      exact List.find?_some hf

/-- The logical partition keeps the selector's contract whenever the 32-bit
product `chunk * 2` is not 0. -/
theorem selects_live_lp (ms : mirror_sync_set) (sector : Nat)
    (hp : ms.rdpolicy = dms_read_policy.DMS_LOGICAL_PARTITION)
    (hd : wrap_u64 (wrap_int (ms.lp_io_chunk * 2)) ≠ 0) (hn : 0 < ms.nr_mirrors) :
    selects_live ms sector := by
  unfold selects_live
  cases ha : alive_at ms ((sector / wrap_u64 (wrap_int (ms.lp_io_chunk * 2))) % ms.nr_mirrors)
    with
  | false =>
    rw [choose_read_mirror_lp_walk ms sector hp hd hn ha]
    have hm : (sector / wrap_u64 (wrap_int (ms.lp_io_chunk * 2))) % ms.nr_mirrors
        < ms.nr_mirrors := Nat.mod_lt _ hn
    refine ⟨_, _, rfl, rfl, rfl, same_io_refl _, fun h => (back_order_find_none ms _ hm).mp h,
      fun mi hmi => List.find?_some hmi⟩
  | true =>
    have h1 : ¬ (wrap_u64 (wrap_int (ms.lp_io_chunk * 2)) = 0 ∨ ms.nr_mirrors = 0) := by omega
    have : choose_read_mirror ms sector = Except.ok
        (some ((sector / wrap_u64 (wrap_int (ms.lp_io_chunk * 2))) % ms.nr_mirrors), ms) := by
      unfold choose_read_mirror
      simp only [hp]
      rw [if_neg h1]
      simp only [ha, Bool.not_true, Bool.false_eq_true, if_false]
      rfl
    rw [this]
    refine ⟨_, _, rfl, rfl, rfl, same_io_refl _, fun h => (by cases h), ?_⟩
    intro mi hmi
    cases hmi
    exact ha

/-- `mirror_sync_map` on a read that is not a read-ahead, where the selector
keeps its contract: 0 and a request when a leg is alive, `- EIO` and nothing
issued when none is, the pending counters then as before the call and the
suppression counter one up when it was below `MAX_ERR_MESSAGES`. -/
theorem mirror_sync_map_read (ms : mirror_sync_set) (b : bio)
    (hpend : -2147483648 ≤ ms.read_ios_pending ∧ ms.read_ios_pending ≤ 2147483647)
    (hra : bio_is_reada b = false) (hw : bio_is_write b = false)
    (hsel : selects_live
      { ms with read_ios_total := atomic_inc ms.read_ios_total,
                read_ios_pending := atomic_inc ms.read_ios_pending } b.bi_sector) :
    ((∃ i, alive_at ms i = true) →
      ∃ ms1 b1 rq, mirror_sync_map ms b = Except.ok (0, ms1, b1, some rq)) ∧
    ((∀ i, alive_at ms i = false) →
      ∃ ms1 b1, mirror_sync_map ms b = Except.ok (- EIO, ms1, b1, none) ∧
        ms1.write_ios_pending = ms.write_ios_pending ∧
        ms1.read_ios_pending = ms.read_ios_pending ∧
        ms1.supress_err_messages =
          if ms.supress_err_messages < MAX_ERR_MESSAGES then
            atomic_inc ms.supress_err_messages
          else ms.supress_err_messages) := by
  have hnra : ¬ (b.REQ_RAHEAD = true ∧ b.REQ_WRITE = false) :=
    fun hc => bool_true_false ((bio_is_reada_iff b).mpr hc) hra
  have hnw : ¬ (b.REQ_WRITE = true ∧ b.REQ_RAHEAD = false) :=
    fun hc => bool_true_false ((bio_is_write_iff b).mpr hc) hw
  have hpe : atomic_dec (atomic_inc ms.read_ios_pending) = ms.read_ios_pending := by
    unfold atomic_dec atomic_inc wrap_int
    omega
  obtain ⟨r, ms2, h1, hmir, hsup, ⟨_, s2, _, s4, _⟩, hnone, hsome⟩ := hsel
  unfold mirror_sync_map
  rw [if_neg hnra]
  simp only
  rw [if_neg hnw]
  constructor
  · rintro ⟨i, hi⟩
    cases r with
    | none => exact bool_true_false hi (hnone rfl i)
    | some mi =>
      obtain ⟨mr, hmr, _⟩ := alive_at_some _ _ (hsome mi rfl)
      have hmr2 : ms2.mirror[mi]? = some mr := by rw [hmir]; exact hmr
      simp only [h1, run_ok_bind, hmr2]
      unfold read_async_bio map_bio
      simp only [hmr2]
      exact ⟨_, _, _, rfl⟩
  · intro hdead
    cases r with
    | some mi => exact bool_true_false (hsome mi rfl) (hdead mi)
    | none =>
      simp only [h1, run_ok_bind]
      have hsup2 : ms2.supress_err_messages = ms.supress_err_messages := hsup
      have hp2 : atomic_dec ms2.read_ios_pending = ms.read_ios_pending := by
        rw [s2]; exact hpe
      by_cases hs : ms.supress_err_messages < MAX_ERR_MESSAGES
      · have hs2 : ms2.supress_err_messages < MAX_ERR_MESSAGES := by rw [hsup2]; exact hs
        simp only [hs2, if_true, if_pos hs]
        exact ⟨_, _, rfl, s4, hp2, by rw [← hsup2]⟩
      · have hs2 : ¬ ms2.supress_err_messages < MAX_ERR_MESSAGES := by rw [hsup2]; exact hs
        simp only [hs2, if_false, if_neg hs]
        exact ⟨_, _, rfl, s4, hp2, hsup2⟩

theorem Completion.to_step {s t : dms_system} (h : Completion s t) : Step s t := by
  cases h with
  | write_done k req error ms1 b1 ret hk hn h => exact Step.write_done s k req error ms1 b1 ret hk hn h
  | read_done k req error ms1 b1 ret hk hn h => exact Step.read_done s k req error ms1 b1 ret hk hn h
  | read_retry k req error ms1 b1 hk hn h => exact Step.read_retry s k req error ms1 b1 hk hn h
  | worker ms1 reqs ended h => exact Step.worker s ms1 reqs ended h

theorem IoRun.reachable {s : dms_system} {c : io_tally} (h : IoRun s c) : Reachable s := by
  induction h with
  | ctr rp legs ti_begin mdname ms hrp h => exact Reachable.ctr rp legs ti_begin mdname none ms hrp h
  | map s c b r ms1 b1 req _ hb h ih => exact Reachable.step _ _ ih (Step.map s b r ms1 b1 req hb h)
  | done s t c _ h ih => exact Reachable.step _ _ ih h.to_step

theorem counter_holds_of (x : Int) (n : Nat) (h : x = wrap_int (n : Int)) : counter_holds x n := by
  refine ⟨h, fun hn => ?_⟩
  rw [h]
  unfold wrap_int
  omega

/-- Writes to the two-leg set whose legs are both dead: each is rejected and
adds one to the writes `map` was called with. -/
theorem dead_writes_run (k : Nat) :
    ∃ s, IoRun s ⟨0, 1 + k, 0, 1⟩ ∧ s.ms.mirror = two_legs_dead.mirror ∧ s.in_flight = [] := by
  induction k with
  | zero => exact ⟨_, two_legs_dead_run, rfl, rfl⟩
  | succ k ih =>
    obtain ⟨s, hs, hm, hf⟩ := ih
    have hlive : (List.range s.ms.nr_mirrors).filter (alive_at s.ms) = [] := by
      unfold mirror_sync_set.nr_mirrors alive_at
      rw [hm]
      decide
    obtain ⟨ms1, b1, h1⟩ := mirror_sync_map_write_dead s.ms (write_bio 100 4096) hlive rfl rfl
    have hsame := mirror_sync_map_same _ _ _ _ _ _ h1
    refine ⟨{ s with ms := ms1, in_flight := s.in_flight ++ (none : Option dm_io_request).toList },
      ?_, ?_, ?_⟩
    · have := IoRun.map s ⟨0, 1 + k, 0, 1⟩ (write_bio 100 4096) (- EIO) ms1 b1 none hs rfl h1
      exact this
    · exact hsame.1.trans hm
    · simp [hf]

/-- After `fail_mirror` on a leg of the set that leg is dead. -/
theorem fail_mirror_kills (ms : mirror_sync_set) (m : Nat) (k : dm_raid1_error) :
    alive_at (fail_mirror ms m k) m = false := by
  cases ha : alive_at (fail_mirror ms m k) m with
  | false => rfl
  | true =>
    obtain ⟨mr1, h1, h2⟩ := alive_at_some _ _ ha
    have hb := fail_mirror_bit_set ms m k mr1 h1
    rw [alive_kind_bit mr1 h2 k] at hb
    cases hb

theorem mirror_sync_available_iff (ms : mirror_sync_set) :
    mirror_sync_available ms ≠ 0 ↔ ∃ i, alive_at ms i = true := by
  unfold mirror_sync_available
  cases hg : get_valid_mirror ms with
  | none =>
    have := (get_valid_mirror_none ms).mp hg
    simp only [Option.isSome_none, Bool.false_eq_true, if_false, ne_eq, not_true_eq_false,
      false_iff, not_exists]
    intro i
    rw [this i]
    simp
  | some j =>
    have := ((get_valid_mirror_some ms j).mp hg).1
    simp only [Option.isSome_some, if_true, ne_eq, one_ne_zero, not_false_eq_true, true_iff]
    exact ⟨j, this⟩

theorem wrap_int_neg_errno (e : Int) (h0 : 0 < e) (h1 : e ≤ 2147483648) :
    wrap_int ((neg_errno_ulong e : Nat) : Int) = -e := by
  unfold neg_errno_ulong wrap_u64 wrap_int
  omega

end DMS

namespace DMS

/-! ## the claims on read selection, map, counters and read completion -/

/-- The fallback of the logical-partition selection for a chunk below 2^30
KiB: when leg `(sector / (2 * k)) mod n` is dead `choose_read_mirror` returns
the first alive leg in the order `m-1, m-2, ...` (wrapping from 0 to `n-1`),
null exactly when no leg is alive, and leaves the set as it was. -/
theorem choose_read_mirror_logical_partition_fallback (ms : mirror_sync_set) (k sector : Nat)
    (hp : ms.rdpolicy = dms_read_policy.DMS_LOGICAL_PARTITION)
    (hk : ms.lp_io_chunk = (k : Int)) (hk0 : 0 < k) (hk1 : k < 1073741824)
    (hn : 0 < ms.nr_mirrors)
    (hdead : alive_at ms ((sector / (2 * k)) % ms.nr_mirrors) = false) :
    choose_read_mirror ms sector =
      Except.ok ((back_order ms.nr_mirrors ((sector / (2 * k)) % ms.nr_mirrors)).find?
        (alive_at ms), ms) ∧
    ((back_order ms.nr_mirrors ((sector / (2 * k)) % ms.nr_mirrors)).find? (alive_at ms) = none ↔
      ∀ i, alive_at ms i = false) := by
  have hd : wrap_u64 (wrap_int (ms.lp_io_chunk * 2)) = 2 * k := by
    rw [hk]
    unfold wrap_u64 wrap_int
    omega
  have h := choose_read_mirror_lp_walk ms sector hp (by rw [hd]; omega) hn (by rw [hd]; exact hdead)
  rw [hd] at h
  exact ⟨h, back_order_find_none ms _ (Nat.mod_lt _ hn)⟩

/-- C11 (code defect).  With the chunk 1073741824 KiB, four legs of which only
leg 2 is dead, and sector 4294967296, the leg `(s / (2k)) mod n` is leg 2 and
the first alive leg in the order 1, 0, 3 is leg 1, but `choose_read_mirror`
returns leg 0: the 32-bit product `chunk * 2` has wrapped, so the selector
starts from leg 0 and never looks at leg 2. -/
theorem choose_read_mirror_fallback_chunk_overflow :
    Reachable { ms := chunk_big_leg2_dead, in_flight := [],
                ended := [(bio_set_m issued_bio_0123 false, 0)] } ∧
    chunk_big_leg2_dead.rdpolicy = dms_read_policy.DMS_LOGICAL_PARTITION ∧
    chunk_big_leg2_dead.lp_io_chunk = 1073741824 ∧ chunk_big_leg2_dead.nr_mirrors = 4 ∧
    (4294967296 / (2 * 1073741824)) % 4 = 2 ∧
    alive_at chunk_big_leg2_dead 2 = false ∧ alive_at chunk_big_leg2_dead 1 = true ∧
    wrap_int (chunk_big_leg2_dead.lp_io_chunk * 2) = -2147483648 ∧
    (back_order 4 2).find? (alive_at chunk_big_leg2_dead) = some 1 ∧
    choose_read_mirror chunk_big_leg2_dead 4294967296 =
      Except.ok (some 0, chunk_big_leg2_dead) :=
  ⟨chunk_big_leg2_dead_reachable, rfl, rfl, rfl, rfl, rfl, rfl, rfl, rfl, rfl⟩

/-- C12 (code defect).  Under the weighted policy with the cached index on a
dead leg and other legs alive, `choose_read_mirror` does not return the alive
leg of maximal weight: on `weighted3_leg0_dead` (weights 60, 50, 50, leg 0 dead,
cached index 0) `get_mirror_weight_max_live` finds leg 1 and stores its index,
but the call returns leg 0, which is dead. -/
theorem choose_read_mirror_weighted_not_max_live :
    Reachable { ms := weighted3_leg0_dead, in_flight := [],
                ended := [(bio_set_m issued_bio_012 false, 0)] } ∧
    weighted3_leg0_dead.rdpolicy = dms_read_policy.DMS_CUSTOM_WEIGHTED ∧
    weighted3_leg0_dead.mirror_weight_max_live = 0 ∧
    alive_at weighted3_leg0_dead 0 = false ∧ alive_at weighted3_leg0_dead 1 = true ∧
    alive_at weighted3_leg0_dead 2 = true ∧
    get_mirror_weight_max_live weighted3_leg0_dead =
      Except.ok (some 1, { weighted3_leg0_dead with mirror_weight_max_live := 1 }) ∧
    choose_read_mirror weighted3_leg0_dead 0 =
      Except.ok (some 0, { weighted3_leg0_dead with mirror_weight_max_live := 1 }) :=
  ⟨weighted3_leg0_dead_reachable, rfl, rfl, rfl, rfl, rfl, rfl, rfl⟩

/-- C13.  Under the round-robin policy with a quantum of at least 2,
`choose_read_mirror` returns and leaves the legs as they were; it returns null
exactly when no leg is alive; a leg it returns is alive, the cursor
`read_mirror` points to it afterwards, and it is the cursor leg or the first
alive leg met walking backward from the cursor with wrap. -/
theorem choose_read_mirror_round_robin (ms : mirror_sync_set) (sector : Nat)
    (hp : ms.rdpolicy = dms_read_policy.DMS_ROUND_ROBIN)
    (hq : 2 ≤ ms.rr_ios_set) (hq2 : ms.rr_ios_set ≤ 2147483647)
    (hc : ms.read_mirror < ms.nr_mirrors) :
    ∃ r ms1, choose_read_mirror ms sector = Except.ok (r, ms1) ∧ ms1.mirror = ms.mirror ∧
      (r = none ↔ ∀ i, alive_at ms i = false) ∧
      ∀ m, r = some m →
        alive_at ms1 m = true ∧ ms1.read_mirror = m ∧
        (m = ms.read_mirror ∨
          (back_order ms.nr_mirrors ms.read_mirror).find? (alive_at ms) = some m) := by
  have hq1 := wrap_int_pred_ne_zero ms.rr_ios_set hq hq2
  rw [choose_read_mirror_rr_eq ms sector hp hc hq1]
  by_cases h1 : alive_at ms ms.read_mirror = true ∧ wrap_int (ms.rr_ios - 1) ≠ 0
  · rw [if_pos h1]
    refine ⟨_, _, rfl, rfl, ?_, ?_⟩
    · constructor
      · intro h; cases h
      · intro h
        rw [h] at h1
        exact absurd h1.1 (by simp)
    · intro m hm
      cases hm
      exact ⟨h1.1, rfl, Or.inl rfl⟩
  · rw [if_neg h1]
    cases hf : (back_order ms.nr_mirrors ms.read_mirror).find? (alive_at ms) with
    | none =>
      refine ⟨_, _, rfl, rfl, ?_, ?_⟩
      · exact ⟨fun _ => (back_order_find_none ms _ hc).mp hf, fun _ => rfl⟩
      · intro m hm; cases hm
    | some r =>
      have hr : alive_at ms r = true := List.find?_some hf
      refine ⟨_, _, rfl, rfl, ?_, ?_⟩
      · constructor
        · intro h; cases h
        · intro h
          rw [h] at hr
          cases hr
      · intro m hm
        cases hm
        exact ⟨hr, rfl, Or.inr rfl⟩

theorem choose_read_mirror_round_robin_witness :
    (Reachable { ms := rr2_leg2_alive, in_flight := [],
                 ended := [(bio_set_m issued_bio_012 false, 0)] } ∧
      rr2_leg2_alive.rdpolicy = dms_read_policy.DMS_ROUND_ROBIN ∧
      rr2_leg2_alive.read_mirror = 0 ∧ alive_at rr2_leg2_alive 0 = false ∧
      alive_at rr2_leg2_alive 1 = false ∧
      choose_read_mirror rr2_leg2_alive 0 =
        Except.ok (some 2, { rr2_leg2_alive with read_mirror := 2, rr_ios := 1 })) ∧
    ∃ r ms1, choose_read_mirror rr2_leg2_alive 0 = Except.ok (r, ms1) ∧
      ms1.mirror = rr2_leg2_alive.mirror ∧
      (r = none ↔ ∀ i, alive_at rr2_leg2_alive i = false) ∧
      ∀ m, r = some m →
        alive_at ms1 m = true ∧ ms1.read_mirror = m ∧
        (m = rr2_leg2_alive.read_mirror ∨
          (back_order rr2_leg2_alive.nr_mirrors rr2_leg2_alive.read_mirror).find?
            (alive_at rr2_leg2_alive) = some m) :=
  ⟨⟨rr2_leg2_alive_reachable, rfl, rfl, rfl, rfl, rfl⟩,
    choose_read_mirror_round_robin rr2_leg2_alive 0 rfl (by decide) (by decide) (by decide)⟩

/-- C14.  Under the round-robin policy with every leg alive and a quantum of
at least 2, in every run of selector calls each call returns the leg the cursor
was on (the leg of the previous call) or the leg one slot backward from it,
wrapping from 0 to the last leg.  With quantum 2 and 3 legs, the cursor on leg
0 and a fresh countdown, call number `i` returns leg `2 i mod 3`: the legs
0, 2, 1, 0, 2, 1, and so on. -/
theorem round_robin_backward_rotation :
    (∀ (ms : mirror_sync_set) (sectors : List Nat),
      ms.rdpolicy = dms_read_policy.DMS_ROUND_ROBIN →
      2 ≤ ms.rr_ios_set → ms.rr_ios_set ≤ 2147483647 → ms.read_mirror < ms.nr_mirrors →
      (∀ i, i < ms.nr_mirrors → alive_at ms i = true) →
      ∃ l ms1, choose_reads sectors ms = Except.ok (l, ms1) ∧ l.length = sectors.length ∧
        List.Chain (same_or_back ms) (some ms.read_mirror) l) ∧
    (Reachable { ms := rr2_three_legs, in_flight := [], ended := [] } ∧
      rr2_three_legs.rr_ios_set = 2 ∧ rr2_three_legs.rr_ios = 2 ∧
      rr2_three_legs.read_mirror = 0 ∧ rr2_three_legs.nr_mirrors = 3 ∧
      ∀ sectors : List Nat, ∃ ms1, choose_reads sectors rr2_three_legs =
        Except.ok ((List.range sectors.length).map (fun i => some ((2 * i) % 3)), ms1)) ∧
    (List.range 6).map (fun i => some ((2 * i) % 3)) =
      [some 0, some 2, some 1, some 0, some 2, some 1] :=
  ⟨fun ms sectors hp hq hq2 hc hall => rr_all_alive_run sectors ms hp hq hq2 hc hall,
    ⟨rr2_three_legs_reachable, rfl, rfl, rfl, rfl, rr2_three_legs_run⟩, by decide⟩

theorem round_robin_backward_rotation_witness :
    (rr2_three_legs.rdpolicy = dms_read_policy.DMS_ROUND_ROBIN ∧
      (∀ i, i < rr2_three_legs.nr_mirrors → alive_at rr2_three_legs i = true)) ∧
    ∃ l ms1, choose_reads [0, 8, 16, 24] rr2_three_legs = Except.ok (l, ms1) ∧
      l.length = [0, 8, 16, 24].length ∧
      List.Chain (same_or_back rr2_three_legs) (some rr2_three_legs.read_mirror) l :=
  ⟨⟨rfl, by decide⟩,
    round_robin_backward_rotation.1 rr2_three_legs [0, 8, 16, 24] rfl (by decide) (by decide)
      (by decide) (by decide)⟩

/-- C15 (code defect).  The quantum is not the number of consecutive reads a
leg gets: on the two-leg set whose quantum was just set to 3 by
`io_balance round_robin ios 3` (countdown 3, cursor on leg 0, both legs alive)
the third call already returns leg 1, and the legs then get two reads each:
seven calls return 0, 0, 1, 1, 0, 0, 1. -/
theorem round_robin_quantum_off_by_one :
    Reachable { ms := two_legs_q3, in_flight := [], ended := [] } ∧
    mirror_sync_message two_legs 0 false ["io_balance", "round_robin", "ios", "3"] =
      Except.ok (0, two_legs_q3) ∧
    two_legs_q3.rr_ios_set = 3 ∧ two_legs_q3.rr_ios = 3 ∧ two_legs_q3.read_mirror = 0 ∧
    alive_at two_legs_q3 0 = true ∧ alive_at two_legs_q3 1 = true ∧
    choose_reads [0, 0, 0, 0, 0, 0, 0] two_legs_q3 =
      Except.ok ([some 0, some 0, some 1, some 1, some 0, some 0, some 1],
        { two_legs_q3 with read_mirror := 1, rr_ios := 2 }) :=
  ⟨two_legs_q3_reachable, rfl, rfl, rfl, rfl, rfl, rfl, rfl⟩

/-- C16 (code defect).  `mirror_sync_map` does not return for every request:
on the set constructed with eight legs and the weighted policy, all legs
alive, a read that is not a read-ahead runs into
`assert_bug( ms->nr_mirrors < MAX_MIRRORS )` in `choose_read_mirror`. -/
theorem mirror_sync_map_weighted_eight_legs_oops :
    Reachable { ms := weighted8_legs, in_flight := [], ended := [] } ∧
    weighted8_legs.rdpolicy = dms_read_policy.DMS_CUSTOM_WEIGHTED ∧
    weighted8_legs.nr_mirrors = 8 ∧
    (∀ i, i < 8 → alive_at weighted8_legs i = true) ∧
    (read_bio 0 4096).REQ_RAHEAD = false ∧ (read_bio 0 4096).REQ_WRITE = false ∧
    choose_read_mirror weighted8_legs 0 = Except.error Fault.bug ∧
    mirror_sync_map weighted8_legs (read_bio 0 4096) = Except.error Fault.bug :=
  ⟨weighted8_legs_reachable, rfl, rfl, by decide, rfl, rfl, rfl, rfl⟩

/-- C17, counterexample.  The total counters are 32-bit: after one write that
completed with error bitmap `0b11` on a two-leg set and 2147483647 more writes
(all rejected, both legs being dead) `map` has been called with 2147483648
writes and `write_ios_total` is -2147483648. -/
theorem io_counters_wrap :
    ∃ s, IoRun s ⟨0, 2147483648, 0, 1⟩ ∧ s.ms.mirror = two_legs_dead.mirror ∧
      s.in_flight = [] ∧ s.ms.write_ios_total = -2147483648 := by
  obtain ⟨s, hs, hm, hf⟩ := dead_writes_run 2147483647
  refine ⟨s, hs, hm, hf, ?_⟩
  have h := hs.inv.2.2.2.2.2.1
  rw [h]
  decide

/-- C17, as amended.  In every state reached from a freshly constructed set
by `map` calls and completions, no more requests have been ended than were
accepted, the pending counters hold the numbers of accepted writes and reads
not yet ended and the total counters the numbers of writes and reads (not
read-ahead) `map` was called with, each as a 32-bit signed value: equal to the
number, and not negative, while the number is below 2^31.  `mirror_sync_end_io`
returns the error it is given and changes nothing but the pending counter of
the direction of the bio. -/
theorem io_counters (s : dms_system) (c : io_tally) (h : IoRun s c) :
    ended_writes s ≤ c.writes_accepted ∧ ended_reads s ≤ c.reads_accepted ∧
    counter_holds s.ms.write_ios_pending (c.writes_accepted - ended_writes s) ∧
    counter_holds s.ms.read_ios_pending (c.reads_accepted - ended_reads s) ∧
    counter_holds s.ms.write_ios_total c.writes_submitted ∧
    counter_holds s.ms.read_ios_total c.reads_submitted ∧
    ∀ (ms : mirror_sync_set) (b : bio) (error : Int),
      (mirror_sync_end_io ms b error).1 = error ∧
      (mirror_sync_end_io ms b error).2 =
        if bio_is_write b = true then
          { ms with write_ios_pending := atomic_dec ms.write_ios_pending }
        else
          { ms with read_ios_pending := atomic_dec ms.read_ios_pending } := by
  obtain ⟨i1, i2, i3, i4, i5, i6, _⟩ := h.inv
  refine ⟨by omega, by omega, counter_holds_of _ _ ?_, counter_holds_of _ _ ?_,
    counter_holds_of _ _ i6, counter_holds_of _ _ i5, ?_⟩
  · rw [i3, i1, Nat.add_sub_cancel_left]
  · rw [i4, i2, Nat.add_sub_cancel_left]
  · intro ms b error
    constructor
    · unfold mirror_sync_end_io; split_ifs <;> rfl
    · cases hw : bio_is_write b with
      | true => rw [if_pos rfl]; exact mirror_sync_end_io_write ms b error hw
      | false =>
        rw [if_neg (by simp)]
        exact mirror_sync_end_io_read ms b error hw

theorem io_counters_witness :
    (IoRun { ms := three_legs_leg0_dead, in_flight := [issued_req_12],
             ended := [(bio_set_m issued_bio_012 false, 0)] } ⟨0, 2, 0, 2⟩ ∧
      three_legs_leg0_dead.write_ios_total = 2 ∧ three_legs_leg0_dead.write_ios_pending = 1) ∧
    (ended_writes { ms := three_legs_leg0_dead, in_flight := [issued_req_12],
                    ended := [(bio_set_m issued_bio_012 false, 0)] } ≤ 2 ∧
      ended_reads { ms := three_legs_leg0_dead, in_flight := [issued_req_12],
                    ended := [(bio_set_m issued_bio_012 false, 0)] } ≤ 0 ∧
      counter_holds three_legs_leg0_dead.write_ios_pending
        (2 - ended_writes { ms := three_legs_leg0_dead, in_flight := [issued_req_12],
                            ended := [(bio_set_m issued_bio_012 false, 0)] }) ∧
      counter_holds three_legs_leg0_dead.read_ios_pending
        (0 - ended_reads { ms := three_legs_leg0_dead, in_flight := [issued_req_12],
                           ended := [(bio_set_m issued_bio_012 false, 0)] }) ∧
      counter_holds three_legs_leg0_dead.write_ios_total 2 ∧
      counter_holds three_legs_leg0_dead.read_ios_total 0 ∧
      ∀ (ms : mirror_sync_set) (b : bio) (error : Int),
        (mirror_sync_end_io ms b error).1 = error ∧
        (mirror_sync_end_io ms b error).2 =
          if bio_is_write b = true then
            { ms with write_ios_pending := atomic_dec ms.write_ios_pending }
          else
            { ms with read_ios_pending := atomic_dec ms.read_ios_pending }) :=
  ⟨⟨three_legs_leg0_dead_run, rfl, rfl⟩,
    io_counters
      { ms := three_legs_leg0_dead, in_flight := [issued_req_12],
        ended := [(bio_set_m issued_bio_012 false, 0)] } ⟨0, 2, 0, 2⟩ three_legs_leg0_dead_run⟩

/-- C18.  For every read request in flight in a reachable state, issued to
leg `m` (`bmi_m`): with error 0 `read_callback` ends the bio with 0 and leaves
the set as it was; with an error other than -EOPNOTSUPP (and other than
-EWOULDBLOCK on a read-ahead) it calls `fail_mirror` on leg `m`, which is dead
afterwards, and then either some leg is still alive and the bio, restored from
the snapshot `bmi_bd` and with the scratch record in `bi_private`, goes to the
end of the retry queue and is not ended, or no leg is alive and the bio is
ended with `- EIO` and the queue is left as it was. -/
theorem read_callback_outcome (s : dms_system) (hs : Reachable s) (req : dm_io_request)
    (hin : req ∈ s.in_flight) (hn : req.notify = notify_fn.read_callback) :
    ∃ m, req.context.per_bio_data.bmi_m = some m ∧ m < s.ms.nr_mirrors ∧
      read_callback s.ms 0 req.context =
        Except.ok (s.ms, bio_set_m req.context false, some 0) ∧
      ∀ error, error ≠ 0 → error ≠ neg_errno_ulong EOPNOTSUPP →
        ¬ (error = neg_errno_ulong EWOULDBLOCK ∧ req.context.REQ_RAHEAD = true) →
        alive_at (fail_mirror s.ms m dm_raid1_error.DM_RAID1_READ_ERROR) m = false ∧
        ((∃ i, alive_at (fail_mirror s.ms m dm_raid1_error.DM_RAID1_READ_ERROR) i = true) →
          ∃ ms1 b1 q, read_callback s.ms error req.context = Except.ok (ms1, b1, none) ∧
            ms1.mirror = (fail_mirror s.ms m dm_raid1_error.DM_RAID1_READ_ERROR).mirror ∧
            ms1.read_failures = s.ms.read_failures ++ [q] ∧
            q.bi_sector = req.context.per_bio_data.bmi_bd.bi_sector ∧
            q.bi_bdev = req.context.per_bio_data.bmi_bd.bi_bdev ∧
            q.bi_size = req.context.per_bio_data.bmi_bd.bi_size ∧
            q.bi_private_bmi = true ∧ q.per_bio_data.bmi_bd = req.context.per_bio_data.bmi_bd) ∧
        ((∀ i, alive_at (fail_mirror s.ms m dm_raid1_error.DM_RAID1_READ_ERROR) i = false) →
          ∃ ms1 b1, read_callback s.ms error req.context = Except.ok (ms1, b1, some (- EIO)) ∧
            ms1.mirror = (fail_mirror s.ms m dm_raid1_error.DM_RAID1_READ_ERROR).mirror ∧
            ms1.read_failures = s.ms.read_failures) := by
  obtain ⟨hb, m, hm, hlt⟩ := hs.in_flight_reads_ok req hin hn
  refine ⟨m, hm, hlt, ?_, ?_⟩
  · unfold read_callback bio_get_m
    rw [hb]
    rfl
  · intro error he h1 h2
    refine ⟨fail_mirror_kills _ _ _, ?_, ?_⟩
    · intro hal
      have hav := (mirror_sync_available_iff _).mpr hal
      have hio := fail_mirror_same_io s.ms m dm_raid1_error.DM_RAID1_READ_ERROR
      unfold read_callback bio_get_m
      rw [hb]
      simp only [if_true, bne_iff_ne, ne_eq, he, not_false_eq_true, hm]
      rw [if_neg (by rintro (h | h); exact h1 h; exact h2 h), if_pos hav]
      refine ⟨_, _,
        { bio_push_m_priv (dm_bio_restore req.context.per_bio_data.bmi_bd req.context) with
          bi_next_bmi := false }, rfl, ?_, ?_, rfl, rfl, rfl, rfl, rfl⟩
      · exact (queue_bio_same _ _).1
      · unfold queue_bio
        simp only
        split_ifs <;> simp only [hio.2.2.2.2]
    · intro hdead
      have hav : ¬ mirror_sync_available
          (fail_mirror s.ms m dm_raid1_error.DM_RAID1_READ_ERROR) ≠ 0 := by
        rw [mirror_sync_available_iff]
        rintro ⟨i, hi⟩
        rw [hdead i] at hi
        cases hi
      have hio := fail_mirror_same_io s.ms m dm_raid1_error.DM_RAID1_READ_ERROR
      unfold read_callback bio_get_m
      rw [hb]
      simp only [if_true, bne_iff_ne, ne_eq, he, not_false_eq_true, hm]
      rw [if_neg (by rintro (h | h); exact h1 h; exact h2 h), if_neg hav]
      refine ⟨_, _, rfl, ?_, ?_⟩
      · split_ifs <;> rfl
      · split_ifs <;> exact hio.2.2.2.2

theorem read_callback_outcome_witness :
    (Reachable { ms := weighted_read1, in_flight := [read_req 0 "a"], ended := [] } ∧
      (read_req 0 "a").notify = notify_fn.read_callback ∧
      read_callback weighted_read1 1 (read_req 0 "a").context =
        Except.ok (weighted_read2, read_queued 0, none) ∧
      weighted_read2.read_failures = weighted_read1.read_failures ++ [read_queued 0] ∧
      read_callback weighted_read5 1 (read_req 1 "b").context =
        Except.ok ({ weighted_read6 with read_ios_pending := 1 },
          bio_set_m (read_issued 1 "b") false, some (- EIO))) ∧
    ∃ m, (read_req 0 "a").context.per_bio_data.bmi_m = some m ∧ m < weighted_read1.nr_mirrors ∧
      read_callback weighted_read1 0 (read_req 0 "a").context =
        Except.ok (weighted_read1, bio_set_m (read_req 0 "a").context false, some 0) ∧
      ∀ error, error ≠ 0 → error ≠ neg_errno_ulong EOPNOTSUPP →
        ¬ (error = neg_errno_ulong EWOULDBLOCK ∧ (read_req 0 "a").context.REQ_RAHEAD = true) →
        alive_at (fail_mirror weighted_read1 m dm_raid1_error.DM_RAID1_READ_ERROR) m = false ∧
        ((∃ i, alive_at (fail_mirror weighted_read1 m dm_raid1_error.DM_RAID1_READ_ERROR) i
            = true) →
          ∃ ms1 b1 q, read_callback weighted_read1 error (read_req 0 "a").context =
              Except.ok (ms1, b1, none) ∧
            ms1.mirror =
              (fail_mirror weighted_read1 m dm_raid1_error.DM_RAID1_READ_ERROR).mirror ∧
            ms1.read_failures = weighted_read1.read_failures ++ [q] ∧
            q.bi_sector = (read_req 0 "a").context.per_bio_data.bmi_bd.bi_sector ∧
            q.bi_bdev = (read_req 0 "a").context.per_bio_data.bmi_bd.bi_bdev ∧
            q.bi_size = (read_req 0 "a").context.per_bio_data.bmi_bd.bi_size ∧
            q.bi_private_bmi = true ∧
            q.per_bio_data.bmi_bd = (read_req 0 "a").context.per_bio_data.bmi_bd) ∧
        ((∀ i, alive_at (fail_mirror weighted_read1 m dm_raid1_error.DM_RAID1_READ_ERROR) i
            = false) →
          ∃ ms1 b1, read_callback weighted_read1 error (read_req 0 "a").context =
              Except.ok (ms1, b1, some (- EIO)) ∧
            ms1.mirror =
              (fail_mirror weighted_read1 m dm_raid1_error.DM_RAID1_READ_ERROR).mirror ∧
            ms1.read_failures = weighted_read1.read_failures) :=
  ⟨⟨weighted_read1_reachable, rfl, rfl, rfl, rfl⟩,
    read_callback_outcome
      { ms := weighted_read1, in_flight := [read_req 0 "a"], ended := [] }
      weighted_read1_reachable (read_req 0 "a") (List.mem_singleton.mpr rfl) rfl⟩

/-- C19.  For every request in flight in a reachable state: the completion
of a discard write with a non-zero error bitmap ends the bio with -EOPNOTSUPP,
and the completion of a read with error -EOPNOTSUPP, or with -EWOULDBLOCK when
the bio is a read-ahead, ends the bio with that error; in both cases the set is
left exactly as it was (no leg record, event count or queue changes). -/
theorem not_supported_leaves_set (s : dms_system) (hs : Reachable s) (req : dm_io_request)
    (hin : req ∈ s.in_flight) (error : Nat) :
    (req.notify = notify_fn.write_callback → req.context.REQ_DISCARD = true → error ≠ 0 →
      write_callback s.ms error req.context =
        Except.ok (s.ms, bio_set_m req.context false, -EOPNOTSUPP)) ∧
    (req.notify = notify_fn.read_callback → error = neg_errno_ulong EOPNOTSUPP →
      read_callback s.ms error req.context =
        Except.ok (s.ms, bio_set_m req.context false, some (-EOPNOTSUPP))) ∧
    (req.notify = notify_fn.read_callback → error = neg_errno_ulong EWOULDBLOCK →
      req.context.REQ_RAHEAD = true →
      read_callback s.ms error req.context =
        Except.ok (s.ms, bio_set_m req.context false, some (-EWOULDBLOCK))) := by
  refine ⟨?_, ?_, ?_⟩
  · intro hn hd he
    obtain ⟨hb, _, _⟩ := hs.in_flight_ok.2 req hin hn
    unfold write_callback bio_get_m
    rw [hb]
    simp only [if_true, bne_iff_ne, ne_eq, he, not_false_eq_true, hd]
    rfl
  · intro hn he
    obtain ⟨hb, _⟩ := hs.in_flight_reads_ok req hin hn
    have h0 : error ≠ 0 := by rw [he]; decide
    unfold read_callback bio_get_m
    rw [hb]
    simp only [if_true, bne_iff_ne, ne_eq, h0, not_false_eq_true]
    rw [if_pos (Or.inl he), he, wrap_int_neg_errno EOPNOTSUPP (by decide) (by decide)]
    rfl
  · intro hn he hra
    obtain ⟨hb, _⟩ := hs.in_flight_reads_ok req hin hn
    have h0 : error ≠ 0 := by rw [he]; decide
    unfold read_callback bio_get_m
    rw [hb]
    simp only [if_true, bne_iff_ne, ne_eq, h0, not_false_eq_true]
    rw [if_pos (Or.inr ⟨he, hra⟩), he, wrap_int_neg_errno EWOULDBLOCK (by decide) (by decide)]
    rfl

theorem not_supported_leaves_set_witness :
    (Reachable { ms := weighted_read1, in_flight := [read_req 0 "a"], ended := [] } ∧
      (read_req 0 "a").notify = notify_fn.read_callback ∧
      neg_errno_ulong EOPNOTSUPP = 18446744073709551521 ∧
      write_callback two_legs_written 1 { issued_bio with REQ_DISCARD := true } =
        Except.ok (two_legs_written, bio_set_m { issued_bio with REQ_DISCARD := true } false,
          -EOPNOTSUPP)) ∧
    read_callback weighted_read1 (neg_errno_ulong EOPNOTSUPP) (read_req 0 "a").context =
      Except.ok (weighted_read1, bio_set_m (read_req 0 "a").context false,
        some (-EOPNOTSUPP)) :=
  ⟨⟨weighted_read1_reachable, rfl, by decide, rfl⟩,
    (not_supported_leaves_set
      { ms := weighted_read1, in_flight := [read_req 0 "a"], ended := [] }
      weighted_read1_reachable (read_req 0 "a") (List.mem_singleton.mpr rfl)
      (neg_errno_ulong EOPNOTSUPP)).2.1 rfl rfl⟩

/-- C20 (code defect).  Under the weighted policy a failed read is issued
again to the leg that has just failed, and more often than there were alive
legs: on the two-leg set `weighted_legs` (both legs alive) a read whose every
attempt fails is issued to leg 0, again to leg 0, which is dead at that
moment, and then to leg 1, three times in all, before it is ended with
`- EIO`. -/
theorem read_retry_weighted_reissues_dead_leg :
    (alive_at weighted_legs 0 = true ∧ alive_at weighted_legs 1 = true ∧
      weighted_legs.nr_mirrors = 2) ∧
    mirror_sync_map weighted_legs (read_bio 0 4096) =
      Except.ok (0, weighted_read1, read_issued 0 "a", some (read_req 0 "a")) ∧
    read_callback weighted_read1 1 (read_req 0 "a").context =
      Except.ok (weighted_read2, read_queued 0, none) ∧
    main_mirror_syncd weighted_read2 = Except.ok (weighted_read3, [read_req 0 "a"], []) ∧
    (Reachable { ms := weighted_read3, in_flight := [read_req 0 "a"], ended := [] } ∧
      (read_req 0 "a").context.per_bio_data.bmi_m = some 0 ∧
      (read_req 0 "a").regions = [{ bdev := "a", sector := 0, count := 8 }] ∧
      alive_at weighted_read3 0 = false ∧ alive_at weighted_read3 1 = true) ∧
    read_callback weighted_read3 1 (read_req 0 "a").context =
      Except.ok (weighted_read4, read_queued 0, none) ∧
    main_mirror_syncd weighted_read4 = Except.ok (weighted_read5, [read_req 1 "b"], []) ∧
    read_callback weighted_read5 1 (read_req 1 "b").context =
      Except.ok ({ weighted_read6 with read_ios_pending := 1 },
        bio_set_m (read_issued 1 "b") false, some (- EIO)) ∧
    Reachable { ms := weighted_read6, in_flight := [],
                ended := [(bio_set_m (read_issued 1 "b") false, - EIO)] } :=
  ⟨⟨rfl, rfl, rfl⟩, rfl, rfl, rfl, ⟨weighted_read3_reachable, rfl, rfl, rfl, rfl⟩, rfl, rfl, rfl,
    weighted_read6_reachable⟩

end DMS

namespace DMS

theorem einval_ne_zero : (-EINVAL : Int) ≠ 0 := by decide

theorem einval_ne_efault : (-EINVAL : Int) ≠ -EFAULT := by decide

theorem message_set_weight_rejected (ms ms1 : mirror_sync_set) (a2 a3 : String)
    (h : message_set_weight ms a2 a3 = Except.ok (-EINVAL, ms1)) : ms1 = ms := by
  unfold message_set_weight at h
  split at h
  · cases h; rfl
  · split_ifs at h
    · cases h; rfl
    · split at h
      · cases h; rfl
      · simp only [run_pure, assert_bug_bind] at h
        split_ifs at h
        · cases h; rfl
        · injection h with h
          exact absurd (congrArg Prod.fst h).symm einval_ne_zero

theorem message_check_data_mirror_all_rejected (ms ms1 : mirror_sync_set) (check : Bool)
    (a2 a3 : String) (r : Int)
    (h : message_check_data_mirror_all ms check a2 a3 = Except.ok (r, ms1)) : ms1 = ms := by
  unfold message_check_data_mirror_all at h
  split_ifs at h
  all_goals (cases h; rfl)

theorem message_check_data_mirror_block_rejected (ms ms1 : mirror_sync_set) (ti_len : Nat)
    (check : Bool) (a2 a3 : String) (r : Int)
    (h : message_check_data_mirror_block ms ti_len check a2 a3 = Except.ok (r, ms1)) :
    ms1 = ms := by
  unfold message_check_data_mirror_block at h
  split at h
  · cases h; rfl
  · split_ifs at h
    all_goals (cases h; rfl)

theorem message_round_robin_rejected (ms ms1 : mirror_sync_set) (a2 a3 : String)
    (h : message_round_robin ms a2 a3 = Except.ok (-EINVAL, ms1)) : ms1 = ms := by
  unfold message_round_robin at h
  split_ifs at h
  · cases h; rfl
  · split at h
    · cases h; rfl
    · split_ifs at h
      · cases h; rfl
      · injection h with h
        exact absurd (congrArg Prod.fst h).symm einval_ne_zero

theorem message_logical_part_rejected (ms ms1 : mirror_sync_set) (a2 a3 : String)
    (h : message_logical_part ms a2 a3 = Except.ok (-EINVAL, ms1)) : ms1 = ms := by
  unfold message_logical_part at h
  split_ifs at h
  · cases h; rfl
  · split at h
    · cases h; rfl
    · split_ifs at h
      · cases h; rfl
      · injection h with h
        exact absurd (congrArg Prod.fst h).symm einval_ne_zero

theorem message_weighted_rejected (ms ms1 : mirror_sync_set) (a2 a3 : String)
    (h : message_weighted ms a2 a3 = Except.ok (-EINVAL, ms1)) : ms1 = ms := by
  unfold message_weighted at h
  simp only [run_pure, assert_bug_bind] at h
  split_ifs at h
  · cases h; rfl
  · split at h
    · cases h; rfl
    · split_ifs at h
      · cases h; rfl
      · injection h with h
        exact absurd (congrArg Prod.fst h).symm einval_ne_zero

/-- C23: a control message on which `mirror_sync_message` returns `-EINVAL`
leaves the whole `mirror_sync_set` as it was, whatever the number of tokens
and the tokens are. -/
theorem mirror_sync_message_rejected_unchanged (ms ms1 : mirror_sync_set) (ti_len : Nat)
    (check : Bool) (argv : List String) (r : Int)
    (h : mirror_sync_message ms ti_len check argv = Except.ok (r, ms1)) (hr : r = -EINVAL) :
    ms1 = ms := by
  subst hr
  unfold mirror_sync_message at h
  split at h
  · split_ifs at h
    all_goals first
      | (cases h; rfl)
      | exact message_set_weight_rejected _ _ _ _ h
      | exact message_check_data_mirror_all_rejected _ _ _ _ _ _ h
      | exact message_check_data_mirror_block_rejected _ _ _ _ _ _ _ h
      | exact message_round_robin_rejected _ _ _ _ h
      | exact message_logical_part_rejected _ _ _ _ h
      | exact message_weighted_rejected _ _ _ _ h
  · cases h; rfl

/-- Witness for C23: on the weighted two-leg set a weight of 200 is refused
and the set is unchanged. -/
theorem mirror_sync_message_rejected_unchanged_witness :
    mirror_sync_message weighted_legs 0 false ["io_cmd", "set_weight", "0", "200"] =
        Except.ok (-EINVAL, weighted_legs) ∧
      weighted_legs = weighted_legs :=
  ⟨rfl, mirror_sync_message_rejected_unchanged weighted_legs weighted_legs 0 false
    ["io_cmd", "set_weight", "0", "200"] (-EINVAL) rfl rfl⟩

end DMS

namespace DMS

theorem dev_weight_loop_append (value : Nat) (l1 l2 : List Nat) :
    ∀ (acc : mirror_sync_set × Int),
      dev_weight_loop value (l1 ++ l2) acc = dev_weight_loop value l2 (dev_weight_loop value l1 acc) := by
  induction l1 with
  | nil => intro acc; rfl
  | cons i rest ih =>
    intro acc
    obtain ⟨ms, maxi⟩ := acc
    simp only [List.cons_append, dev_weight_loop]
    split_ifs <;> exact ih _

theorem dev_weight_loop_weights (value : Nat) (idx : List Nat) :
    ∀ (ms : mirror_sync_set) (maxi : Int),
      (dev_weight_loop value idx (ms, maxi)).1 =
        { ms with mirror_weights := set_all ms.mirror_weights idx (wrap_int (value : Int)) } := by
  induction idx with
  | nil => intro ms maxi; rfl
  | cons i rest ih =>
    intro ms maxi
    simp only [dev_weight_loop]
    split_ifs <;> (rw [ih]; rfl)

theorem set_all_length (w : List Int) (idx : List Nat) (x : Int) :
    (set_all w idx x).length = w.length := by
  induction idx generalizing w with
  | nil => rfl
  | cons i rest ih =>
    unfold set_all
    rw [List.foldl_cons]
    have := ih (w.set i x)
    unfold set_all at this
    rw [this, List.length_set]

theorem set_all_range (w : List Int) (x : Int) (n : Nat) (hn : n ≤ w.length) (i : Nat) :
    (set_all w (List.range n) x).getD i 0 = if i < n then x else w.getD i 0 := by
  induction n with
  | zero => simp [set_all]
  | succ n ih =>
    have ih := ih (by omega)
    unfold set_all at ih ⊢
    rw [List.range_succ, List.foldl_append]
    simp only [List.foldl_cons, List.foldl_nil]
    have hlen : (List.foldl (fun w i => w.set i x) w (List.range n)).length = w.length :=
      set_all_length w (List.range n) x
    rw [List.getD_eq_getElem?_getD, List.getElem?_set]
    by_cases hin : n = i
    · subst hin
      rw [if_pos rfl, if_pos (by omega), if_pos (by omega)]
      rfl
    · rw [if_neg hin, ← List.getD_eq_getElem?_getD, ih]
      by_cases h1 : i < n
      · rw [if_pos h1, if_pos (by omega)]
      · rw [if_neg h1, if_neg (by omega)]

/-- What the loop of `io_balance weighted dev_weight` leaves in `maxi` after
the legs `0 .. n-1`: the highest alive leg, leg 0 when none is alive. -/
theorem dev_weight_loop_maxi (value : Nat) (ms : mirror_sync_set) (n : Nat) (hn : 0 < n) :
    0 ≤ (dev_weight_loop value (List.range n) (ms, -1)).2 ∧
      (dev_weight_loop value (List.range n) (ms, -1)).2 < n ∧
      ((∀ j, j < n → alive_at ms j = false) →
        (dev_weight_loop value (List.range n) (ms, -1)).2 = 0) ∧
      ∀ j, j < n → alive_at ms j = true →
        alive_at ms (dev_weight_loop value (List.range n) (ms, -1)).2.toNat = true ∧
        (j : Int) ≤ (dev_weight_loop value (List.range n) (ms, -1)).2 := by
  induction n with
  | zero => omega
  | succ n ih =>
    rw [List.range_succ, dev_weight_loop_append]
    rcases hl : dev_weight_loop value (List.range n) (ms, -1) with ⟨ms1, maxi⟩
    have hw := dev_weight_loop_weights value (List.range n) ms (-1)
    rw [hl] at hw
    simp only at hw
    have hal : ∀ (w : List Int) (k : Nat),
        alive_at { ms1 with mirror_weights := w } k = alive_at ms k := by
      intro w k
      rw [hw]; rfl
    simp only [dev_weight_loop]
    rw [hal]
    by_cases h0 : n = 0
    · subst h0
      have hm : maxi = -1 := by
        have : dev_weight_loop value (List.range 0) (ms, -1) = (ms, -1) := rfl
        rw [this] at hl
        exact (congrArg Prod.snd hl).symm
      subst hm
      by_cases ha : alive_at ms 0 = true
      · rw [if_pos ha]
        refine ⟨by simp, by simp, fun _ => by simp, ?_⟩
        intro j hj _
        have : j = 0 := by omega
        subst this
        exact ⟨by simpa using ha, by simp⟩
      · rw [if_neg ha, if_pos (by decide)]
        refine ⟨by simp, by simp, fun _ => by simp, ?_⟩
        intro j hj hja
        have : j = 0 := by omega
        subst this
        exact absurd hja ha
    · have ih := ih (by omega)
      rw [hl] at ih
      simp only at ih
      obtain ⟨i1, i2, i3, i4⟩ := ih
      by_cases ha : alive_at ms n = true
      · rw [if_pos ha]
        refine ⟨by simp, by push_cast; omega, ?_, ?_⟩
        · intro hall
          rw [hall n (by omega)] at ha
          exact absurd ha (by simp)
        · intro j hj _
          refine ⟨by simpa using ha, ?_⟩
          simp only [Nat.cast_le]
          omega
      · rw [if_neg ha, if_neg (by omega)]
        refine ⟨i1, by push_cast; omega, fun hall => i3 (fun j hj => hall j (by omega)), ?_⟩
        intro j hj hja
        have hjn : j < n := by
          by_contra hge
          have : j = n := by omega
          subst this
          exact ha hja
        exact i4 j hjn hja

end DMS

namespace DMS

theorem to_unsigned_cast (x : Int) (h0 : 0 ≤ x) (h1 : x < 4294967296) :
    ((to_unsigned x : Nat) : Int) = x := by
  unfold to_unsigned
  rw [Int.emod_eq_of_lt h0 h1]
  exact Int.toNat_of_nonneg h0

theorem wrap_int_small (x : Int) (h0 : 0 ≤ x) (h1 : x < 2147483648) : wrap_int x = x := by
  unfold wrap_int
  omega

theorem set_weight_loop_append (ms : mirror_sync_set) (l1 l2 : List Nat) :
    ∀ (acc : Int × Int),
      set_weight_loop ms (l1 ++ l2) acc = set_weight_loop ms l2 (set_weight_loop ms l1 acc) := by
  induction l1 with
  | nil => intro acc; rfl
  | cons i rest ih =>
    intro acc
    obtain ⟨maxi, max⟩ := acc
    simp only [List.cons_append, set_weight_loop]
    split_ifs <;> exact ih _

/-- Invariant of the `set_weight` loop after the legs `0 .. n-1`, started at
the cached leg `c` with its weight. -/
theorem set_weight_loop_inv (ms : mirror_sync_set) (c N : Nat) (hc : c < N)
    (hw : ∀ i, i < N → 0 ≤ weight_at ms i ∧ weight_at ms i < 2147483648) (n : Nat) (hn : n ≤ N) :
    ∃ (m : Nat) (max : Int),
      set_weight_loop ms (List.range n) ((c : Int), weight_at ms c) = ((m : Int), max) ∧
      m < N ∧ max = weight_at ms m ∧ weight_at ms c ≤ max ∧
      (∀ j, j < n → alive_at ms j = true → weight_at ms j ≤ max) ∧
      (m = c ∨ (m < n ∧ alive_at ms m = true ∧ weight_at ms c < max ∧
        ∀ j, j < m → alive_at ms j = true → weight_at ms j < max)) := by
  induction n with
  | zero =>
    exact ⟨c, weight_at ms c, rfl, hc, rfl, le_refl _, fun j hj => absurd hj (by omega), Or.inl rfl⟩
  | succ n ih =>
    obtain ⟨m, max, hl, hm, hmax, hcm, hall, hor⟩ := ih (by omega)
    rw [List.range_succ, set_weight_loop_append, hl]
    simp only [set_weight_loop]
    have hwn := hw n (by omega)
    have hwm := hw m hm
    have hv : ((to_unsigned (ms.mirror_weights.getD n 0) : Nat) : Int) = weight_at ms n :=
      to_unsigned_cast _ hwn.1 (by unfold weight_at at hwn; omega)
    have hx : ((to_unsigned max : Nat) : Int) = max := by
      rw [hmax]
      exact to_unsigned_cast _ hwm.1 (by omega)
    by_cases hcond : (alive_at ms n && decide (to_unsigned (ms.mirror_weights.getD n 0) >
        to_unsigned max)) = true
    · rw [if_pos hcond]
      rw [Bool.and_eq_true, decide_eq_true_eq] at hcond
      obtain ⟨ha, hgt⟩ := hcond
      have hgt2 : max < weight_at ms n := by
        rw [← hv, ← hx]
        exact_mod_cast hgt
      refine ⟨n, weight_at ms n, ?_, by omega, rfl, by omega, ?_, Or.inr ⟨by omega, ha, by omega, ?_⟩⟩
      · rw [hv, wrap_int_small _ hwn.1 hwn.2]
      · intro j hj hja
        by_cases hjn : j = n
        · subst hjn; exact le_refl _
        · have := hall j (by omega) hja
          omega
      · intro j hj hja
        have := hall j hj hja
        omega
    · rw [if_neg hcond]
      refine ⟨m, max, rfl, hm, hmax, hcm, ?_, ?_⟩
      · intro j hj hja
        by_cases hjn : j = n
        · subst hjn
          by_contra hlt
          apply hcond
          rw [Bool.and_eq_true, decide_eq_true_eq]
          refine ⟨hja, ?_⟩
          have : max < weight_at ms j := by omega
          rw [← hv, ← hx] at this
          exact_mod_cast this
        · exact hall j (by omega) hja
      · rcases hor with h1 | ⟨h1, h2, h3, h4⟩
        · exact Or.inl h1
        · exact Or.inr ⟨by omega, h2, h3, h4⟩

end DMS

namespace DMS

theorem digit_not_space (c : Char) (h : c.isDigit = true) : is_space c = false := by
  unfold Char.isDigit at h
  unfold is_space
  simp only [Bool.and_eq_true, decide_eq_true_eq, ge_iff_le] at h
  have h1 : 48 ≤ c.toNat := by
    have := h.1
    exact this
  have a : decide (c.toNat = 32) = false := decide_eq_false (by omega)
  have b : decide (c.toNat ≤ 13) = false := decide_eq_false (by omega)
  rw [a, b, Bool.and_false, Bool.or_false]

theorem sscanf_llu_digits (a : String) (hd : a.data ≠ []) (hall : a.data.all Char.isDigit = true) :
    sscanf_llu a = some (digits_value a.data % 18446744073709551616) := by
  unfold sscanf_llu
  have hdrop : a.data.dropWhile is_space = a.data := by
    cases hcs : a.data with
    | nil => exact absurd hcs hd
    | cons c rest =>
      rw [hcs] at hall
      have hc : c.isDigit = true := by
        rw [List.all_cons, Bool.and_eq_true] at hall
        exact hall.1
      rw [List.dropWhile_cons, digit_not_space c hc]
      rfl
  simp only [hdrop]
  rw [if_pos ⟨hd, hall⟩]

theorem sscanf_u_digits (a : String) (hd : a.data ≠ []) (hall : a.data.all Char.isDigit = true)
    (hv : digits_value a.data < 4294967296) :
    sscanf_u a = some (digits_value a.data) := by
  unfold sscanf_u
  rw [sscanf_llu_digits a hd hall]
  simp only [Option.map_some']
  congr 1
  omega

end DMS

namespace DMS

theorem message_round_robin_eq (ms : mirror_sync_set) (a3 : String) (v : Nat)
    (hs : sscanf_u a3 = some v) :
    message_round_robin ms "ios" a3 =
      if 2 ≤ v ∧ v ≤ 1073741824 then
        Except.ok (0, { ms with rr_ios_set := (v : Int), rr_ios := (v : Int),
                                rdpolicy := dms_read_policy.DMS_ROUND_ROBIN })
      else Except.ok (-EINVAL, ms) := by
  unfold message_round_robin
  have hk : keyword_eq "ios" "ios" = true := by decide
  rw [hk]
  simp only [Bool.not_true, hs]
  by_cases h : 2 ≤ v ∧ v ≤ 1073741824
  · rw [if_pos h, if_neg (by simp), if_neg (by omega)]
    rw [wrap_int_small (v : Int) (by omega) (by omega)]
    rfl
  · rw [if_neg h, if_neg (by simp), if_pos (by omega)]
    rfl

theorem message_logical_part_eq (ms : mirror_sync_set) (a3 : String) (v : Nat)
    (hs : sscanf_u a3 = some v) :
    message_logical_part ms "io_chunk" a3 =
      if 128 ≤ v ∧ v % 8 = 0 then
        Except.ok (0, { ms with lp_io_chunk := wrap_int (v : Int),
                                rdpolicy := dms_read_policy.DMS_LOGICAL_PARTITION })
      else Except.ok (-EINVAL, ms) := by
  unfold message_logical_part
  have hk : keyword_eq "io_chunk" "io_chunk" = true := by decide
  rw [hk]
  simp only [Bool.not_true, hs]
  by_cases h : 128 ≤ v ∧ v % 8 = 0
  · rw [if_pos h, if_neg (by simp), if_neg (by omega)]
    rfl
  · rw [if_neg h, if_neg (by simp), if_pos (by omega)]
    rfl

theorem message_weighted_eq (ms : mirror_sync_set) (a3 : String) (v : Nat)
    (hs : sscanf_u a3 = some v) (h0 : 0 < ms.nr_mirrors) (h8 : ms.nr_mirrors ≤ MAX_MIRRORS) :
    message_weighted ms "dev_weight" a3 =
      if 1 ≤ v ∧ v ≤ 100 then
        Except.ok (0, { ms with
          mirror_weights := set_all ms.mirror_weights (List.range ms.nr_mirrors) (v : Int),
          mirror_weight_max_live := (dev_weight_loop v (List.range ms.nr_mirrors) (ms, -1)).2,
          rdpolicy := dms_read_policy.DMS_CUSTOM_WEIGHTED })
      else Except.ok (-EINVAL, ms) := by
  unfold message_weighted
  have hk : keyword_eq "dev_weight" "dev_weight" = true := by decide
  rw [hk]
  simp only [Bool.not_true, hs, assert_bug_bind, run_pure]
  rw [if_pos (by simpa using h0), if_pos (by simpa using h8)]
  by_cases h : 1 ≤ v ∧ v ≤ 100
  · rw [if_pos h, if_neg (by simp), if_neg (by omega)]
    have hw := dev_weight_loop_weights v (List.range ms.nr_mirrors) ms (-1)
    obtain ⟨m1, m2, _, _⟩ := dev_weight_loop_maxi v ms ms.nr_mirrors h0
    rcases hl : dev_weight_loop v (List.range ms.nr_mirrors) (ms, -1) with ⟨ms1, maxi⟩
    rw [hl] at hw m1 m2
    simp only at hw m1 m2 ⊢
    have hnr : ms1.nr_mirrors = ms.nr_mirrors := by rw [hw]; rfl
    rw [if_pos]
    · rw [hw, wrap_int_small (v : Int) (by omega) (by omega)]
    · rw [decide_eq_true_eq, hnr]
      refine ⟨m1, ?_, m2⟩
      have : (ms.nr_mirrors : Int) ≤ (MAX_MIRRORS : Int) := by exact_mod_cast h8
      omega
  · rw [if_neg h, if_neg (by simp), if_pos (by omega)]

theorem set_weight_weights_ok (ms : mirror_sync_set) (d v : Nat) (hv : v ≤ 100)
    (hw : ∀ i, i < ms.nr_mirrors → 0 ≤ weight_at ms i ∧ weight_at ms i < 2147483648) :
    ∀ i, i < ms.nr_mirrors →
      0 ≤ weight_at { ms with mirror_weights := ms.mirror_weights.set d (v : Int) } i ∧
      weight_at { ms with mirror_weights := ms.mirror_weights.set d (v : Int) } i < 2147483648 := by
  intro i hi
  unfold weight_at
  simp only
  rw [List.getD_eq_getElem?_getD, List.getElem?_set]
  by_cases hdi : d = i
  · rw [if_pos hdi]
    split_ifs
    · simp only [Option.getD_some]; omega
    · simp
  · rw [if_neg hdi, ← List.getD_eq_getElem?_getD]
    exact hw i hi

theorem message_set_weight_eq (ms : mirror_sync_set) (a2 a3 : String) (devno v c : Nat)
    (hs2 : sscanf_u a2 = some devno) (hs3 : sscanf_u a3 = some v)
    (hd : devno < ms.nr_mirrors) (h8 : ms.nr_mirrors ≤ MAX_MIRRORS)
    (hc : ms.mirror_weight_max_live = (c : Int)) (hcn : c < ms.nr_mirrors)
    (hw : ∀ i, i < ms.nr_mirrors → 0 ≤ weight_at ms i ∧ weight_at ms i < 2147483648) :
    message_set_weight ms a2 a3 =
      if 1 ≤ v ∧ v ≤ 100 then
        Except.ok (0, { ms with
          mirror_weights := ms.mirror_weights.set devno (v : Int),
          mirror_weight_max_live :=
            (set_weight_loop { ms with mirror_weights := ms.mirror_weights.set devno (v : Int) }
              (List.range ms.nr_mirrors)
              ((c : Int), weight_at { ms with mirror_weights := ms.mirror_weights.set devno (v : Int) } c)).1 })
      else Except.ok (-EINVAL, ms) := by
  have hdev : ¬ (wrap_int (devno : Int) < 0 ∨ devno ≥ ms.nr_mirrors) := by
    have : devno < 8 := Nat.lt_of_lt_of_le hd h8
    rw [wrap_int_small (devno : Int) (by omega) (by omega)]
    omega
  have hw1 : ∀ i, i < ms.nr_mirrors →
      0 ≤ weight_at { ms with mirror_weights := ms.mirror_weights.set devno (v : Int) } i ∧
      weight_at { ms with mirror_weights := ms.mirror_weights.set devno (v : Int) } i <
        2147483648 ∨ ¬ (1 ≤ v ∧ v ≤ 100) := by
    intro i hi
    by_cases h : 1 ≤ v ∧ v ≤ 100
    · left
      unfold weight_at
      simp only
      rw [List.getD_eq_getElem?_getD, List.getElem?_set]
      by_cases hdi : devno = i
      · rw [if_pos hdi]
        split_ifs
        · simp only [Option.getD_some]; omega
        · simp
      · rw [if_neg hdi, ← List.getD_eq_getElem?_getD]
        exact hw i hi
    · right; exact h
  have h8i : (ms.nr_mirrors : Int) ≤ (MAX_MIRRORS : Int) := by exact_mod_cast h8
  have hinv := fun hh =>
    set_weight_loop_inv { ms with mirror_weights := ms.mirror_weights.set devno (v : Int) }
      c ms.nr_mirrors hcn hh ms.nr_mirrors (le_refl _)
  cases ms with
  | mk f1 f2 f3 f4 f5 f6 f7 f8 f9 f10 f11 f12 f13 f14 f15 f16 f17 f18 f19 f20 =>
  simp only at hc
  subst hc
  unfold message_set_weight
  simp only [hs2, hs3, assert_bug_bind, run_pure]
  rw [if_neg hdev]
  by_cases h : 1 ≤ v ∧ v ≤ 100
  · rw [if_pos h, if_neg (by omega)]
    obtain ⟨m, max, hl, hm, _⟩ := hinv (fun i hi => (hw1 i hi).resolve_right (not_not.mpr h))
    have hnr : ∀ (w : List Int),
        mirror_sync_set.nr_mirrors
          (mirror_sync_set.mk f1 f2 f3 f4 f5 f6 f7 f8 f9 w (c : Int) f12 f13 f14 f15 f16 f17 f18 f19 f20) =
        mirror_sync_set.nr_mirrors
          (mirror_sync_set.mk f1 f2 f3 f4 f5 f6 f7 f8 f9 f10 (c : Int) f12 f13 f14 f15 f16 f17 f18 f19 f20) :=
      fun _ => rfl
    simp only [Int.toNat_ofNat, hnr] at hl ⊢
    rw [if_pos (by rw [decide_eq_true_eq]; omega)]
    unfold weight_at at hl ⊢
    simp only at hl ⊢
    rw [hl]
    simp only
    rw [if_pos (by rw [decide_eq_true_eq]; omega)]
  · rw [if_neg h, if_pos (by omega)]

end DMS

namespace DMS

theorem message_io_balance (ms : mirror_sync_set) (ti_len : Nat) (check : Bool)
    (a2 a3 : String) (h0 : 0 < ms.nr_mirrors) (h8 : ms.nr_mirrors ≤ MAX_MIRRORS) :
    mirror_sync_message ms ti_len check ["io_balance", "round_robin", a2, a3] =
        message_round_robin ms a2 a3 ∧
      mirror_sync_message ms ti_len check ["io_balance", "logical_part", a2, a3] =
        message_logical_part ms a2 a3 ∧
      mirror_sync_message ms ti_len check ["io_balance", "weighted", a2, a3] =
        message_weighted ms a2 a3 := by
  have k1 : keyword_eq "io_balance" "io_balance" = true := by decide
  have k2 : keyword_eq "io_balance" "io_cmd" = false := by decide
  have k3 : keyword_eq "round_robin" "round_robin" = true := by decide
  have k4 : keyword_eq "logical_part" "round_robin" = false := by decide
  have k5 : keyword_eq "logical_part" "logical_part" = true := by decide
  have k6 : keyword_eq "weighted" "round_robin" = false := by decide
  have k7 : keyword_eq "weighted" "logical_part" = false := by decide
  have k8 : keyword_eq "weighted" "weighted" = true := by decide
  have hn : ¬ (ms.nr_mirrors ≤ 0 ∨ ms.nr_mirrors > MAX_MIRRORS) := by omega
  refine ⟨?_, ?_, ?_⟩
  · unfold mirror_sync_message
    simp only [k1, k2, k3, hn, Bool.not_true, Bool.false_and, if_true, if_false,
      Bool.false_eq_true]
  · unfold mirror_sync_message
    simp only [k1, k2, k4, k5, hn, Bool.not_true, Bool.false_and, if_true, if_false,
      Bool.false_eq_true]
  · unfold mirror_sync_message
    simp only [k1, k2, k6, k7, k8, hn, Bool.not_true, Bool.false_and, if_true, if_false,
      Bool.false_eq_true]

theorem message_io_cmd_set_weight (ms : mirror_sync_set) (ti_len : Nat) (check : Bool)
    (a2 a3 : String) (h0 : 0 < ms.nr_mirrors) (h8 : ms.nr_mirrors ≤ MAX_MIRRORS) :
    mirror_sync_message ms ti_len check ["io_cmd", "set_weight", a2, a3] =
      message_set_weight ms a2 a3 := by
  have k1 : keyword_eq "io_cmd" "io_balance" = false := by decide
  have k2 : keyword_eq "io_cmd" "io_cmd" = true := by decide
  have k3 : keyword_eq "set_weight" "set_weight" = true := by decide
  have hn : ¬ (ms.nr_mirrors ≤ 0 ∨ ms.nr_mirrors > MAX_MIRRORS) := by omega
  unfold mirror_sync_message
  simp only [k1, k2, k3, hn, Bool.not_true, Bool.not_false, Bool.true_and, Bool.and_false,
    if_true, if_false, Bool.false_eq_true]

end DMS

namespace DMS

theorem weighted_5060_reachable :
    Reachable { ms := weighted_5060, in_flight := [], ended := [] } :=
  Reachable.ctr rp_weighted_5060 [("a", 0), ("b", 0)] 0 "253:0" none weighted_5060 rfl rfl

end DMS

namespace DMS

theorem weights_frame_refl (ms : mirror_sync_set) : weights_frame ms ms := ⟨rfl, rfl, Or.inl rfl⟩

theorem weights_frame_trans {a b c : mirror_sync_set} (h1 : weights_frame a b)
    (h2 : weights_frame b c) : weights_frame a c := by
  refine ⟨h2.1.trans h1.1, h2.2.1.trans h1.2.1, ?_⟩
  rcases h2.2.2 with h | h
  · rcases h1.2.2 with g | g
    · exact Or.inl (h.trans g)
    · right
      rw [h, h2.2.1]
      exact g
  · exact Or.inr h

theorem weights_frame_ok {ms ms1 : mirror_sync_set} (h : weights_frame ms ms1)
    (hk : weights_ok ms) : weights_ok ms1 := by
  obtain ⟨k1, k2, k3, k4⟩ := hk
  refine ⟨by rw [h.1]; exact k1, ?_, ?_, ?_⟩
  · intro i
    have := k2 i
    unfold weight_at at this ⊢
    rw [h.1]
    exact this
  · rcases h.2.2 with g | g
    · rw [g]; exact k3
    · exact g.1
  · rcases h.2.2 with g | g
    · rw [g, h.2.1]; exact k4
    · exact g.2

theorem fail_mirror_weights (ms : mirror_sync_set) (m : Nat) (k : dm_raid1_error) :
    (fail_mirror ms m k).mirror_weights = ms.mirror_weights ∧
      (fail_mirror ms m k).mirror_weight_max_live = ms.mirror_weight_max_live := by
  unfold fail_mirror
  cases hm : ms.mirror[m]? with
  | none => exact ⟨rfl, rfl⟩
  | some mr =>
    simp only
    cases hbit : test_bit k.toNat mr.error_type with
    | true => exact ⟨rfl, rfl⟩
    | false =>
      simp only [Bool.false_eq_true, if_false]
      refine ⟨?_, ?_⟩ <;> (split <;> [split; skip] <;> rfl)

theorem fail_mirror_wf (ms : mirror_sync_set) (m : Nat) (k : dm_raid1_error) :
    weights_frame ms (fail_mirror ms m k) :=
  ⟨(fail_mirror_weights ms m k).1, fail_mirror_nr_mirrors ms m k,
    Or.inl (fail_mirror_weights ms m k).2⟩

theorem write_callback_loop_wf (error : Nat) (bmi : dms_bio_map_info) (idx : List Nat) :
    ∀ (ms ms1 : mirror_sync_set) (f f1 : Nat),
      write_callback_loop error bmi idx (ms, f) = Except.ok (ms1, f1) → weights_frame ms ms1 := by
  induction idx with
  | nil =>
    intro ms ms1 f f1 h
    cases h
    exact weights_frame_refl _
  | cons i rest ih =>
    intro ms ms1 f f1 h
    unfold write_callback_loop at h
    split_ifs at h
    · split at h
      · cases h
      · exact weights_frame_trans (fail_mirror_wf _ _ _) (ih _ _ _ _ h)
    · exact ih _ _ _ _ h

theorem write_callback_wf (ms ms1 : mirror_sync_set) (error : Nat) (b b1 : bio) (ret : Int)
    (h : write_callback ms error b = Except.ok (ms1, b1, ret)) : weights_frame ms ms1 := by
  unfold write_callback at h
  split at h
  · cases h
  · simp only [run_pure] at h
    split_ifs at h
    all_goals first
      | (cases h; exact weights_frame_refl _)
      | (obtain ⟨v, hc, hv⟩ := run_bind_ok h
         obtain ⟨ms2, nf⟩ := v
         have hs := write_callback_loop_wf _ _ _ _ _ _ _ hc
         simp only at hv
         cases hv
         split_ifs <;> exact weights_frame_trans hs ⟨rfl, rfl, Or.inl rfl⟩)

theorem get_mirror_weight_max_live_wf (ms ms1 : mirror_sync_set) (r : Option Nat)
    (h : get_mirror_weight_max_live ms = Except.ok (r, ms1)) : weights_frame ms ms1 := by
  unfold get_mirror_weight_max_live at h
  simp only [assert_bug_bind, run_pure_bind, run_throw, run_pure] at h
  split_ifs at h with h1 h2 h3
  · cases h; exact weights_frame_refl _
  · cases h
    rw [decide_eq_true_eq] at h3
    exact ⟨rfl, rfl, Or.inr ⟨h3.1, h3.2.2⟩⟩

theorem rr_loop_wf (start : Nat) (fuel : Nat) :
    ∀ (ms : mirror_sync_set) (ret : Nat) (r : Option Nat) (ms1 : mirror_sync_set),
      rr_loop start fuel ms ret = Except.ok (r, ms1) → weights_frame ms ms1 := by
  induction fuel with
  | zero => intro ms ret r ms1 h; cases h
  | succ n ih =>
    intro ms ret r ms1 h
    unfold rr_loop at h
    simp only [run_pure] at h
    split_ifs at h
    all_goals first
      | (cases h; exact ⟨rfl, rfl, Or.inl rfl⟩)
      | (have hi := ih _ _ _ _ h; exact ⟨hi.1, hi.2.1, hi.2.2⟩)

theorem choose_read_mirror_wf (ms ms1 : mirror_sync_set) (sector : Nat) (r : Option Nat)
    (h : choose_read_mirror ms sector = Except.ok (r, ms1)) : weights_frame ms ms1 := by
  unfold choose_read_mirror at h
  split at h
  · simp only [run_throw, run_pure] at h
    split_ifs at h
    all_goals first
      | (cases h; exact weights_frame_refl _)
      | (obtain ⟨v, _, hv⟩ := run_bind_ok h
         split_ifs at hv <;> cases hv <;> exact weights_frame_refl _)
  · exact rr_loop_wf _ _ _ _ _ _ h
  · simp only [assert_bug_bind, run_pure] at h
    split_ifs at h
    all_goals first
      | (cases h; exact weights_frame_refl _)
      | (obtain ⟨v, hg, hv⟩ := run_bind_ok h
         obtain ⟨c, ms2⟩ := v
         have hs := get_mirror_weight_max_live_wf ms ms2 c hg
         split_ifs at hv <;> cases hv <;> exact hs)

theorem queue_bio_wf (ms : mirror_sync_set) (b : bio) : weights_frame ms (queue_bio ms b) := by
  unfold queue_bio
  simp only
  split_ifs <;> exact ⟨rfl, rfl, Or.inl rfl⟩

theorem read_callback_wf (ms ms1 : mirror_sync_set) (error : Nat) (b b1 : bio)
    (ret : Option Int)
    (h : read_callback ms error b = Except.ok (ms1, b1, ret)) : weights_frame ms ms1 := by
  unfold read_callback at h
  split at h
  · cases h
  · simp only [run_pure, run_throw] at h
    split_ifs at h
    all_goals first
      | (cases h; exact weights_frame_refl _)
      | (split at h
         · cases h
         · have hf := fail_mirror_wf ms ‹Nat› dm_raid1_error.DM_RAID1_READ_ERROR
           split_ifs at h
           all_goals
             cases h
             first
               | exact weights_frame_trans hf (queue_bio_wf _ _)
               | exact weights_frame_trans hf ⟨rfl, rfl, Or.inl rfl⟩)

theorem do_read_failures_wf (bios : List bio) :
    ∀ (ms ms1 : mirror_sync_set) (reqs : List dm_io_request) (ended : List (bio × Int)),
      do_read_failures bios ms = Except.ok (ms1, reqs, ended) → weights_frame ms ms1 := by
  induction bios with
  | nil => intro ms ms1 reqs ended h; cases h; exact weights_frame_refl _
  | cons b rest ih =>
    intro ms ms1 reqs ended h
    unfold do_read_failures at h
    obtain ⟨b2, _, h⟩ := run_bind_ok h
    obtain ⟨_, _, h⟩ := run_bind_ok h
    obtain ⟨v, hc, h⟩ := run_bind_ok h
    obtain ⟨m, ms2⟩ := v
    have hs := choose_read_mirror_wf _ _ _ _ hc
    cases m with
    | none =>
      simp only at h
      obtain ⟨w, hr, h⟩ := run_bind_ok h
      obtain ⟨ms3, reqs3, ended3⟩ := w
      have hi := ih _ _ _ _ hr
      cases h
      refine weights_frame_trans hs (weights_frame_trans ?_ hi)
      split_ifs <;> exact ⟨rfl, rfl, Or.inl rfl⟩
    | some mi =>
      simp only at h
      split at h
      · cases h
      · obtain ⟨w, _, h⟩ := run_bind_ok h
        obtain ⟨w2, hr, h⟩ := run_bind_ok h
        obtain ⟨ms3, reqs3, ended3⟩ := w2
        have hi := ih _ _ _ _ hr
        cases h
        exact weights_frame_trans hs hi

theorem end_io_all_wf (ended : List (bio × Int)) :
    ∀ ms : mirror_sync_set, weights_frame ms (end_io_all ended ms) := by
  induction ended with
  | nil => intro ms; exact weights_frame_refl _
  | cons p rest ih =>
    intro ms
    obtain ⟨b, e⟩ := p
    unfold end_io_all
    refine weights_frame_trans ?_ (ih _)
    unfold mirror_sync_end_io
    split_ifs <;> exact ⟨rfl, rfl, Or.inl rfl⟩

theorem mirror_sync_map_wf (ms ms1 : mirror_sync_set) (b b1 : bio) (r : Int)
    (req : Option dm_io_request)
    (h : mirror_sync_map ms b = Except.ok (r, ms1, b1, req)) : weights_frame ms ms1 := by
  unfold mirror_sync_map at h
  simp only [run_pure, run_throw] at h
  split_ifs at h
  all_goals first
    | (cases h; exact ⟨rfl, rfl, Or.inl rfl⟩)
    | (obtain ⟨v, hc, hv⟩ := run_bind_ok h
       obtain ⟨m, ms2⟩ := v
       have hs := choose_read_mirror_wf _ _ _ _ hc
       cases m with
       | none =>
         simp only at hv
         split_ifs at hv <;> cases hv <;> exact ⟨hs.1, hs.2.1, hs.2.2⟩
       | some mi =>
         simp only at hv
         split at hv
         · cases hv
         · obtain ⟨w, _, hw⟩ := run_bind_ok hv
           cases hw
           exact ⟨hs.1, hs.2.1, hs.2.2⟩)

end DMS

namespace DMS

theorem getD_set_cases (w : List Int) (d i : Nat) (x : Int) :
    (w.set d x).getD i 0 = x ∨ (w.set d x).getD i 0 = w.getD i 0 := by
  rw [List.getD_eq_getElem?_getD, List.getElem?_set]
  by_cases hdi : d = i
  · rw [if_pos hdi]
    split_ifs with hlt
    · left; rfl
    · right
      rw [List.getD_eq_getElem?_getD, List.getElem?_eq_none (by omega)]
  · rw [if_neg hdi, ← List.getD_eq_getElem?_getD]
    right; rfl

theorem set_all_getD (idx : List Nat) (x : Int) (i : Nat) :
    ∀ w : List Int, (set_all w idx x).getD i 0 = x ∨ (set_all w idx x).getD i 0 = w.getD i 0 := by
  induction idx with
  | nil => intro w; right; rfl
  | cons d rest ih =>
    intro w
    have h1 : set_all w (d :: rest) x = set_all (w.set d x) rest x := rfl
    rw [h1]
    rcases ih (w.set d x) with h | h
    · left; exact h
    · rcases getD_set_cases w d i x with g | g
      · left; rw [h, g]
      · right; rw [h, g]

theorem weights_ok_set (ms : mirror_sync_set) (w : List Int) (x : Int)
    (hk : weights_ok ms) (hlen : w.length = ms.mirror_weights.length)
    (hw : ∀ i, 0 ≤ w.getD i 0 ∧ w.getD i 0 ≤ 100)
    (h0 : 0 ≤ x) (h1 : x < ms.nr_mirrors) :
    weights_ok { ms with mirror_weights := w, mirror_weight_max_live := x } :=
  ⟨hlen.trans hk.1, hw, h0, h1⟩

theorem message_set_weight_wok (ms ms1 : mirror_sync_set) (a2 a3 : String) (r : Int)
    (h : message_set_weight ms a2 a3 = Except.ok (r, ms1)) (hk : weights_ok ms) :
    weights_ok ms1 := by
  unfold message_set_weight at h
  cases hs2 : sscanf_u a2 with
  | none => rw [hs2] at h; cases h; exact hk
  | some devno =>
    rw [hs2] at h
    simp only at h
    split_ifs at h
    · cases h; exact hk
    · cases hs3 : sscanf_u a3 with
      | none => rw [hs3] at h; cases h; exact hk
      | some value =>
        rw [hs3] at h
        simp only [run_pure, assert_bug_bind] at h
        split_ifs at h with h1 h2 h3
        · cases h; exact hk
        · cases h
          rw [decide_eq_true_eq] at h3
          refine weights_ok_set ms _ _ hk (List.length_set _ _ _) ?_ h3.1 h3.2.2
          intro i
          rcases getD_set_cases ms.mirror_weights devno i (value : Int) with g | g
          · rw [g]; omega
          · rw [g]; exact hk.2.1 i

theorem message_round_robin_wok (ms ms1 : mirror_sync_set) (a2 a3 : String) (r : Int)
    (h : message_round_robin ms a2 a3 = Except.ok (r, ms1)) (hk : weights_ok ms) :
    weights_ok ms1 := by
  unfold message_round_robin at h
  split_ifs at h
  · cases h; exact hk
  · split at h
    · cases h; exact hk
    · split_ifs at h
      all_goals (cases h; exact hk)

theorem message_logical_part_wok (ms ms1 : mirror_sync_set) (a2 a3 : String) (r : Int)
    (h : message_logical_part ms a2 a3 = Except.ok (r, ms1)) (hk : weights_ok ms) :
    weights_ok ms1 := by
  unfold message_logical_part at h
  split_ifs at h
  · cases h; exact hk
  · split at h
    · cases h; exact hk
    · split_ifs at h
      all_goals (cases h; exact hk)

theorem message_weighted_wok (ms ms1 : mirror_sync_set) (a2 a3 : String) (r : Int)
    (h : message_weighted ms a2 a3 = Except.ok (r, ms1)) (hk : weights_ok ms) :
    weights_ok ms1 := by
  unfold message_weighted at h
  simp only [run_pure, assert_bug_bind] at h
  split_ifs at h
  · cases h; exact hk
  · cases hs3 : sscanf_u a3 with
    | none => rw [hs3] at h; cases h; exact hk
    | some value =>
      rw [hs3] at h
      simp only at h
      split_ifs at h with h1 h2
      · cases h; exact hk
      · have hw := dev_weight_loop_weights value (List.range ms.nr_mirrors) ms (-1)
        have hb : ∀ i, 0 ≤ (set_all ms.mirror_weights (List.range ms.nr_mirrors)
              (wrap_int (value : Int))).getD i 0 ∧
            (set_all ms.mirror_weights (List.range ms.nr_mirrors)
              (wrap_int (value : Int))).getD i 0 ≤ 100 := by
          intro i
          have hv : wrap_int (value : Int) = (value : Int) :=
            wrap_int_small _ (by omega) (by omega)
          rcases set_all_getD (List.range ms.nr_mirrors) (wrap_int (value : Int)) i
            ms.mirror_weights with g | g
          · rw [g, hv]; omega
          · rw [g]; exact hk.2.1 i
        rcases hl : dev_weight_loop value (List.range ms.nr_mirrors) (ms, -1) with ⟨ms2, maxi⟩
        rw [hl] at hw h h2
        simp only at hw h h2
        cases h
        rw [decide_eq_true_eq] at h2
        subst hw
        exact ⟨(set_all_length _ _ _).trans hk.1, hb, h2.1, h2.2.2⟩

theorem mirror_sync_message_wok (ms ms1 : mirror_sync_set) (ti_len : Nat) (check : Bool)
    (argv : List String) (r : Int)
    (h : mirror_sync_message ms ti_len check argv = Except.ok (r, ms1)) (hk : weights_ok ms) :
    weights_ok ms1 := by
  unfold mirror_sync_message at h
  split at h
  · split_ifs at h
    all_goals first
      | (cases h; exact hk)
      | exact message_set_weight_wok _ _ _ _ _ h hk
      | (rw [message_check_data_mirror_all_rejected _ _ _ _ _ _ h]; exact hk)
      | (rw [message_check_data_mirror_block_rejected _ _ _ _ _ _ _ h]; exact hk)
      | exact message_round_robin_wok _ _ _ _ _ h hk
      | exact message_logical_part_wok _ _ _ _ _ h hk
      | exact message_weighted_wok _ _ _ _ _ h hk
  · cases h; exact hk

theorem Step.keeps_weights_ok {s t : dms_system} (h : Step s t) (hk : DMS.weights_ok s.ms) :
    DMS.weights_ok t.ms := by
  cases h with
  | map b r ms1 b1 req hb h => exact weights_frame_ok (mirror_sync_map_wf _ _ _ _ _ _ h) hk
  | write_done k req error ms1 b1 ret hk1 hn h =>
    refine weights_frame_ok (weights_frame_trans (write_callback_wf _ _ _ _ _ _ h) ?_) hk
    unfold mirror_sync_end_io
    split_ifs <;> exact ⟨rfl, rfl, Or.inl rfl⟩
  | read_done k req error ms1 b1 ret hk1 hn h =>
    refine weights_frame_ok (weights_frame_trans (read_callback_wf _ _ _ _ _ _ h) ?_) hk
    unfold mirror_sync_end_io
    split_ifs <;> exact ⟨rfl, rfl, Or.inl rfl⟩
  | read_retry k req error ms1 b1 hk1 hn h =>
    exact weights_frame_ok (read_callback_wf _ _ _ _ _ _ h) hk
  | worker ms1 reqs ended h =>
    unfold main_mirror_syncd at h
    have h1 := do_read_failures_wf _ _ _ _ _ h
    exact weights_frame_ok (weights_frame_trans ⟨h1.1, h1.2.1, h1.2.2⟩ (end_io_all_wf _ _)) hk
  | message ti_len check argv r ms1 h => exact mirror_sync_message_wok _ _ _ _ _ _ h hk
  | status => exact hk
  | presuspend => exact hk
  | postsuspend => exact hk
  | resume => exact hk

end DMS

namespace DMS

theorem ctr_weight_loop1_weights (w : Nat) (idx : List Nat) :
    ∀ (ms : mirror_sync_set) (maxi max : Int),
      (ctr_weight_loop1 w idx (ms, maxi, max)).1 =
        { ms with mirror_weights := set_all ms.mirror_weights idx (wrap_int (w : Int)) } := by
  induction idx with
  | nil => intro ms maxi max; rfl
  | cons i rest ih =>
    intro ms maxi max
    simp only [ctr_weight_loop1]
    split_ifs <;> (rw [ih]; rfl)

theorem ctr_weight_loop1_maxi (w : Nat) (idx : List Nat) :
    ∀ (ms : mirror_sync_set) (maxi max : Int),
      ((ctr_weight_loop1 w idx (ms, maxi, max)).2.1 = maxi ∨
        ∃ i, i ∈ idx ∧ (ctr_weight_loop1 w idx (ms, maxi, max)).2.1 = (i : Int)) ∧
      ((∃ i, i ∈ idx ∧ alive_at ms i = true) →
        ∃ i, i ∈ idx ∧ (ctr_weight_loop1 w idx (ms, maxi, max)).2.1 = (i : Int)) := by
  induction idx with
  | nil =>
    intro ms maxi max
    exact ⟨Or.inl rfl, fun ⟨i, hi, _⟩ => absurd hi (List.not_mem_nil i)⟩
  | cons i rest ih =>
    intro ms maxi max
    have hal : ∀ k, alive_at
        { ms with mirror_weights := ms.mirror_weights.set i (wrap_int (w : Int)) } k =
        alive_at ms k := fun _ => rfl
    simp only [ctr_weight_loop1]
    by_cases h1 : alive_at
        { ms with mirror_weights := ms.mirror_weights.set i (wrap_int (w : Int)) } i = true
    · rw [if_pos h1]
      obtain ⟨a, _⟩ := ih { ms with mirror_weights := ms.mirror_weights.set i (wrap_int (w : Int)) }
        (i : Int) ((ms.mirror_weights.set i (wrap_int (w : Int))).getD i 0)
      have hsome : ∃ j, j ∈ i :: rest ∧
          (ctr_weight_loop1 w rest
            ({ ms with mirror_weights := ms.mirror_weights.set i (wrap_int (w : Int)) }, (i : Int),
              (ms.mirror_weights.set i (wrap_int (w : Int))).getD i 0)).2.1 = (j : Int) := by
        rcases a with a | ⟨j, hj, a⟩
        · exact ⟨i, List.mem_cons_self _ _, a⟩
        · exact ⟨j, List.mem_cons_of_mem _ hj, a⟩
      exact ⟨Or.inr hsome, fun _ => hsome⟩
    · rw [if_neg h1]
      obtain ⟨a, b⟩ := ih { ms with mirror_weights := ms.mirror_weights.set i (wrap_int (w : Int)) }
        maxi max
      refine ⟨?_, ?_⟩
      · rcases a with a | ⟨j, hj, a⟩
        · exact Or.inl a
        · exact Or.inr ⟨j, List.mem_cons_of_mem _ hj, a⟩
      · rintro ⟨j, hj, hja⟩
        rcases List.mem_cons.mp hj with rfl | hj
        · rw [hal] at h1
          exact absurd hja h1
        · obtain ⟨k, hk, hk2⟩ := b ⟨j, hj, by rw [hal]; exact hja⟩
          exact ⟨k, List.mem_cons_of_mem _ hk, hk2⟩

theorem ctr_weight_loop2_maxi (ms : mirror_sync_set) (idx : List Nat) :
    ∀ (maxi max : Int),
      (ctr_weight_loop2 ms idx (maxi, max)).1 = maxi ∨
        ∃ i, i ∈ idx ∧ (ctr_weight_loop2 ms idx (maxi, max)).1 = (i : Int) := by
  induction idx with
  | nil => intro maxi max; exact Or.inl rfl
  | cons i rest ih =>
    intro maxi max
    simp only [ctr_weight_loop2]
    split_ifs
    · rcases ih (i : Int) (ms.mirror_weights.getD i 0) with a | ⟨j, hj, a⟩
      · exact Or.inr ⟨i, List.mem_cons_self _ _, a⟩
      · exact Or.inr ⟨j, List.mem_cons_of_mem _ hj, a⟩
    · rcases ih maxi max with a | ⟨j, hj, a⟩
      · exact Or.inl a
      · exact Or.inr ⟨j, List.mem_cons_of_mem _ hj, a⟩

theorem ctr_read_policy_wok (ms : mirror_sync_set) (rp : read_policy_params)
    (hk : weights_ok ms) (hrp : rp_accepted rp ms.nr_mirrors = true) (hal : all_alive ms)
    (h0 : 0 < ms.nr_mirrors) : weights_ok (ctr_read_policy ms rp) := by
  unfold ctr_read_policy
  unfold rp_accepted at hrp
  by_cases ho : rp.oldparams = 0
  · rw [if_pos ho]
    rw [if_neg (by omega), if_pos ho] at hrp
    cases hp : rp.policy with
    | DMS_ROUND_ROBIN => exact hk
    | DMS_LOGICAL_PARTITION => exact hk
    | DMS_CUSTOM_WEIGHTED =>
      rw [hp] at hrp
      simp only [decide_eq_true_eq] at hrp
      obtain ⟨r1, r2, r3, r4, r5⟩ := hrp
      simp only
      have hw := ctr_weight_loop1_weights rp.rparg0 (List.range ms.nr_mirrors) ms (-1) (-1)
      obtain ⟨_, hm⟩ := ctr_weight_loop1_maxi rp.rparg0 (List.range ms.nr_mirrors) ms (-1) (-1)
      obtain ⟨i1, hi1, hm⟩ := hm ⟨0, List.mem_range.mpr h0, all_alive_at ms hal 0 h0⟩
      rcases hl : ctr_weight_loop1 rp.rparg0 (List.range ms.nr_mirrors) (ms, -1, -1)
        with ⟨ms1, maxi, max⟩
      rw [hl] at hw hm
      simp only at hw hm ⊢
      subst hw
      have hv0 : wrap_int (rp.rparg0 : Int) = (rp.rparg0 : Int) :=
        wrap_int_small _ (by omega) (by omega)
      have hv2 : wrap_int (rp.rparg2 : Int) = (rp.rparg2 : Int) :=
        wrap_int_small _ (by omega) (by omega)
      have hb1 : ∀ i, 0 ≤ (set_all ms.mirror_weights (List.range ms.nr_mirrors)
            (wrap_int (rp.rparg0 : Int))).getD i 0 ∧
          (set_all ms.mirror_weights (List.range ms.nr_mirrors)
            (wrap_int (rp.rparg0 : Int))).getD i 0 ≤ 100 := by
        intro i
        rcases set_all_getD (List.range ms.nr_mirrors) (wrap_int (rp.rparg0 : Int)) i
          ms.mirror_weights with g | g
        · rw [g, hv0]; omega
        · rw [g]; exact hk.2.1 i
      have hlen1 := (set_all_length ms.mirror_weights (List.range ms.nr_mirrors)
        (wrap_int (rp.rparg0 : Int))).trans hk.1
      generalize set_all ms.mirror_weights (List.range ms.nr_mirrors)
        (wrap_int (rp.rparg0 : Int)) = W at hb1 hlen1 ⊢
      have hb2 : ∀ i, 0 ≤ (W.set rp.rparg1 (wrap_int (rp.rparg2 : Int))).getD i 0 ∧
          (W.set rp.rparg1 (wrap_int (rp.rparg2 : Int))).getD i 0 ≤ 100 := by
        intro i
        rcases getD_set_cases W rp.rparg1 i (wrap_int (rp.rparg2 : Int)) with g | g
        · rw [g, hv2]; omega
        · rw [g]; exact hb1 i
      have hnr1 : mirror_sync_set.nr_mirrors { ms with mirror_weights := W } = ms.nr_mirrors := rfl
      rw [hnr1, if_pos r3]
      have hnr2 : mirror_sync_set.nr_mirrors
          { ms with mirror_weights := W.set rp.rparg1 (wrap_int (rp.rparg2 : Int)) } =
          ms.nr_mirrors := rfl
      simp only [hnr2]
      have hm2 := ctr_weight_loop2_maxi
        { ms with mirror_weights := W.set rp.rparg1 (wrap_int (rp.rparg2 : Int)) }
        (List.range ms.nr_mirrors) maxi max
      have hi1' : i1 < ms.nr_mirrors := List.mem_range.mp hi1
      generalize ctr_weight_loop2
        { ms with mirror_weights := W.set rp.rparg1 (wrap_int (rp.rparg2 : Int)) }
        (List.range ms.nr_mirrors) (maxi, max) = res at hm2 ⊢
      have hrange : 0 ≤ res.1 ∧ res.1 < ms.nr_mirrors := by
        rcases hm2 with a | ⟨j, hj, a⟩
        · rw [a, hm]; omega
        · have := List.mem_range.mp hj
          rw [a]; omega
      exact ⟨(List.length_set _ _ _).trans hlen1, hb2, hrange.1, hrange.2⟩
  · rw [if_neg ho]
    exact hk

end DMS

namespace DMS

theorem alloc_mirror_sync_set_wok (n b : Nat) (ms : mirror_sync_set) (hn : 0 < n)
    (h : alloc_mirror_sync_set n b = Except.ok ms) : weights_ok ms := by
  unfold alloc_mirror_sync_set at h
  simp only [assert_bug_bind, run_pure] at h
  split_ifs at h
  obtain ⟨v, hg, hv⟩ := run_bind_ok h
  obtain ⟨c, ms2⟩ := v
  have hs := get_mirror_weight_max_live_wf _ _ _ hg
  cases hv
  refine weights_frame_ok hs ⟨rfl, ?_, le_refl _, ?_⟩
  · intro i
    unfold weight_at
    simp only
    rw [List.getD_eq_getElem?_getD, List.getElem?_replicate]
    split_ifs <;> simp
  · show (0 : Int) < ((List.replicate n (mirror.mk 0 0 "" 0)).length : Int)
    rw [List.length_replicate]
    exact_mod_cast hn

theorem ctr_get_mirrors_wf (legs : List (String × Nat)) :
    ∀ (m : Nat) (ms : mirror_sync_set), weights_frame ms (ctr_get_mirrors legs m ms) := by
  induction legs with
  | nil => intro m ms; exact weights_frame_refl _
  | cons p rest ih =>
    intro m ms
    obtain ⟨dev, off⟩ := p
    unfold ctr_get_mirrors
    have h1 : weights_frame ms (get_mirror ms m dev off) := by
      refine ⟨rfl, ?_, Or.inl rfl⟩
      unfold get_mirror mirror_sync_set.nr_mirrors
      simp only [List.length_set]
    exact weights_frame_trans h1 (ih (m + 1) (get_mirror ms m dev off))

theorem preserve_ms_params_on_reconfig_wf (newms ms1 : mirror_sync_set)
    (oldms : Option mirror_sync_set)
    (h : preserve_ms_params_on_reconfig newms oldms = Except.ok ms1) :
    weights_frame newms ms1 := by
  unfold preserve_ms_params_on_reconfig at h
  split at h
  · cases h; exact weights_frame_refl _
  · obtain ⟨v, hg, hv⟩ := run_bind_ok h
    obtain ⟨c, ms2⟩ := v
    have hs := get_mirror_weight_max_live_wf _ _ _ hg
    cases hv
    exact ⟨hs.1, hs.2.1, hs.2.2⟩

theorem mirror_sync_ctr_wok (rp : read_policy_params) (legs : List (String × Nat))
    (ti_begin : Nat) (mdname : String) (oldms : Option mirror_sync_set) (ms : mirror_sync_set)
    (hrp : rp_accepted rp legs.length = true)
    (h : mirror_sync_ctr rp legs ti_begin mdname oldms = Except.ok (some ms)) :
    weights_ok ms := by
  unfold mirror_sync_ctr at h
  simp only [run_pure] at h
  by_cases hn : legs.length < 2 ∨ legs.length > MAX_MIRRORS
  · rw [if_pos hn] at h
    cases h
  · rw [if_neg hn] at h
    obtain ⟨ms_a, ha, h⟩ := run_bind_ok h
    obtain ⟨ms_p, hp, h⟩ := run_bind_ok h
    cases h
    have k0 := alloc_mirror_sync_set_wok _ _ _ (by omega) ha
    obtain ⟨ha1, ha2⟩ := alloc_mirror_sync_set_legs _ _ _ ha
    obtain ⟨g1, g2, g3⟩ := ctr_get_mirrors_legs legs 0 ms_a (all_alive_replicate _ _ ha1)
    have k1 := weights_frame_ok (ctr_get_mirrors_wf legs 0 ms_a) k0
    have k2 : weights_ok { ctr_get_mirrors legs 0 ms_a with name := mdname } := k1
    have k3 := weights_frame_ok (preserve_ms_params_on_reconfig_wf _ _ _ hp) k2
    have hp1 := preserve_ms_params_on_reconfig_same _ _ _ hp
    have hmir : ms_p.mirror = (ctr_get_mirrors legs 0 ms_a).mirror := hp1.1
    have hlen : ms_p.nr_mirrors = legs.length := by
      unfold mirror_sync_set.nr_mirrors
      rw [hmir, g2, ha1, List.length_replicate]
    exact ctr_read_policy_wok ms_p rp k3 (by rw [hlen]; exact hrp)
      (all_alive_congr _ _ hmir g1) (by rw [hlen]; omega)

theorem Reachable.has_weights_ok {s : dms_system} (h : Reachable s) : DMS.weights_ok s.ms := by
  induction h with
  | ctr rp legs ti_begin mdname oldms ms hrp h => exact mirror_sync_ctr_wok _ _ _ _ _ _ hrp h
  | step s t _ hst ih => exact hst.keeps_weights_ok ih

end DMS

namespace DMS

theorem weight_max_loop_maxi (ms : mirror_sync_set) (idx : List Nat) :
    ∀ (maxi max : Int),
      ((weight_max_loop ms idx (maxi, max)).1 = maxi ∨
        ∃ i, i ∈ idx ∧ (weight_max_loop ms idx (maxi, max)).1 = (i : Int) ∧
          alive_at ms i = true) ∧
      ((∃ i, i ∈ idx ∧ alive_at ms i = true ∧ max < weight_at ms i) →
        ∃ i, i ∈ idx ∧ (weight_max_loop ms idx (maxi, max)).1 = (i : Int) ∧
          alive_at ms i = true) := by
  induction idx with
  | nil =>
    intro maxi max
    exact ⟨Or.inl rfl, fun ⟨i, hi, _⟩ => absurd hi (List.not_mem_nil i)⟩
  | cons i rest ih =>
    intro maxi max
    simp only [weight_max_loop]
    by_cases hc : (decide (ms.mirror_weights.getD i 0 > max) && alive_at ms i) = true
    · rw [if_pos hc]
      rw [Bool.and_eq_true, decide_eq_true_eq] at hc
      obtain ⟨a, _⟩ := ih (i : Int) (ms.mirror_weights.getD i 0)
      have hsome : ∃ j, j ∈ i :: rest ∧
          (weight_max_loop ms rest ((i : Int), ms.mirror_weights.getD i 0)).1 = (j : Int) ∧
          alive_at ms j = true := by
        rcases a with a | ⟨j, hj, a⟩
        · exact ⟨i, List.mem_cons_self _ _, a, hc.2⟩
        · exact ⟨j, List.mem_cons_of_mem _ hj, a⟩
      exact ⟨Or.inr hsome, fun _ => hsome⟩
    · rw [if_neg hc]
      obtain ⟨a, b⟩ := ih maxi max
      refine ⟨?_, ?_⟩
      · rcases a with a | ⟨j, hj, a⟩
        · exact Or.inl a
        · exact Or.inr ⟨j, List.mem_cons_of_mem _ hj, a⟩
      · rintro ⟨j, hj, hja, hjw⟩
        rcases List.mem_cons.mp hj with rfl | hj
        · exfalso
          apply hc
          rw [Bool.and_eq_true, decide_eq_true_eq]
          exact ⟨hjw, hja⟩
        · obtain ⟨k, hk, hk2⟩ := b ⟨j, hj, hja, hjw⟩
          exact ⟨k, List.mem_cons_of_mem _ hk, hk2⟩

/-- `get_mirror_weight_max_live` on a set of at most 8 legs with non-negative
weights, one of them alive: it returns and leaves the index of an alive leg
in the cache. -/
theorem get_mirror_weight_max_live_alive (ms : mirror_sync_set) (j : Nat)
    (h8 : ms.nr_mirrors ≤ MAX_MIRRORS) (hw : ∀ i, 0 ≤ weight_at ms i)
    (hj : alive_at ms j = true) :
    ∃ i, i < ms.nr_mirrors ∧ alive_at ms i = true ∧
      get_mirror_weight_max_live ms =
        Except.ok (some i, { ms with mirror_weight_max_live := (i : Int) }) := by
  obtain ⟨_, hm⟩ := weight_max_loop_maxi ms (List.range ms.nr_mirrors) (-1) (-1)
  obtain ⟨i, hi, hr, hia⟩ := hm ⟨j, List.mem_range.mpr (alive_at_lt ms j hj), hj, by
    have := hw j
    omega⟩
  have hi' : i < ms.nr_mirrors := List.mem_range.mp hi
  refine ⟨i, hi', hia, ?_⟩
  unfold get_mirror_weight_max_live
  simp only [assert_bug_bind, run_pure]
  rw [if_pos (by simpa using h8)]
  rcases hl : weight_max_loop ms (List.range ms.nr_mirrors) (-1, -1) with ⟨maxi, max⟩
  rw [hl] at hr
  simp only at hr ⊢
  subst hr
  have h8n : ms.nr_mirrors ≤ 8 := h8
  have h8i : ((MAX_MIRRORS : Nat) : Int) = 8 := rfl
  rw [if_neg (by omega), if_pos (by rw [decide_eq_true_eq, h8i]; omega)]
  simp only [Int.toNat_ofNat]

/-- The weighted selector on a set of fewer than 8 legs with non-negative
weights whose cached index names a leg: it returns, and when some leg is alive
the cached index names an alive leg afterwards. -/
theorem choose_read_mirror_weighted_cache (ms : mirror_sync_set) (sector : Nat)
    (hp : ms.rdpolicy = dms_read_policy.DMS_CUSTOM_WEIGHTED)
    (h8 : ms.nr_mirrors < MAX_MIRRORS) (hk : weights_ok ms) (j : Nat)
    (hj : alive_at ms j = true) :
    ∃ r ms1, choose_read_mirror ms sector = Except.ok (r, ms1) ∧
      ms1.mirror = ms.mirror ∧ 0 ≤ ms1.mirror_weight_max_live ∧
      alive_at ms1 ms1.mirror_weight_max_live.toNat = true := by
  obtain ⟨k1, k2, k3, k4⟩ := hk
  unfold choose_read_mirror
  rw [hp]
  simp only [assert_bug_bind, run_pure]
  rw [if_pos (by simpa using h8), if_pos (by rw [decide_eq_true_eq]; exact ⟨k3, k4⟩)]
  by_cases ha : alive_at ms ms.mirror_weight_max_live.toNat = true
  · rw [if_neg (by simpa using ha)]
    exact ⟨_, _, rfl, rfl, k3, ha⟩
  · rw [if_pos (by simpa using ha)]
    obtain ⟨i, hi, hia, hg⟩ := get_mirror_weight_max_live_alive ms j (Nat.le_of_lt h8)
      (fun i => (k2 i).1) hj
    rw [hg]
    simp only [run_ok_bind, Option.isNone_some, Bool.false_eq_true, if_false]
    exact ⟨_, _, rfl, rfl, by simp, by simpa using hia⟩

end DMS

namespace DMS

theorem get_mirror_weight_max_live_returns (ms : mirror_sync_set)
    (h8 : ms.nr_mirrors ≤ MAX_MIRRORS) :
    ∃ r ms1, get_mirror_weight_max_live ms = Except.ok (r, ms1) := by
  obtain ⟨hm, _⟩ := weight_max_loop_maxi ms (List.range ms.nr_mirrors) (-1) (-1)
  unfold get_mirror_weight_max_live
  simp only [assert_bug_bind, run_pure]
  rw [if_pos (by simpa using h8)]
  rcases hl : weight_max_loop ms (List.range ms.nr_mirrors) (-1, -1) with ⟨maxi, max⟩
  rw [hl] at hm
  simp only at hm ⊢
  have h8n : ms.nr_mirrors ≤ 8 := h8
  have h8i : ((MAX_MIRRORS : Nat) : Int) = 8 := rfl
  rcases hm with hm | ⟨i, hi, hm, _⟩
  · rw [hm, if_pos (by decide)]
    exact ⟨_, _, rfl⟩
  · have hi' : i < ms.nr_mirrors := List.mem_range.mp hi
    rw [hm, if_neg (by omega), if_pos (by rw [decide_eq_true_eq, h8i]; omega)]
    exact ⟨_, _, rfl⟩

theorem run_bind_returns {α β : Type} (x : Run α) (f : α → Run β)
    (hx : ∃ a, x = Except.ok a) (hf : ∀ a, ∃ b, f a = Except.ok b) :
    ∃ b, (x >>= f) = Except.ok b := by
  obtain ⟨a, ha⟩ := hx
  rw [ha]
  exact hf a

theorem alloc_mirror_sync_set_returns (n b : Nat) (h8 : n ≤ MAX_MIRRORS) :
    ∃ ms, alloc_mirror_sync_set n b = Except.ok ms := by
  unfold alloc_mirror_sync_set
  simp only [assert_bug_bind, run_pure]
  rw [if_pos (by
    rw [decide_eq_true_eq]
    unfold mirror_sync_set.nr_mirrors
    simp only [List.length_replicate]
    exact h8)]
  apply run_bind_returns
  · obtain ⟨r, ms1, hg⟩ := get_mirror_weight_max_live_returns
      { ti_begin := b, read_failures := [], suspend := 0,
        default_mirror := some DEFAULT_MIRROR, rdpolicy := dms_read_policy.DMS_ROUND_ROBIN,
        lp_io_chunk := 1024, rr_ios_set := MIN_READS, rr_ios := MIN_READS,
        read_mirror := DEFAULT_MIRROR, mirror_weights := List.replicate MAX_MIRRORS 0,
        mirror_weight_max_live := 0, supress_err_messages := 0,
        read_ios_total := 0, read_ios_pending := 0, write_ios_total := 0, write_ios_pending := 0,
        events := 0, wakes := 0, name := "",
        mirror := List.replicate n (mirror.mk 0 0 "" 0) } (by
      unfold mirror_sync_set.nr_mirrors
      simp only [List.length_replicate]
      exact h8)
    exact ⟨_, hg⟩
  · rintro ⟨c, ms⟩
    exact ⟨_, rfl⟩

theorem preserve_ms_params_on_reconfig_returns (newms : mirror_sync_set)
    (oldms : Option mirror_sync_set) (h8 : newms.nr_mirrors ≤ MAX_MIRRORS) :
    ∃ ms1, preserve_ms_params_on_reconfig newms oldms = Except.ok ms1 := by
  unfold preserve_ms_params_on_reconfig
  cases oldms with
  | none => exact ⟨_, rfl⟩
  | some old =>
    simp only
    obtain ⟨r, ms1, hg⟩ := get_mirror_weight_max_live_returns
      { newms with suspend := old.suspend, rr_ios_set := old.rr_ios_set } h8
    rw [hg]
    exact ⟨_, rfl⟩

/-- What `preserve_ms_params_on_reconfig` copies from the old set and what it
leaves as it was in the new one. -/
theorem preserve_ms_params_on_reconfig_copies (newms oldms ms1 : mirror_sync_set)
    (h : preserve_ms_params_on_reconfig newms (some oldms) = Except.ok ms1) :
    ms1.suspend = oldms.suspend ∧ ms1.rr_ios_set = oldms.rr_ios_set ∧
      ms1.read_ios_total = oldms.read_ios_total ∧
      ms1.read_ios_pending = oldms.read_ios_pending ∧
      ms1.write_ios_total = oldms.write_ios_total ∧
      ms1.write_ios_pending = oldms.write_ios_pending ∧
      ms1.mirror_weights = newms.mirror_weights ∧ ms1.mirror = newms.mirror ∧
      ms1.rr_ios = newms.rr_ios ∧ ms1.rdpolicy = newms.rdpolicy ∧
      ms1.lp_io_chunk = newms.lp_io_chunk ∧ ms1.name = newms.name := by
  unfold preserve_ms_params_on_reconfig at h
  simp only at h
  obtain ⟨v, hg, hv⟩ := run_bind_ok h
  obtain ⟨c, ms2⟩ := v
  unfold get_mirror_weight_max_live at hg
  simp only [assert_bug_bind, run_pure_bind, run_throw, run_pure] at hg
  split_ifs at hg
  all_goals (cases hg; cases hv; exact ⟨rfl, rfl, rfl, rfl, rfl, rfl, rfl, rfl, rfl, rfl, rfl, rfl⟩)

theorem ctr_find_slot_claims (pre : List reconfig_ms_set) (r : reconfig_ms_set)
    (post : List reconfig_ms_set) (hpre : ∀ x, x ∈ pre → x.in_use > 0) (hr : r.in_use = 0) :
    ctr_find_slot (pre ++ r :: post) =
      (some pre.length, pre ++ { r with in_use := 1 } :: post) := by
  induction pre with
  | nil =>
    simp only [List.nil_append, ctr_find_slot, hr, List.length_nil]
    rfl
  | cons x rest ih =>
    have hx := hpre x (List.mem_cons_self _ _)
    have ih := ih (fun y hy => hpre y (List.mem_cons_of_mem _ hy))
    simp only [List.cons_append, ctr_find_slot, if_pos hx, List.append_eq, ih, List.length_cons,
      Option.map_some']

theorem ctr_find_slot_full (tbl : List reconfig_ms_set) (h : ∀ x, x ∈ tbl → x.in_use > 0) :
    ctr_find_slot tbl = (none, tbl) := by
  induction tbl with
  | nil => rfl
  | cons x rest ih =>
    have hx := h x (List.mem_cons_self _ _)
    have ih := ih (fun y hy => h y (List.mem_cons_of_mem _ hy))
    simp only [ctr_find_slot, if_pos hx, ih, Option.map_none']

theorem list_split_at {α : Type} (l : List α) (i : Nat) (x : α) (h : l[i]? = some x) :
    l = l.take i ++ x :: l.drop (i + 1) ∧ (l.take i).length = i := by
  have hi : i < l.length := (List.getElem?_eq_some.mp h).1
  have hx : l[i] = x := (List.getElem?_eq_some.mp h).2
  refine ⟨?_, by rw [List.length_take]; omega⟩
  rw [← hx, ← List.drop_eq_getElem_cons hi, List.take_append_drop]

theorem list_set_split {α : Type} (l : List α) (i : Nat) (x y : α) (h : l[i]? = some x) :
    l.take i ++ y :: l.drop (i + 1) = l.set i y := by
  have hi : i < l.length := (List.getElem?_eq_some.mp h).1
  rw [List.set_eq_take_append_cons_drop, if_pos hi]

/-- The slot search of `mirror_sync_ctr` on a table whose flags are 0 or
positive: the lowest slot that is not in use is claimed. -/
theorem ctr_find_slot_lowest (tbl : List reconfig_ms_set) (i : Nat) (r : reconfig_ms_set)
    (hi : tbl[i]? = some r) (hr : r.in_use = 0)
    (hlow : ∀ j x, j < i → tbl[j]? = some x → x.in_use > 0) :
    ctr_find_slot tbl = (some i, tbl.set i { r with in_use := 1 }) := by
  obtain ⟨h1, h2⟩ := list_split_at tbl i r hi
  have h3 := ctr_find_slot_claims (tbl.take i) r (tbl.drop (i + 1)) (by
    intro x hx
    obtain ⟨j, hj, hjx⟩ := List.getElem_of_mem hx
    rw [List.length_take] at hj
    have hj2 : j < i := by omega
    refine hlow j x hj2 ?_
    rw [← hjx, List.getElem_take]
    exact List.getElem?_eq_getElem _) hr
  rw [← h1, h2, list_set_split tbl i r _ hi] at h3
  exact h3

end DMS

namespace DMS

theorem strncmp_eq_self (a : String) (n : Nat) : strncmp_eq a a n = true := by
  unfold strncmp_eq
  simp

theorem set_at_some_lt (g : dms_module) (p : Nat) (t : dms_target) (h : set_at g p = some t) :
    p < g.sets.length := by
  unfold set_at at h
  by_contra hc
  rw [List.getD_eq_getElem?_getD, List.getElem?_eq_none (by omega)] at h
  cases h

theorem set_at_iff (g : dms_module) (p : Nat) (t : dms_target) :
    set_at g p = some t ↔ g.sets[p]? = some (some t) := by
  unfold set_at
  rw [List.getD_eq_getElem?_getD]
  cases h : g.sets[p]? with
  | none => simp
  | some x => simp

theorem set_at_append_old (tbl : List reconfig_ms_set) (sets : List (Option dms_target))
    (x : Option dms_target) (p : Nat) (h : p < sets.length) :
    set_at { reconf_ms := tbl, sets := sets ++ [x] } p = sets.getD p none := by
  unfold set_at
  simp only
  rw [List.getD_eq_getElem?_getD, List.getD_eq_getElem?_getD, List.getElem?_append_left h]

theorem set_at_append_new (tbl : List reconfig_ms_set) (sets : List (Option dms_target))
    (x : Option dms_target) :
    set_at { reconf_ms := tbl, sets := sets ++ [x] } sets.length = x := by
  unfold set_at
  simp only
  rw [List.getD_eq_getElem?_getD, List.getElem?_append_right (le_refl _)]
  simp

theorem list_set_append_last {α : Type} (l : List α) (x y : α) :
    (l ++ [x]).set l.length y = l ++ [y] := by
  induction l with
  | nil => rfl
  | cons a rest ih =>
    simp only [List.cons_append, List.length_cons, List.set_cons_succ, ih]

theorem reconfig_oidx_set (tbl : List reconfig_ms_set) (i : Nat) (x : reconfig_ms_set)
    (d : String) : reconfig_oidx (tbl.set i x) i d = reconfig_oidx tbl i d := by
  unfold reconfig_oidx
  rw [List.length_set]
  congr 1
  funext j
  rw [List.getElem?_set]
  by_cases hij : i = j
  · subst hij
    rw [if_pos rfl]
    have hd : decide (i ≠ i) = false := by simp
    split_ifs
    · cases tbl[i]? <;> simp only [hd, Bool.false_and]
    · cases tbl[i]? <;> simp only [hd, Bool.false_and]
  · rw [if_neg hij]

theorem reconfig_oidx_some (tbl : List reconfig_ms_set) (i o : Nat) (d : String)
    (h : reconfig_oidx tbl i d = some o) :
    o ≠ i ∧ ∃ r, tbl[o]? = some r ∧ r.in_use > 0 ∧ strncmp_eq d r.devname d.length = true := by
  unfold reconfig_oidx at h
  obtain ⟨ho, hp⟩ := find_range_some_aux _ _ _ h
  cases hr : tbl[o]? with
  | none => rw [hr] at hp; cases hp
  | some r =>
    rw [hr] at hp
    simp only [Bool.and_eq_true, decide_eq_true_eq] at hp
    exact ⟨hp.1.1, r, rfl, hp.1.2, hp.2⟩

theorem mirror_sync_ctr_eq (rp : read_policy_params) (legs : List (String × Nat))
    (ti_begin : Nat) (mdname : String) (oldms : Option mirror_sync_set) (ms_a : mirror_sync_set)
    (h2 : 2 ≤ legs.length) (h8 : legs.length ≤ MAX_MIRRORS)
    (ha : alloc_mirror_sync_set legs.length ti_begin = Except.ok ms_a) :
    mirror_sync_ctr rp legs ti_begin mdname oldms =
      (preserve_ms_params_on_reconfig { ctr_get_mirrors legs 0 ms_a with name := mdname } oldms >>=
        fun ms => pure (some (ctr_read_policy ms rp))) := by
  unfold mirror_sync_ctr
  rw [if_neg (by omega), ha]
  rfl

theorem ctr_new_set_nr (legs : List (String × Nat)) (ti_begin : Nat) (mdname : String)
    (ms_a : mirror_sync_set) (ha : alloc_mirror_sync_set legs.length ti_begin = Except.ok ms_a) :
    mirror_sync_set.nr_mirrors { ctr_get_mirrors legs 0 ms_a with name := mdname } =
      legs.length := by
  obtain ⟨ha1, _⟩ := alloc_mirror_sync_set_legs _ _ _ ha
  obtain ⟨_, g2, _⟩ := ctr_get_mirrors_legs legs 0 ms_a (all_alive_replicate _ _ ha1)
  show (ctr_get_mirrors legs 0 ms_a).mirror.length = legs.length
  rw [g2, ha1, List.length_replicate]

end DMS

namespace DMS

theorem dms_target_eta (t : dms_target) :
    ({ t with sys := { t.sys with ms := t.sys.ms } } : dms_target) = t := by
  cases t with
  | mk idx sys => cases sys; rfl

/-- `preserve_ms_params_on_reconfig` for a set just put at the end of the
heap and recorded in slot `i`, when every slot in use points to a set. -/
theorem preserve_ms_params_on_reconfig_idx_eq (tbl : List reconfig_ms_set)
    (sets : List (Option dms_target)) (i : Nat) (mdname : String) (u : Int) (newt : dms_target)
    (hi : tbl[i]? = some { in_use := u, current_ms := some sets.length, devname := mdname })
    (hptr : ∀ o ro, o ≠ i → tbl[o]? = some ro → ro.in_use > 0 →
      ∃ p t, ro.current_ms = some p ∧ set_at { reconf_ms := tbl, sets := sets } p = some t) :
    preserve_ms_params_on_reconfig_idx { reconf_ms := tbl, sets := sets ++ [some newt] } i mdname =
      (preserve_ms_params_on_reconfig newt.sys.ms
          (reconfig_old_ms { reconf_ms := tbl, sets := sets } i mdname) >>= fun ms =>
        pure { reconf_ms := tbl,
               sets := sets ++ [some { newt with sys := { newt.sys with ms := ms } }] }) := by
  have hil : i < tbl.length := (List.getElem?_eq_some.mp hi).1
  unfold preserve_ms_params_on_reconfig_idx reconfig_old_ms
  simp only [assert_bug_bind, hi, strncmp_eq_self, if_true]
  rw [if_pos (by simpa using hil)]
  cases ho : reconfig_oidx tbl i mdname with
  | none =>
    simp only [Option.none_bind]
    show Except.ok _ = Except.ok _
    rw [dms_target_eta]
  | some o =>
    obtain ⟨hoi, ro, hro, huse, _⟩ := reconfig_oidx_some tbl i o mdname ho
    obtain ⟨p, t, hp, hpt⟩ := hptr o ro hoi hro huse
    have hpl := set_at_some_lt _ p t hpt
    have hpt2 : sets.getD p none = some t := hpt
    simp only [hro, Option.some_bind, hp, set_at_append_old tbl sets (some newt) p hpl,
      set_at_append_new, hpt2, hpt, Option.map_some']
    cases hpr : preserve_ms_params_on_reconfig newt.sys.ms (some t.sys.ms) with
    | error e => rfl
    | ok ms =>
      show Except.ok _ = Except.ok _
      unfold store_ms
      simp only
      rw [list_set_append_last]

theorem reconfig_old_ms_set (g : dms_module) (i : Nat) (x : reconfig_ms_set) (d : String) :
    reconfig_old_ms { reconf_ms := g.reconf_ms.set i x, sets := g.sets } i d =
      reconfig_old_ms g i d := by
  unfold reconfig_old_ms
  simp only [reconfig_oidx_set]
  cases ho : reconfig_oidx g.reconf_ms i d with
  | none => rfl
  | some o =>
    obtain ⟨hoi, _⟩ := reconfig_oidx_some _ i o d ho
    simp only [Option.some_bind]
    rw [List.getElem?_set_ne (Ne.symm hoi)]
    rfl

end DMS

namespace DMS

/-- `mirror_sync_ctr` with the table: with valid arguments and a slot that is
not in use it returns 0, claims the lowest such slot `i`, records the address
of the new set and the device name there, and the new set is what
`mirror_sync_ctr` builds with the set found by the search of
`preserve_ms_params_on_reconfig` as the one to inherit from. -/
theorem mirror_sync_ctr_reconf_eq (g : dms_module) (rp : read_policy_params)
    (legs : List (String × Nat)) (ti_begin : Nat) (mdname : String) (i : Nat)
    (r : reconfig_ms_set)
    (h2 : 2 ≤ legs.length) (h8 : legs.length ≤ MAX_MIRRORS)
    (hname : mdname.length < DEVNAME_MAXLEN)
    (hi : g.reconf_ms[i]? = some r) (hr : r.in_use = 0)
    (hlow : ∀ j x, j < i → g.reconf_ms[j]? = some x → x.in_use > 0)
    (hptr : ∀ (o : Nat) (ro : reconfig_ms_set), g.reconf_ms[o]? = some ro → ro.in_use > 0 →
      ∃ p t, ro.current_ms = some p ∧ set_at g p = some t) :
    ∃ ms, mirror_sync_ctr rp legs ti_begin mdname (reconfig_old_ms g i mdname) =
        Except.ok (some ms) ∧
      mirror_sync_ctr_reconf g rp legs ti_begin mdname =
        Except.ok (0,
          { reconf_ms := g.reconf_ms.set i
              { in_use := 1, current_ms := some g.sets.length, devname := mdname },
            sets := g.sets ++ [some { reconfig_idx := i,
                                      sys := { ms := ms, in_flight := [], ended := [] } }] }) := by
  obtain ⟨ms_a, ha⟩ := alloc_mirror_sync_set_returns legs.length ti_begin h8
  have hnr := ctr_new_set_nr legs ti_begin mdname ms_a ha
  obtain ⟨ms_p, hp⟩ := preserve_ms_params_on_reconfig_returns
    { ctr_get_mirrors legs 0 ms_a with name := mdname } (reconfig_old_ms g i mdname)
    (by rw [hnr]; exact h8)
  have hil : i < g.reconf_ms.length := (List.getElem?_eq_some.mp hi).1
  refine ⟨ctr_read_policy ms_p rp, ?_, ?_⟩
  · rw [mirror_sync_ctr_eq rp legs ti_begin mdname _ ms_a h2 h8 ha, hp]
    rfl
  · unfold mirror_sync_ctr_reconf
    rw [if_neg (by omega), ha]
    simp only [run_ok_bind]
    rw [if_neg (by omega)]
    simp only [ctr_find_slot_lowest g.reconf_ms i r hi hr hlow]
    rw [List.getElem?_set_self hil]
    simp only [List.set_set]
    have hpi := preserve_ms_params_on_reconfig_idx_eq
      (g.reconf_ms.set i { in_use := 1, current_ms := some g.sets.length, devname := mdname })
      g.sets i mdname 1
      { reconfig_idx := i,
        sys := { ms := { ctr_get_mirrors legs 0 ms_a with name := mdname },
                 in_flight := [], ended := [] } }
      (List.getElem?_set_self hil) (by
        intro o ro hoi hro huse
        rw [List.getElem?_set_ne (Ne.symm hoi)] at hro
        exact hptr o ro hro huse)
    rw [reconfig_old_ms_set g i _ mdname] at hpi
    simp only at hpi
    rw [hp] at hpi
    rw [hpi]
    simp only [run_ok_bind, run_pure_bind, run_pure, set_at_append_new]
    show Except.ok _ = Except.ok _
    unfold store_ms
    simp only
    rw [list_set_append_last]

/-- `mirror_sync_ctr` with the table when every slot is in use. -/
theorem mirror_sync_ctr_reconf_full (g : dms_module) (rp : read_policy_params)
    (legs : List (String × Nat)) (ti_begin : Nat) (mdname : String)
    (h8 : legs.length ≤ MAX_MIRRORS)
    (hfull : ∀ x, x ∈ g.reconf_ms → x.in_use > 0) :
    mirror_sync_ctr_reconf g rp legs ti_begin mdname = Except.ok (-EINVAL, g) := by
  obtain ⟨ms_a, ha⟩ := alloc_mirror_sync_set_returns legs.length ti_begin h8
  unfold mirror_sync_ctr_reconf
  by_cases h1 : legs.length < 2 ∨ legs.length > MAX_MIRRORS
  · rw [if_pos h1]; rfl
  · rw [if_neg h1, ha]
    simp only [run_ok_bind]
    by_cases h3 : mdname.length ≥ DEVNAME_MAXLEN
    · rw [if_pos h3]; rfl
    · rw [if_neg h3]
      simp only [ctr_find_slot_full g.reconf_ms hfull]
      rfl

end DMS

namespace DMS

theorem set_at_set (g : dms_module) (p q : Nat) (x : Option dms_target)
    (hp : p < g.sets.length) :
    set_at { g with sets := g.sets.set p x } q = if p = q then x else set_at g q := by
  unfold set_at
  simp only
  rw [List.getD_eq_getElem?_getD, List.getElem?_set]
  by_cases hpq : p = q
  · rw [if_pos hpq, if_pos hpq, if_pos hp]
    rfl
  · rw [if_neg hpq, if_neg hpq, List.getD_eq_getElem?_getD]

theorem reg_inv_init : reg_inv dm_mirror_sync_init := by
  refine ⟨?_, ?_, ?_⟩
  · intro i r hr
    left
    unfold dm_mirror_sync_init at hr
    simp only at hr
    rw [List.getElem?_replicate] at hr
    split_ifs at hr
    cases hr
    rfl
  · intro p t ht
    cases ht
  · intro p t ht
    cases ht

theorem free_slot_not_in_use (r : reconfig_ms_set) (h : r = free_slot) : ¬ r.in_use > 0 := by
  subst h
  decide

theorem reg_inv_entry (g : dms_module) (p : Nat) (t : dms_target) (s1 : dms_system)
    (hg : reg_inv g) (hp : set_at g p = some t) (hs : Step t.sys s1) :
    reg_inv { g with sets := g.sets.set p (some { t with sys := s1 }) } := by
  obtain ⟨i1, i2, i3⟩ := hg
  have hpl := set_at_some_lt g p t hp
  refine ⟨?_, ?_, ?_⟩
  · intro i r hr
    rcases i1 i r hr with h | ⟨h1, p0, t0, h2, h3, h4⟩
    · exact Or.inl h
    · right
      refine ⟨h1, p0, ?_⟩
      rw [set_at_set g p p0 _ hpl]
      by_cases hpp : p = p0
      · subst hpp
        rw [hp] at h3
        cases h3
        rw [if_pos rfl]
        exact ⟨_, h2, rfl, h4⟩
      · rw [if_neg hpp]
        exact ⟨t0, h2, h3, h4⟩
  · intro q t' ht'
    rw [set_at_set g p q _ hpl] at ht'
    by_cases hpq : p = q
    · subst hpq
      rw [if_pos rfl] at ht'
      cases ht'
      exact i2 p t hp
    · rw [if_neg hpq] at ht'
      exact i2 q t' ht'
  · intro q t' ht'
    rw [set_at_set g p q _ hpl] at ht'
    by_cases hpq : p = q
    · subst hpq
      rw [if_pos rfl] at ht'
      cases ht'
      exact Reachable.step _ _ (i3 p t hp) hs
    · rw [if_neg hpq] at ht'
      exact i3 q t' ht'

/-- `mirror_sync_dtr` for an allocated set: it returns, its slot is free
afterwards and the set is gone; nothing else changes. -/
theorem mirror_sync_dtr_eq (g : dms_module) (p : Nat) (t : dms_target) (hg : reg_inv g)
    (hp : set_at g p = some t) :
    mirror_sync_dtr g p =
      Except.ok { reconf_ms := g.reconf_ms.set t.reconfig_idx free_slot,
                  sets := g.sets.set p none } := by
  obtain ⟨r, hr, _⟩ := hg.2.1 p t hp
  have hil : t.reconfig_idx < g.reconf_ms.length := (List.getElem?_eq_some.mp hr).1
  unfold mirror_sync_dtr
  rw [hp]
  simp only [assert_bug_bind]
  rw [if_pos (by simpa using hil)]
  rfl

theorem reg_inv_dtr (g : dms_module) (p : Nat) (g1 : dms_module) (hg : reg_inv g)
    (h : mirror_sync_dtr g p = Except.ok g1) : reg_inv g1 := by
  cases hp : set_at g p with
  | none =>
    unfold mirror_sync_dtr at h
    rw [hp] at h
    cases h
  | some t =>
    rw [mirror_sync_dtr_eq g p t hg hp] at h
    cases h
    obtain ⟨i1, i2, i3⟩ := hg
    have hpl := set_at_some_lt g p t hp
    obtain ⟨rp, hrp1, hrp2, hrp3⟩ := i2 p t hp
    have hsa : ∀ (tbl : List reconfig_ms_set) (q : Nat),
        set_at { reconf_ms := tbl, sets := g.sets.set p none } q =
          if p = q then none else set_at g q := by
      intro tbl q
      exact set_at_set g p q none hpl
    refine ⟨?_, ?_, ?_⟩
    · intro i r hr
      simp only at hr
      rw [List.getElem?_set] at hr
      by_cases hti : t.reconfig_idx = i
      · rw [if_pos hti] at hr
        split_ifs at hr
        cases hr
        exact Or.inl rfl
      · rw [if_neg hti] at hr
        rcases i1 i r hr with h | ⟨h1, p0, t0, h2, h3, h4⟩
        · exact Or.inl h
        · right
          refine ⟨h1, p0, t0, h2, ?_, h4⟩
          rw [hsa]
          have hpp : p ≠ p0 := by
            intro hc
            subst hc
            rw [hp] at h3
            cases h3
            exact hti h4
          rw [if_neg hpp]
          exact h3
    · intro q t' ht'
      rw [hsa] at ht'
      by_cases hpq : p = q
      · rw [if_pos hpq] at ht'
        cases ht'
      · rw [if_neg hpq] at ht'
        obtain ⟨r, hr1, hr2, hr3⟩ := i2 q t' ht'
        refine ⟨r, ?_, hr2, hr3⟩
        simp only
        have hne : t.reconfig_idx ≠ t'.reconfig_idx := by
          intro hc
          rw [hc, hr1] at hrp1
          cases hrp1
          rw [hr3] at hrp3
          cases hrp3
          exact hpq rfl
        rw [List.getElem?_set_ne hne]
        exact hr1
    · intro q t' ht'
      rw [hsa] at ht'
      by_cases hpq : p = q
      · rw [if_pos hpq] at ht'
        cases ht'
      · rw [if_neg hpq] at ht'
        exact i3 q t' ht'

end DMS

namespace DMS

theorem reg_inv_ptr (g : dms_module) (hg : reg_inv g) (o : Nat) (ro : reconfig_ms_set)
    (hro : g.reconf_ms[o]? = some ro) (huse : ro.in_use > 0) :
    ∃ p t, ro.current_ms = some p ∧ set_at g p = some t := by
  rcases hg.1 o ro hro with h | ⟨_, p, t, h2, h3, _⟩
  · exact absurd huse (free_slot_not_in_use ro h)
  · exact ⟨p, t, h2, h3⟩

/-- The lowest slot that is not in use, when there is one. -/
theorem lowest_free_slot (g : dms_module) (hg : reg_inv g)
    (hex : ∃ x, x ∈ g.reconf_ms ∧ ¬ x.in_use > 0) :
    ∃ i, g.reconf_ms[i]? = some free_slot ∧
      ∀ (j : Nat) (x : reconfig_ms_set), j < i → g.reconf_ms[j]? = some x → x.in_use > 0 := by
  classical
  have hex2 : ∃ (i : Nat), ∃ (x : reconfig_ms_set), g.reconf_ms[i]? = some x ∧ ¬ x.in_use > 0 := by
    obtain ⟨x, hx, hxu⟩ := hex
    obtain ⟨i, hi, hix⟩ := List.getElem_of_mem hx
    exact ⟨i, x, by rw [← hix]; exact List.getElem?_eq_getElem hi, hxu⟩
  obtain ⟨x, hx, hxu⟩ := Nat.find_spec hex2
  refine ⟨Nat.find hex2, ?_, ?_⟩
  · rcases hg.1 _ x hx with h | ⟨h1, _⟩
    · rw [hx, h]
    · exact absurd (by omega) hxu
  · intro j y hj hy
    by_contra hc
    exact Nat.find_min hex2 hj ⟨y, hy, hc⟩

/-- The outcomes of `mirror_sync_ctr` with the table. -/
theorem mirror_sync_ctr_reconf_cases (g : dms_module) (hg : reg_inv g)
    (rp : read_policy_params) (legs : List (String × Nat)) (ti_begin : Nat) (mdname : String)
    (r : Int) (g1 : dms_module)
    (h : mirror_sync_ctr_reconf g rp legs ti_begin mdname = Except.ok (r, g1)) :
    (r = -EINVAL ∧ g1 = g) ∨
    (r = 0 ∧ ∃ i ms, g.reconf_ms[i]? = some free_slot ∧
      (∀ (j : Nat) (x : reconfig_ms_set), j < i → g.reconf_ms[j]? = some x → x.in_use > 0) ∧
      mirror_sync_ctr rp legs ti_begin mdname (reconfig_old_ms g i mdname) =
        Except.ok (some ms) ∧
      g1 = { reconf_ms := g.reconf_ms.set i
               { in_use := 1, current_ms := some g.sets.length, devname := mdname },
             sets := g.sets ++ [some { reconfig_idx := i,
                                       sys := { ms := ms, in_flight := [], ended := [] } }] }) := by
  by_cases h1 : legs.length < 2 ∨ legs.length > MAX_MIRRORS
  · unfold mirror_sync_ctr_reconf at h
    rw [if_pos h1] at h
    cases h
    exact Or.inl ⟨rfl, rfl⟩
  · have h2 : 2 ≤ legs.length := by omega
    have h8 : legs.length ≤ MAX_MIRRORS := by omega
    by_cases h3 : mdname.length ≥ DEVNAME_MAXLEN
    · obtain ⟨ms_a, ha⟩ := alloc_mirror_sync_set_returns legs.length ti_begin h8
      unfold mirror_sync_ctr_reconf at h
      rw [if_neg h1, ha] at h
      simp only [run_ok_bind] at h
      rw [if_pos h3] at h
      cases h
      exact Or.inl ⟨rfl, rfl⟩
    · by_cases hfull : ∀ x, x ∈ g.reconf_ms → x.in_use > 0
      · rw [mirror_sync_ctr_reconf_full g rp legs ti_begin mdname h8 hfull] at h
        cases h
        exact Or.inl ⟨rfl, rfl⟩
      · have hex : ∃ x, x ∈ g.reconf_ms ∧ ¬ x.in_use > 0 := by
          by_contra hc
          apply hfull
          intro x hx
          by_contra hxu
          exact hc ⟨x, hx, hxu⟩
        obtain ⟨i, hi, hlow⟩ := lowest_free_slot g hg hex
        obtain ⟨ms, hm, he⟩ := mirror_sync_ctr_reconf_eq g rp legs ti_begin mdname i free_slot
          h2 h8 (by omega) hi rfl hlow (reg_inv_ptr g hg)
        rw [he] at h
        cases h
        exact Or.inr ⟨rfl, i, ms, hi, hlow, hm, rfl⟩

theorem reg_inv_ctr (g : dms_module) (hg : reg_inv g)
    (rp : read_policy_params) (legs : List (String × Nat)) (ti_begin : Nat) (mdname : String)
    (r : Int) (g1 : dms_module) (hrp : rp_accepted rp legs.length = true)
    (h : mirror_sync_ctr_reconf g rp legs ti_begin mdname = Except.ok (r, g1)) :
    reg_inv g1 := by
  rcases mirror_sync_ctr_reconf_cases g hg rp legs ti_begin mdname r g1 h with
    ⟨_, h1⟩ | ⟨_, i, ms, hi, hlow, hm, h1⟩
  · rw [h1]; exact hg
  · subst h1
    obtain ⟨i1, i2, i3⟩ := hg
    have hil : i < g.reconf_ms.length := (List.getElem?_eq_some.mp hi).1
    have hold : ∀ (tbl : List reconfig_ms_set) (x : Option dms_target) (q : Nat) (t : dms_target),
        set_at g q = some t → set_at { reconf_ms := tbl, sets := g.sets ++ [x] } q = some t := by
      intro tbl x q t hq
      rw [set_at_append_old tbl g.sets x q (set_at_some_lt g q t hq)]
      exact hq
    refine ⟨?_, ?_, ?_⟩
    · intro j rj hj
      simp only at hj
      rw [List.getElem?_set] at hj
      by_cases hij : i = j
      · rw [if_pos hij, if_pos hil] at hj
        cases hj
        right
        exact ⟨rfl, g.sets.length, _, rfl, set_at_append_new _ _ _, hij⟩
      · rw [if_neg hij] at hj
        rcases i1 j rj hj with h | ⟨h1, p0, t0, h2, h3, h4⟩
        · exact Or.inl h
        · exact Or.inr ⟨h1, p0, t0, h2, hold _ _ p0 t0 h3, h4⟩
    · intro q t ht
      by_cases hq : q < g.sets.length
      · rw [set_at_append_old _ g.sets _ q hq] at ht
        obtain ⟨rq, hr1, hr2, hr3⟩ := i2 q t ht
        refine ⟨rq, ?_, hr2, hr3⟩
        simp only
        have hne : i ≠ t.reconfig_idx := by
          intro hc
          rw [← hc, hi] at hr1
          cases hr1
          exact absurd hr2 (by decide)
        rw [List.getElem?_set_ne hne]
        exact hr1
      · have hlt := set_at_some_lt _ q t ht
        simp only [List.length_append, List.length_singleton] at hlt
        have hql : q = g.sets.length := by omega
        subst hql
        rw [set_at_append_new] at ht
        cases ht
        exact ⟨_, List.getElem?_set_self hil, rfl, rfl⟩
    · intro q t ht
      by_cases hq : q < g.sets.length
      · rw [set_at_append_old _ g.sets _ q hq] at ht
        exact i3 q t ht
      · have hlt := set_at_some_lt _ q t ht
        simp only [List.length_append, List.length_singleton] at hlt
        have hql : q = g.sets.length := by omega
        subst hql
        rw [set_at_append_new] at ht
        cases ht
        exact Reachable.ctr rp legs ti_begin mdname _ ms hrp hm

theorem RegStep.keeps_inv {g g1 : dms_module} (h : RegStep g g1) (hg : reg_inv g) :
    reg_inv g1 := by
  cases h
  case ctr rp legs ti_begin mdname r hrp h =>
    exact reg_inv_ctr g hg rp legs ti_begin mdname r g1 hrp h
  case dtr p h => exact reg_inv_dtr g p g1 hg h
  case entry p t s1 hp hs => exact reg_inv_entry g p t s1 hg hp hs

theorem RegReachable.has_inv {g : dms_module} (h : RegReachable g) : reg_inv g := by
  induction h with
  | init => exact reg_inv_init
  | step g g1 _ hst ih => exact hst.keeps_inv ih

end DMS

namespace DMS

theorem dead_map_write (w : Int) (h1 : 1 ≤ w) (h2 : w < 99) :
    mirror_sync_map (dead_gen 0 w (supress_after w)) (write_bio 100 4096) =
      Except.ok (- EIO, dead_gen 0 (w + 1) (supress_after (w + 1)),
        refused_bio (write_bio 100 4096), none) := by
  interval_cases w <;> rfl

theorem dead_map_read (r : Int) (h1 : 0 ≤ r) (h2 : r < 42) :
    mirror_sync_map (dead_gen r 99 (supress_after 99)) (read_bio 0 4096) =
      Except.ok (- EIO, dead_gen (r + 1) 99 (supress_after 99),
        refused_bio (read_bio 0 4096), none) := by
  interval_cases r <;> rfl

theorem reg_single_step (tbl : List reconfig_ms_set) (i : Nat) (s s1 : dms_system)
    (h : RegReachable { reconf_ms := tbl, sets := [some { reconfig_idx := i, sys := s }] })
    (hs : Step s s1) :
    RegReachable { reconf_ms := tbl, sets := [some { reconfig_idx := i, sys := s1 }] } :=
  RegReachable.step _ _ h
    (RegStep.entry { reconf_ms := tbl, sets := [some { reconfig_idx := i, sys := s }] } 0
      { reconfig_idx := i, sys := s } s1 rfl hs)

end DMS

namespace DMS

/-! ### computing the set that is inherited from -/

theorem reconfig_old_ms_none (g : dms_module) (i : Nat) (d : String)
    (h : ∀ (j : Nat) (r : reconfig_ms_set), j ≠ i → g.reconf_ms[j]? = some r → r.in_use > 0 →
      strncmp_eq d r.devname d.length = false) :
    reconfig_old_ms g i d = none := by
  have ho : reconfig_oidx g.reconf_ms i d = none := by
    unfold reconfig_oidx
    rw [List.find?_eq_none]
    intro j _
    cases hr : g.reconf_ms[j]? with
    | none => simp
    | some r =>
      simp only [Bool.and_eq_true, decide_eq_true_eq, not_and, Bool.not_eq_true]
      intro hji
      exact h j r hji.1 hr hji.2
  unfold reconfig_old_ms
  rw [ho]
  rfl

theorem reconfig_old_ms_first (g : dms_module) (i : Nat) (d : String) (o : Nat)
    (r : reconfig_ms_set) (p : Nat) (t : dms_target)
    (hoi : o ≠ i) (ho : g.reconf_ms[o]? = some r) (hu : r.in_use > 0)
    (hm : strncmp_eq d r.devname d.length = true)
    (hp : r.current_ms = some p) (ht : set_at g p = some t)
    (hfirst : ∀ (j : Nat) (x : reconfig_ms_set), j < o → j ≠ i → g.reconf_ms[j]? = some x →
      x.in_use > 0 → strncmp_eq d x.devname d.length = false) :
    reconfig_old_ms g i d = some t.sys.ms := by
  have hoidx : reconfig_oidx g.reconf_ms i d = some o := by
    unfold reconfig_oidx
    rw [find_range_some]
    refine ⟨(List.getElem?_eq_some.mp ho).1, ?_, ?_⟩
    · rw [ho]
      simp only [Bool.and_eq_true, decide_eq_true_eq]
      exact ⟨⟨hoi, hu⟩, hm⟩
    · intro j hj
      cases hr : g.reconf_ms[j]? with
      | none => rfl
      | some x =>
        by_cases hji : j = i
        · simp [hji]
        · by_cases hxu : x.in_use > 0
          · simp only [hfirst j x hj hji hr hxu, Bool.and_false]
          · simp [hxu]
  unfold reconfig_old_ms
  rw [hoidx]
  simp only [Option.some_bind, ho, hp, ht, Option.map_some']

/-- Construction on a table whose lowest free slot is `i`, the set inherited
from being `old`. -/
theorem ctr_reconf_step (g : dms_module) (hg : reg_inv g) (rp : read_policy_params)
    (legs : List (String × Nat)) (ti_begin : Nat) (mdname : String) (i : Nat)
    (old : Option mirror_sync_set) (ms : mirror_sync_set)
    (h2 : 2 ≤ legs.length) (h8 : legs.length ≤ MAX_MIRRORS)
    (hname : mdname.length < DEVNAME_MAXLEN)
    (hi : g.reconf_ms[i]? = some free_slot)
    (hlow : ∀ (j : Nat) (x : reconfig_ms_set), j < i → g.reconf_ms[j]? = some x → x.in_use > 0)
    (hold : reconfig_old_ms g i mdname = old)
    (hctr : mirror_sync_ctr rp legs ti_begin mdname old = Except.ok (some ms)) :
    mirror_sync_ctr_reconf g rp legs ti_begin mdname =
      Except.ok (0, { reconf_ms := g.reconf_ms.set i (used_slot g.sets.length mdname),
                      sets := g.sets ++ [some (new_target i ms)] }) := by
  obtain ⟨ms1, hm, he⟩ := mirror_sync_ctr_reconf_eq g rp legs ti_begin mdname i free_slot
    h2 h8 hname hi rfl hlow (reg_inv_ptr g hg)
  rw [hold, hctr] at hm
  cases hm
  exact he

/-! ### the table of the examples -/

theorem init_slot (j : Nat) (h : j < MAX_DMS_INSTANCES) :
    dm_mirror_sync_init.reconf_ms[j]? = some free_slot := by
  unfold dm_mirror_sync_init
  simp only
  rw [List.getElem?_replicate, if_pos h]

theorem init_slot_free (j : Nat) (x : reconfig_ms_set)
    (h : dm_mirror_sync_init.reconf_ms[j]? = some x) : x = free_slot := by
  unfold dm_mirror_sync_init at h
  simp only at h
  rw [List.getElem?_replicate] at h
  split_ifs at h
  cases h
  rfl

theorem init_length : dm_mirror_sync_init.reconf_ms.length = MAX_DMS_INSTANCES := by
  unfold dm_mirror_sync_init
  simp only [List.length_replicate]

end DMS

namespace DMS

/-! ### reachable states of the module used by the examples -/

theorem init_old_none (i : Nat) (d : String) :
    reconfig_old_ms dm_mirror_sync_init i d = none := by
  apply reconfig_old_ms_none
  intro j r _ hr hu
  exact absurd hu (free_slot_not_in_use r (init_slot_free j r hr))

theorem reg_two_legs_reachable :
    RegReachable (reg_one "253:0" { ms := two_legs, in_flight := [], ended := [] }) :=
  RegReachable.step _ _ RegReachable.init
    (RegStep.ctr dm_mirror_sync_init rp_core [("a", 0), ("b", 0)] 0 "253:0" 0 _ rfl
      (ctr_reconf_step dm_mirror_sync_init reg_inv_init rp_core [("a", 0), ("b", 0)] 0 "253:0" 0
        none two_legs (by decide) (by decide) (by decide) (init_slot 0 (by decide))
        (fun j x hj _ => absurd hj (Nat.not_lt_zero j)) (init_old_none 0 "253:0") rfl))

theorem reg_dead_reachable : RegReachable (reg_one "253:0" (dead_sys 0 1)) :=
  reg_single_step _ 0 _ _
    (reg_single_step _ 0 _ _ reg_two_legs_reachable
      (Step.map { ms := two_legs, in_flight := [], ended := [] } (write_bio 100 4096) 0
        two_legs_written issued_bio (some issued_req) rfl rfl))
    (Step.write_done { ms := two_legs_written, in_flight := [issued_req], ended := [] } 0
      issued_req 3 { two_legs_dead with write_ios_pending := 1 } (bio_set_m issued_bio false)
      (- EIO) rfl rfl rfl)

theorem reg_dead_writes (n : Nat) (hn : n ≤ 98) :
    RegReachable (reg_one "253:0" (dead_sys 0 ((n : Int) + 1))) := by
  induction n with
  | zero => exact reg_dead_reachable
  | succ k ih =>
    have h := dead_map_write ((k : Int) + 1) (by omega) (by omega)
    rw [Nat.cast_succ]
    exact reg_single_step _ 0 _ _ (ih (by omega))
      (Step.map (dead_sys 0 ((k : Int) + 1)) (write_bio 100 4096) (- EIO) _ _ none rfl h)

theorem reg_dead_reads (n : Nat) (hn : n ≤ 42) :
    RegReachable (reg_one "253:0" (dead_sys (n : Int) 99)) := by
  induction n with
  | zero => exact reg_dead_writes 98 (le_refl _)
  | succ k ih =>
    have h := dead_map_read (k : Int) (by omega) (by omega)
    rw [Nat.cast_succ]
    exact reg_single_step _ 0 _ _ (ih (by omega))
      (Step.map (dead_sys (k : Int) 99) (read_bio 0 4096) (- EIO) _ _ none rfl h)

theorem reg_old_42_99_reachable : RegReachable (reg_one "253:0" old_sys_42_99) :=
  reg_single_step _ 0 _ _ (reg_dead_reads 42 (le_refl _)) (Step.presuspend (dead_sys 42 99))

end DMS

namespace DMS

theorem used_slot_in_use (p : Nat) (devname : String) : (used_slot p devname).in_use > 0 := by
  show (1 : Int) > 0
  decide

theorem reg_fresh_10_reachable :
    RegReachable (reg_one "253:10"
      { ms := two_legs_named "253:10" "a" "b", in_flight := [], ended := [] }) :=
  RegReachable.step _ _ RegReachable.init
    (RegStep.ctr dm_mirror_sync_init rp_core [("a", 0), ("b", 0)] 0 "253:10" 0 _ rfl
      (ctr_reconf_step dm_mirror_sync_init reg_inv_init rp_core [("a", 0), ("b", 0)] 0 "253:10" 0
        none (two_legs_named "253:10" "a" "b") (by decide) (by decide) (by decide)
        (init_slot 0 (by decide))
        (fun j x hj _ => absurd hj (Nat.not_lt_zero j)) (init_old_none 0 "253:10") rfl))

theorem reg_busy_reachable : RegReachable (reg_one "253:10" (busy_sys "253:10")) :=
  reg_single_step _ 0 _ _
    (reg_single_step _ 0 _ _ reg_fresh_10_reachable
      (Step.map { ms := two_legs_named "253:10" "a" "b", in_flight := [], ended := [] }
        (write_bio 100 4096) 0
        { two_legs_named "253:10" "a" "b" with write_ios_total := 1, write_ios_pending := 1 }
        issued_bio (some issued_req) rfl rfl))
    (Step.presuspend
      { ms := { two_legs_named "253:10" "a" "b" with write_ios_total := 1, write_ios_pending := 1 },
        in_flight := [issued_req], ended := [] })

/-- The slots of a table with one set. -/
theorem reg_one_slots (devname : String) (s : dms_system) :
    (reg_one devname s).reconf_ms[0]? = some (used_slot 0 devname) ∧
      ∀ (j : Nat) (x : reconfig_ms_set), j ≠ 0 → (reg_one devname s).reconf_ms[j]? = some x →
        x = free_slot := by
  unfold reg_one
  simp only
  constructor
  · rw [List.getElem?_set, if_pos rfl, if_pos (by rw [init_length]; decide)]
  · intro j x hj hx
    rw [List.getElem?_set, if_neg (Ne.symm hj)] at hx
    exact init_slot_free j x hx

theorem reg_one_slot_1 (devname : String) (s : dms_system) :
    (reg_one devname s).reconf_ms[1]? = some free_slot := by
  unfold reg_one
  simp only
  rw [List.getElem?_set, if_neg (by decide)]
  exact init_slot 1 (by decide)

/-- The slots of `reg_two`. -/
theorem reg_two_slots :
    reg_two.reconf_ms[0]? = some (used_slot 0 "253:10") ∧
      reg_two.reconf_ms[1]? = some (used_slot 1 "253:1") ∧
      reg_two.reconf_ms[2]? = some free_slot := by
  unfold reg_two
  simp only
  refine ⟨?_, ?_, ?_⟩
  · rw [List.getElem?_set, if_neg (by decide)]
    exact (reg_one_slots "253:10" (busy_sys "253:10")).1
  · rw [List.getElem?_set, if_pos rfl, if_pos (by rw [List.length_set, init_length]; decide)]
  · rw [List.getElem?_set, if_neg (by decide), List.getElem?_set, if_neg (by decide)]
    exact init_slot 2 (by decide)

theorem reg_one_old (devname d : String) (s : dms_system)
    (h : strncmp_eq d devname d.length = true) :
    reconfig_old_ms (reg_one devname s) 1 d = some s.ms :=
  reconfig_old_ms_first (reg_one devname s) 1 d 0 (used_slot 0 devname) 0
    { reconfig_idx := 0, sys := s } (by decide) (reg_one_slots devname s).1
    (used_slot_in_use 0 devname) h rfl rfl
    (fun j x hj _ _ _ => absurd hj (Nat.not_lt_zero j))

theorem reg_one_low (devname : String) (s : dms_system) (j : Nat) (x : reconfig_ms_set)
    (hj : j < 1) (hx : (reg_one devname s).reconf_ms[j]? = some x) : x.in_use > 0 := by
  have h0 : j = 0 := by omega
  subst h0
  rw [(reg_one_slots devname s).1] at hx
  cases hx
  exact used_slot_in_use 0 devname

end DMS

namespace DMS

theorem ctr_on_busy :
    mirror_sync_ctr_reconf (reg_one "253:10" (busy_sys "253:10")) rp_core [("c", 0), ("d", 0)] 0
      "253:1" = Except.ok (0, reg_busy_heir) :=
  ctr_reconf_step (reg_one "253:10" (busy_sys "253:10")) reg_busy_reachable.has_inv rp_core
    [("c", 0), ("d", 0)] 0 "253:1" 1 (some (busy_set "253:10")) (heir_of_busy "253:1")
    (by decide) (by decide) (by decide) (reg_one_slot_1 _ _) (reg_one_low _ _)
    (reg_one_old "253:10" "253:1" (busy_sys "253:10") (by decide)) rfl

theorem reg_two_reachable : RegReachable reg_two := by
  have h1 : RegReachable
      { reconf_ms := (dm_mirror_sync_init.reconf_ms.set 0 (used_slot 0 "253:10")).set 1
          (used_slot 1 "253:1"),
        sets := [some { reconfig_idx := 0,
                        sys := { ms := two_legs_named "253:10" "a" "b", in_flight := [],
                                 ended := [] } },
                 some (new_target 1 (two_legs_named "253:1" "e" "f"))] } :=
    RegReachable.step _ _ reg_fresh_10_reachable
      (RegStep.ctr _ rp_core [("e", 0), ("f", 0)] 0 "253:1" 0 _ rfl
        (ctr_reconf_step
          (reg_one "253:10" { ms := two_legs_named "253:10" "a" "b", in_flight := [], ended := [] })
          reg_fresh_10_reachable.has_inv rp_core
          [("e", 0), ("f", 0)] 0 "253:1" 1 (some (two_legs_named "253:10" "a" "b"))
          (two_legs_named "253:1" "e" "f")
          (by decide) (by decide) (by decide) (reg_one_slot_1 _ _) (reg_one_low _ _)
          (reg_one_old "253:10" "253:1" _ (by decide)) rfl))
  have h2 := RegReachable.step _ _ h1
    (RegStep.entry _ 0
      { reconfig_idx := 0,
        sys := { ms := two_legs_named "253:10" "a" "b", in_flight := [], ended := [] } }
      _ rfl
      (Step.map { ms := two_legs_named "253:10" "a" "b", in_flight := [], ended := [] }
        (write_bio 100 4096) 0
        { two_legs_named "253:10" "a" "b" with write_ios_total := 1, write_ios_pending := 1 }
        issued_bio (some issued_req) rfl rfl))
  exact RegReachable.step _ _ h2
    (RegStep.entry _ 0
      { reconfig_idx := 0,
        sys := { ms := { two_legs_named "253:10" "a" "b" with
                         write_ios_total := 1, write_ios_pending := 1 },
                 in_flight := [issued_req], ended := [] } }
      _ rfl (Step.presuspend _))

theorem reg_two_old : reconfig_old_ms reg_two 2 "253:1" = some (busy_set "253:10") :=
  reconfig_old_ms_first reg_two 2 "253:1" 0 (used_slot 0 "253:10") 0
    { reconfig_idx := 0, sys := busy_sys "253:10" } (by decide) reg_two_slots.1
    (used_slot_in_use 0 "253:10") (by decide) rfl rfl
    (fun j x hj _ _ _ => absurd hj (Nat.not_lt_zero j))

theorem reg_two_low (j : Nat) (x : reconfig_ms_set) (hj : j < 2)
    (hx : reg_two.reconf_ms[j]? = some x) : x.in_use > 0 := by
  have h0 : j = 0 ∨ j = 1 := by omega
  rcases h0 with h0 | h0
  · subst h0
    rw [reg_two_slots.1] at hx
    cases hx
    exact used_slot_in_use 0 "253:10"
  · subst h0
    rw [reg_two_slots.2.1] at hx
    cases hx
    exact used_slot_in_use 1 "253:1"

theorem ctr_on_reg_two :
    mirror_sync_ctr_reconf reg_two rp_core [("c", 0), ("d", 0)] 0 "253:1" =
      Except.ok (0, reg_two_heir) :=
  ctr_reconf_step reg_two reg_two_reachable.has_inv rp_core
    [("c", 0), ("d", 0)] 0 "253:1" 2 (some (busy_set "253:10")) (heir_of_busy "253:1")
    (by decide) (by decide) (by decide) reg_two_slots.2.2 reg_two_low reg_two_old rfl

theorem reg_one_in_use (devname : String) (s : dms_system) (j : Nat) (r : reconfig_ms_set)
    (hr : (reg_one devname s).reconf_ms[j]? = some r) (hu : r.in_use > 0) :
    j = 0 ∧ r.devname = devname := by
  by_cases hj : j = 0
  · subst hj
    rw [(reg_one_slots devname s).1] at hr
    cases hr
    exact ⟨rfl, rfl⟩
  · exact absurd hu (free_slot_not_in_use r ((reg_one_slots devname s).2 j r hj hr))

end DMS

namespace DMS

/-! ### what construction takes from the old set -/

theorem ctr_read_policy_keeps (ms : mirror_sync_set) (rp : read_policy_params) :
    (ctr_read_policy ms rp).suspend = ms.suspend ∧
      (ctr_read_policy ms rp).read_ios_total = ms.read_ios_total ∧
      (ctr_read_policy ms rp).read_ios_pending = ms.read_ios_pending ∧
      (ctr_read_policy ms rp).write_ios_total = ms.write_ios_total ∧
      (ctr_read_policy ms rp).write_ios_pending = ms.write_ios_pending ∧
      (rp.oldparams = 1 ∨ rp.policy ≠ dms_read_policy.DMS_CUSTOM_WEIGHTED →
        (ctr_read_policy ms rp).mirror_weights = ms.mirror_weights) := by
  unfold ctr_read_policy
  by_cases ho : rp.oldparams = 0
  · rw [if_pos ho]
    cases hp : rp.policy with
    | DMS_ROUND_ROBIN => exact ⟨rfl, rfl, rfl, rfl, rfl, fun _ => rfl⟩
    | DMS_LOGICAL_PARTITION => exact ⟨rfl, rfl, rfl, rfl, rfl, fun _ => rfl⟩
    | DMS_CUSTOM_WEIGHTED =>
      have h1 := ctr_weight_loop1_weights rp.rparg0 (List.range ms.nr_mirrors) ms (-1) (-1)
      rcases hl : ctr_weight_loop1 rp.rparg0 (List.range ms.nr_mirrors) (ms, -1, -1)
        with ⟨ms1, maxi, max⟩
      rw [hl] at h1
      simp only at h1
      subst h1
      simp only
      have hno : ¬ (rp.oldparams = 1 ∨
          dms_read_policy.DMS_CUSTOM_WEIGHTED ≠ dms_read_policy.DMS_CUSTOM_WEIGHTED) := by
        rintro (h | h)
        · omega
        · exact h rfl
      split_ifs <;> exact ⟨rfl, rfl, rfl, rfl, rfl, fun h => absurd h hno⟩
  · rw [if_neg ho]
    exact ⟨rfl, rfl, rfl, rfl, rfl, fun _ => rfl⟩

theorem ctr_get_mirrors_fresh (legs : List (String × Nat)) :
    ∀ (m : Nat) (ms : mirror_sync_set),
      (∀ x, x ∈ ms.mirror → x.error_type = 0 ∧ x.error_count = 0) →
      ∀ x, x ∈ (ctr_get_mirrors legs m ms).mirror → x.error_type = 0 ∧ x.error_count = 0 := by
  induction legs with
  | nil => intro m ms h; exact h
  | cons p rest ih =>
    intro m ms h
    obtain ⟨dev, off⟩ := p
    unfold ctr_get_mirrors
    apply ih
    intro x hx
    unfold get_mirror at hx
    rcases List.mem_or_eq_of_mem_set hx with h2 | h2
    · exact h x h2
    · rw [h2]
      exact ⟨rfl, rfl⟩

/-- The set `mirror_sync_ctr` returns when the table holds the old set `old`:
the suspend flag and the four counters are those of `old`, the legs have no
error recorded, and the weights are zero unless the table line sets them. -/
theorem mirror_sync_ctr_inherits (rp : read_policy_params) (legs : List (String × Nat))
    (ti_begin : Nat) (mdname : String) (old ms : mirror_sync_set)
    (h : mirror_sync_ctr rp legs ti_begin mdname (some old) = Except.ok (some ms)) :
    ms.suspend = old.suspend ∧ ms.read_ios_total = old.read_ios_total ∧
      ms.read_ios_pending = old.read_ios_pending ∧
      ms.write_ios_total = old.write_ios_total ∧
      ms.write_ios_pending = old.write_ios_pending ∧
      (∀ x, x ∈ ms.mirror → x.error_type = 0 ∧ x.error_count = 0) ∧
      (rp.oldparams = 1 ∨ rp.policy ≠ dms_read_policy.DMS_CUSTOM_WEIGHTED →
        ms.mirror_weights = List.replicate MAX_MIRRORS 0) := by
  unfold mirror_sync_ctr at h
  simp only [run_pure] at h
  by_cases hn : legs.length < 2 ∨ legs.length > MAX_MIRRORS
  · rw [if_pos hn] at h
    cases h
  · rw [if_neg hn] at h
    obtain ⟨ms_a, ha, h⟩ := run_bind_ok h
    obtain ⟨ms_p, hp, h⟩ := run_bind_ok h
    cases h
    obtain ⟨ha1, _⟩ := alloc_mirror_sync_set_legs _ _ _ ha
    have haw : ms_a.mirror_weights = List.replicate MAX_MIRRORS 0 := by
      unfold alloc_mirror_sync_set at ha
      simp only [assert_bug_bind, run_pure] at ha
      split_ifs at ha
      obtain ⟨v, hg, hv⟩ := run_bind_ok ha
      obtain ⟨c, ms2⟩ := v
      have hs := get_mirror_weight_max_live_wf _ _ _ hg
      cases hv
      exact hs.1
    have hgw := (ctr_get_mirrors_wf legs 0 ms_a).1
    have hfresh := ctr_get_mirrors_fresh legs 0 ms_a (by
      intro x hx
      rw [ha1] at hx
      rw [(List.mem_replicate.mp hx).2]
      exact ⟨rfl, rfl⟩)
    obtain ⟨c1, _, c3, c4, c5, c6, c7, c8, _⟩ := preserve_ms_params_on_reconfig_copies _ _ _ hp
    obtain ⟨k1, k2, k3, k4, k5, k6⟩ := ctr_read_policy_keeps ms_p rp
    have hmir := (ctr_read_policy_same ms_p rp).1
    refine ⟨k1.trans c1, k2.trans c3, k3.trans c4, k4.trans c5, k5.trans c6, ?_, ?_⟩
    · intro x hx
      rw [hmir, c8] at hx
      exact hfresh x hx
    · intro hpol
      rw [k6 hpol, c7]
      exact hgw.trans haw

end DMS

namespace DMS

theorem dtr_old_42_99 :
    mirror_sync_dtr (reg_one "253:0" old_sys_42_99) 0 = Except.ok reg_torn_down :=
  mirror_sync_dtr_eq (reg_one "253:0" old_sys_42_99) 0
    { reconfig_idx := 0, sys := old_sys_42_99 } reg_old_42_99_reachable.has_inv rfl

theorem reg_torn_down_reachable : RegReachable reg_torn_down :=
  RegReachable.step _ _ reg_old_42_99_reachable (RegStep.dtr _ 0 _ dtr_old_42_99)

theorem ctr_on_torn_down :
    mirror_sync_ctr_reconf reg_torn_down rp_core [("c", 0), ("d", 0)] 0 "253:0" =
      Except.ok (0, reg_torn_down_heir) :=
  ctr_reconf_step reg_torn_down reg_torn_down_reachable.has_inv rp_core
    [("c", 0), ("d", 0)] 0 "253:0" 0 none (two_legs_named "253:0" "c" "d")
    (by decide) (by decide) (by decide) (init_slot 0 (by decide))
    (fun j x hj _ => absurd hj (Nat.not_lt_zero j))
    (reconfig_old_ms_none reg_torn_down 0 "253:0" (fun j r _ hr hu =>
      absurd hu (free_slot_not_in_use r (init_slot_free j r hr)))) rfl

end DMS

namespace DMS

/-- C21 (counterexample): `fail_mirror` does not touch the cached index.  On
the set constructed with weights 60 and 50 the cached index is 0; right after
`fail_mirror` records a write error of leg 0 it is still 0, leg 0 is dead and
leg 1 is alive, and this is the state reached when a write completes with
error bitmap `0b01`. -/
theorem max_live_idx_dead_after_fail :
    (fail_mirror weighted_legs 0 dm_raid1_error.DM_RAID1_WRITE_ERROR).mirror_weight_max_live = 0 ∧
      alive_at (fail_mirror weighted_legs 0 dm_raid1_error.DM_RAID1_WRITE_ERROR) 0 = false ∧
      alive_at (fail_mirror weighted_legs 0 dm_raid1_error.DM_RAID1_WRITE_ERROR) 1 = true ∧
      Reachable { ms := weighted_leg0_dead, in_flight := [], ended := [(bio_set_m issued_bio false, 0)] } ∧
      weighted_leg0_dead.mirror_weight_max_live = 0 ∧
      alive_at weighted_leg0_dead 0 = false ∧ alive_at weighted_leg0_dead 1 = true :=
  ⟨rfl, rfl, rfl, weighted_leg0_dead_reachable, rfl, rfl, rfl⟩

/-- C21 (amended): in every reachable state the cached index names a leg of
the set, an alive one while every leg is alive; `fail_mirror` leaves it
unchanged, whichever leg fails; and under the weighted policy on a set of
fewer than 8 legs with a leg alive, the next read selection returns and leaves
the index of an alive leg in the cache. -/
theorem max_live_idx_reachable (s : dms_system) (hs : Reachable s) :
    0 ≤ s.ms.mirror_weight_max_live ∧ s.ms.mirror_weight_max_live < s.ms.nr_mirrors ∧
      (all_alive s.ms → alive_at s.ms s.ms.mirror_weight_max_live.toNat = true) ∧
      (∀ m k, (fail_mirror s.ms m k).mirror_weight_max_live = s.ms.mirror_weight_max_live) ∧
      (s.ms.rdpolicy = dms_read_policy.DMS_CUSTOM_WEIGHTED → s.ms.nr_mirrors < MAX_MIRRORS →
        (∃ j, alive_at s.ms j = true) →
        ∀ sector, ∃ r ms1, choose_read_mirror s.ms sector = Except.ok (r, ms1) ∧
          ms1.mirror = s.ms.mirror ∧ 0 ≤ ms1.mirror_weight_max_live ∧
          alive_at ms1 ms1.mirror_weight_max_live.toNat = true) := by
  have hk := hs.has_weights_ok
  refine ⟨hk.2.2.1, hk.2.2.2, ?_, fun m k => (fail_mirror_weights s.ms m k).2, ?_⟩
  · intro hal
    apply all_alive_at s.ms hal
    have h0 := hk.2.2.1
    have h1 := hk.2.2.2
    omega
  · rintro hp h8 ⟨j, hj⟩ sector
    exact choose_read_mirror_weighted_cache s.ms sector hp h8 hk j hj

/-- Witness for C21: the reachable state in which leg 0 of the weighted
two-leg set has failed. -/
theorem max_live_idx_reachable_witness :
    Reachable { ms := weighted_leg0_dead, in_flight := [], ended := [(bio_set_m issued_bio false, 0)] } ∧
      0 ≤ weighted_leg0_dead.mirror_weight_max_live ∧
      weighted_leg0_dead.mirror_weight_max_live < weighted_leg0_dead.nr_mirrors ∧
      ∃ r ms1, choose_read_mirror weighted_leg0_dead 0 = Except.ok (r, ms1) ∧
        ms1.mirror = weighted_leg0_dead.mirror ∧ 0 ≤ ms1.mirror_weight_max_live ∧
        alive_at ms1 ms1.mirror_weight_max_live.toNat = true :=
  have h := max_live_idx_reachable _ weighted_leg0_dead_reachable
  ⟨weighted_leg0_dead_reachable, h.1, h.2.1, h.2.2.2.2 rfl (by decide) ⟨1, rfl⟩ 0⟩

end DMS

namespace DMS

/-- C22 (counterexample): ties are not resolved to the lowest index.  On the
set constructed with weights 50 and 60 (cached index 1, both legs alive)
`set_weight 0 60` makes the weights equal and leaves the cached index at 1; on
the default two-leg set `io_balance weighted dev_weight 50` makes both weights
50 and sets the cached index to 1.  In both cases leg 0 is alive and has the
maximal weight. -/
theorem weight_message_tie_not_lowest :
    Reachable { ms := weighted_5060, in_flight := [], ended := [] } ∧
      mirror_sync_message weighted_5060 0 false ["io_cmd", "set_weight", "0", "60"] =
        Except.ok (0, { weighted_5060 with
          mirror_weights := [60, 60, 0, 0, 0, 0, 0, 0], mirror_weight_max_live := 1 }) ∧
      alive_at weighted_5060 0 = true ∧ alive_at weighted_5060 1 = true ∧
      Reachable { ms := two_legs, in_flight := [], ended := [] } ∧
      mirror_sync_message two_legs 0 false ["io_balance", "weighted", "dev_weight", "50"] =
        Except.ok (0, { two_legs with
          mirror_weights := [50, 50, 0, 0, 0, 0, 0, 0], mirror_weight_max_live := 1,
          rdpolicy := dms_read_policy.DMS_CUSTOM_WEIGHTED }) ∧
      alive_at two_legs 0 = true ∧ alive_at two_legs 1 = true :=
  ⟨weighted_5060_reachable, rfl, rfl, rfl, two_legs_reachable, rfl, rfl, rfl⟩

/-- C22 (amended): on a set of at most 8 legs with non-negative weights, for a
decimal weight `1 <= v <= 100`.  After `io_cmd set_weight devno v`, issued
while the cached index `c` names an alive leg, the cached index `m` names an
alive leg whose weight is maximal over the alive legs; it is still `c` when no
alive leg is heavier than leg `c`, also when a leg of lower index has the same
weight, and otherwise it is the lowest index among the alive legs of maximal
weight.  After `io_balance weighted dev_weight v`, issued while some leg is
alive, every leg has weight `v` and the cached index is the highest index
among the alive legs. -/
theorem weight_message_max_live (ms : mirror_sync_set) (ti_len : Nat) (check : Bool)
    (a2 a3 : String) (c : Nat)
    (h8 : ms.nr_mirrors ≤ MAX_MIRRORS) (hlen : ms.mirror_weights.length = MAX_MIRRORS)
    (hc : ms.mirror_weight_max_live = (c : Int)) (hcn : c < ms.nr_mirrors)
    (hw : ∀ i, i < ms.nr_mirrors → 0 ≤ weight_at ms i ∧ weight_at ms i < 2147483648)
    (hd2 : is_decimal a2) (hdev : digits_value a2.data < ms.nr_mirrors)
    (hd3 : is_decimal a3)
    (hv : 1 ≤ digits_value a3.data ∧ digits_value a3.data ≤ 100) :
    (alive_at ms c = true →
      ∃ (ms1 : mirror_sync_set) (m : Nat), mirror_sync_message ms ti_len check ["io_cmd", "set_weight", a2, a3] =
          Except.ok (0, ms1) ∧
        ms1.mirror_weight_max_live = (m : Int) ∧ alive_at ms1 m = true ∧
        (∀ j, alive_at ms1 j = true → weight_at ms1 j ≤ weight_at ms1 m) ∧
        ((∀ j, alive_at ms1 j = true → weight_at ms1 j ≤ weight_at ms1 c) → m = c) ∧
        (m ≠ c → ∀ j, j < m → alive_at ms1 j = true → weight_at ms1 j < weight_at ms1 m)) ∧
    ((∃ j, alive_at ms j = true) →
      ∃ (ms2 : mirror_sync_set) (m : Nat), mirror_sync_message ms ti_len check ["io_balance", "weighted", "dev_weight", a3] =
          Except.ok (0, ms2) ∧
        ms2.mirror_weight_max_live = (m : Int) ∧ alive_at ms2 m = true ∧
        (∀ j, alive_at ms2 j = true → j ≤ m) ∧
        ∀ i, i < ms.nr_mirrors → weight_at ms2 i = (digits_value a3.data : Int)) := by
  have h0 : 0 < ms.nr_mirrors := by omega
  have h8n : ms.nr_mirrors ≤ 8 := h8
  have hs2 := sscanf_u_digits a2 hd2.1 hd2.2 (by omega)
  have hs3 := sscanf_u_digits a3 hd3.1 hd3.2 (by omega)
  have e1 := message_io_cmd_set_weight ms ti_len check a2 a3 h0 h8
  have e2 := (message_io_balance ms ti_len check "dev_weight" a3 h0 h8).2.2
  rw [message_set_weight_eq ms a2 a3 _ _ c hs2 hs3 hdev h8 hc hcn hw, if_pos hv] at e1
  rw [message_weighted_eq ms a3 _ hs3 h0 h8, if_pos hv] at e2
  constructor
  · intro hca
    obtain ⟨m, max, hl, hm, hmax, hcm, hall, hor⟩ :=
      set_weight_loop_inv _ c ms.nr_mirrors hcn
        (set_weight_weights_ok ms (digits_value a2.data) (digits_value a3.data) hv.2 hw)
        ms.nr_mirrors (le_refl _)
    rw [hl] at e1
    refine ⟨_, m, e1, rfl, ?_, ?_, ?_, ?_⟩
    · rcases hor with h1 | ⟨_, h2, _⟩
      · rw [h1]; exact hca
      · exact h2
    · intro j hj
      have h5 := hall j (alive_at_lt _ j hj) hj
      unfold weight_at at h5 hmax ⊢
      simp only at h5 hmax ⊢
      omega
    · intro hle
      rcases hor with h1 | ⟨_, h2, h3, _⟩
      · exact h1
      · have h5 := hle m h2
        unfold weight_at at h5 hmax h3
        simp only at h5 hmax h3
        omega
    · intro hne j hj hja
      rcases hor with h1 | ⟨_, _, _, h4⟩
      · exact absurd h1 hne
      · have h5 := h4 j hj hja
        unfold weight_at at h5 hmax ⊢
        simp only at h5 hmax ⊢
        omega
  · rintro ⟨j0, hj0⟩
    obtain ⟨m1, m2, _, m4⟩ := dev_weight_loop_maxi (digits_value a3.data) ms ms.nr_mirrors h0
    obtain ⟨ha, hge⟩ := m4 j0 (alive_at_lt _ _ hj0) hj0
    refine ⟨_, (dev_weight_loop (digits_value a3.data) (List.range ms.nr_mirrors) (ms, -1)).2.toNat,
      e2, (Int.toNat_of_nonneg m1).symm, ha, ?_, ?_⟩
    · intro j hj
      have := (m4 j (alive_at_lt ms j hj) hj).2
      omega
    · intro i hi
      unfold weight_at
      simp only
      rw [set_all_range _ _ _ (by rw [hlen]; exact h8), if_pos hi]

/-- Witness for C22: `set_weight 1 70` and `dev_weight 70` on the set with
weights 60 and 50. -/
theorem weight_message_max_live_witness :
    (∃ (ms1 : mirror_sync_set) (m : Nat), mirror_sync_message weighted_legs 0 false ["io_cmd", "set_weight", "1", "70"] =
          Except.ok (0, ms1) ∧
        ms1.mirror_weight_max_live = (m : Int) ∧ alive_at ms1 m = true ∧
        (∀ j, alive_at ms1 j = true → weight_at ms1 j ≤ weight_at ms1 m) ∧
        ((∀ j, alive_at ms1 j = true → weight_at ms1 j ≤ weight_at ms1 0) → m = 0) ∧
        (m ≠ 0 → ∀ j, j < m → alive_at ms1 j = true → weight_at ms1 j < weight_at ms1 m)) ∧
      mirror_sync_message weighted_legs 0 false ["io_cmd", "set_weight", "1", "70"] =
        Except.ok (0, { weighted_legs with
          mirror_weights := [60, 70, 0, 0, 0, 0, 0, 0], mirror_weight_max_live := 1 }) :=
  ⟨(weight_message_max_live weighted_legs 0 false "1" "70" 0 (by decide) rfl rfl (by decide)
    (by
      intro i hi
      have h2 : i < 2 := hi
      interval_cases i <;> exact ⟨by decide, by decide⟩)
    ⟨by decide, by decide⟩ (by decide) ⟨by decide, by decide⟩ (by decide)).1 rfl, rfl⟩

end DMS

namespace DMS

/-- C24 (counterexample): a decimal value above the range is accepted when it
is in range modulo 2^32 (`4294967298` sets a quantum of 2), and a chunk of
2^31 is accepted and stored as a negative `int`. -/
theorem io_balance_value_wraps :
    mirror_sync_message two_legs 0 false ["io_balance", "round_robin", "ios", "4294967298"] =
        Except.ok (0, { two_legs with rr_ios_set := 2, rr_ios := 2 }) ∧
      mirror_sync_message two_legs 0 false
          ["io_balance", "logical_part", "io_chunk", "2147483648"] =
        Except.ok (0, { two_legs with
          lp_io_chunk := -2147483648, rdpolicy := dms_read_policy.DMS_LOGICAL_PARTITION }) :=
  ⟨rfl, rfl⟩

/-- C24 (amended): for a set of 1 to 8 legs and a decimal token of value
`v < 2^32`, `io_balance round_robin ios v` is accepted iff `2 <= v <= 2^30`
and then stores `v` as quantum and countdown, `io_balance logical_part
io_chunk v` is accepted iff `v >= 128` and `8 | v` and then stores `v` as a
32-bit `int` (`v` itself below 2^31), `io_balance weighted dev_weight v` is
accepted iff `1 <= v <= 100` and then stores `v` as the weight of every leg;
the policy becomes the named one, and a refused message returns `-EINVAL` with
the set unchanged. -/
theorem io_balance_message (ms : mirror_sync_set) (ti_len : Nat) (check : Bool) (a3 : String)
    (h0 : 0 < ms.nr_mirrors) (h8 : ms.nr_mirrors ≤ MAX_MIRRORS)
    (hlen : ms.mirror_weights.length = MAX_MIRRORS)
    (hd : is_decimal a3) (hv : digits_value a3.data < 4294967296) :
    (mirror_sync_message ms ti_len check ["io_balance", "round_robin", "ios", a3] =
      if 2 ≤ digits_value a3.data ∧ digits_value a3.data ≤ 1073741824 then
        Except.ok (0, { ms with rr_ios_set := (digits_value a3.data : Int),
                                rr_ios := (digits_value a3.data : Int),
                                rdpolicy := dms_read_policy.DMS_ROUND_ROBIN })
      else Except.ok (-EINVAL, ms)) ∧
    (mirror_sync_message ms ti_len check ["io_balance", "logical_part", "io_chunk", a3] =
      if 128 ≤ digits_value a3.data ∧ digits_value a3.data % 8 = 0 then
        Except.ok (0, { ms with lp_io_chunk := wrap_int (digits_value a3.data : Int),
                                rdpolicy := dms_read_policy.DMS_LOGICAL_PARTITION })
      else Except.ok (-EINVAL, ms)) ∧
    (digits_value a3.data < 2147483648 →
      wrap_int (digits_value a3.data : Int) = (digits_value a3.data : Int)) ∧
    (mirror_sync_message ms ti_len check ["io_balance", "weighted", "dev_weight", a3] =
      if 1 ≤ digits_value a3.data ∧ digits_value a3.data ≤ 100 then
        Except.ok (0, { ms with
          mirror_weights :=
            set_all ms.mirror_weights (List.range ms.nr_mirrors) (digits_value a3.data : Int),
          mirror_weight_max_live :=
            (dev_weight_loop (digits_value a3.data) (List.range ms.nr_mirrors) (ms, -1)).2,
          rdpolicy := dms_read_policy.DMS_CUSTOM_WEIGHTED })
      else Except.ok (-EINVAL, ms)) ∧
    ∀ i, i < ms.nr_mirrors →
      (set_all ms.mirror_weights (List.range ms.nr_mirrors) (digits_value a3.data : Int)).getD i 0 =
        (digits_value a3.data : Int) := by
  have hs := sscanf_u_digits a3 hd.1 hd.2 hv
  refine ⟨?_, ?_, ?_, ?_, ?_⟩
  · rw [(message_io_balance ms ti_len check "ios" a3 h0 h8).1]
    exact message_round_robin_eq ms a3 _ hs
  · rw [(message_io_balance ms ti_len check "io_chunk" a3 h0 h8).2.1]
    exact message_logical_part_eq ms a3 _ hs
  · intro h
    exact wrap_int_small _ (by omega) (by omega)
  · rw [(message_io_balance ms ti_len check "dev_weight" a3 h0 h8).2.2]
    exact message_weighted_eq ms a3 _ hs h0 h8
  · intro i hi
    rw [set_all_range _ _ _ (by rw [hlen]; exact h8), if_pos hi]

/-- Witness for C24: the token `8` on the two-leg set. -/
theorem io_balance_message_witness :
    mirror_sync_message two_legs 0 false ["io_balance", "round_robin", "ios", "8"] =
        Except.ok (0, { two_legs with rr_ios_set := 8, rr_ios := 8 }) ∧
      mirror_sync_message two_legs 0 false ["io_balance", "logical_part", "io_chunk", "8"] =
        Except.ok (-EINVAL, two_legs) ∧
      mirror_sync_message two_legs 0 false ["io_balance", "weighted", "dev_weight", "8"] =
        Except.ok (0, { two_legs with
          mirror_weights := [8, 8, 0, 0, 0, 0, 0, 0], mirror_weight_max_live := 1,
          rdpolicy := dms_read_policy.DMS_CUSTOM_WEIGHTED }) := by
  have h := io_balance_message two_legs 0 false "8" (by decide) (by decide) rfl
    ⟨by decide, by decide⟩ (by decide)
  exact ⟨h.1, h.2.1, h.2.2.2.1⟩

end DMS

namespace DMS

/-- C25 (counterexample): a weight outside `1 .. 100` is not clamped, it is
refused: on the set with weights 60 and 50, `set_weight 0 200` and
`set_weight 1 0` return `-EINVAL` and leave the weights 60 and 50 (not 100,
not 1), and `io_balance weighted dev_weight 101` is refused as well. -/
theorem weight_out_of_range_refused :
    mirror_sync_message weighted_legs 0 false ["io_cmd", "set_weight", "0", "200"] =
        Except.ok (-EINVAL, weighted_legs) ∧
      mirror_sync_message weighted_legs 0 false ["io_cmd", "set_weight", "1", "0"] =
        Except.ok (-EINVAL, weighted_legs) ∧
      mirror_sync_message weighted_legs 0 false ["io_balance", "weighted", "dev_weight", "101"] =
        Except.ok (-EINVAL, weighted_legs) ∧
      weight_at weighted_legs 0 = 60 ∧ weight_at weighted_legs 1 = 50 :=
  ⟨rfl, rfl, rfl, rfl, rfl⟩

/-- C25 (amended): weights are validated, not clamped.  On a set of at most 8
legs whose cached index names a leg and whose weights are non-negative, for a
leg number `devno` below the number of legs and a decimal token of value
`v < 2^32`: when `1 <= v <= 100`, `io_cmd set_weight devno v` returns 0 and
the weight stored for leg `devno` is `v` (the other weights are unchanged), and
`io_balance weighted dev_weight v` returns 0 and the weight stored for every
leg is `v`; otherwise both messages return `-EINVAL` and leave the set, hence
every stored weight, unchanged. -/
theorem weight_message_validated (ms : mirror_sync_set) (ti_len : Nat) (check : Bool)
    (a2 a3 : String) (c : Nat)
    (h8 : ms.nr_mirrors ≤ MAX_MIRRORS) (hlen : ms.mirror_weights.length = MAX_MIRRORS)
    (hc : ms.mirror_weight_max_live = (c : Int)) (hcn : c < ms.nr_mirrors)
    (hw : ∀ i, i < ms.nr_mirrors → 0 ≤ weight_at ms i ∧ weight_at ms i < 2147483648)
    (hd2 : is_decimal a2) (hdev : digits_value a2.data < ms.nr_mirrors)
    (hd3 : is_decimal a3) (hv : digits_value a3.data < 4294967296) :
    (1 ≤ digits_value a3.data ∧ digits_value a3.data ≤ 100 →
      (∃ ms1, mirror_sync_message ms ti_len check ["io_cmd", "set_weight", a2, a3] =
          Except.ok (0, ms1) ∧
        weight_at ms1 (digits_value a2.data) = (digits_value a3.data : Int) ∧
        ∀ i, i ≠ digits_value a2.data → weight_at ms1 i = weight_at ms i) ∧
      ∃ ms2, mirror_sync_message ms ti_len check ["io_balance", "weighted", "dev_weight", a3] =
          Except.ok (0, ms2) ∧
        ∀ i, i < ms.nr_mirrors → weight_at ms2 i = (digits_value a3.data : Int)) ∧
    (¬ (1 ≤ digits_value a3.data ∧ digits_value a3.data ≤ 100) →
      mirror_sync_message ms ti_len check ["io_cmd", "set_weight", a2, a3] =
          Except.ok (-EINVAL, ms) ∧
        mirror_sync_message ms ti_len check ["io_balance", "weighted", "dev_weight", a3] =
          Except.ok (-EINVAL, ms)) := by
  have h0 : 0 < ms.nr_mirrors := by omega
  have h8n : ms.nr_mirrors ≤ 8 := h8
  have hs2 := sscanf_u_digits a2 hd2.1 hd2.2 (by omega)
  have hs3 := sscanf_u_digits a3 hd3.1 hd3.2 hv
  have e1 := message_io_cmd_set_weight ms ti_len check a2 a3 h0 h8
  have e2 := (message_io_balance ms ti_len check "dev_weight" a3 h0 h8).2.2
  rw [message_set_weight_eq ms a2 a3 _ _ c hs2 hs3 hdev h8 hc hcn hw] at e1
  rw [message_weighted_eq ms a3 _ hs3 h0 h8] at e2
  constructor
  · intro hr
    rw [if_pos hr] at e1 e2
    refine ⟨⟨_, e1, ?_, ?_⟩, ⟨_, e2, ?_⟩⟩
    · unfold weight_at
      simp only
      rw [List.getD_eq_getElem?_getD, List.getElem?_set, if_pos rfl,
        if_pos (by rw [hlen]; exact Nat.lt_of_lt_of_le hdev h8)]
      rfl
    · intro i hi
      unfold weight_at
      simp only
      rw [List.getD_eq_getElem?_getD, List.getElem?_set, if_neg (Ne.symm hi),
        List.getD_eq_getElem?_getD]
    · intro i hi
      unfold weight_at
      simp only
      rw [set_all_range _ _ _ (by rw [hlen]; exact h8), if_pos hi]
  · intro hr
    rw [if_neg hr] at e1 e2
    exact ⟨e1, e2⟩

/-- Witness for C25: weight 70 for leg 1 of the set with weights 60 and 50. -/
theorem weight_message_validated_witness :
    (∃ ms1, mirror_sync_message weighted_legs 0 false ["io_cmd", "set_weight", "1", "70"] =
        Except.ok (0, ms1) ∧ weight_at ms1 1 = 70 ∧
        ∀ i, i ≠ 1 → weight_at ms1 i = weight_at weighted_legs i) ∧
      ∃ ms2, mirror_sync_message weighted_legs 0 false
          ["io_balance", "weighted", "dev_weight", "70"] = Except.ok (0, ms2) ∧
        ∀ i, i < 2 → weight_at ms2 i = 70 :=
  (weight_message_validated weighted_legs 0 false "1" "70" 0 (by decide) rfl rfl (by decide)
    (by
      intro i hi
      have h2 : i < 2 := hi
      interval_cases i <;> exact ⟨by decide, by decide⟩)
    ⟨by decide, by decide⟩ (by decide) ⟨by decide, by decide⟩ (by decide)).1
    ⟨by decide, by decide⟩

/-- C26: the handler matches each keyword with `strncmp(argv[i], keyword,
strlen(argv[i]))`, a prefix test, so empty tokens and proper prefixes of the
names are accepted: on the two-leg set the message with tokens `""`, `""`,
`0`, `5` is taken as `io_cmd set_weight 0 5` and `io_b round i 5` as
`io_balance round_robin ios 5`; both return 0 and change the set. -/
theorem mirror_sync_message_accepts_prefixes :
    mirror_sync_message two_legs 0 false ["", "", "0", "5"] =
        Except.ok (0, { two_legs with mirror_weights := [5, 0, 0, 0, 0, 0, 0, 0] }) ∧
      mirror_sync_message two_legs 0 false ["io_b", "round", "i", "5"] =
        Except.ok (0, { two_legs with rr_ios_set := 5, rr_ios := 5 }) ∧
      mirror_sync_message two_legs 0 false ["io_cmd", "set_weight", "0", "5"] =
        Except.ok (0, { two_legs with mirror_weights := [5, 0, 0, 0, 0, 0, 0, 0] }) :=
  ⟨rfl, rfl, rfl⟩

end DMS

namespace DMS

/-- C27 (the code departs from the claim): slot 0 holds the set of the mapped
device `253:10`, on which a write is in flight and which is suspended, and
slot 1 holds a set of the mapped device `253:1` with suspend flag 0 and all
four counters 0; this state is reached by two constructions, one write and one
presuspend.  A new set constructed for `253:1` takes slot 2 and, although slot
1 is in use under the same name, gets the suspend flag 1 and the write
counters (1, 1) of the set of `253:10`: the search stops at the first in-use
slot whose name begins with the new name. -/
theorem same_name_set_passed_over :
    RegReachable reg_two ∧
    reg_two.reconf_ms[1]? = some (used_slot 1 "253:1") ∧ (used_slot 1 "253:1").in_use > 0 ∧
    (used_slot 1 "253:1").devname = "253:1" ∧
    set_at reg_two 1 = some (new_target 1 (two_legs_named "253:1" "e" "f")) ∧
    (two_legs_named "253:1" "e" "f").suspend = 0 ∧
    (two_legs_named "253:1" "e" "f").read_ios_total = 0 ∧
    (two_legs_named "253:1" "e" "f").read_ios_pending = 0 ∧
    (two_legs_named "253:1" "e" "f").write_ios_total = 0 ∧
    (two_legs_named "253:1" "e" "f").write_ios_pending = 0 ∧
    reg_two.reconf_ms[0]? = some (used_slot 0 "253:10") ∧
    set_at reg_two 0 = some { reconfig_idx := 0, sys := busy_sys "253:10" } ∧
    mirror_sync_ctr_reconf reg_two rp_core [("c", 0), ("d", 0)] 0 "253:1" =
      Except.ok (0, reg_two_heir) ∧
    reg_two_heir.reconf_ms[2]? = some (used_slot 2 "253:1") ∧
    set_at reg_two_heir 2 = some (new_target 2 (heir_of_busy "253:1")) ∧
    (heir_of_busy "253:1").suspend = 1 ∧
    (heir_of_busy "253:1").write_ios_total = 1 ∧
    (heir_of_busy "253:1").write_ios_pending = 1 ∧
    (heir_of_busy "253:1").suspend = (busy_set "253:10").suspend ∧
    (heir_of_busy "253:1").write_ios_total = (busy_set "253:10").write_ios_total ∧
    (heir_of_busy "253:1").write_ios_pending = (busy_set "253:10").write_ios_pending :=
  ⟨reg_two_reachable, reg_two_slots.2.1, used_slot_in_use 1 "253:1", rfl, rfl, rfl, rfl, rfl, rfl,
    rfl, reg_two_slots.1, rfl, ctr_on_reg_two,
    by
      unfold reg_two_heir
      simp only
      rw [List.getElem?_set, if_pos rfl, if_pos (by
        unfold reg_two
        simp only [List.length_set, init_length]
        decide)],
    rfl, rfl, rfl, rfl, rfl, rfl, rfl⟩

/-- C28 (the code departs from the claim): the only set is that of the mapped
device `253:10`, in slot 0, with a write in flight and suspended.  A set
constructed for the mapped device `253:1` gets the suspend flag 1 and the write
counters (1, 1) instead of the values 0 that the same construction gives on
an empty table: `253:1` is a prefix of `253:10`, and the comparison is made
over the length of the new name only. -/
theorem prefix_name_inherits :
    RegReachable (reg_one "253:10" (busy_sys "253:10")) ∧
    (∀ (j : Nat) (r : reconfig_ms_set),
      (reg_one "253:10" (busy_sys "253:10")).reconf_ms[j]? = some r → r.in_use > 0 →
        j = 0 ∧ r.devname = "253:10") ∧
    "253:10" ≠ "253:1" ∧
    mirror_sync_ctr_reconf (reg_one "253:10" (busy_sys "253:10")) rp_core [("c", 0), ("d", 0)] 0
      "253:1" = Except.ok (0, reg_busy_heir) ∧
    set_at reg_busy_heir 1 = some (new_target 1 (heir_of_busy "253:1")) ∧
    (heir_of_busy "253:1").suspend = 1 ∧
    (heir_of_busy "253:1").write_ios_total = 1 ∧
    (heir_of_busy "253:1").write_ios_pending = 1 ∧
    mirror_sync_ctr rp_core [("c", 0), ("d", 0)] 0 "253:1" none =
      Except.ok (some (two_legs_named "253:1" "c" "d")) ∧
    (two_legs_named "253:1" "c" "d").suspend = 0 ∧
    (two_legs_named "253:1" "c" "d").write_ios_total = 0 ∧
    (two_legs_named "253:1" "c" "d").write_ios_pending = 0 :=
  ⟨reg_busy_reachable, reg_one_in_use "253:10" (busy_sys "253:10"), by decide, ctr_on_busy,
    rfl, rfl, rfl, rfl, rfl, rfl, rfl, rfl⟩

end DMS

namespace DMS

/-- C29 (counterexample): the set `A` of the mapped device `253:0` is the
only set, reached with the counters (42, 0, 99, 0) and the suspend flag 1.
`mirror_sync_dtr` of `A` leaves every slot of the table free, and the set `B`
then constructed for `253:0` finds no slot to inherit from: its counters are
(0, 0, 0, 0) and its suspend flag is 0. -/
theorem teardown_forgets_old_set :
    RegReachable (reg_one "253:0" old_sys_42_99) ∧
    set_at (reg_one "253:0" old_sys_42_99) 0 = some { reconfig_idx := 0, sys := old_sys_42_99 } ∧
    old_sys_42_99.ms.name = "253:0" ∧
    (old_sys_42_99.ms.read_ios_total, old_sys_42_99.ms.read_ios_pending,
      old_sys_42_99.ms.write_ios_total, old_sys_42_99.ms.write_ios_pending) = (42, 0, 99, 0) ∧
    old_sys_42_99.ms.suspend = 1 ∧
    mirror_sync_dtr (reg_one "253:0" old_sys_42_99) 0 = Except.ok reg_torn_down ∧
    reg_torn_down.reconf_ms = dm_mirror_sync_init.reconf_ms ∧
    mirror_sync_ctr_reconf reg_torn_down rp_core [("c", 0), ("d", 0)] 0 "253:0" =
      Except.ok (0, reg_torn_down_heir) ∧
    set_at reg_torn_down_heir 1 = some (new_target 0 (two_legs_named "253:0" "c" "d")) ∧
    ((two_legs_named "253:0" "c" "d").read_ios_total,
      (two_legs_named "253:0" "c" "d").read_ios_pending,
      (two_legs_named "253:0" "c" "d").write_ios_total,
      (two_legs_named "253:0" "c" "d").write_ios_pending) = (0, 0, 0, 0) ∧
    (two_legs_named "253:0" "c" "d").suspend = 0 :=
  ⟨reg_old_42_99_reachable, rfl, rfl, rfl, rfl, dtr_old_42_99, rfl, ctr_on_torn_down, rfl, rfl,
    rfl⟩

/-- C29 (amended): in every state of the module, let `A` be a live set and
`N` the name in its slot, no in-use slot below that of `A` having a name that
begins with `N`, and let a slot be free.  A set `B` constructed for `N` while
`A` is still registered starts with the four counters and the suspend flag of
`A`, with no error recorded on its legs and, unless the table line sets
weights, with all weights 0; `mirror_sync_dtr` of `A` afterwards succeeds,
releases `A` and leaves `B` as it is. -/
theorem reconfig_inherits_before_teardown (g : dms_module) (hg : RegReachable g)
    (pA : Nat) (tA : dms_target) (rA : reconfig_ms_set)
    (rp : read_policy_params) (legs : List (String × Nat)) (ti_begin : Nat)
    (hrp : rp_accepted rp legs.length = true)
    (h2 : 2 ≤ legs.length) (h8 : legs.length ≤ MAX_MIRRORS)
    (hA : set_at g pA = some tA) (hrA : g.reconf_ms[tA.reconfig_idx]? = some rA)
    (hlen : rA.devname.length < DEVNAME_MAXLEN)
    (hfirst : ∀ (j : Nat) (x : reconfig_ms_set), j < tA.reconfig_idx →
      g.reconf_ms[j]? = some x → x.in_use > 0 →
      strncmp_eq rA.devname x.devname rA.devname.length = false)
    (hfree : ∃ x, x ∈ g.reconf_ms ∧ ¬ x.in_use > 0) :
    ∃ (g1 g2 : dms_module) (tB : dms_target),
      mirror_sync_ctr_reconf g rp legs ti_begin rA.devname = Except.ok (0, g1) ∧
      set_at g1 pA = some tA ∧ set_at g1 g.sets.length = some tB ∧
      mirror_sync_dtr g1 pA = Except.ok g2 ∧
      set_at g2 pA = none ∧ set_at g2 g.sets.length = some tB ∧
      tB.sys.ms.read_ios_total = tA.sys.ms.read_ios_total ∧
      tB.sys.ms.read_ios_pending = tA.sys.ms.read_ios_pending ∧
      tB.sys.ms.write_ios_total = tA.sys.ms.write_ios_total ∧
      tB.sys.ms.write_ios_pending = tA.sys.ms.write_ios_pending ∧
      tB.sys.ms.suspend = tA.sys.ms.suspend ∧
      (∀ x, x ∈ tB.sys.ms.mirror → x.error_type = 0 ∧ x.error_count = 0) ∧
      (rp.oldparams = 1 ∨ rp.policy ≠ dms_read_policy.DMS_CUSTOM_WEIGHTED →
        tB.sys.ms.mirror_weights = List.replicate MAX_MIRRORS 0) := by
  have hinv := hg.has_inv
  obtain ⟨r1, hr1, hu1, hp1⟩ := hinv.2.1 pA tA hA
  rw [hrA] at hr1
  cases hr1
  obtain ⟨i, hi, hlow⟩ := lowest_free_slot g hinv hfree
  have hoi : tA.reconfig_idx ≠ i := by
    intro h
    rw [h, hi] at hrA
    cases hrA
    exact absurd hu1 (by decide)
  have hold := reconfig_old_ms_first g i rA.devname tA.reconfig_idx rA pA tA hoi hrA
    (by omega) (strncmp_eq_self _ _) hp1 hA (fun j x hj _ hx hxu => hfirst j x hj hx hxu)
  obtain ⟨ms, hm, he⟩ := mirror_sync_ctr_reconf_eq g rp legs ti_begin rA.devname i free_slot
    h2 h8 hlen hi rfl hlow (reg_inv_ptr g hinv)
  rw [hold] at hm
  obtain ⟨k1, k2, k3, k4, k5, k6, k7⟩ := mirror_sync_ctr_inherits _ _ _ _ _ _ hm
  have hinv1 := reg_inv_ctr g hinv rp legs ti_begin rA.devname 0 _ hrp he
  have hpl := set_at_some_lt g pA tA hA
  have hA1 := (set_at_append_old
    (g.reconf_ms.set i { in_use := 1, current_ms := some g.sets.length, devname := rA.devname })
    g.sets (some { reconfig_idx := i, sys := { ms := ms, in_flight := [], ended := [] } })
    pA hpl).trans hA
  have hB1 := set_at_append_new
    (g.reconf_ms.set i { in_use := 1, current_ms := some g.sets.length, devname := rA.devname })
    g.sets (some { reconfig_idx := i, sys := { ms := ms, in_flight := [], ended := [] } })
  have hd := mirror_sync_dtr_eq _ pA tA hinv1 hA1
  have hpl1 : pA < (g.sets ++ [some (new_target i ms)]).length := by
    rw [List.length_append]
    omega
  refine ⟨_, _, _, he, hA1, hB1, hd, ?_, ?_, k2, k3, k4, k5, k1, k6, k7⟩
  · exact (set_at_set _ pA pA none hpl1).trans (if_pos rfl)
  · exact ((set_at_set _ pA g.sets.length none hpl1).trans (if_neg (by omega))).trans hB1

/-- Witness for C29: `B` is constructed for `253:0` while the set with the
counters (42, 0, 99, 0) and the suspend flag 1 is registered in slot 0. -/
theorem reconfig_inherits_before_teardown_witness :
    RegReachable (reg_one "253:0" old_sys_42_99) ∧
    ∃ (g1 g2 : dms_module) (tB : dms_target),
      mirror_sync_ctr_reconf (reg_one "253:0" old_sys_42_99) rp_core [("c", 0), ("d", 0)] 0
        "253:0" = Except.ok (0, g1) ∧
      set_at g1 0 = some { reconfig_idx := 0, sys := old_sys_42_99 } ∧
      set_at g1 1 = some tB ∧
      mirror_sync_dtr g1 0 = Except.ok g2 ∧
      set_at g2 0 = none ∧ set_at g2 1 = some tB ∧
      tB.sys.ms.read_ios_total = 42 ∧
      tB.sys.ms.read_ios_pending = 0 ∧
      tB.sys.ms.write_ios_total = 99 ∧
      tB.sys.ms.write_ios_pending = 0 ∧
      tB.sys.ms.suspend = 1 ∧
      (∀ x, x ∈ tB.sys.ms.mirror → x.error_type = 0 ∧ x.error_count = 0) ∧
      (rp_core.oldparams = 1 ∨ rp_core.policy ≠ dms_read_policy.DMS_CUSTOM_WEIGHTED →
        tB.sys.ms.mirror_weights = List.replicate MAX_MIRRORS 0) :=
  ⟨reg_old_42_99_reachable,
    reconfig_inherits_before_teardown (reg_one "253:0" old_sys_42_99) reg_old_42_99_reachable 0
      { reconfig_idx := 0, sys := old_sys_42_99 } (used_slot 0 "253:0") rp_core
      [("c", 0), ("d", 0)] 0 rfl (by decide) (by decide) rfl
      (reg_one_slots "253:0" old_sys_42_99).1 (by decide)
      (fun j x hj _ _ => absurd hj (Nat.not_lt_zero j))
      ⟨free_slot, List.getElem?_mem (reg_one_slot_1 "253:0" old_sys_42_99), by decide⟩⟩

end DMS

namespace DMS

/-- C30: in every state of the module and for a table line with 2 to 8 legs
and a device name that fits the slot, construction returns; it fails, with
`-EINVAL` and the module unchanged, exactly when every slot is in use, and
otherwise it claims the lowest slot that is not in use, records there the
flag 1, the address of the new set and the device name, records the slot in
the new set and leaves every other slot and set as it was.  Teardown of a live
set succeeds, returns the slot of that set to the free state, releases the set
and leaves every other slot and set as it was.  Two live sets never name the
same slot. -/
theorem slot_table_discipline (g : dms_module) (hg : RegReachable g)
    (rp : read_policy_params) (legs : List (String × Nat)) (ti_begin : Nat) (mdname : String)
    (h2 : 2 ≤ legs.length) (h8 : legs.length ≤ MAX_MIRRORS)
    (hname : mdname.length < DEVNAME_MAXLEN) :
    (∃ (r : Int) (g1 : dms_module),
      mirror_sync_ctr_reconf g rp legs ti_begin mdname = Except.ok (r, g1) ∧
      (r ≠ 0 ↔ ∀ x, x ∈ g.reconf_ms → x.in_use > 0) ∧
      (r ≠ 0 → r = -EINVAL ∧ g1 = g) ∧
      (r = 0 → ∃ (i : Nat) (ms : mirror_sync_set),
        g.reconf_ms[i]? = some free_slot ∧
        (∀ (j : Nat) (x : reconfig_ms_set), j < i → g.reconf_ms[j]? = some x → x.in_use > 0) ∧
        g1.reconf_ms[i]? =
          some { in_use := 1, current_ms := some g.sets.length, devname := mdname } ∧
        (∀ (j : Nat), j ≠ i → g1.reconf_ms[j]? = g.reconf_ms[j]?) ∧
        set_at g1 g.sets.length = some (new_target i ms) ∧
        (∀ (q : Nat), q < g.sets.length → set_at g1 q = set_at g q))) ∧
    (∀ (p : Nat) (t : dms_target), set_at g p = some t →
      ∃ (g2 : dms_module), mirror_sync_dtr g p = Except.ok g2 ∧
        g2.reconf_ms[t.reconfig_idx]? = some free_slot ∧
        (∀ (j : Nat), j ≠ t.reconfig_idx → g2.reconf_ms[j]? = g.reconf_ms[j]?) ∧
        set_at g2 p = none ∧ (∀ (q : Nat), q ≠ p → set_at g2 q = set_at g q)) ∧
    (∀ (p q : Nat) (t u : dms_target), set_at g p = some t → set_at g q = some u →
      t.reconfig_idx = u.reconfig_idx → p = q) := by
  have hinv := hg.has_inv
  refine ⟨?_, ?_, ?_⟩
  · by_cases hfull : ∀ x, x ∈ g.reconf_ms → x.in_use > 0
    · refine ⟨-EINVAL, g, mirror_sync_ctr_reconf_full g rp legs ti_begin mdname h8 hfull, ?_, ?_, ?_⟩
      · exact ⟨fun _ => hfull, fun _ => einval_ne_zero⟩
      · exact fun _ => ⟨rfl, rfl⟩
      · exact fun h => absurd h einval_ne_zero
    · have hex : ∃ x, x ∈ g.reconf_ms ∧ ¬ x.in_use > 0 := by
        by_contra hc
        apply hfull
        intro x hx
        by_contra hxu
        exact hc ⟨x, hx, hxu⟩
      obtain ⟨i, hi, hlow⟩ := lowest_free_slot g hinv hex
      obtain ⟨ms, _, he⟩ := mirror_sync_ctr_reconf_eq g rp legs ti_begin mdname i free_slot
        h2 h8 hname hi rfl hlow (reg_inv_ptr g hinv)
      have hil : i < g.reconf_ms.length := (List.getElem?_eq_some.mp hi).1
      refine ⟨0, _, he, ?_, ?_, ?_⟩
      · exact ⟨fun h => absurd rfl h, fun h => absurd h hfull⟩
      · exact fun h => absurd rfl h
      · intro _
        refine ⟨i, ms, hi, hlow, ?_, ?_, ?_, ?_⟩
        · show (g.reconf_ms.set i _)[i]? = _
          rw [List.getElem?_set, if_pos rfl, if_pos hil]
        · intro j hj
          show (g.reconf_ms.set i _)[j]? = _
          rw [List.getElem?_set, if_neg (Ne.symm hj)]
        · exact set_at_append_new _ _ _
        · intro q hq
          exact set_at_append_old _ _ _ q hq
  · intro p t hp
    have hpl := set_at_some_lt g p t hp
    obtain ⟨r, hr, _⟩ := hinv.2.1 p t hp
    have hil : t.reconfig_idx < g.reconf_ms.length := (List.getElem?_eq_some.mp hr).1
    refine ⟨_, mirror_sync_dtr_eq g p t hinv hp, ?_, ?_, ?_, ?_⟩
    · show (g.reconf_ms.set t.reconfig_idx free_slot)[t.reconfig_idx]? = _
      rw [List.getElem?_set, if_pos rfl, if_pos hil]
    · intro j hj
      show (g.reconf_ms.set t.reconfig_idx free_slot)[j]? = _
      rw [List.getElem?_set, if_neg (Ne.symm hj)]
    · exact (set_at_set g p p none hpl).trans (if_pos rfl)
    · intro q hq
      exact (set_at_set g p q none hpl).trans (if_neg (Ne.symm hq))
  · intro p q t u hp hq htu
    obtain ⟨r, hr, _, hrp⟩ := hinv.2.1 p t hp
    obtain ⟨r1, hr1, _, hrq⟩ := hinv.2.1 q u hq
    rw [htu, hr1] at hr
    cases hr
    rw [hrp] at hrq
    cases hrq
    rfl

/-- Witness for C30: the module with the suspended set of `253:10` in slot 0
and a set of `253:1` in slot 1; construction claims slot 2. -/
theorem slot_table_discipline_witness :
    RegReachable reg_two ∧
    (∃ (r : Int) (g1 : dms_module),
      mirror_sync_ctr_reconf reg_two rp_core [("c", 0), ("d", 0)] 0 "253:1" =
        Except.ok (r, g1) ∧
      (r ≠ 0 ↔ ∀ x, x ∈ reg_two.reconf_ms → x.in_use > 0)) ∧
    (∃ (g2 : dms_module), mirror_sync_dtr reg_two 1 = Except.ok g2 ∧
      g2.reconf_ms[1]? = some free_slot ∧ set_at g2 1 = none) :=
  have h := slot_table_discipline reg_two reg_two_reachable rp_core [("c", 0), ("d", 0)] 0 "253:1"
    (by decide) (by decide) (by decide)
  ⟨reg_two_reachable,
    (let ⟨r, g1, h1, h2, _⟩ := h.1
     ⟨r, g1, h1, h2⟩),
    (let ⟨g2, h1, h2, _, h4, _⟩ := h.2.1 1 (new_target 1 (two_legs_named "253:1" "e" "f")) rfl
     ⟨g2, h1, h2, h4⟩)⟩

end DMS

namespace DMS

/-! ### decimal digits as printed and as read back -/

theorem digit_char_spec (k : Nat) (hk : k < 10) :
    (Nat.digitChar k).isDigit = true ∧ (Nat.digitChar k).toNat - 48 = k := by
  interval_cases k <;> exact ⟨rfl, rfl⟩

theorem digits_value_append (l : List Char) (c : Char) :
    digits_value (l ++ [c]) = digits_value l * 10 + (c.toNat - 48) := by
  unfold digits_value
  rw [List.foldl_append]
  rfl

theorem to_digits_core_spec (fuel : Nat) :
    ∀ (n : Nat) (ds : List Char), n < fuel →
      ∃ l, Nat.toDigitsCore 10 fuel n ds = l ++ ds ∧ l ≠ [] ∧
        l.all Char.isDigit = true ∧ digits_value l = n := by
  induction fuel with
  | zero => intro n ds h; omega
  | succ f ih =>
    intro n ds h
    obtain ⟨hd1, hd2⟩ := digit_char_spec (n % 10) (Nat.mod_lt _ (by decide))
    unfold Nat.toDigitsCore
    simp only
    by_cases h0 : n / 10 = 0
    · rw [if_pos h0]
      refine ⟨[Nat.digitChar (n % 10)], rfl, by simp, by simp [hd1], ?_⟩
      show 0 * 10 + ((Nat.digitChar (n % 10)).toNat - 48) = n
      rw [hd2]
      omega
    · rw [if_neg h0]
      obtain ⟨l, hl, hne, hall, hv⟩ := ih (n / 10) (Nat.digitChar (n % 10) :: ds) (by omega)
      refine ⟨l ++ [Nat.digitChar (n % 10)], ?_, by simp, ?_, ?_⟩
      · rw [hl, List.append_assoc]
        rfl
      · rw [List.all_append, hall]
        simp [hd1]
      · rw [digits_value_append, hv, hd2]
        omega

theorem repr_digits (n : Nat) :
    (toString n).data ≠ [] ∧ (toString n).data.all Char.isDigit = true ∧
      digits_value (toString n).data = n := by
  obtain ⟨l, hl, hne, hall, hv⟩ := to_digits_core_spec (n + 1) n [] (by omega)
  rw [List.append_nil] at hl
  have hd : (toString n).data = l := hl
  rw [hd]
  exact ⟨hne, hall, hv⟩

theorem sscanf_llu_fmt (v : Nat) (h : v < 18446744073709551616) :
    sscanf_llu (fmt_llu v) = some v := by
  unfold fmt_llu
  rw [Nat.mod_eq_of_lt h]
  obtain ⟨h1, h2, h3⟩ := repr_digits v
  rw [sscanf_llu_digits _ h1 h2, h3, Nat.mod_eq_of_lt h]

theorem fmt_d_small (n : Nat) (h : n < 2147483648) : fmt_d n = toString n := by
  unfold fmt_d
  rw [Nat.mod_eq_of_lt (by omega), if_pos h]

theorem sscanf_u_fmt (n : Nat) (h : n < 2147483648) : sscanf_u (fmt_d n) = some n := by
  rw [fmt_d_small n h]
  obtain ⟨h1, h2, h3⟩ := repr_digits n
  rw [sscanf_u_digits _ h1 h2 (by omega), h3]

theorem digits_no_space (l : List Char) (h : l.all Char.isDigit = true) : ' ' ∉ l := by
  intro hm
  have := List.all_eq_true.mp h ' ' hm
  exact absurd this (by decide)

theorem fmt_llu_no_space (v : Nat) : ' ' ∉ (fmt_llu v).data :=
  digits_no_space _ (repr_digits _).2.1

theorem fmt_d_no_space (n : Nat) (h : n < 2147483648) : ' ' ∉ (fmt_d n).data := by
  rw [fmt_d_small n h]
  exact digits_no_space _ (repr_digits _).2.1

end DMS

namespace DMS

/-! ### the table status as a list of tokens -/

theorem dmemit_take (maxlen : Nat) (acc piece : List Char) :
    (DMEMIT maxlen (String.mk (acc.take (maxlen - 1))) (String.mk piece)).data =
      (acc ++ piece).take (maxlen - 1) := by
  unfold DMEMIT
  have hlen : (String.mk (acc.take (maxlen - 1))).length = min (maxlen - 1) acc.length :=
    List.length_take _ _
  rw [hlen]
  by_cases hm : min (maxlen - 1) acc.length ≥ maxlen
  · rw [if_pos hm]
    have h0 : maxlen = 0 := by omega
    subst h0
    rfl
  · rw [if_neg hm]
    show acc.take (maxlen - 1) ++ piece.take (maxlen - min (maxlen - 1) acc.length - 1) = _
    rw [List.take_append_eq_append_take]
    congr 1
    by_cases hl : acc.length ≤ maxlen - 1
    · rw [Nat.min_eq_right hl]
      congr 1
      omega
    · have e1 : maxlen - min (maxlen - 1) acc.length - 1 = 0 := by omega
      have e2 : maxlen - 1 - acc.length = 0 := by omega
      rw [e1, e2]

theorem status_foldl_take (maxlen : Nat) (legs : List mirror) :
    ∀ (acc : List Char),
      (legs.foldl
        (fun result m => DMEMIT maxlen result (" " ++ m.dev ++ " " ++ fmt_llu m.offset))
        (String.mk (acc.take (maxlen - 1)))).data =
      (acc ++ legs.flatMap (fun m => ' ' :: (m.dev.data ++ ' ' :: (fmt_llu m.offset).data))).take
        (maxlen - 1) := by
  induction legs with
  | nil =>
    intro acc
    simp only [List.foldl_nil, List.flatMap_nil, List.append_nil]
  | cons m rest ih =>
    intro acc
    rw [List.foldl_cons]
    have hp : (" " ++ m.dev ++ " " ++ fmt_llu m.offset) =
        String.mk (' ' :: (m.dev.data ++ ' ' :: (fmt_llu m.offset).data)) := by
      apply String.ext
      simp only [String.data_append]
      simp
    have hd := dmemit_take maxlen acc (' ' :: (m.dev.data ++ ' ' :: (fmt_llu m.offset).data))
    have hs : DMEMIT maxlen (String.mk (acc.take (maxlen - 1)))
        (" " ++ m.dev ++ " " ++ fmt_llu m.offset) =
        String.mk ((acc ++ ' ' :: (m.dev.data ++ ' ' :: (fmt_llu m.offset).data)).take
          (maxlen - 1)) := by
      apply String.ext
      rw [hp]
      exact hd
    rw [hs, ih, List.flatMap_cons, List.append_assoc]

/-- The characters the table status would have in a buffer without bound. -/
theorem status_table_take (ms : mirror_sync_set) (maxlen : Nat) :
    (mirror_sync_status_table ms maxlen).data =
      ((fmt_d ms.nr_mirrors).data ++
        ms.mirror.flatMap (fun m => ' ' :: (m.dev.data ++ ' ' :: (fmt_llu m.offset).data))).take
        (maxlen - 1) := by
  unfold mirror_sync_status_table
  have h0 : DMEMIT maxlen "" (fmt_d ms.nr_mirrors) =
      String.mk ((fmt_d ms.nr_mirrors).data.take (maxlen - 1)) := by
    apply String.ext
    generalize fmt_d ms.nr_mirrors = t
    have h := dmemit_take maxlen [] t.data
    rw [List.take_nil, List.nil_append] at h
    exact h
  rw [h0]
  exact status_foldl_take maxlen ms.mirror _

theorem intercalate_space (t0 : List Char) (ts : List (List Char)) :
    [' '].intercalate (t0 :: ts) = t0 ++ ts.flatMap (fun t => ' ' :: t) := by
  induction ts generalizing t0 with
  | nil => simp [List.intercalate]
  | cons t rest ih =>
    have h := ih t
    simp only [List.intercalate, List.intersperse, List.flatten_cons, List.flatMap_cons] at h ⊢
    rw [h]
    simp

theorem status_chars_tokens (ms : mirror_sync_set) :
    (fmt_d ms.nr_mirrors).data ++
        ms.mirror.flatMap (fun m => ' ' :: (m.dev.data ++ ' ' :: (fmt_llu m.offset).data)) =
      [' '].intercalate ((status_tokens ms).map String.data) := by
  unfold status_tokens
  rw [List.map_cons, intercalate_space]
  congr 1
  induction ms.mirror with
  | nil => rfl
  | cons m rest ih =>
    simp only [List.flatMap_cons, List.map_append, List.map_cons, List.map_nil,
      List.flatMap_append, List.flatMap_nil, List.append_nil, List.cons_append,
      List.nil_append, List.singleton_append] at ih ⊢
    rw [ih]
    simp

end DMS

namespace DMS

theorem status_tokens_length (ms : mirror_sync_set) :
    (status_tokens ms).length = 1 + 2 * ms.nr_mirrors := by
  unfold status_tokens mirror_sync_set.nr_mirrors
  rw [List.length_cons]
  have : ∀ l : List mirror,
      (l.flatMap (fun m => [m.dev, fmt_llu m.offset])).length = 2 * l.length := by
    intro l
    induction l with
    | nil => rfl
    | cons m rest ih =>
      rw [List.flatMap_cons, List.length_append, ih, List.length_cons]
      simp only [List.length_cons, List.length_nil]
      omega
  rw [this]
  omega

/-- The table status that does not fill the buffer is cut at its spaces into
the number of legs and the device and offset of each leg. -/
theorem split_status_table (ms : mirror_sync_set) (maxlen : Nat)
    (hn : ms.nr_mirrors < 2147483648)
    (hnames : ∀ m, m ∈ ms.mirror → ' ' ∉ m.dev.data)
    (hfit : (mirror_sync_status_table ms maxlen).length + 1 < maxlen) :
    split_on_spaces (mirror_sync_status_table ms maxlen) = status_tokens ms := by
  have ht := status_table_take ms maxlen
  have hl : (mirror_sync_status_table ms maxlen).length =
      (mirror_sync_status_table ms maxlen).data.length := rfl
  rw [hl, ht, List.length_take] at hfit
  have hfull : (mirror_sync_status_table ms maxlen).data =
      [' '].intercalate ((status_tokens ms).map String.data) := by
    rw [ht, List.take_of_length_le (by omega)]
    exact status_chars_tokens ms
  unfold split_on_spaces
  rw [hfull, List.splitOn_intercalate]
  · rw [List.map_map]
    have : (String.mk ∘ String.data) = id := by
      funext s
      rfl
    rw [this, List.map_id]
  · intro l hl2
    rw [List.mem_map] at hl2
    obtain ⟨t, htm, htl⟩ := hl2
    rw [← htl]
    unfold status_tokens at htm
    rcases List.mem_cons.mp htm with h | h
    · rw [h]
      exact fmt_d_no_space _ hn
    · rw [List.mem_flatMap] at h
      obtain ⟨m, hm, hmt⟩ := h
      rcases List.mem_cons.mp hmt with g | g
      · rw [g]
        exact hnames m hm
      · rw [List.mem_singleton] at g
        rw [g]
        exact fmt_llu_no_space _
  · unfold status_tokens
    simp

theorem argv_get_some (argv : List String) (i : Nat) (a : String) (h : argv[i]? = some a) :
    argv_get argv i = Except.ok a := by
  unfold argv_get
  rw [h]
  rfl

theorem ctr_get_mirror_args_tokens (legs : List mirror)
    (hoff : ∀ m, m ∈ legs → m.offset < 18446744073709551616) :
    ∀ (pre : List String),
      ctr_get_mirror_args (pre ++ legs.flatMap (fun m => [m.dev, fmt_llu m.offset]))
          legs.length pre.length =
        Except.ok (some (legs.map (fun m => (m.dev, m.offset)))) := by
  induction legs with
  | nil => intro pre; rfl
  | cons m rest ih =>
    intro pre
    have h1 : (pre ++ (m :: rest).flatMap (fun m => [m.dev, fmt_llu m.offset]))[pre.length + 1]? =
        some (fmt_llu m.offset) := by
      rw [List.getElem?_append_right (by omega)]
      simp [List.flatMap_cons]
    have h0 : (pre ++ (m :: rest).flatMap (fun m => [m.dev, fmt_llu m.offset]))[pre.length]? =
        some m.dev := by
      rw [List.getElem?_append_right (le_refl _)]
      simp [List.flatMap_cons]
    have hrest := ih (fun x hx => hoff x (List.mem_cons_of_mem _ hx))
      (pre ++ [m.dev, fmt_llu m.offset])
    have hre : pre ++ [m.dev, fmt_llu m.offset] ++
        rest.flatMap (fun m => [m.dev, fmt_llu m.offset]) =
        pre ++ (m :: rest).flatMap (fun m => [m.dev, fmt_llu m.offset]) := by
      rw [List.flatMap_cons, List.append_assoc]
    have hlen : (pre ++ [m.dev, fmt_llu m.offset]).length = pre.length + 2 := by
      rw [List.length_append]
      rfl
    rw [hre, hlen] at hrest
    rw [List.length_cons]
    unfold ctr_get_mirror_args
    rw [argv_get_some _ _ _ h1]
    simp only [Except.bind, bind, sscanf_llu_fmt m.offset (hoff m (List.mem_cons_self _ _)),
      argv_get_some _ _ _ h0, hrest]
    rfl

/-- The tokens of the table status, read the way `mirror_sync_ctr` reads the
number of legs and the legs. -/
theorem ctr_mirror_args_status_tokens (ms : mirror_sync_set)
    (h2 : 2 ≤ ms.nr_mirrors) (h8 : ms.nr_mirrors ≤ MAX_MIRRORS)
    (hoff : ∀ m, m ∈ ms.mirror → m.offset < 18446744073709551616) :
    ctr_mirror_args (status_tokens ms) = Except.ok (some (leg_devices ms)) := by
  have h8n : ms.nr_mirrors ≤ 8 := h8
  have hlen := status_tokens_length ms
  unfold ctr_mirror_args
  rw [if_neg (by omega)]
  have h0 : (status_tokens ms)[0]? = some (fmt_d ms.nr_mirrors) := by
    unfold status_tokens
    exact List.getElem?_cons_zero
  rw [argv_get_some _ _ _ h0]
  simp only [Except.bind, bind, sscanf_u_fmt ms.nr_mirrors (by omega)]
  rw [if_neg (by
    unfold DM_KCOPYD_MAX_REGIONS MAX_MIRRORS
    omega), if_neg (by omega)]
  have hd : (status_tokens ms).drop 1 =
      [] ++ ms.mirror.flatMap (fun m => [m.dev, fmt_llu m.offset]) := by
    unfold status_tokens
    rfl
  rw [hd]
  exact ctr_get_mirror_args_tokens ms.mirror hoff []

end DMS

namespace DMS

/-! ### the legs of a constructed set -/

theorem ctr_get_mirrors_at (legs : List (String × Nat)) :
    ∀ (m : Nat) (ms : mirror_sync_set), m + legs.length ≤ ms.mirror.length →
      ∀ i, (ctr_get_mirrors legs m ms).mirror[i]? =
        if m ≤ i ∧ i < m + legs.length then
          (legs[i - m]?).map (fun l => mirror.mk 0 0 l.1 l.2)
        else ms.mirror[i]? := by
  induction legs with
  | nil =>
    intro m ms _ i
    rw [if_neg (by simp only [List.length_nil]; omega)]
    rfl
  | cons p rest ih =>
    intro m ms hlen i
    obtain ⟨dev, off⟩ := p
    rw [List.length_cons] at hlen
    unfold ctr_get_mirrors
    have hl : (get_mirror ms m dev off).mirror.length = ms.mirror.length := by
      unfold get_mirror
      exact List.length_set _ _ _
    rw [ih (m + 1) (get_mirror ms m dev off) (by omega) i, List.length_cons]
    by_cases h1 : m + 1 ≤ i ∧ i < m + 1 + rest.length
    · rw [if_pos h1, if_pos (by omega)]
      have e : i - m = (i - (m + 1)) + 1 := by omega
      rw [e, List.getElem?_cons_succ]
    · rw [if_neg h1]
      unfold get_mirror
      simp only
      rw [List.getElem?_set]
      by_cases h2 : m = i
      · subst h2
        rw [if_pos rfl, if_pos (by omega), if_pos (by omega), Nat.sub_self,
          List.getElem?_cons_zero]
        rfl
      · rw [if_neg h2, if_neg (by omega)]

/-- The devices and offsets of the set `mirror_sync_ctr` returns are those of
its arguments. -/
theorem mirror_sync_ctr_devices (rp : read_policy_params) (legs : List (String × Nat))
    (ti_begin : Nat) (mdname : String) (oldms : Option mirror_sync_set) (ms : mirror_sync_set)
    (h : mirror_sync_ctr rp legs ti_begin mdname oldms = Except.ok (some ms)) :
    leg_devices ms = legs := by
  unfold mirror_sync_ctr at h
  simp only [run_pure] at h
  by_cases hn : legs.length < 2 ∨ legs.length > MAX_MIRRORS
  · rw [if_pos hn] at h
    cases h
  · rw [if_neg hn] at h
    obtain ⟨ms_a, ha, h⟩ := run_bind_ok h
    obtain ⟨ms_p, hp, h⟩ := run_bind_ok h
    cases h
    obtain ⟨ha1, _⟩ := alloc_mirror_sync_set_legs _ _ _ ha
    have hp1 := preserve_ms_params_on_reconfig_same _ _ _ hp
    have hr := ctr_read_policy_same ms_p rp
    have hmir : (ctr_read_policy ms_p rp).mirror = (ctr_get_mirrors legs 0 ms_a).mirror := by
      rw [hr.1, hp1.1]
    have hal : ms_a.mirror.length = legs.length := by
      rw [ha1, List.length_replicate]
    have hat := ctr_get_mirrors_at legs 0 ms_a (by omega)
    unfold leg_devices
    rw [hmir]
    apply List.ext_getElem?
    intro i
    rw [List.getElem?_map, hat i]
    by_cases hi : i < legs.length
    · rw [if_pos (by omega), Nat.sub_zero]
      rw [List.getElem?_eq_getElem hi]
      rfl
    · rw [if_neg (by omega), List.getElem?_eq_none (by omega), List.getElem?_eq_none (by omega)]
      rfl

end DMS

namespace DMS

/-- C31: for a set of 2 to 8 legs whose device names hold no white space
and whose offsets are values of `sector_t`, the table status that does not
fill the buffer of the caller, cut at its spaces and read the way
`mirror_sync_ctr` and `get_mirror` read the number of legs and the legs, gives
the devices and offsets of the set in the order of the leg array, as many as
the set has legs; and every set constructed from them has these devices and
offsets. -/
theorem table_status_round_trip (ms : mirror_sync_set) (maxlen : Nat)
    (h2 : 2 ≤ ms.nr_mirrors) (h8 : ms.nr_mirrors ≤ MAX_MIRRORS)
    (hnames : ∀ m, m ∈ ms.mirror → ∀ c, c ∈ m.dev.data → is_space c = false)
    (hoff : ∀ m, m ∈ ms.mirror → m.offset < 18446744073709551616)
    (hfit : (mirror_sync_status_table ms maxlen).length + 1 < maxlen) :
    ctr_mirror_args (split_on_spaces (mirror_sync_status_table ms maxlen)) =
        Except.ok (some (leg_devices ms)) ∧
      (leg_devices ms).length = ms.nr_mirrors ∧
      ∀ (rp : read_policy_params) (ti_begin : Nat) (mdname : String)
        (oldms : Option mirror_sync_set) (ms1 : mirror_sync_set),
        mirror_sync_ctr rp (leg_devices ms) ti_begin mdname oldms = Except.ok (some ms1) →
          leg_devices ms1 = leg_devices ms := by
  have h8n : ms.nr_mirrors ≤ 8 := h8
  have hsp : ∀ m, m ∈ ms.mirror → ' ' ∉ m.dev.data := by
    intro m hm hc
    exact absurd (hnames m hm ' ' hc) (by decide)
  rw [split_status_table ms maxlen (by omega) hsp hfit]
  refine ⟨ctr_mirror_args_status_tokens ms h2 h8 hoff, ?_, ?_⟩
  · unfold leg_devices
    exact List.length_map _ _
  · intro rp ti_begin mdname oldms ms1 h
    exact mirror_sync_ctr_devices rp _ ti_begin mdname oldms ms1 h

/-- Witness for C31: the three-leg set with offsets 0, 8 and 16 and a buffer
of 4096 bytes; the status is `3 a 0 b 8 c 16`. -/
theorem table_status_round_trip_witness :
    mirror_sync_status_table three_legs 4096 = "3 a 0 b 8 c 16" ∧
      ctr_mirror_args (split_on_spaces (mirror_sync_status_table three_legs 4096)) =
        Except.ok (some [("a", 0), ("b", 8), ("c", 16)]) :=
  ⟨by decide,
    (table_status_round_trip three_legs 4096 (by decide) (by decide) (by decide) (by decide)
      (by decide)).1⟩

end DMS

namespace DMS

/-! ### `process_input_args` -/

theorem process_input_args_core_none (a1 : String) (rest : List String)
    (hp : sscanf_u a1 = none) :
    process_input_args ("core" :: a1 :: rest) = Except.ok none := by
  unfold process_input_args
  rw [if_neg (by simp only [List.length_cons]; omega)]
  have h1 : argv_get ("core" :: a1 :: rest) 1 = Except.ok a1 := argv_get_some _ _ _ (by simp)
  simp only [h1, Except.bind, bind, hp]
  rfl

theorem mirror_sync_ctr_args_missing (argv : List String) (i : Nat)
    (h : process_input_args argv = Except.error i) :
    mirror_sync_ctr_args argv = Except.error i := by
  unfold mirror_sync_ctr_args
  rw [h]
  rfl

end DMS

namespace DMS

theorem argv_get_lt (argv : List String) (i : Nat) (h : i < argv.length) :
    ∃ a, argv_get argv i = Except.ok a :=
  ⟨argv[i], argv_get_some argv i _ (List.getElem?_eq_getElem h)⟩

/-- The loop over the legs reads no token past the end of a vector that holds
two tokens for each leg. -/
theorem ctr_get_mirror_args_in_bounds (argv : List String) :
    ∀ (k pos : Nat), pos + 2 * k ≤ argv.length →
      ∃ r, ctr_get_mirror_args argv k pos = Except.ok r := by
  intro k
  induction k with
  | zero => intro pos _; exact ⟨_, rfl⟩
  | succ k ih =>
    intro pos h
    obtain ⟨a1, h1⟩ := argv_get_lt argv (pos + 1) (by omega)
    obtain ⟨a0, h0⟩ := argv_get_lt argv pos (by omega)
    obtain ⟨r, hr⟩ := ih (pos + 2) (by omega)
    unfold ctr_get_mirror_args
    rw [h1]
    simp only [Except.bind, bind]
    cases sscanf_llu a1 with
    | none => exact ⟨_, rfl⟩
    | some offset =>
      simp only [h0, hr]
      exact ⟨_, rfl⟩

/-- After `argv += args_used` the constructor reads no token past the end of
the vector. -/
theorem ctr_mirror_args_in_bounds (argv : List String) :
    ∃ r, ctr_mirror_args argv = Except.ok r := by
  unfold ctr_mirror_args
  by_cases h0 : argv.length = 0
  · rw [if_pos h0]
    exact ⟨_, rfl⟩
  · rw [if_neg h0]
    obtain ⟨a0, ha⟩ := argv_get_lt argv 0 (by omega)
    rw [ha]
    simp only [Except.bind, bind]
    cases sscanf_u a0 with
    | none => exact ⟨_, rfl⟩
    | some n =>
      simp only
      by_cases h1 : n < 2 ∨ n > DM_KCOPYD_MAX_REGIONS + 1 ∨ n > MAX_MIRRORS
      · rw [if_pos h1]
        exact ⟨_, rfl⟩
      · rw [if_neg h1]
        by_cases h2 : argv.length - 1 ≠ n * 2 % 4294967296
        · rw [if_pos h2]
          exact ⟨_, rfl⟩
        · rw [if_neg h2]
          have hn : n ≤ 8 := by
            unfold MAX_MIRRORS at h1
            omega
          apply ctr_get_mirror_args_in_bounds
          rw [List.length_drop]
          omega

end DMS

namespace DMS

end DMS

namespace DMS

/-! ### the weighted block of the constructor -/

/-- The set on which the policy block of `mirror_sync_ctr` works: every leg
is alive and no weight is set. -/
theorem mirror_sync_ctr_returns (rp : read_policy_params) (legs : List (String × Nat))
    (ti_begin : Nat) (mdname : String) (oldms : Option mirror_sync_set)
    (h2 : 2 ≤ legs.length) (h8 : legs.length ≤ MAX_MIRRORS) :
    ∃ ms_p, mirror_sync_ctr rp legs ti_begin mdname oldms =
        Except.ok (some (ctr_read_policy ms_p rp)) ∧
      all_alive ms_p ∧ ms_p.nr_mirrors = legs.length ∧
      ms_p.mirror_weights = List.replicate MAX_MIRRORS 0 := by
  obtain ⟨ms_a, ha⟩ := alloc_mirror_sync_set_returns legs.length ti_begin h8
  have hnr := ctr_new_set_nr legs ti_begin mdname ms_a ha
  obtain ⟨ms_p, hp⟩ := preserve_ms_params_on_reconfig_returns
    { ctr_get_mirrors legs 0 ms_a with name := mdname } oldms (by rw [hnr]; exact h8)
  obtain ⟨ha1, _⟩ := alloc_mirror_sync_set_legs _ _ _ ha
  have haw : ms_a.mirror_weights = List.replicate MAX_MIRRORS 0 := by
    unfold alloc_mirror_sync_set at ha
    simp only [assert_bug_bind, run_pure] at ha
    split_ifs at ha
    obtain ⟨v, hg, hv⟩ := run_bind_ok ha
    obtain ⟨c, ms2⟩ := v
    have hs := get_mirror_weight_max_live_wf _ _ _ hg
    cases hv
    exact hs.1
  obtain ⟨g1, _, _⟩ := ctr_get_mirrors_legs legs 0 ms_a (all_alive_replicate _ _ ha1)
  have hgw := (ctr_get_mirrors_wf legs 0 ms_a).1
  have hs := preserve_ms_params_on_reconfig_same _ _ _ hp
  have hw := preserve_ms_params_on_reconfig_wf _ _ _ hp
  refine ⟨ms_p, ?_, ?_, ?_, ?_⟩
  · rw [mirror_sync_ctr_eq rp legs ti_begin mdname oldms ms_a h2 h8 ha, hp]
    rfl
  · exact all_alive_congr _ _ hs.1 (all_alive_congr _ _ rfl g1)
  · exact hw.2.1.trans hnr
  · exact hw.1.trans (hgw.trans haw)

theorem ctr_weight_loop1_all_alive (w : Nat) (idx : List Nat) :
    ∀ (ms : mirror_sync_set) (maxi max : Int),
      (∀ i, i ∈ idx → alive_at ms i = true ∧ i < ms.mirror_weights.length) →
      (ctr_weight_loop1 w idx (ms, maxi, max)).2 =
        match idx.getLast? with
        | none => (maxi, max)
        | some l => ((l : Int), wrap_int (w : Int)) := by
  induction idx with
  | nil => intro ms maxi max _; rfl
  | cons i rest ih =>
    intro ms maxi max h
    have hi := h i (List.mem_cons_self _ _)
    have hal : alive_at
        { ms with mirror_weights := ms.mirror_weights.set i (wrap_int (w : Int)) } i = true :=
      hi.1
    have hrest : ∀ k, k ∈ rest → alive_at
        { ms with mirror_weights := ms.mirror_weights.set i (wrap_int (w : Int)) } k = true ∧
        k < (ms.mirror_weights.set i (wrap_int (w : Int))).length := by
      intro k hk
      have := h k (List.mem_cons_of_mem _ hk)
      exact ⟨this.1, by rw [List.length_set]; exact this.2⟩
    unfold ctr_weight_loop1
    simp only
    rw [if_pos hal, ih _ _ _ hrest]
    have hget : (ms.mirror_weights.set i (wrap_int (w : Int))).getD i 0 = wrap_int (w : Int) := by
      rw [List.getD_eq_getElem?_getD, List.getElem?_set, if_pos rfl, if_pos hi.2,
        Option.getD_some]
    cases hr : rest.getLast? with
    | none =>
      have : rest = [] := List.getLast?_eq_none_iff.mp hr
      subst this
      simp only [List.getLast?_singleton]
      rw [hget]
    | some l =>
      have : (i :: rest).getLast? = some l := by
        cases rest with
        | nil => cases hr
        | cons a t => rw [List.getLast?_cons_cons]; exact hr
      rw [this]

theorem ctr_weight_loop2_le (ms : mirror_sync_set) (idx : List Nat) :
    ∀ (maxi max : Int), (∀ i, i ∈ idx → weight_at ms i ≤ max) →
      ctr_weight_loop2 ms idx (maxi, max) = (maxi, max) := by
  induction idx with
  | nil => intro maxi max _; rfl
  | cons i rest ih =>
    intro maxi max h
    have hi : ¬ (max < ms.mirror_weights.getD i 0) := by
      have := h i (List.mem_cons_self _ _)
      unfold weight_at at this
      omega
    unfold ctr_weight_loop2
    rw [if_neg (by simp only [Bool.and_eq_true, decide_eq_true_eq, not_and]; exact fun _ => hi)]
    exact ih maxi max (fun k hk => h k (List.mem_cons_of_mem _ hk))

/-- The second loop of the weighted block when every leg has the weight `d`
but leg `x`, which is heavier. -/
theorem ctr_weight_loop2_heavier (ms : mirror_sync_set) (x : Nat) (d w : Int) (hdw : d < w)
    (hx : weight_at ms x = w) (idx : List Nat) :
    ∀ (maxi : Int), (∀ i, i ∈ idx → alive_at ms i = true ∧ (i ≠ x → weight_at ms i = d)) →
      ctr_weight_loop2 ms idx (maxi, d) = if x ∈ idx then ((x : Int), w) else (maxi, d) := by
  induction idx with
  | nil => intro maxi _; rfl
  | cons i rest ih =>
    intro maxi h
    have hi := h i (List.mem_cons_self _ _)
    have hrest : ∀ k, k ∈ rest → alive_at ms k = true ∧ (k ≠ x → weight_at ms k = d) :=
      fun k hk => h k (List.mem_cons_of_mem _ hk)
    unfold ctr_weight_loop2
    by_cases hix : i = x
    · subst hix
      have hc : (alive_at ms i && decide (d < ms.mirror_weights.getD i 0)) = true := by
        rw [hi.1, Bool.true_and, decide_eq_true_eq]
        unfold weight_at at hx
        omega
      rw [if_pos hc, if_pos (List.mem_cons_self _ _)]
      have hwi : ms.mirror_weights.getD i 0 = w := hx
      rw [hwi]
      apply ctr_weight_loop2_le
      intro k hk
      by_cases hki : k = i
      · rw [hki, hx]
      · rw [(hrest k hk).2 hki]
        omega
    · have hc : ¬ ((alive_at ms i && decide (d < ms.mirror_weights.getD i 0)) = true) := by
        have := hi.2 hix
        unfold weight_at at this
        rw [this]
        simp
      rw [if_neg hc, ih maxi hrest]
      have hm : x ∈ i :: rest ↔ x ∈ rest := by
        rw [List.mem_cons]
        constructor
        · rintro (h1 | h1)
          · exact absurd h1.symm hix
          · exact h1
        · exact Or.inr
      by_cases hxr : x ∈ rest
      · rw [if_pos hxr, if_pos (hm.mpr hxr)]
      · rw [if_neg hxr, if_neg (fun h1 => hxr (hm.mp h1))]

end DMS

namespace DMS

theorem set_all_set_getD (W : List Int) (n x : Nat) (d w : Int) (hn : n ≤ W.length)
    (hx : x < n) (i : Nat) :
    ((set_all W (List.range n) d).set x w).getD i 0 =
      if i = x then w else if i < n then d else W.getD i 0 := by
  have hlen : (set_all W (List.range n) d).length = W.length := set_all_length _ _ _
  rw [List.getD_eq_getElem?_getD, List.getElem?_set]
  by_cases hix : x = i
  · rw [if_pos hix, if_pos (by omega), if_pos hix.symm]
    rfl
  · rw [if_neg hix, if_neg (fun h => hix h.symm), ← List.getD_eq_getElem?_getD,
      set_all_range W d n hn i]

/-- The weighted block of the constructor on a set whose legs are all alive:
every leg gets the weight `d`, leg `x` the weight `w`, and the cached index is
`x` when `w` is above `d` and the index of the last leg otherwise. -/
theorem ctr_read_policy_weighted (ms : mirror_sync_set) (d x w : Nat) (hal : all_alive ms)
    (h8 : ms.nr_mirrors ≤ MAX_MIRRORS) (hlen : ms.mirror_weights.length = MAX_MIRRORS)
    (hd : d ≤ 100) (hw : w ≤ 100) (hx : x < ms.nr_mirrors) :
    ctr_read_policy ms
        { oldparams := 0, policy := dms_read_policy.DMS_CUSTOM_WEIGHTED,
          rparg0 := d, rparg1 := x, rparg2 := w } =
      { ms with
        mirror_weights := (set_all ms.mirror_weights (List.range ms.nr_mirrors) (d : Int)).set x
          (w : Int),
        mirror_weight_max_live := if d < w then (x : Int) else ((ms.nr_mirrors - 1 : Nat) : Int),
        rdpolicy := dms_read_policy.DMS_CUSTOM_WEIGHTED } := by
  have hwd : wrap_int (d : Int) = (d : Int) := wrap_int_small _ (by omega) (by omega)
  have hww : wrap_int (w : Int) = (w : Int) := wrap_int_small _ (by omega) (by omega)
  have h1w := ctr_weight_loop1_weights d (List.range ms.nr_mirrors) ms (-1) (-1)
  have h1m := ctr_weight_loop1_all_alive d (List.range ms.nr_mirrors) ms (-1) (-1) (by
    intro i hi
    rw [List.mem_range] at hi
    exact ⟨all_alive_at ms hal i hi, by rw [hlen]; omega⟩)
  rw [List.getLast?_range, if_neg (by omega)] at h1m
  simp only at h1m
  unfold ctr_read_policy
  simp only [if_true]
  rcases hl : ctr_weight_loop1 d (List.range ms.nr_mirrors) (ms, -1, -1) with ⟨ms1, maxi, max⟩
  rw [hl] at h1w h1m
  simp only at h1w
  simp only [Prod.mk.injEq] at h1m
  obtain ⟨hmaxi, hmax⟩ := h1m
  rw [hwd] at h1w hmax
  rw [h1w, hmaxi, hmax, hww]
  simp only
  have hnr : mirror_sync_set.nr_mirrors
      { ms with mirror_weights := set_all ms.mirror_weights (List.range ms.nr_mirrors) (d : Int) } =
      ms.nr_mirrors := rfl
  rw [hnr, if_pos hx]
  simp only
  have hwt : ∀ i, weight_at
      { ms with mirror_weights :=
          (set_all ms.mirror_weights (List.range ms.nr_mirrors) (d : Int)).set x (w : Int) } i =
      if i = x then (w : Int) else if i < ms.nr_mirrors then (d : Int)
      else ms.mirror_weights.getD i 0 := by
    intro i
    exact set_all_set_getD ms.mirror_weights ms.nr_mirrors x d w (by rw [hlen]; exact h8) hx i
  have halv : ∀ i, i < ms.nr_mirrors → alive_at
      { ms with mirror_weights :=
          (set_all ms.mirror_weights (List.range ms.nr_mirrors) (d : Int)).set x (w : Int) } i =
      true := fun i hi => all_alive_at ms hal i hi
  have hnr2 : mirror_sync_set.nr_mirrors
      { ms with mirror_weights :=
          (set_all ms.mirror_weights (List.range ms.nr_mirrors) (d : Int)).set x (w : Int) } =
      ms.nr_mirrors := rfl
  rw [hnr2]
  by_cases hdw : d < w
  · have h2 := ctr_weight_loop2_heavier
      { ms with mirror_weights :=
          (set_all ms.mirror_weights (List.range ms.nr_mirrors) (d : Int)).set x (w : Int) }
      x (d : Int) (w : Int) (by omega) (by rw [hwt x, if_pos rfl])
      (List.range ms.nr_mirrors) ((ms.nr_mirrors - 1 : Nat) : Int) (by
        intro i hi
        rw [List.mem_range] at hi
        refine ⟨halv i hi, fun hix => ?_⟩
        rw [hwt i, if_neg hix, if_pos hi])
    rw [h2, if_pos (List.mem_range.mpr hx), if_pos hdw]
  · have h2 := ctr_weight_loop2_le
      { ms with mirror_weights :=
          (set_all ms.mirror_weights (List.range ms.nr_mirrors) (d : Int)).set x (w : Int) }
      (List.range ms.nr_mirrors) ((ms.nr_mirrors - 1 : Nat) : Int) (d : Int) (by
        intro i hi
        rw [List.mem_range] at hi
        rw [hwt i]
        split_ifs
        · omega
        · exact le_refl _)
    rw [h2, if_neg hdw]

end DMS

namespace DMS

/-- C33 (counterexample): ties go to the leg of highest index.  The line
`weighted 3 50 0 50 2 a 0 b 0` is accepted and constructs a set with the
weighted policy whose two legs are alive and both have weight 50; the cached
index is 1, not 0. -/
theorem ctr_weighted_tie_not_lowest :
    mirror_sync_ctr_argv ["weighted", "3", "50", "0", "50", "2", "a", "0", "b", "0"] 0 "253:0"
        none =
      Except.ok (Except.ok (0, some { two_legs with
        rdpolicy := dms_read_policy.DMS_CUSTOM_WEIGHTED,
        mirror_weights := [50, 50, 0, 0, 0, 0, 0, 0], mirror_weight_max_live := 1 })) ∧
    alive_at two_legs 0 = true ∧ alive_at two_legs 1 = true :=
  ⟨rfl, rfl, rfl⟩

/-- C33 (amended): a construction with the parameters `weighted 3 d x w`
(`d` and `w` at most 100, `x` below the number `n` of legs, 2 to 8) returns a
set with the weighted policy whose legs are all alive, every leg having the
weight `d` except leg `x`, which has the weight `w`.  The cached index is `x`
when `w` is above `d`; when `w` is at most `d` and leg `x` is not the last leg
or `w = d`, it is `n - 1`.  In these cases it names a leg of maximal weight,
the one of highest index among them. -/
theorem ctr_weighted_policy (legs : List (String × Nat)) (d x w : Nat) (ti_begin : Nat)
    (mdname : String) (oldms : Option mirror_sync_set)
    (h2 : 2 ≤ legs.length) (h8 : legs.length ≤ MAX_MIRRORS)
    (hd : d ≤ 100) (hw : w ≤ 100) (hx : x < legs.length) :
    ∃ ms, mirror_sync_ctr
        { oldparams := 0, policy := dms_read_policy.DMS_CUSTOM_WEIGHTED,
          rparg0 := d, rparg1 := x, rparg2 := w } legs ti_begin mdname oldms =
        Except.ok (some ms) ∧
      ms.rdpolicy = dms_read_policy.DMS_CUSTOM_WEIGHTED ∧ ms.nr_mirrors = legs.length ∧
      all_alive ms ∧
      (∀ i, i < legs.length → weight_at ms i = if i = x then (w : Int) else (d : Int)) ∧
      (d < w → ms.mirror_weight_max_live = (x : Int)) ∧
      (w ≤ d → x + 1 < legs.length ∨ w = d →
        ms.mirror_weight_max_live = ((legs.length - 1 : Nat) : Int)) ∧
      (d < w ∨ x + 1 < legs.length ∨ w = d →
        ∃ m : Nat, ms.mirror_weight_max_live = (m : Int) ∧ m < legs.length ∧
          (∀ i, i < legs.length → weight_at ms i ≤ weight_at ms m) ∧
          ∀ i, m < i → i < legs.length → weight_at ms i < weight_at ms m) := by
  obtain ⟨ms_p, hret, hal, hnr, hwz⟩ := mirror_sync_ctr_returns
    { oldparams := 0, policy := dms_read_policy.DMS_CUSTOM_WEIGHTED,
      rparg0 := d, rparg1 := x, rparg2 := w } legs ti_begin mdname oldms h2 h8
  have hlen : ms_p.mirror_weights.length = MAX_MIRRORS := by
    rw [hwz, List.length_replicate]
  have heq := ctr_read_policy_weighted ms_p d x w hal (by rw [hnr]; exact h8) hlen hd hw
    (by rw [hnr]; exact hx)
  rw [heq] at hret
  rw [hnr] at hret
  have hwt : ∀ i, i < legs.length → weight_at
      { ms_p with
        mirror_weights := (set_all ms_p.mirror_weights (List.range legs.length) (d : Int)).set x
          (w : Int),
        mirror_weight_max_live := if d < w then (x : Int) else ((legs.length - 1 : Nat) : Int),
        rdpolicy := dms_read_policy.DMS_CUSTOM_WEIGHTED } i =
      if i = x then (w : Int) else (d : Int) := by
    intro i hi
    have := set_all_set_getD ms_p.mirror_weights legs.length x d w
      (by rw [hlen]; exact h8) hx i
    rw [if_pos hi] at this
    exact this
  refine ⟨_, hret, rfl, hnr, hal, hwt, ?_, ?_, ?_⟩
  · intro hdw
    show (if d < w then (x : Int) else ((legs.length - 1 : Nat) : Int)) = (x : Int)
    rw [if_pos hdw]
  · intro hwd _
    show (if d < w then (x : Int) else ((legs.length - 1 : Nat) : Int)) = _
    rw [if_neg (by omega)]
  · intro hc
    by_cases hdw : d < w
    · refine ⟨x, ?_, hx, ?_, ?_⟩
      · show (if d < w then (x : Int) else ((legs.length - 1 : Nat) : Int)) = (x : Int)
        rw [if_pos hdw]
      · intro i hi
        rw [hwt i hi, hwt x hx, if_pos rfl]
        split_ifs
        · exact le_refl _
        · omega
      · intro i hxi hi
        rw [hwt i hi, hwt x hx, if_pos rfl, if_neg (by omega)]
        omega
    · have hn1 : legs.length - 1 < legs.length := by omega
      refine ⟨legs.length - 1, ?_, hn1, ?_, ?_⟩
      · show (if d < w then (x : Int) else ((legs.length - 1 : Nat) : Int)) = _
        rw [if_neg hdw]
      · intro i hi
        rw [hwt i hi, hwt _ hn1]
        split_ifs <;> omega
      · intro i hmi hi
        omega

/-- Witness for C33: `weighted 3 50 1 60` on two legs. -/
theorem ctr_weighted_policy_witness :
    ∃ ms, mirror_sync_ctr rp_weighted_5060 [("a", 0), ("b", 0)] 0 "253:0" none =
        Except.ok (some ms) ∧
      ms.rdpolicy = dms_read_policy.DMS_CUSTOM_WEIGHTED ∧
      weight_at ms 0 = 50 ∧ weight_at ms 1 = 60 ∧ ms.mirror_weight_max_live = 1 :=
  let ⟨ms, h1, h2, _, _, h5, h6, _⟩ :=
    ctr_weighted_policy [("a", 0), ("b", 0)] 50 1 60 0 "253:0" none (by decide) (by decide)
      (by decide) (by decide) (by decide)
  ⟨ms, h1, h2, h5 0 (by decide), h5 1 (by decide), h6 (by decide)⟩

end DMS

namespace DMS

/-! ### the sectors a request is issued at -/

/-- The value of `map_sector` for a request that has data: the sum
`m->offset + (bi_sector - ti->begin)` on `sector_t`. -/
theorem map_sector_offset (ms : mirror_sync_set) (m : mirror) (b : bio)
    (hsize : b.bi_size ≠ 0) :
    ((map_sector ms m b : Nat) : Int) =
        ((m.offset : Int) + ((b.bi_sector : Int) - (ms.ti_begin : Int))) %
          18446744073709551616 ∧
      (ms.ti_begin ≤ b.bi_sector →
        m.offset + (b.bi_sector - ms.ti_begin) < 18446744073709551616 →
        map_sector ms m b = m.offset + (b.bi_sector - ms.ti_begin)) := by
  have hm : map_sector ms m b =
      wrap_u64 ((m.offset : Int) +
        (wrap_u64 ((b.bi_sector : Int) - (ms.ti_begin : Int)) : Int)) := by
    unfold map_sector
    rw [if_neg hsize]
  constructor
  · rw [hm]
    unfold wrap_u64
    omega
  · intro hb hlt
    rw [hm]
    unfold wrap_u64
    omega

theorem filterMap_getElem_of_some {α β : Type} (f : α → Option β) (l : List α) :
    (∀ x, x ∈ l → (f x).isSome = true) →
      ∀ (k : Nat) (x : α), l[k]? = some x → (l.filterMap f)[k]? = f x := by
  induction l with
  | nil => intro _ k x hk; simp at hk
  | cons a rest ih =>
    intro h k x hk
    obtain ⟨y, hy⟩ := Option.isSome_iff_exists.mp (h a (List.mem_cons_self _ _))
    rw [List.filterMap_cons, hy]
    cases k with
    | zero =>
      rw [List.getElem?_cons_zero] at hk
      cases hk
      rw [List.getElem?_cons_zero, hy]
    | succ n =>
      rw [List.getElem?_cons_succ] at hk
      rw [List.getElem?_cons_succ]
      exact ih (fun z hz => h z (List.mem_cons_of_mem _ hz)) n x hk

/-- The region at position `k` of the regions of the alive legs is the one
`map_region` gives for the alive leg number `k`. -/
theorem live_regions_get (ms : mirror_sync_set) (b : bio) (k i : Nat)
    (hk : (live_legs ms)[k]? = some i) :
    ∃ m, ms.mirror[i]? = some m ∧ mirror_is_alive m = true ∧
      ((live_legs ms).filterMap
        (fun j => (ms.mirror[j]?).map (fun m => map_region ms m b)))[k]? =
        some (map_region ms m b) := by
  have hmem : i ∈ live_legs ms := by
    obtain ⟨hlt, he⟩ := List.getElem?_eq_some.mp hk
    rw [← he]
    exact List.getElem_mem hlt
  have hal : alive_at ms i = true := by
    unfold live_legs at hmem
    exact (List.mem_filter.mp hmem).2
  obtain ⟨m, hm, hma⟩ := alive_at_some ms i hal
  refine ⟨m, hm, hma, ?_⟩
  rw [filterMap_getElem_of_some _ (live_legs ms) ?_ k i hk, hm]
  · rfl
  · intro j hj
    unfold live_legs at hj
    obtain ⟨mj, hmj, _⟩ := alive_at_some ms j (List.mem_filter.mp hj).2
    rw [hmj]
    rfl

/-- The request `mirror_sync_map` issues for a write when a leg is alive. -/
theorem mirror_sync_map_write_regions (ms : mirror_sync_set) (b : bio)
    (hn : ms.nr_mirrors ≤ MAX_MIRRORS) (hwm : b.per_bio_data.bmi_wm.length = MAX_MIRRORS)
    (hw : b.REQ_WRITE = true) (hra : b.REQ_RAHEAD = false) (hlive : live_legs ms ≠ []) :
    ∃ ms1 b1 req, mirror_sync_map ms b = Except.ok (0, ms1, b1, some req) ∧
      req.regions = (live_legs ms).filterMap
        (fun i => (ms.mirror[i]?).map (fun m => map_region ms m b)) := by
  have hnra : ¬ (b.REQ_RAHEAD = true ∧ b.REQ_WRITE = false) := by
    rw [hw]; simp
  obtain ⟨b1, rq, hwa, hreg⟩ := write_async_bios_regions
    { ms with write_ios_total := atomic_inc ms.write_ios_total }
    { b with per_bio_data :=
        { b.per_bio_data with bmi_bd := dm_bio_record b, bmi_m := ms.default_mirror } }
    hn hwm hlive
  unfold mirror_sync_map
  rw [if_neg hnra]
  simp only
  rw [if_pos ⟨hw, hra⟩, hwa]
  exact ⟨_, _, _, rfl, hreg⟩

/-- The read path maps the request twice: `mirror_sync_map` calls `map_bio`,
which stores the mapped sector in the bio, and then `read_async_bio` calls
`map_region` on that bio.  On the set constructed from
`core 2 64 nosync 2 a 8 b 8` the read of 4096 bytes at sector 100 leaves the
bio at sector 108 and is issued to leg 0 at sector 116. -/
theorem read_region_mapped_twice :
    mirror_sync_ctr rp_core [("a", 8), ("b", 8)] 0 "253:0" none =
      Except.ok (some two_legs_off8) ∧
    ∃ ms1 b1 req, mirror_sync_map two_legs_off8 (read_bio 100 4096) =
        Except.ok (0, ms1, b1, some req) ∧
      b1.bi_sector = 108 ∧ req.regions = [{ bdev := "a", sector := 116, count := 8 }] :=
  ⟨rfl, _, _, _, rfl, rfl, rfl⟩

end DMS

namespace DMS

/-- C34 (counterexample): a request of size 0, such as an empty flush, is
mapped to sector 0 on every leg.  On the three-leg set with offsets 0, 8 and
16 the write of size 0 at sector 100 is issued to the three legs at sector 0,
not at sectors 100, 108 and 116.  And the sum is one of `sector_t`: for a leg
at offset 2^64 - 8 a write of 4096 bytes at sector 100 is mapped to
sector 92. -/
theorem map_sector_empty_request :
    three_legs.ti_begin = 0 ∧
    three_legs.mirror[1]? = some (mirror.mk 0 0 "b" 8) ∧
    map_sector three_legs (mirror.mk 0 0 "b" 8) (write_bio 100 0) = 0 ∧
    (map_region three_legs (mirror.mk 0 0 "b" 8) (write_bio 100 0)).sector = 0 ∧
    (∃ ms1 b1 req, mirror_sync_map three_legs (write_bio 100 0) =
        Except.ok (0, ms1, b1, some req) ∧
      req.regions =
        [{ bdev := "a", sector := 0, count := 0 }, { bdev := "b", sector := 0, count := 0 },
         { bdev := "c", sector := 0, count := 0 }]) ∧
    map_sector three_legs (mirror.mk 0 0 "b" 18446744073709551608) (write_bio 100 4096) = 92 :=
  ⟨rfl, rfl, rfl, rfl, ⟨_, _, _, rfl, rfl⟩, rfl⟩

/-- C34 (amended): for every write request whose size is not 0, on a set with
an alive leg, `mirror_sync_map` issues one I/O region per alive leg, in the
order of the leg array, and the sector of the region issued to a leg, which
`map_region` takes from `map_sector`, is
`leg.offset + (request.sector - target_begin)` in the 64-bit arithmetic of
`sector_t`; it is that sum itself when the request starts at or after the
begin of the target and the sum is below 2^64. -/
theorem write_region_sector (ms : mirror_sync_set) (b : bio)
    (hn : ms.nr_mirrors ≤ MAX_MIRRORS) (hwm : b.per_bio_data.bmi_wm.length = MAX_MIRRORS)
    (hw : b.REQ_WRITE = true) (hra : b.REQ_RAHEAD = false) (hsize : b.bi_size ≠ 0)
    (hlive : live_legs ms ≠ []) :
    ∃ ms1 b1 req, mirror_sync_map ms b = Except.ok (0, ms1, b1, some req) ∧
      req.regions.length = (live_legs ms).length ∧
      ∀ (k i : Nat), (live_legs ms)[k]? = some i →
        ∃ (m : mirror) (r : dm_io_region), ms.mirror[i]? = some m ∧ mirror_is_alive m = true ∧
          req.regions[k]? = some r ∧ r.bdev = m.dev ∧ r.sector = map_sector ms m b ∧
          (r.sector : Int) =
            ((m.offset : Int) + ((b.bi_sector : Int) - (ms.ti_begin : Int))) %
              18446744073709551616 ∧
          (ms.ti_begin ≤ b.bi_sector →
            m.offset + (b.bi_sector - ms.ti_begin) < 18446744073709551616 →
            r.sector = m.offset + (b.bi_sector - ms.ti_begin)) := by
  obtain ⟨ms1, b1, req, hmap, hreg⟩ := mirror_sync_map_write_regions ms b hn hwm hw hra hlive
  refine ⟨ms1, b1, req, hmap, ?_, ?_⟩
  · rw [hreg]
    exact live_regions_length ms b (List.range ms.nr_mirrors)
  · intro k i hk
    obtain ⟨m, hm, hma, hget⟩ := live_regions_get ms b k i hk
    have hs := map_sector_offset ms m b hsize
    refine ⟨m, map_region ms m b, hm, hma, ?_, rfl, rfl, hs.1, hs.2⟩
    rw [hreg]
    exact hget

/-- Witness for C34: the write of 4096 bytes at sector 100 on the three-leg
set with offsets 0, 8 and 16 is issued at sectors 100, 108 and 116; and on the
set whose leg 0 is dead, to legs 1 and 2 at sectors 108 and 116. -/
theorem write_region_sector_witness :
    mirror_sync_map three_legs (write_bio 100 4096) =
      Except.ok (0, three_legs_written, issued_bio_012, some issued_req_012) ∧
    issued_req_012.regions =
      [{ bdev := "a", sector := 0 + (100 - 0), count := 8 },
       { bdev := "b", sector := 8 + (100 - 0), count := 8 },
       { bdev := "c", sector := 16 + (100 - 0), count := 8 }] ∧
    live_legs three_legs_leg0_dead = [1, 2] ∧
    ∃ ms1 b1 req, mirror_sync_map three_legs_leg0_dead (write_bio 100 4096) =
        Except.ok (0, ms1, b1, some req) ∧
      req.regions.length = 2 ∧
      (∃ (m : mirror) (r : dm_io_region), three_legs_leg0_dead.mirror[1]? = some m ∧ req.regions[0]? = some r ∧
        r.sector = m.offset + (100 - 0)) ∧
      ∃ (m : mirror) (r : dm_io_region), three_legs_leg0_dead.mirror[2]? = some m ∧ req.regions[1]? = some r ∧
        r.sector = m.offset + (100 - 0) :=
  ⟨rfl, rfl, rfl,
    let ⟨ms1, b1, req, h1, h2, h3⟩ :=
      write_region_sector three_legs_leg0_dead (write_bio 100 4096) (by decide) rfl rfl rfl
        (by decide) (by decide)
    ⟨ms1, b1, req, h1, h2,
      let ⟨m, r, g1, _, g2, _, _, _, g3⟩ := h3 0 1 rfl
      ⟨m, r, g1, g2, g3 (Nat.zero_le _) (by
        have e : m = mirror.mk 0 0 "b" 8 := (Option.some.inj g1).symm
        rw [e]
        decide)⟩,
      let ⟨m, r, g1, _, g2, _, _, _, g3⟩ := h3 1 2 rfl
      ⟨m, r, g1, g2, g3 (Nat.zero_le _) (by
        have e : m = mirror.mk 0 0 "c" 16 := (Option.some.inj g1).symm
        rw [e]
        decide)⟩⟩⟩

end DMS

namespace DMS

/-! ### the comparison step of the check commands -/

theorem alloc_check_io_buffers_get (ms : mirror_sync_set) (bsize : Nat)
    (data : Nat → Nat → page) (j : Nat) (hj : j < ms.nr_mirrors) :
    (alloc_check_io_buffers ms bsize data)[j]? =
      some (if alive_at ms j then
          { live := 1, nr_pages := bsize / PAGE_SIZE, m := some j,
            pagebufs := some ((List.range (bsize / PAGE_SIZE)).map (data j)) }
        else
          { live := 0, nr_pages := 0, m := none, pagebufs := none }) := by
  unfold alloc_check_io_buffers
  rw [List.getElem?_map, List.getElem?_range hj]
  rfl

/-- The loop `Get only live mirrors` does not end when one of its entries has
the leg pointer `NULL`. -/
theorem compare_live_loop_null (ms : mirror_sync_set) (mc : List mirror_check_t) (j : Nat)
    (e : mirror_check_t) (he : mc[j]? = some e) (hm : e.m = none) (idx : List Nat) :
    j ∈ idx → ∀ livemc, compare_live_loop ms mc idx livemc = Except.error Fault.bug := by
  induction idx with
  | nil => intro h; cases h
  | cons i rest ih =>
    intro h livemc
    by_cases hij : i = j
    · subst hij
      unfold compare_live_loop
      rw [he]
      simp only [hm]
      rfl
    · have hr : j ∈ rest := by
        rcases List.mem_cons.mp h with h1 | h1
        · exact absurd h1.symm hij
        · exact h1
      unfold compare_live_loop
      cases mc[i]? with
      | none => rfl
      | some e1 =>
        simp only
        cases e1.m with
        | none => rfl
        | some k =>
          simp only
          cases ms.mirror[k]? with
          | none => rfl
          | some mr =>
            simp only
            split_ifs
            · exact ih hr _
            · exact ih hr _

end DMS

namespace DMS

/-- C35 (code defect): for every set that has a dead leg, whatever the
number of its alive legs and whatever the buffers hold,
`compare_check_all_io_buffers` applied to the table that
`alloc_check_io_buffers` builds does not return: the entry of the dead leg has
the leg pointer `NULL`, left by `memset`, and the first loop evaluates
`mirror_is_alive(mc[j].m)` on it. -/
theorem compare_check_dead_leg_oops (ms : mirror_sync_set) (bsize : Nat)
    (data : Nat → Nat → page) (j : Nat) (hj : j < ms.nr_mirrors)
    (hdead : alive_at ms j = false) :
    compare_check_all_io_buffers ms (alloc_check_io_buffers ms bsize data) =
      Except.error Fault.bug := by
  have hg := alloc_check_io_buffers_get ms bsize data j hj
  rw [hdead] at hg
  unfold compare_check_all_io_buffers
  rw [compare_live_loop_null ms _ j _ hg rfl (List.range ms.nr_mirrors)
    (List.mem_range.mpr hj) []]
  rfl

/-- Witness for C35: the three-leg set whose leg 0 is dead and whose legs 1
and 2 are alive, with the same bytes in every buffer; on the three-leg set
with all legs alive the comparison returns 1 for equal buffers and 0 when the
buffer of one leg differs. -/
theorem compare_check_dead_leg_oops_witness :
    alive_at three_legs_leg0_dead 0 = false ∧ alive_at three_legs_leg0_dead 1 = true ∧
    alive_at three_legs_leg0_dead 2 = true ∧
    compare_check_all_io_buffers three_legs_leg0_dead
        (alloc_check_io_buffers three_legs_leg0_dead 4096 (fun _ _ => [1, 2, 3])) =
      Except.error Fault.bug ∧
    compare_check_all_io_buffers three_legs
        (alloc_check_io_buffers three_legs 4096 (fun _ _ => [1, 2, 3])) = Except.ok 1 ∧
    compare_check_all_io_buffers three_legs
        (alloc_check_io_buffers three_legs 4096 (fun j _ => [1, 2, j])) = Except.ok 0 :=
  ⟨rfl, rfl, rfl,
    compare_check_dead_leg_oops three_legs_leg0_dead 4096 (fun _ _ => [1, 2, 3]) 0 (by decide) rfl,
    rfl, rfl⟩

end DMS

namespace DMS

/-- C36: in every reachable state in which a leg is alive the default leg
pointer is not null and points to an alive leg of the set; and when
`fail_mirror` is called for the default leg there and a leg is still alive
afterwards, the pointer ends on the alive leg of lowest index, while a call
for another leg leaves the pointer where it is. -/
theorem default_mirror_alive_reachable (s : dms_system) (h : Reachable s) (i : Nat)
    (hi : alive_at s.ms i = true) :
    ∃ d, s.ms.default_mirror = some d ∧ d < s.ms.nr_mirrors ∧ alive_at s.ms d = true ∧
      (∀ k, (∃ j, alive_at (fail_mirror s.ms d k) j = true) →
        alive_at (fail_mirror s.ms d k) d = false ∧
        ∃ new, (fail_mirror s.ms d k).default_mirror = some new ∧
          alive_at (fail_mirror s.ms d k) new = true ∧
          ∀ j, j < new → alive_at (fail_mirror s.ms d k) j = false) ∧
      (∀ m k, m ≠ d → (fail_mirror s.ms m k).default_mirror = some d ∧
        alive_at (fail_mirror s.ms m k) d = true) := by
  obtain ⟨d, hd, hlt, hal⟩ := h.has_default_ok
  have hda : alive_at s.ms d = true := by
    rcases hal with h1 | h1
    · exact h1
    · rw [h1 i] at hi
      cases hi
  obtain ⟨mr, hm, hmal⟩ := alive_at_some s.ms d hda
  refine ⟨d, hd, hlt, hda, ?_, ?_⟩
  · intro k hex
    have hbit := alive_kind_bit mr hmal k
    have hmir := (fail_mirror_mirror s.ms d k mr hm hbit).1
    constructor
    · unfold alive_at
      rw [hmir, List.getElem?_set, if_pos rfl, if_pos (List.getElem?_eq_some.mp hm).1]
      exact failed_not_alive mr k
    · rw [fail_mirror_default s.ms d k mr hm hbit, hd]
      simp only [if_true]
      cases hg : get_valid_mirror (fail_mirror s.ms d k) with
      | none =>
        obtain ⟨j, hj⟩ := hex
        rw [(get_valid_mirror_none _).mp hg j] at hj
        cases hj
      | some new =>
        have := (get_valid_mirror_some _ new).mp hg
        exact ⟨new, rfl, this.1, this.2⟩
  · intro m k hmd
    have hleg : (fail_mirror s.ms m k).mirror[d]? = s.ms.mirror[d]? :=
      fail_mirror_other_leg s.ms m k d (fun h1 => hmd h1.symm)
    constructor
    · cases hm1 : s.ms.mirror[m]? with
      | none =>
        rw [fail_mirror_noop s.ms m k (by intro mr1 h1; rw [hm1] at h1; exact absurd h1 (by simp))]
        exact hd
      | some mr1 =>
        cases hb : test_bit k.toNat mr1.error_type with
        | true =>
          rw [fail_mirror_noop s.ms m k (by intro mr2 h1; rw [hm1] at h1; cases h1; exact hb)]
          exact hd
        | false =>
          rw [fail_mirror_default s.ms m k mr1 hm1 hb, hd,
            if_neg (fun h1 => hmd (Option.some.inj h1))]
    · unfold alive_at
      rw [hleg, hm]
      exact hmal

/-- Witness for C36: the reachable state `three_legs_leg0_dead`, in which leg 0
is dead and the default leg is leg 1; when leg 1 fails the pointer goes to
leg 2. -/
theorem default_mirror_alive_reachable_witness :
    ∃ d, three_legs_leg0_dead.default_mirror = some d ∧ alive_at three_legs_leg0_dead d = true ∧
      (fail_mirror three_legs_leg0_dead 1 dm_raid1_error.DM_RAID1_WRITE_ERROR).default_mirror =
        some 2 :=
  let ⟨d, h1, _, h3, _⟩ :=
    default_mirror_alive_reachable _ three_legs_leg0_dead_reachable 1 rfl
  ⟨d, h1, h3, rfl⟩

end DMS

namespace DMS

/-! ### the error state of the legs -/

theorem leg_state_ok_failed (mr : mirror) (k : dm_raid1_error) (h : leg_state_ok mr)
    (hbit : test_bit k.toNat mr.error_type = false) :
    mr.error_type = 0 ∧ mr.error_count = 0 ∧
      (failed_mirror mr k).error_type = 7 ∧ (failed_mirror mr k).error_count = 1 := by
  rcases h with ⟨h1, h2⟩ | ⟨h1, _⟩
  · refine ⟨h1, h2, ?_, ?_⟩
    · unfold failed_mirror
      rw [h1]
      exact set_bits_lt_8 k.toNat 0 (kind_lt_3 k) (by decide)
    · unfold failed_mirror
      rw [h2]
      rfl
  · rw [h1] at hbit
    cases k <;> exact absurd hbit (by decide)

theorem fail_mirror_leg_state_ok (ms : mirror_sync_set) (m : Nat) (k : dm_raid1_error)
    (h : ∀ mr, mr ∈ ms.mirror → leg_state_ok mr) :
    ∀ mr, mr ∈ (fail_mirror ms m k).mirror → leg_state_ok mr := by
  cases hm : ms.mirror[m]? with
  | none =>
    rw [fail_mirror_noop ms m k (by intro mr h1; rw [hm] at h1; exact absurd h1 (by simp))]
    exact h
  | some mr0 =>
    cases hb : test_bit k.toNat mr0.error_type with
    | true =>
      rw [fail_mirror_noop ms m k (by intro mr1 h1; rw [hm] at h1; cases h1; exact hb)]
      exact h
    | false =>
      rw [(fail_mirror_mirror ms m k mr0 hm hb).1]
      intro mr hmr
      rcases List.mem_or_eq_of_mem_set hmr with h2 | h2
      · exact h mr h2
      · have h0 : mr0 ∈ ms.mirror := by
          obtain ⟨hlt, he⟩ := List.getElem?_eq_some.mp hm
          rw [← he]
          exact List.getElem_mem hlt
        obtain ⟨_, _, h3, h4⟩ := leg_state_ok_failed mr0 k (h mr0 h0) hb
        rw [h2]
        exact Or.inr ⟨h3, h4⟩

theorem FailSeq.keeps_leg_state_ok {ms ms1 : mirror_sync_set} (h : FailSeq ms ms1)
    (hd : ∀ mr, mr ∈ ms.mirror → leg_state_ok mr) :
    ∀ mr, mr ∈ ms1.mirror → leg_state_ok mr := by
  induction h with
  | same _ h => rw [h.1]; exact hd
  | fail ms2 _ m k _ h2 ih => rw [h2.1]; exact fail_mirror_leg_state_ok ms2 m k ih

theorem mirror_sync_ctr_fresh_legs (rp : read_policy_params) (legs : List (String × Nat))
    (ti_begin : Nat) (mdname : String) (oldms : Option mirror_sync_set) (ms : mirror_sync_set)
    (h : mirror_sync_ctr rp legs ti_begin mdname oldms = Except.ok (some ms)) :
    ∀ x, x ∈ ms.mirror → x.error_type = 0 ∧ x.error_count = 0 := by
  unfold mirror_sync_ctr at h
  simp only [run_pure] at h
  by_cases hn : legs.length < 2 ∨ legs.length > MAX_MIRRORS
  · rw [if_pos hn] at h
    cases h
  · rw [if_neg hn] at h
    obtain ⟨ms_a, ha, h⟩ := run_bind_ok h
    obtain ⟨ms_p, hp, h⟩ := run_bind_ok h
    cases h
    obtain ⟨ha1, _⟩ := alloc_mirror_sync_set_legs _ _ _ ha
    have hfresh := ctr_get_mirrors_fresh legs 0 ms_a (by
      intro x hx
      rw [ha1] at hx
      rw [(List.mem_replicate.mp hx).2]
      exact ⟨rfl, rfl⟩)
    have hs := (preserve_ms_params_on_reconfig_same _ _ _ hp).1
    have hmir := (ctr_read_policy_same ms_p rp).1
    intro x hx
    rw [hmir, hs] at hx
    exact hfresh x hx

/-- Every leg of a reachable state has no error recorded, or all three error
bits and an error count of 1. -/
theorem Reachable.has_leg_state_ok {s : dms_system} (h : Reachable s) :
    ∀ mr, mr ∈ s.ms.mirror → leg_state_ok mr := by
  induction h with
  | ctr rp legs ti_begin mdname oldms ms hrp h =>
    intro mr hmr
    exact Or.inl (mirror_sync_ctr_fresh_legs _ _ _ _ _ _ h mr hmr)
  | step s t _ hst ih => exact hst.fail_seq.keeps_leg_state_ok ih

theorem device_status_char_ok (mr : mirror) (h : leg_state_ok mr) :
    (mr.error_type = 0 → device_status_char mr = 'A') ∧
    (mr.error_type = 7 → device_status_char mr = 'D') := by
  rcases h with ⟨h1, h2⟩ | ⟨h1, h2⟩
  · refine ⟨fun _ => ?_, fun h7 => ?_⟩
    · unfold device_status_char mirror_is_alive
      simp only [dm_raid1_error.toNat]
      rw [h1, h2]
      rfl
    · rw [h1] at h7
      exact absurd h7 (by decide)
  · refine ⟨fun h0 => ?_, fun _ => ?_⟩
    · rw [h1] at h0
      exact absurd h0 (by decide)
    · unfold device_status_char mirror_is_alive
      simp only [dm_raid1_error.toNat]
      rw [h1, h2]
      rfl

end DMS

namespace DMS

/-- C37: in every reachable state every leg has
`(error_type, error_count)` equal to `(0, 0)` or to `(0b111, 1)`, so that
`error_count` is below `DMS_MAX_ERRORS = 2` and `device_status_char` gives `A`
or `D`, never `U`.  `fail_mirror` on a leg without error sets all three bits
and the count 1; on a leg with the three bits it returns early and changes
nothing, whatever the kind of the error. -/
theorem leg_error_state_reachable (s : dms_system) (h : Reachable s) (mr : mirror)
    (hmr : mr ∈ s.ms.mirror) :
    ((mr.error_type = 0 ∧ mr.error_count = 0) ∨ (mr.error_type = 7 ∧ mr.error_count = 1)) ∧
      mr.error_count < DMS_MAX_ERRORS ∧ DMS_MAX_ERRORS = 2 ∧
      (device_status_char mr = 'A' ∨ device_status_char mr = 'D') ∧
      device_status_char mr ≠ 'U' ∧
      (∀ m k, s.ms.mirror[m]? = some mr → mr.error_type = 0 →
        (fail_mirror s.ms m k).mirror[m]? = some { mr with error_type := 7, error_count := 1 }) ∧
      (∀ m k, s.ms.mirror[m]? = some mr → mr.error_type = 7 → fail_mirror s.ms m k = s.ms) := by
  have hok := h.has_leg_state_ok mr hmr
  have hch := device_status_char_ok mr hok
  have hc : device_status_char mr = 'A' ∨ device_status_char mr = 'D' := by
    rcases hok with ⟨h1, _⟩ | ⟨h1, _⟩
    · exact Or.inl (hch.1 h1)
    · exact Or.inr (hch.2 h1)
  refine ⟨hok, ?_, rfl, hc, ?_, ?_, ?_⟩
  · rcases hok with ⟨_, h2⟩ | ⟨_, h2⟩ <;> rw [h2] <;> decide
  · rcases hc with h1 | h1 <;> rw [h1] <;> decide
  · intro m k hm h0
    have hbit : test_bit k.toNat mr.error_type = false := by
      rw [h0]
      cases k <;> decide
    obtain ⟨_, _, h3, h4⟩ := leg_state_ok_failed mr k hok hbit
    rw [(fail_mirror_mirror s.ms m k mr hm hbit).1, List.getElem?_set,
      if_pos rfl, if_pos (List.getElem?_eq_some.mp hm).1]
    have hf : failed_mirror mr k = { mr with error_type := 7, error_count := 1 } := by
      have e1 : failed_mirror mr k =
          { mr with error_type := (failed_mirror mr k).error_type,
                    error_count := (failed_mirror mr k).error_count } := rfl
      rw [e1, h3, h4]
    rw [hf]
  · intro m k hm h7
    apply fail_mirror_noop
    intro mr1 hm1
    rw [hm] at hm1
    cases hm1
    rw [h7]
    cases k <;> decide

/-- Witness for C37: leg 0 of the reachable state `three_legs_leg0_dead`, which
has failed once, and leg 1, which has not. -/
theorem leg_error_state_reachable_witness :
    (mirror.mk 1 7 "a" 0).error_count < DMS_MAX_ERRORS ∧
    device_status_char (mirror.mk 1 7 "a" 0) ≠ 'U' ∧
    device_status_char (mirror.mk 0 0 "b" 8) ≠ 'U' ∧
    (∀ k, fail_mirror three_legs_leg0_dead 0 k = three_legs_leg0_dead) :=
  have h0 := leg_error_state_reachable _ three_legs_leg0_dead_reachable (mirror.mk 1 7 "a" 0)
    (by decide)
  have h1 := leg_error_state_reachable _ three_legs_leg0_dead_reachable (mirror.mk 0 0 "b" 8)
    (by decide)
  ⟨h0.2.1, h0.2.2.2.2.1, h1.2.2.2.2.1, fun k => h0.2.2.2.2.2.2 0 k rfl rfl⟩

end DMS

namespace DMS

/-- C38 (code defect): in every reachable state under the weighted policy
the second assertion at the head of the weighted branch of
`choose_read_mirror`, `0 <= max_live_idx < nr_mirrors`, holds, and with fewer
than `MAX_MIRRORS` legs both assertions hold; with `MAX_MIRRORS = 8` legs,
which the constructor accepts, the first one, `nr_mirrors < MAX_MIRRORS`,
fails, and `choose_read_mirror` runs into `assert_bug` for every sector. -/
theorem weighted_asserts_reachable (s : dms_system) (h : Reachable s)
    (hw : s.ms.rdpolicy = dms_read_policy.DMS_CUSTOM_WEIGHTED) :
    (0 ≤ s.ms.mirror_weight_max_live ∧ s.ms.mirror_weight_max_live < s.ms.nr_mirrors) ∧
      (s.ms.nr_mirrors < MAX_MIRRORS → weighted_asserts s.ms = true) ∧
      (s.ms.nr_mirrors = MAX_MIRRORS →
        weighted_asserts s.ms = false ∧
        ∀ sector, choose_read_mirror s.ms sector = Except.error Fault.bug) := by
  obtain ⟨_, _, h3, h4⟩ := h.has_weights_ok
  refine ⟨⟨h3, h4⟩, ?_, ?_⟩
  · intro hlt
    unfold weighted_asserts
    rw [decide_eq_true hlt, decide_eq_true (show s.ms.mirror_weight_max_live ≥ 0 ∧
      s.ms.mirror_weight_max_live < s.ms.nr_mirrors from ⟨h3, h4⟩)]
    rfl
  · intro h8
    have hn : ¬ (s.ms.nr_mirrors < MAX_MIRRORS) := by omega
    constructor
    · unfold weighted_asserts
      rw [decide_eq_false hn]
      rfl
    · intro sector
      unfold choose_read_mirror
      rw [hw]
      simp only
      rw [decide_eq_false hn]
      rfl

/-- Witness for C38: the table line
`weighted 3 50 0 60 8 a 0 b 0 c 0 d 0 e 0 f 0 g 0 h 0` is accepted and
constructs the set `weighted8_legs` of eight legs. -/
theorem weighted_asserts_reachable_witness :
    mirror_sync_ctr_argv
        ["weighted", "3", "50", "0", "60", "8", "a", "0", "b", "0", "c", "0", "d", "0",
          "e", "0", "f", "0", "g", "0", "h", "0"] 0 "253:0" none =
      Except.ok (Except.ok (0, some weighted8_legs)) ∧
    weighted8_legs.nr_mirrors = MAX_MIRRORS ∧
    weighted_asserts weighted8_legs = false ∧
    ∀ sector, choose_read_mirror weighted8_legs sector = Except.error Fault.bug :=
  have h := (weighted_asserts_reachable _ weighted8_legs_reachable rfl).2.2 rfl
  ⟨rfl, rfl, h.1, h.2⟩

end DMS

namespace DMS

/-- C39 (code defect): the validators of `logical_part` have no upper
bound.  For a chunk `v` they accept (`v >= 128`, `v mod 8 = 0`, 32 bits),
stored in `lp_io_chunk`: below 2^30 the sector count `lic = chunk * 2` is
`2 v`, positive and a multiple of 8, and the assertion holds; from 2^30 to
2^31 the product wraps in the 32-bit `int`, `lic` is not positive and the
assertion `lic > 0 && !(lic % 8)` fails; for 2^31 `lic` is 0 and the
division `sector / lic` of `choose_read_mirror` is a division by zero. -/
theorem lp_lic_accepted_chunk (ms : mirror_sync_set) (v : Nat) (h128 : 128 ≤ v)
    (h8 : v % 8 = 0) (h32 : v < 4294967296) (hc : ms.lp_io_chunk = wrap_int (v : Int)) :
    (v < 1073741824 → lp_lic ms = 2 * (v : Int) ∧ lp_lic_assert (lp_lic ms) = true) ∧
      (1073741824 ≤ v → v ≤ 2147483648 →
        lp_lic ms ≤ 0 ∧ lp_lic_assert (lp_lic ms) = false) ∧
      (v = 2147483648 → ms.rdpolicy = dms_read_policy.DMS_LOGICAL_PARTITION →
        lp_lic ms = 0 ∧ ∀ sector, choose_read_mirror ms sector = Except.error Fault.bug) := by
  have hl : lp_lic ms = wrap_int (wrap_int (v : Int) * 2) := by
    unfold lp_lic
    rw [hc]
  refine ⟨?_, ?_, ?_⟩
  · intro hv
    have h2 : lp_lic ms = 2 * (v : Int) := by
      rw [hl]
      unfold wrap_int
      omega
    refine ⟨h2, ?_⟩
    rw [h2]
    unfold lp_lic_assert
    rw [Bool.and_eq_true, decide_eq_true_eq, beq_iff_eq,
      Int.tmod_eq_emod (by omega) (by omega)]
    omega
  · intro hv1 hv2
    have h2 : lp_lic ms ≤ 0 := by
      rw [hl]
      unfold wrap_int
      omega
    refine ⟨h2, ?_⟩
    unfold lp_lic_assert
    rw [decide_eq_false (by omega)]
    rfl
  · intro hv hp
    have h2 : lp_lic ms = 0 := by
      rw [hl, hv]
      decide
    refine ⟨h2, ?_⟩
    intro sector
    have h3 : wrap_int (ms.lp_io_chunk * 2) = 0 := h2
    unfold choose_read_mirror
    rw [hp]
    simp only
    rw [h3]
    rfl

/-- Witness for C39: the table lines `logical_part 1 1073741824 ...` and
`logical_part 1 2147483648 ...` and the message
`io_balance logical_part io_chunk 2147483648` are accepted; on the sets they
give `lic` is -2147483648 and 0. -/
theorem lp_lic_accepted_chunk_witness :
    mirror_sync_ctr_argv ["logical_part", "1", "1073741824", "4", "a", "0", "b", "0",
        "c", "0", "d", "0"] 0 "253:0" none = Except.ok (Except.ok (0, some chunk_big_legs)) ∧
    lp_lic chunk_big_legs = -2147483648 ∧ lp_lic_assert (lp_lic chunk_big_legs) = false ∧
    mirror_sync_ctr_argv ["logical_part", "1", "2147483648", "2", "a", "0", "b", "0"] 0 "253:0"
        none = Except.ok (Except.ok (0, some chunk_wrap_legs)) ∧
    mirror_sync_message two_legs 0 false ["io_balance", "logical_part", "io_chunk", "2147483648"] =
      Except.ok (0, chunk_wrap_legs) ∧
    lp_lic chunk_wrap_legs = 0 ∧ lp_lic_assert (lp_lic chunk_wrap_legs) = false ∧
    ∀ sector, choose_read_mirror chunk_wrap_legs sector = Except.error Fault.bug :=
  have h1 := (lp_lic_accepted_chunk chunk_big_legs 1073741824 (by decide) (by decide) (by decide)
    rfl).2.1 (by decide) (by decide)
  have h2 := lp_lic_accepted_chunk chunk_wrap_legs 2147483648 (by decide) (by decide) (by decide)
    rfl
  ⟨rfl, rfl, h1.2, rfl, rfl, (h2.2.2 rfl rfl).1, (h2.2.1 (by decide) (by decide)).2,
    (h2.2.2 rfl rfl).2⟩

end DMS

namespace DMS

/-- C40: the test `argc < *args_used` is the last statement of
`process_input_args`, after the branch of the policy has read its parameters.
For `round_robin 1` (`argc = 2`) the code reads `argv[2]`, for
`logical_part 1` as well, for `weighted 3 50 0` (`argc = 4`) it reads
`argv[4]`, and for `weighted 3 50 0 60` (`argc = 5`) it reads `argv[5]`, the
token of the number of legs: each time a token that is not there.  The line
`core 2`, too short as well, is refused without such a read. -/
theorem process_input_args_reads_missing_token :
    ["round_robin", "1"].length = 2 ∧
    process_input_args ["round_robin", "1"] = Except.error 2 ∧
    mirror_sync_ctr_args ["round_robin", "1"] = Except.error 2 ∧
    process_input_args ["logical_part", "1"] = Except.error 2 ∧
    ["weighted", "3", "50", "0"].length = 4 ∧
    process_input_args ["weighted", "3", "50", "0"] = Except.error 4 ∧
    mirror_sync_ctr_args ["weighted", "3", "50", "0"] = Except.error 4 ∧
    ["weighted", "3", "50", "0", "60"].length = 5 ∧
    process_input_args ["weighted", "3", "50", "0", "60"] = Except.error 5 ∧
    mirror_sync_ctr_args ["weighted", "3", "50", "0", "60"] = Except.error 5 ∧
    process_input_args ["core", "2"] = Except.ok none :=
  ⟨rfl, rfl, rfl, rfl, rfl, rfl, rfl, rfl, rfl, rfl, rfl⟩

end DMS
